import Mathlib

/-! Aerospike C client: batch engine, cluster tending and legacy batch reader.

A shallow embedding of `src/main/aerospike/aerospike_batch.c`, first, then of
`src/main/aerospike/as_cluster.c` with `src/include/aerospike/as_node.h` and of the response
reader of `cl_c/src/cl_batch.c`, each with the conventions given at its head.

Conventions of the embedding.

* A pointer to a node is a natural number (its address); pointer equality is equality of
  numbers. A null pointer to an array is `none`.
* A response buffer is the sequence of messages it frames: the walk of the byte pointer `p`
  from `buf` to `end` is the walk down that list. A message is its header, its fields and its
  operations.
* Memory that a task reaches through a pointer (the results array, the records vector, the
  main error and the error mutex) is carried inside the task value and handed from one task
  to the next.
* An access the C code performs without a bounds or null check, at an index that is out of
  range or through a null pointer, has no defined behaviour: the embedding returns `none`.
-/

namespace Aerospike

/-! ## Status codes and errors -/

/-- Status code `as_status`, a C enumeration; server result codes are the non-negative ones. -/
abbrev as_status := Int

/-- Modelled from the spec: `AEROSPIKE_OK` of as_status.h (not under src); the spec fixes
`OK = 0` and every error kind to a non-zero value. -/
def AEROSPIKE_OK : as_status := 0

/-- Modelled from the spec: error kind `ServerError`, the generic server error code of
as_status.h (not under src). -/
def AEROSPIKE_ERR_SERVER : as_status := 1

/-- Modelled from the spec: error kind `NotFound` of as_status.h (not under src). -/
def AEROSPIKE_ERR_RECORD_NOT_FOUND : as_status := 2

/-- Modelled from the spec: error kind `Timeout` of as_status.h (not under src). -/
def AEROSPIKE_ERR_TIMEOUT : as_status := 9

/-- Modelled from the spec: error kind `Unsupported` of as_status.h (not under src). -/
def AEROSPIKE_ERR_UNSUPPORTED_FEATURE : as_status := 16

/-- Modelled from the spec: the generic client error of as_status.h (not under src), the code
of `UnexpectedKey` and `NoNodeForKey`. -/
def AEROSPIKE_ERR_CLIENT : as_status := -1

/-- Modelled from the spec: the parameter error of as_status.h (not under src), the code of
`MultipleNamespaces`. -/
def AEROSPIKE_ERR_PARAM : as_status := -2

/-- Modelled from the spec: the end-of-stream marker of as_status.h (not under src), a client
side code that no server result code (an unsigned byte) can take. -/
def AEROSPIKE_NO_MORE_RECORDS : as_status := -3

/-- Modelled from the spec: error kind `ClientAbort` of as_status.h (not under src). -/
def AEROSPIKE_ERR_CLIENT_ABORT : as_status := -5

/-- The message an `as_error` carries, one constructor per message written in
aerospike_batch.c. -/
inductive as_error_message where
  /-- The empty message left by as_error_reset and as_error_init. -/
  | empty
  /-- The text as_error_string gives for a server result code. -/
  | error_string (code : as_status)
  /-- Text "Unexpected batch key returned: ..." with the offset of the message. -/
  | unexpected_batch_key (offset : Nat)
  /-- Text "Batch command failed because cluster is empty." -/
  | cluster_empty
  /-- Text "Failed to find batch node for key." -/
  | no_batch_node
  /-- Text "Batch keys must all be in the same namespace." -/
  | same_namespace
  /-- Text "aerospike_batch_read() requires a server that supports new batch index protocol." -/
  | requires_batch_index
  /-- Text "Failed to add batch thread: %d" with the return code of the thread pool. -/
  | add_batch_thread (rc : Int)
  /-- The message left by a function that is not under src (socket read, connection,
  digest computation) when it fails with the code. -/
  | external (code : as_status)
  deriving DecidableEq, Repr

/-- Error record `as_error`: a code and a message. -/
structure as_error where
  code : as_status
  message : as_error_message
  deriving DecidableEq, Repr

/-- Both as_error_reset and as_error_init: code OK, empty message. -/
def as_error_reset : as_error := ⟨AEROSPIKE_OK, as_error_message.empty⟩

/-- Both as_error_set_message and as_error_update: store code and message in the error. The C
functions also return the code; callers in the embedding use `code` for the returned value. -/
def as_error_set_message (code : as_status) (message : as_error_message) : as_error :=
  ⟨code, message⟩

/-! ## Wire messages -/

/-- Size in bytes of a digest, `AS_DIGEST_VALUE_SIZE`. -/
def AS_DIGEST_VALUE_SIZE : Nat := 20

/-- Field type of a digest field, `AS_FIELD_DIGEST` (DIGEST_RIPE = 4 in the spec). -/
def AS_FIELD_DIGEST : Nat := 4

/-- Bit `READ` of info1 (READ = 1 in the spec). -/
def AS_MSG_INFO1_READ : Nat := 1

/-- Bit `GET_ALL` of info1 (GET_ALL = 2 in the spec). -/
def AS_MSG_INFO1_GET_ALL : Nat := 2

/-- Bit `NOBINDATA` of info1 (NOBINDATA = 4 in the spec). -/
def AS_MSG_INFO1_GET_NOBINDATA : Nat := 4

/-- Bit `LAST` of info3 (LAST = 1 in the spec). -/
def AS_MSG_INFO3_LAST : Nat := 1

/-- Header `as_msg` of a cluster message in host byte order (after
as_msg_swap_header_from_be). The counts n_fields and n_ops are the lengths of the field and
operation lists of the message. -/
structure as_msg where
  info1 : Nat
  info2 : Nat
  info3 : Nat
  result_code : Nat
  generation : Nat
  record_ttl : Nat
  transaction_ttl : Nat
  deriving DecidableEq, Repr

/-- One field of a message: its type byte and its payload. -/
structure as_field where
  type : Nat
  data : List Nat
  deriving DecidableEq, Repr

/-- One bin of a record: the name and the value bytes of an operation of a message. -/
structure as_bin where
  name : String
  value : List Nat
  deriving DecidableEq, Repr

/-- One message of a response buffer: header, n_fields fields, n_ops operations. -/
structure as_message where
  hdr : as_msg
  fields : List as_field
  ops : List as_bin
  deriving DecidableEq, Repr

/-! ## Keys, records and results -/

/-- Key `as_key`, as far as the batch engine reads it: the namespace and digest.value. -/
structure as_key where
  ns : String
  digest : List Nat
  deriving DecidableEq, Repr

/-- Record `as_record`: generation, time to live and the bins parsed into it. -/
structure as_record where
  gen : Nat
  ttl : Nat
  bins : List as_bin
  deriving DecidableEq, Repr

/-- Call as_record_init(rec, n): no bins, generation and ttl zero (the capacity n is not part
of the embedding). -/
def as_record_init : as_record := ⟨0, 0, []⟩

/-- One entry `as_batch_read` of the results array; `key` is the index of the key it points
to in batch->keys.entries. -/
structure as_batch_read where
  key : Nat
  result : as_status
  record : as_record
  deriving DecidableEq, Repr

/-- One entry `as_batch_read_record` of the records vector of aerospike_batch_read. -/
structure as_batch_read_record where
  key : as_key
  bin_names : Option (List String)
  n_bin_names : Nat
  read_all_bins : Bool
  result : as_status
  record : as_record
  deriving DecidableEq, Repr

/-! ## The batch task -/

/-- Struct `as_batch_task`. The fields err, error_mutex, records and results hold the value of
the memory the C pointers refer to. `xdr_calls` is the log of the calls made to callback_xdr,
oldest first; it is not a field of the C struct. -/
structure as_batch_task where
  node : Nat
  offsets : List Nat
  err : as_error
  error_mutex : Nat
  records : Option (List as_batch_read_record)
  ns : String
  keys : List as_key
  results : Option (List as_batch_read)
  callback_xdr : Option (as_key → as_record → Bool)
  xdr_calls : List (as_key × as_record)
  bins : List String
  n_bins : Nat
  index : Nat
  n_keys : Nat
  timeout_ms : Nat
  retry : Nat
  read_attr : Nat
  use_batch_records : Bool
  use_new_batch : Bool
  allow_inline : Bool
  deserialize : Bool

/-- What as_batch_parse_records and as_batch_parse leave behind: the returned status, the
error `err` and the task. -/
structure parse_out where
  status : as_status
  err : as_error
  task : as_batch_task

/-- Function as_batch_parse_fields: walks the fields and leaves in `digest` the payload of the
last field of type AS_FIELD_DIGEST; `digest` is unchanged when there is none. -/
def as_batch_parse_fields : List as_field → Option (List Nat) → Option (List Nat)
  | [], digest => digest
  | f :: fields, digest =>
    as_batch_parse_fields fields (if f.type = AS_FIELD_DIGEST then some f.data else digest)

/-- Modelled from the spec: cf_server_void_time_to_ttl of cf_clock.h (not under src) turns the
record_ttl of a message into the ttl of the record; the clock is not part of the embedding and
the value is kept. -/
def cf_server_void_time_to_ttl (record_ttl : Nat) : Nat := record_ttl

/-- Modelled from the spec: as_command_parse_bins of as_command.c (not under src) decodes the
n_ops operations of a message into the bins of the record. -/
def as_command_parse_bins (ops : List as_bin) (_deserialize : Bool) : List as_bin := ops

/-- Function as_batch_parse_record: initialise the record, copy generation and ttl from the
header, parse the bins. -/
def as_batch_parse_record (m : as_message) (deserialize : Bool) : as_record :=
  { gen := m.hdr.generation
    ttl := cf_server_void_time_to_ttl m.hdr.record_ttl
    bins := as_command_parse_bins m.ops deserialize }

/-- The test `digest && memcmp(digest, key->digest.value, AS_DIGEST_VALUE_SIZE) == 0`. -/
def digest_matches (digest : Option (List Nat)) (key : as_key) : Bool :=
  match digest with
  | none => false
  | some d => decide (d.take AS_DIGEST_VALUE_SIZE = key.digest.take AS_DIGEST_VALUE_SIZE)

/-- The offset of a message (lines 131-137): the transaction_ttl of the header on the index
protocol, else the entry of the offsets vector at task.index, which is then incremented. The
vector is read without a bounds check: `none` when the index is out of range. -/
def as_batch_message_offset (m : as_message) (task : as_batch_task) :
    Option (Nat × as_batch_task) :=
  if task.use_new_batch then
    some (m.hdr.transaction_ttl, task)
  else
    match task.offsets[task.index]? with
    | none => none
    | some offset => some (offset, { task with index := task.index + 1 })

/-- How one pass through the body of the loop of as_batch_parse_records ends: with a return
statement, or at the end of the body with the task as the pass leaves it. -/
inductive parse_step where
  | returned (out : parse_out)
  | next (task : as_batch_task)

/-- The body of the loop of as_batch_parse_records (lines 119-187) for the message at `p`.
The test `digest && memcmp(...) == 0` fails at once when the message has no digest field,
before the key at the offset is read; with a digest the key (or record, or result) at the
offset is read without a bounds check. The result is `none` when the code reads or writes an
array out of range or through a null pointer. The text of the unexpected key error is
formatted by cf_digest_string (not under src), which the embedding leaves out. -/
def as_batch_parse_message (err : as_error) (m : as_message) (task : as_batch_task) :
    Option parse_step :=
  if m.hdr.result_code ≠ 0 ∧ (m.hdr.result_code : Int) ≠ AEROSPIKE_ERR_RECORD_NOT_FOUND then
    some (.returned ⟨m.hdr.result_code,
      as_error_set_message m.hdr.result_code (.error_string m.hdr.result_code), task⟩)
  else if m.hdr.info3 &&& AS_MSG_INFO3_LAST ≠ 0 then
    some (.returned ⟨AEROSPIKE_NO_MORE_RECORDS, err, task⟩)
  else
    match as_batch_message_offset m task with
    | none => none
    | some (offset, task) =>
      let digest := as_batch_parse_fields m.fields none
      if task.use_batch_records then
        match task.records with
        | none => none
        | some records =>
          if digest = none then
            some (.returned ⟨AEROSPIKE_ERR_CLIENT,
              as_error_set_message AEROSPIKE_ERR_CLIENT (.unexpected_batch_key offset),
              task⟩)
          else
          match records[offset]? with
          | none => none
          | some record =>
            if digest_matches digest record.key then
              let record := { record with result := (m.hdr.result_code : Int) }
              let record :=
                if (m.hdr.result_code : Int) = AEROSPIKE_OK then
                  { record with record := as_batch_parse_record m task.deserialize }
                else record
              some (.next { task with records := some (records.set offset record) })
            else
              some (.returned ⟨AEROSPIKE_ERR_CLIENT,
                as_error_set_message AEROSPIKE_ERR_CLIENT (.unexpected_batch_key offset),
                task⟩)
      else
        if digest = none then
          some (.returned ⟨AEROSPIKE_ERR_CLIENT,
            as_error_set_message AEROSPIKE_ERR_CLIENT (.unexpected_batch_key offset),
            task⟩)
        else
        match task.keys[offset]? with
        | none => none
        | some key =>
          if digest_matches digest key then
            match task.callback_xdr with
            | some callback_xdr =>
              if (m.hdr.result_code : Int) = AEROSPIKE_OK then
                let rec_ := as_batch_parse_record m task.deserialize
                let rv := callback_xdr key rec_
                let task := { task with xdr_calls := task.xdr_calls ++ [(key, rec_)] }
                if !rv then
                  some (.returned ⟨AEROSPIKE_ERR_CLIENT_ABORT, err, task⟩)
                else
                  some (.next task)
              else
                some (.next task)
            | none =>
              match task.results with
              | none => none
              | some results =>
                match results[offset]? with
                | none => none
                | some result =>
                  let result := { result with result := (m.hdr.result_code : Int) }
                  let result :=
                    if (m.hdr.result_code : Int) = AEROSPIKE_OK then
                      { result with record := as_batch_parse_record m task.deserialize }
                    else result
                  some (.next { task with results := some (results.set offset result) })
          else
            some (.returned ⟨AEROSPIKE_ERR_CLIENT,
              as_error_set_message AEROSPIKE_ERR_CLIENT (.unexpected_batch_key offset),
              task⟩)

/-- Function as_batch_parse_records over the messages of one buffer: the loop
`while (p < end)`, and `return AEROSPIKE_OK` when the buffer is used up. -/
def as_batch_parse_records (err : as_error) :
    List as_message → as_batch_task → Option parse_out
  | [], task => some ⟨AEROSPIKE_OK, err, task⟩
  | m :: buf, task =>
    match as_batch_parse_message err m task with
    | none => none
    | some (.returned out) => some out
    | some (.next task) => as_batch_parse_records err buf task

/-! ## Reading the response of a node -/

/-- One pass of the read loop of as_batch_parse as the socket serves it: the status of the
read of the 8-byte proto header, the status of the read of the body, and the messages of the
body. No message stands for proto.sz = 0: a body of positive size holds at least the header
of one message. -/
structure as_frame where
  header_status : as_status
  body_status : as_status
  body : List as_message
  deriving DecidableEq, Repr

/-- Modelled from the spec: as_socket_read_deadline of as_socket.c (not under src) fails with
`Timeout` when the deadline passes before the bytes arrive, which is what happens once the
peer has sent all its frames. -/
def as_socket_read_deadline_eof : as_status := AEROSPIKE_ERR_TIMEOUT

/-- Function as_batch_parse over the frames the socket serves. -/
def as_batch_parse (err : as_error) : List as_frame → as_batch_task → Option parse_out
  | [], task =>
    some ⟨as_socket_read_deadline_eof,
      as_error_set_message as_socket_read_deadline_eof (.external as_socket_read_deadline_eof),
      task⟩
  | f :: frames, task =>
    if f.header_status ≠ 0 then
      some ⟨f.header_status,
        as_error_set_message f.header_status (.external f.header_status), task⟩
    else if f.body.length > 0 then
      if f.body_status ≠ 0 then
        some ⟨f.body_status, as_error_set_message f.body_status (.external f.body_status), task⟩
      else
        match as_batch_parse_records err f.body task with
        | none => none
        | some out =>
          if out.status ≠ AEROSPIKE_OK then
            if out.status = AEROSPIKE_NO_MORE_RECORDS then
              some ⟨AEROSPIKE_OK, out.err, out.task⟩
            else
              some out
          else
            as_batch_parse out.err frames out.task
    else
      as_batch_parse err frames task

/-- What the network does for the command sent to one node: the status of getting a
connection and writing the command, then the frames served to as_batch_parse. -/
structure as_node_net where
  connect_status : as_status
  frames : List as_frame
  deriving DecidableEq, Repr

/-- Modelled from the spec: as_command_execute of as_command.c (not under src) borrows a
connection of the node, sends the command and hands the socket to the parse callback, here
as_batch_parse; a failure to connect or to send is returned without parsing and a failure on
the node is not retried. -/
def as_command_execute (net : as_node_net) (err : as_error) (task : as_batch_task) :
    Option parse_out :=
  if net.connect_status ≠ 0 then
    some ⟨net.connect_status,
      as_error_set_message net.connect_status (.external net.connect_status), task⟩
  else
    as_batch_parse err net.frames task

/-- The end shared by as_batch_index_records_execute, as_batch_index_execute and
as_batch_direct_execute (lines 336-351, 438-453, 492-507): execute the command with a fresh
local error and, on failure, copy that error to the main error if ck_pr_fas_32 finds the
error mutex at 0. The bytes of the command are not part of this function. -/
def as_batch_send (net : as_node_net) (task : as_batch_task) :
    Option (as_status × as_batch_task) :=
  match as_command_execute net as_error_reset task with
  | none => none
  | some out =>
    if out.status ≠ 0 then
      if out.task.error_mutex = 0 then
        some (out.status, { out.task with error_mutex := 1, err := out.err })
      else
        some (out.status, { out.task with error_mutex := 1 })
    else
      some (out.status, out.task)

/-- Function as_batch_index_records_execute, from the execution of the command on. -/
def as_batch_index_records_execute (net : as_node_net) (task : as_batch_task) :
    Option (as_status × as_batch_task) :=
  as_batch_send net task

/-- Function as_batch_index_execute, from the execution of the command on. -/
def as_batch_index_execute (net : as_node_net) (task : as_batch_task) :
    Option (as_status × as_batch_task) :=
  as_batch_send net task

/-- Function as_batch_direct_execute, from the execution of the command on. -/
def as_batch_direct_execute (net : as_node_net) (task : as_batch_task) :
    Option (as_status × as_batch_task) :=
  as_batch_send net task

/-- Function as_batch_command_execute: choose the protocol of the task. -/
def as_batch_command_execute (net : as_node_net) (task : as_batch_task) :
    Option (as_status × as_batch_task) :=
  if task.use_new_batch then
    if task.use_batch_records then
      as_batch_index_records_execute net task
    else
      as_batch_index_execute net task
  else
    as_batch_direct_execute net task

/-! ## Grouping the keys by node -/

/-- Policy `as_policy_batch`, as far as the batch engine reads it. -/
structure as_policy_batch where
  timeout : Nat
  concurrent : Bool
  use_batch_direct : Bool
  allow_inline : Bool
  deserialize : Bool
  deriving DecidableEq, Repr

/-- What surrounds one batch call: the cluster, the thread pool and the network. These are
the functions of the repository that are not under src, taken as parameters.
* `nodes_size`: the size of the snapshot as_nodes_reserve returns.
* `as_key_set_digest`: the status as_key_set_digest returns for a key and the digest.value it
  leaves in the key.
* `as_node_get`: the node as_node_get returns (and reserves) for the key at an index, `none`
  for a null pointer.
* `has_batch_index`: the has_batch_index flag of a node.
* `queue_task`: the return code of as_thread_pool_queue_task for the task of the batch node
  at an index.
* `net`: what the network does for the command sent to a node.
* `completion`: the order in which the workers complete, see completion_order. -/
structure batch_env where
  nodes_size : Nat
  as_key_set_digest : as_key → as_status × List Nat
  as_node_get : Nat → as_key → Option Nat
  has_batch_index : Nat → Bool
  queue_task : Nat → Int
  net : Nat → as_node_net
  completion : List Nat

/-- Function as_batch_use_new. -/
def as_batch_use_new (env : batch_env) (policy : as_policy_batch) (node : Nat) : Bool :=
  !policy.use_batch_direct && env.has_batch_index node

/-- Struct `as_batch_node`: a node and the offsets of the keys routed to it. -/
structure as_batch_node where
  node : Nat
  offsets : List Nat
  deriving DecidableEq, Repr

/-- What the batch engine does that is visible from outside, in the order it happens. -/
inductive batch_event where
  /-- Call as_nodes_reserve. -/
  | nodes_reserve
  /-- Call as_nodes_release. -/
  | nodes_release
  /-- Call as_key_set_digest for the key at the index. -/
  | key_set_digest (i : Nat)
  /-- Call as_node_get for the key at the index, with the node it returned and reserved. -/
  | node_get (i : Nat) (node : Option Nat)
  /-- Call as_node_release. -/
  | node_release (node : Nat)
  /-- Call as_thread_pool_queue_task for the task of a node, with its return code. -/
  | queue_task (node : Nat) (rc : Int)
  /-- Call as_batch_command_execute for the task of a node with its offsets. -/
  | command_execute (node : Nat) (offsets : List Nat)
  /-- Call cf_queue_pop, with the completion record popped. -/
  | queue_pop (node : Nat) (result : as_status)
  /-- Call of the user callback with the results array and n. -/
  | callback (results : Option (List as_batch_read)) (n : Nat)
  deriving DecidableEq, Repr

/-- Function as_batch_node_find: the index of the first batch node of the given node, `none`
for the null pointer. -/
def as_batch_node_find : List as_batch_node → Nat → Option Nat
  | [], _ => none
  | b :: batch_nodes, node =>
    if b.node = node then some 0 else (as_batch_node_find batch_nodes node).map (· + 1)

/-- Lines 654-666 and 869-889: find the batch node of the node; when there is one release the
duplicate reference, otherwise add a batch node at the end; then append the offset i. -/
def as_batch_node_add (batch_nodes : List as_batch_node) (node : Nat) (i : Nat) :
    List as_batch_node × List batch_event :=
  match as_batch_node_find batch_nodes node with
  | some k =>
    (match batch_nodes[k]? with
      | some b => batch_nodes.set k { b with offsets := b.offsets ++ [i] }
      | none => batch_nodes,
     [.node_release node])
  | none => (batch_nodes ++ [⟨node, [i]⟩], [])

/-- Function as_batch_release_nodes: release the node of every batch node. -/
def as_batch_release_nodes (batch_nodes : List as_batch_node) : List batch_event :=
  batch_nodes.map (fun b => batch_event.node_release b.node)

/-- The variables of the key loop of as_batch_execute: the keys (digests are set in place),
the entries of the results array initialised so far, the batch nodes, the events so far. -/
structure map_state where
  keys : List as_key
  results : Option (List as_batch_read)
  batch_nodes : List as_batch_node
  trace : List batch_event

/-- An early return of a key loop: the status, the error, and the events up to the return. -/
structure map_error where
  status : as_status
  err : as_error
  trace : List batch_event

/-- The loop "Map keys to server nodes" of as_batch_execute (lines 618-667) from index i on;
`todo` are the keys at i and after, `ns` the namespace of the first key. The array
batch_nodes is a list here: its capacity n_nodes is not part of the embedding. -/
def as_batch_map_keys (env : batch_env) (policy : as_policy_batch) (callback : Bool)
    (ns : String) : Nat → List as_key → map_state → Except map_error map_state
  | _, [], st => .ok st
  | i, key :: todo, st =>
    let results :=
      if callback then
        st.results.map (· ++ [⟨i, AEROSPIKE_ERR_RECORD_NOT_FOUND, as_record_init⟩])
      else st.results
    let digest := env.as_key_set_digest key
    let key := { key with digest := digest.2 }
    let trace := st.trace ++ [.key_set_digest i]
    if digest.1 ≠ AEROSPIKE_OK then
      .error ⟨digest.1, as_error_set_message digest.1 (.external digest.1),
        trace ++ as_batch_release_nodes st.batch_nodes ++ [.nodes_release]⟩
    else
      let trace := trace ++ [.node_get i (env.as_node_get i key)]
      match env.as_node_get i key with
      | none =>
        .error ⟨AEROSPIKE_ERR_CLIENT,
          as_error_set_message AEROSPIKE_ERR_CLIENT .no_batch_node,
          trace ++ as_batch_release_nodes st.batch_nodes ++ [.nodes_release]⟩
      | some node =>
        if !as_batch_use_new env policy node && ns != key.ns then
          .error ⟨AEROSPIKE_ERR_PARAM,
            as_error_set_message AEROSPIKE_ERR_PARAM .same_namespace,
            trace ++ as_batch_release_nodes st.batch_nodes ++ [.nodes_release]⟩
        else
          let added := as_batch_node_add st.batch_nodes node i
          as_batch_map_keys env policy callback ns (i + 1) todo
            { keys := st.keys ++ [key]
              results := results
              batch_nodes := added.1
              trace := trace ++ added.2 }

/-- The variables of the key loop of aerospike_batch_read: the records (result, record and
digest are set in place), the batch nodes, the events so far. -/
structure map_records_state where
  records : List as_batch_read_record
  batch_nodes : List as_batch_node
  trace : List batch_event

/-- The loop "Map keys to server nodes" of aerospike_batch_read (lines 840-890) from index i
on; `todo` are the records at i and after. An early return comes with the records vector as
it is left: the records before i and the one at i are initialised, the others untouched. -/
def as_batch_map_records (env : batch_env) (policy : as_policy_batch) :
    Nat → List as_batch_read_record → map_records_state →
      Except (map_error × List as_batch_read_record) map_records_state
  | _, [], st => .ok st
  | i, record :: todo, st =>
    let digest := env.as_key_set_digest record.key
    let record :=
      { record with
        result := AEROSPIKE_ERR_RECORD_NOT_FOUND
        record := as_record_init
        key := { record.key with digest := digest.2 } }
    let trace := st.trace ++ [.key_set_digest i]
    if digest.1 ≠ AEROSPIKE_OK then
      .error (⟨digest.1, as_error_set_message digest.1 (.external digest.1),
        trace ++ as_batch_release_nodes st.batch_nodes ++ [.nodes_release]⟩,
        st.records ++ record :: todo)
    else
      let trace := trace ++ [.node_get i (env.as_node_get i record.key)]
      match env.as_node_get i record.key with
      | none =>
        .error (⟨AEROSPIKE_ERR_CLIENT,
          as_error_set_message AEROSPIKE_ERR_CLIENT .no_batch_node,
          trace ++ as_batch_release_nodes st.batch_nodes ++ [.nodes_release]⟩,
          st.records ++ record :: todo)
      | some node =>
        if !as_batch_use_new env policy node then
          .error (⟨AEROSPIKE_ERR_UNSUPPORTED_FEATURE,
            as_error_set_message AEROSPIKE_ERR_UNSUPPORTED_FEATURE .requires_batch_index,
            trace ++ as_batch_release_nodes st.batch_nodes ++ [.nodes_release]⟩,
            st.records ++ record :: todo)
        else
          let added := as_batch_node_add st.batch_nodes node i
          as_batch_map_records env policy (i + 1) todo
            { records := st.records ++ [record]
              batch_nodes := added.1
              trace := trace ++ added.2 }

/-! ## Dispatch -/

/-- Struct `as_batch_complete_task`: the record a worker pushes on the completion queue. -/
structure as_batch_complete_task where
  node : Nat
  result : as_status
  deriving DecidableEq, Repr

/-- The order in which queued tasks complete. The workers of the thread pool run on their own
threads, so any order is possible: each number of `choices` picks, modulo the number of tasks
still pending, the task that completes next; when the choices run out the pending tasks
complete in the order they were queued. -/
def completion_order {α : Type} : List Nat → List α → List α
  | [], pending => pending
  | c :: choices, pending =>
    match pending with
    | [] => []
    | p :: ps =>
      (p :: ps).getD (c % (ps.length + 1)) p ::
        completion_order choices ((p :: ps).eraseIdx (c % (ps.length + 1)))

/-- What the loop "Run task for each node" leaves: the batch nodes whose task was queued (the
first n_wait_nodes ones), the status, the task (main error and error mutex) and the events. -/
structure queue_out where
  queued : List as_batch_node
  status : as_status
  task : as_batch_task
  trace : List batch_event

/-- The loop "Run task for each node" (lines 701-724 and 916-939) from batch node i on: queue
one task per batch node; at the first return code that is not 0 claim the error mutex, set
the status if the claim succeeded, and stop. -/
def as_batch_queue_tasks (env : batch_env) (status : as_status) (task : as_batch_task) :
    Nat → List as_batch_node → queue_out
  | _, [] => ⟨[], status, task, []⟩
  | i, b :: batch_nodes =>
    if env.queue_task i ≠ 0 then
      if task.error_mutex = 0 then
        ⟨[], AEROSPIKE_ERR_CLIENT,
          { task with
            error_mutex := 1
            err := as_error_set_message AEROSPIKE_ERR_CLIENT
              (.add_batch_thread (env.queue_task i)) },
          [.queue_task b.node (env.queue_task i)]⟩
      else
        ⟨[], status, { task with error_mutex := 1 }, [.queue_task b.node (env.queue_task i)]⟩
    else
      let rest := as_batch_queue_tasks env status task (i + 1) batch_nodes
      { rest with
        queued := b :: rest.queued
        trace := .queue_task b.node (env.queue_task i) :: rest.trace }

/-- What the workers leave: the completion records in the order they were pushed, the task
with the memory the workers share, and the events. -/
structure workers_out where
  completes : List as_batch_complete_task
  task : as_batch_task
  trace : List batch_event

/-- Function as_batch_worker for each queued task, in the order the tasks complete. Every
worker has its own copy of the task (node, offsets, use_new_batch, index); the main error,
the error mutex, the results array and the records vector are shared. The workers are taken
one after the other: each runs its command to the end, then pushes its completion record. -/
def as_batch_workers (env : batch_env) (use_new : Nat → Bool) :
    List as_batch_node → as_batch_task → Option workers_out
  | [], task => some ⟨[], task, []⟩
  | b :: batch_nodes, task =>
    match as_batch_command_execute (env.net b.node)
        { task with use_new_batch := use_new b.node, node := b.node, offsets := b.offsets } with
    | none => none
    | some (result, task_node) =>
      match as_batch_workers env use_new batch_nodes
          { task with
            err := task_node.err
            error_mutex := task_node.error_mutex
            records := task_node.records
            results := task_node.results
            xdr_calls := task_node.xdr_calls } with
      | none => none
      | some rest =>
        some { rest with
          completes := ⟨b.node, result⟩ :: rest.completes
          trace := .command_execute b.node b.offsets :: rest.trace }

/-- The loop "Wait for tasks to complete" (lines 727-734 and 942-949) over the completion
records popped: a result that is not OK becomes the status if the status is still OK. -/
def as_batch_wait : List as_batch_complete_task → as_status → as_status
  | [], status => status
  | complete :: popped, status =>
    as_batch_wait popped
      (if complete.result ≠ AEROSPIKE_OK ∧ status = AEROSPIKE_OK then complete.result
       else status)

/-- What the sequential loop leaves: the status, the task and the events. -/
structure sequential_out where
  status : as_status
  task : as_batch_task
  trace : List batch_event

/-- The loop "Run batch requests sequentially in same thread" (lines 741-749 and 956-963):
while the status is OK, run the command of the next batch node on the one task.
as_batch_execute resets task.index for every node, aerospike_batch_read does not. -/
def as_batch_sequential (env : batch_env) (use_new : Nat → Bool) (reset_index : Bool) :
    List as_batch_node → as_status → as_batch_task → Option sequential_out
  | [], status, task => some ⟨status, task, []⟩
  | b :: batch_nodes, status, task =>
    if status = AEROSPIKE_OK then
      match as_batch_command_execute (env.net b.node)
          { task with
            use_new_batch := use_new b.node
            node := b.node
            index := if reset_index then 0 else task.index
            offsets := b.offsets } with
      | none => none
      | some (status, task) =>
        match as_batch_sequential env use_new reset_index batch_nodes status task with
        | none => none
        | some rest =>
          some { rest with trace := .command_execute b.node b.offsets :: rest.trace }
    else
      some ⟨status, task, []⟩

/-- What a batch call leaves: the returned status, the error `err` and the events. -/
structure batch_out where
  status : as_status
  err : as_error
  trace : List batch_event
  deriving DecidableEq, Repr

/-- The events of the completion records popped from the completion queue. -/
def pop_events (completes : List as_batch_complete_task) : List batch_event :=
  completes.map (fun c => batch_event.queue_pop c.node c.result)

/-- Lines 694-750 and 909-964: run the tasks of the batch nodes, in parallel when the policy
is concurrent and there is more than one batch node, else one after the other. -/
def as_batch_dispatch (env : batch_env) (policy : as_policy_batch) (use_new : Nat → Bool)
    (reset_index : Bool) (batch_nodes : List as_batch_node) (task : as_batch_task) :
    Option sequential_out :=
  if policy.concurrent && decide (batch_nodes.length > 1) then
    let queue := as_batch_queue_tasks env AEROSPIKE_OK task 0 batch_nodes
    match as_batch_workers env use_new (completion_order env.completion queue.queued)
        queue.task with
    | none => none
    | some done =>
      some ⟨as_batch_wait done.completes queue.status, done.task,
        queue.trace ++ done.trace ++ pop_events done.completes⟩
  else
    as_batch_sequential env use_new reset_index batch_nodes AEROSPIKE_OK task

/-- The namespace `batch->keys.entries[0].ns` of the first key (read only when there is a
key). -/
def as_batch_first_ns (keys : List as_key) : String :=
  match keys with
  | [] => ""
  | key :: _ => key.ns

/-- Function as_batch_execute. `callback` tells whether the read callback is a function (true)
or the null pointer (false); the policy is the one in force (the default one when the caller
passed null). The result is `none` when the code calls through a null pointer or indexes an
array out of range. -/
def as_batch_execute (env : batch_env) (policy : as_policy_batch) (keys : List as_key)
    (read_attr : Nat) (bins : List String) (n_bins : Nat) (callback : Bool)
    (callback_xdr : Option (as_key → as_record → Bool)) : Option batch_out :=
  if keys.length ≤ 0 then
    if callback then some ⟨AEROSPIKE_OK, as_error_reset, [.callback none 0]⟩ else none
  else if env.nodes_size = 0 then
    some ⟨AEROSPIKE_ERR_SERVER, as_error_set_message AEROSPIKE_ERR_SERVER .cluster_empty,
      [.nodes_reserve, .nodes_release]⟩
  else
    let ns := as_batch_first_ns keys
    match as_batch_map_keys env policy callback ns 0 keys
        ⟨[], if callback then some [] else none, [], [.nodes_reserve]⟩ with
    | .error e => some ⟨e.status, e.err, e.trace⟩
    | .ok st =>
      let task : as_batch_task :=
        { node := 0
          offsets := []
          err := as_error_reset
          error_mutex := 0
          records := none
          ns := ns
          keys := st.keys
          results := st.results
          callback_xdr := callback_xdr
          xdr_calls := []
          bins := bins
          n_bins := n_bins
          index := 0
          n_keys := keys.length
          timeout_ms := policy.timeout
          retry := 0
          read_attr := read_attr
          use_batch_records := false
          use_new_batch := false
          allow_inline := policy.allow_inline
          deserialize := policy.deserialize }
      match as_batch_dispatch env policy (as_batch_use_new env policy) true st.batch_nodes
          task with
      | none => none
      | some done =>
        some ⟨done.status, done.task.err,
          st.trace ++ [.nodes_release] ++ done.trace ++ as_batch_release_nodes st.batch_nodes ++
            (if callback then [.callback done.task.results keys.length] else [])⟩

/-- Function aerospike_batch_read over the records of the list. The second component is the
records vector as the call leaves it. -/
def aerospike_batch_read (env : batch_env) (policy : as_policy_batch)
    (records : List as_batch_read_record) :
    Option (batch_out × List as_batch_read_record) :=
  if records.length ≤ 0 then
    some (⟨AEROSPIKE_OK, as_error_reset, []⟩, records)
  else if env.nodes_size = 0 then
    some (⟨AEROSPIKE_ERR_SERVER, as_error_set_message AEROSPIKE_ERR_SERVER .cluster_empty,
      [.nodes_reserve, .nodes_release]⟩, records)
  else
    match as_batch_map_records env policy 0 records ⟨[], [], [.nodes_reserve]⟩ with
    | .error e => some (⟨e.1.status, e.1.err, e.1.trace⟩, e.2)
    | .ok st =>
      let task : as_batch_task :=
        { node := 0
          offsets := []
          err := as_error_reset
          error_mutex := 0
          records := some st.records
          ns := ""
          keys := []
          results := none
          callback_xdr := none
          xdr_calls := []
          bins := []
          n_bins := 0
          index := 0
          n_keys := records.length
          timeout_ms := policy.timeout
          retry := 0
          read_attr := 0
          use_batch_records := true
          use_new_batch := false
          allow_inline := policy.allow_inline
          deserialize := policy.deserialize }
      match as_batch_dispatch env policy (fun _ => true) false st.batch_nodes task with
      | none => none
      | some done =>
        some (⟨done.status, done.task.err,
          st.trace ++ [.nodes_release] ++ done.trace ++ as_batch_release_nodes st.batch_nodes⟩,
          done.task.records.getD [])

/-- Function aerospike_batch_get: AS_MSG_INFO1_READ | AS_MSG_INFO1_GET_ALL, no bins. -/
def aerospike_batch_get (env : batch_env) (policy : as_policy_batch) (keys : List as_key)
    (callback : Bool) : Option batch_out :=
  as_batch_execute env policy keys (AS_MSG_INFO1_READ ||| AS_MSG_INFO1_GET_ALL) [] 0 callback none

/-- Function aerospike_batch_get_xdr: null read callback, the XDR callback in its place. -/
def aerospike_batch_get_xdr (env : batch_env) (policy : as_policy_batch) (keys : List as_key)
    (callback : Option (as_key → as_record → Bool)) : Option batch_out :=
  as_batch_execute env policy keys (AS_MSG_INFO1_READ ||| AS_MSG_INFO1_GET_ALL) [] 0 false callback

/-- Function aerospike_batch_get_bins: AS_MSG_INFO1_READ with the bin names. -/
def aerospike_batch_get_bins (env : batch_env) (policy : as_policy_batch) (keys : List as_key)
    (bins : List String) (n_bins : Nat) (callback : Bool) : Option batch_out :=
  as_batch_execute env policy keys AS_MSG_INFO1_READ bins n_bins callback none

/-- Function aerospike_batch_exists: AS_MSG_INFO1_READ | AS_MSG_INFO1_GET_NOBINDATA. -/
def aerospike_batch_exists (env : batch_env) (policy : as_policy_batch) (keys : List as_key)
    (callback : Bool) : Option batch_out :=
  as_batch_execute env policy keys (AS_MSG_INFO1_READ ||| AS_MSG_INFO1_GET_NOBINDATA) [] 0 callback
    none

/-- The key at index i of the batch after as_key_set_digest has set its digest. -/
def batch_key (env : batch_env) (keys : List as_key) (i : Nat) : Option as_key :=
  (keys[i]?).map (fun key => { key with digest := (env.as_key_set_digest key).2 })

/-- The node as_node_get returns for the key at index i of the batch. -/
def batch_route (env : batch_env) (keys : List as_key) (i : Nat) : Option Nat :=
  (batch_key env keys i).bind (env.as_node_get i)

/-- The offsets lists of the batch nodes partition the indexes below n along `route`: every
index below n is in exactly one list, exactly once, and nothing else is (the lists put end to
end are a permutation of 0..n-1); an index is in the list of the node it is routed to; the
nodes of the batch nodes are pairwise distinct; every list is strictly increasing. -/
structure offsets_partition (route : Nat → Option Nat) (n : Nat)
    (batch_nodes : List as_batch_node) : Prop where
  once : (batch_nodes.flatMap (·.offsets)).Perm (List.range n)
  routed : ∀ b ∈ batch_nodes, ∀ i ∈ b.offsets, route i = some b.node
  distinct : (batch_nodes.map (·.node)).Nodup
  increasing : ∀ b ∈ batch_nodes, b.offsets.Pairwise (· < ·)

/-- The results array and the records vector of task `t'` have the sizes they have in `t`. -/
def same_sizes (t t' : as_batch_task) : Prop :=
  t'.results.map List.length = t.results.map List.length ∧
    t'.records.map List.length = t.records.map List.length

/-- The task a parse step hands on: the task of the return, or the task at the end of the
body. -/
def parse_step.task : parse_step → as_batch_task
  | .returned out => out.task
  | .next task => task

/-- A digest of twenty equal bytes. -/
def digest_of (byte : Nat) : List Nat := List.replicate AS_DIGEST_VALUE_SIZE byte

/-- A message of the index protocol for the given offset (in transaction_ttl) carrying the
given digest, with result code OK, generation 1 and no operations. -/
def index_record (offset : Nat) (digest : List Nat) : as_message :=
  ⟨⟨0, 0, 0, 0, 1, 0, offset⟩, [⟨AS_FIELD_DIGEST, digest⟩], []⟩

/-- Three keys in two namespaces: the first and the third in "a", the second in "b". -/
def demo_keys : List as_key := [⟨"a", digest_of 0⟩, ⟨"b", digest_of 2⟩, ⟨"a", digest_of 1⟩]

/-- A snapshot of two nodes, 100 (index protocol) and 101 (direct protocol): keys with a
digest starting with an even byte are routed to 100, the others to 101. For demo_keys node
100 answers with an OK record for each of the offsets 0 and 1, then the sentinel. Getting a
connection to node 101 ends with `status_101`; when that is OK the node answers with an OK
record for the key of digest_of 1, then the sentinel. -/
def two_nodes_env (status_101 : as_status) : batch_env :=
  { nodes_size := 2
    as_key_set_digest := fun key => (AEROSPIKE_OK, key.digest)
    as_node_get := fun _ key => some (100 + key.digest.headD 0 % 2)
    has_batch_index := fun node => node = 100
    queue_task := fun _ => 0
    net := fun node =>
      if node = 100 then
        ⟨0, [⟨0, 0, [index_record 0 (digest_of 0), index_record 1 (digest_of 2),
          ⟨⟨0, 0, AS_MSG_INFO3_LAST, 0, 0, 0, 0⟩, [], []⟩]⟩]⟩
      else
        ⟨status_101, [⟨0, 0, [index_record 0 (digest_of 1),
          ⟨⟨0, 0, AS_MSG_INFO3_LAST, 0, 0, 0, 0⟩, [], []⟩]⟩]⟩
    completion := [] }

/-- A policy: one second, sequential, index protocol where the node has it. -/
def sequential_policy : as_policy_batch := ⟨1000, false, false, true, true⟩

/-- A policy: one second, concurrent, index protocol where the node has it. -/
def concurrent_policy : as_policy_batch := ⟨1000, true, false, true, true⟩

/-- The key the parser compares the digest of a message with, for the message offset: the key
of the record at the offset when the task uses the records vector, else the key at the offset
of the keys array. -/
def task_key (task : as_batch_task) (offset : Nat) : Option as_key :=
  if task.use_batch_records then
    (task.records.bind (·[offset]?)).map (·.key)
  else
    task.keys[offset]?

/-- The per-offset result: the field `result` of the record at the offset when the task uses
the records vector, else of the entry at the offset of the results array. -/
def task_result (task : as_batch_task) (offset : Nat) : Option as_status :=
  if task.use_batch_records then
    (task.records.bind (·[offset]?)).map (·.result)
  else
    (task.results.bind (·[offset]?)).map (·.result)

/-- The per-offset record (generation, ttl and bins) next to the per-offset result. -/
def task_record (task : as_batch_task) (offset : Nat) : Option as_record :=
  if task.use_batch_records then
    (task.records.bind (·[offset]?)).map (·.record)
  else
    (task.results.bind (·[offset]?)).map (·.record)

/-- A digest: the twenty bytes 1, 2, ..., 20. -/
def digest_a : List Nat := [1, 2, 3, 4, 5, 6, 7, 8, 9, 10, 11, 12, 13, 14, 15, 16, 17, 18, 19, 20]

/-- A key of namespace "test" with the digest digest_a. -/
def key_a : as_key := ⟨"test", digest_a⟩

/-- A task of as_batch_execute on the index protocol for the one key key_a at offset 0, whose
entry in the results array holds OK and a record of generation 1. -/
def results_task : as_batch_task :=
  { node := 100
    offsets := [0]
    err := as_error_reset
    error_mutex := 0
    records := none
    ns := "test"
    keys := [key_a]
    results := some [⟨0, AEROSPIKE_OK, ⟨1, 0, []⟩⟩]
    callback_xdr := none
    xdr_calls := []
    bins := []
    n_bins := 0
    index := 0
    n_keys := 1
    timeout_ms := 1000
    retry := 0
    read_attr := AS_MSG_INFO1_READ ||| AS_MSG_INFO1_GET_ALL
    use_batch_records := false
    use_new_batch := true
    allow_inline := true
    deserialize := true }

/-- The task aerospike_batch_get_xdr sets up for the same key: no results array (the read
callback is null) and an XDR callback that always returns true. -/
def xdr_task : as_batch_task :=
  { results_task with results := none, callback_xdr := some (fun _ _ => true) }

/-- The task of aerospike_batch_read for the same key: a records vector of one record whose
result is OK. -/
def records_task : as_batch_task :=
  { results_task with
    results := none
    keys := []
    use_batch_records := true
    records := some [⟨key_a, none, 0, true, AEROSPIKE_OK, ⟨1, 0, []⟩⟩] }

/-- A message for offset 0 that carries the digest of key_a, with the given info3 byte and
result code, generation 1 and no operations. -/
def record_message (info3 result_code : Nat) : as_message :=
  ⟨⟨0, 0, info3, result_code, 1, 0, 0⟩, [⟨AS_FIELD_DIGEST, digest_a⟩], []⟩

/-- A message for offset 0 with no field at all, with the given info3 byte and result code. -/
def bare_message (info3 result_code : Nat) : as_message :=
  ⟨⟨0, 0, info3, result_code, 0, 0, 0⟩, [], []⟩

/-- The messages of a response stream that come before the first message with the LAST bit
set, over all frames: the non-sentinel messages a parse that reaches the sentinel has gone
through. -/
def stream_records (frames : List as_frame) : List as_message :=
  (frames.flatMap (·.body)).takeWhile (fun m => decide (m.hdr.info3 &&& AS_MSG_INFO3_LAST = 0))

/-- The task results_task on the direct protocol: offsets are taken from the offsets vector
at task.index. -/
def direct_task : as_batch_task := { results_task with use_new_batch := false }

/-- The events of the key loop: reserving and releasing the snapshot, computing a digest,
routing a key, releasing a node. The other events are the ones of the dispatch (queueing a
task, executing a command, popping a completion record) and the call of the callback. -/
def batch_event.is_mapping : batch_event → Bool
  | .nodes_reserve => true
  | .nodes_release => true
  | .key_set_digest _ => true
  | .node_get _ _ => true
  | .node_release _ => true
  | .queue_task _ _ => false
  | .command_execute _ _ => false
  | .queue_pop _ _ => false
  | .callback _ _ => false

/-- The results of the completion records popped from the completion queue, in the order of
the pops, read off the events. -/
def popped (trace : List batch_event) : List as_status :=
  trace.filterMap (fun e =>
    match e with
    | .queue_pop _ result => some result
    | _ => none)

/-- The first status of a list that is not OK, and OK when there is none. -/
def first_not_ok : List as_status → as_status
  | [] => AEROSPIKE_OK
  | status :: rest => if status ≠ AEROSPIKE_OK then status else first_not_ok rest

/-- The events of a key loop of as_batch_execute, whether it ended or returned early. -/
def map_trace : Except map_error map_state → List batch_event
  | .ok st => st.trace
  | .error e => e.trace

/-- The events of a key loop of aerospike_batch_read, whether it ended or returned early. -/
def map_records_trace :
    Except (map_error × List as_batch_read_record) map_records_state → List batch_event
  | .ok st => st.trace
  | .error e => e.1.trace

/-- A snapshot of two nodes that both use the index protocol: keys with a digest starting
with an even byte are routed to 100, the others to 101. Node 100 answers with an OK record
for offset 0, then the sentinel; getting a connection to node 101 times out. The worker of
node 101 completes first. -/
def index_nodes_env : batch_env :=
  { nodes_size := 2
    as_key_set_digest := fun key => (AEROSPIKE_OK, key.digest)
    as_node_get := fun _ key => some (100 + key.digest.headD 0 % 2)
    has_batch_index := fun _ => true
    queue_task := fun _ => 0
    net := fun node =>
      if node = 100 then
        ⟨0, [⟨0, 0, [index_record 0 (digest_of 0),
          ⟨⟨0, 0, AS_MSG_INFO3_LAST, 0, 0, 0, 0⟩, [], []⟩]⟩]⟩
      else
        ⟨AEROSPIKE_ERR_TIMEOUT, []⟩
    completion := [1] }

/-- Two records for aerospike_batch_read: the first is routed to node 100, the second to node
101 by index_nodes_env. -/
def demo_records : List as_batch_read_record :=
  [⟨⟨"a", digest_of 0⟩, none, 0, true, 0, as_record_init⟩,
    ⟨⟨"b", digest_of 1⟩, none, 0, true, 0, as_record_init⟩]

/-! ## The batch-index field of a command -/

/-- What an entry of the batch-index field carries after a repeat byte of 0: the read
attributes, the 16-bit count of bin names, the namespace field and the bin names written. -/
structure batch_index_header where
  read_attr : Nat
  n_bin_names : Nat
  ns : String
  bin_names : List String
  deriving DecidableEq, Repr

/-- One entry of the batch-index field: the offset, the digest, the repeat byte and, after a
repeat byte of 0, the header. -/
structure batch_index_entry where
  offset : Nat
  digest : List Nat
  repeat_flag : Nat
  header : Option batch_index_header
  deriving DecidableEq, Repr

/-- The pointer values that the command writers compare with `==`. `ns i` is the value of
`key.ns` (the address of the characters of the namespace) for the element at offset i of the
records vector or of the keys array, never the null pointer; `bin_names i` is the value of the
pointer `bin_names` of the record at offset i. -/
structure as_refs where
  ns : Nat → Nat
  bin_names : Nat → Nat

/-- The header as_batch_index_records_execute writes for a record after a repeat byte of 0
(lines 307-326). The count goes through a cast to uint16_t; reading bin_names beyond the
array has no defined behaviour. -/
def as_batch_index_records_header (record : as_batch_read_record) :
    Option batch_index_header :=
  match record.bin_names with
  | some names =>
    if record.n_bin_names ≠ 0 then
      if record.n_bin_names ≤ names.length then
        some ⟨AS_MSG_INFO1_READ, record.n_bin_names % 65536, record.key.ns,
          names.take record.n_bin_names⟩
      else none
    else
      some ⟨AS_MSG_INFO1_READ |||
        (if record.read_all_bins then AS_MSG_INFO1_GET_ALL else AS_MSG_INFO1_GET_NOBINDATA),
        0, record.key.ns, []⟩
  | none =>
    some ⟨AS_MSG_INFO1_READ |||
      (if record.read_all_bins then AS_MSG_INFO1_GET_ALL else AS_MSG_INFO1_GET_NOBINDATA),
      0, record.key.ns, []⟩

/-- The second pass of as_batch_index_records_execute (lines 284-329) over the offsets that
are left: the entries written to the batch-index field. `prev` is the offset of the record the
pointer `prev` refers to and that record, `none` for the null pointer. -/
def as_batch_index_records_entries (refs : as_refs) (records : List as_batch_read_record) :
    List Nat → Option (Nat × as_batch_read_record) → Option (List batch_index_entry)
  | [], _ => some []
  | offset :: offsets, prev =>
    match records[offset]? with
    | none => none
    | some record =>
      if (match prev with
          | none => false
          | some (prev_offset, prev_record) =>
            refs.ns prev_offset == refs.ns offset &&
              refs.bin_names prev_offset == refs.bin_names offset &&
              prev_record.read_all_bins == record.read_all_bins) then
        (as_batch_index_records_entries refs records offsets prev).map
          (⟨offset, record.key.digest, 1, none⟩ :: ·)
      else
        match as_batch_index_records_header record with
        | none => none
        | some header =>
          (as_batch_index_records_entries refs records offsets (some (offset, record))).map
            (⟨offset, record.key.digest, 0, some header⟩ :: ·)

/-- The batch-index field as_batch_index_records_execute writes for a task: `prev = 0` before
the loop (line 284). -/
def as_batch_index_records_field (refs : as_refs) (task : as_batch_task) :
    Option (List batch_index_entry) :=
  match task.records with
  | none => none
  | some records => as_batch_index_records_entries refs records task.offsets none

/-- The header as_batch_index_execute writes after a repeat byte of 0 (lines 417-428): the
read attributes, n_bins cast to uint16_t, the namespace of the key and the n_bins bin names of
the task. -/
def as_batch_index_header (task : as_batch_task) (key : as_key) : Option batch_index_header :=
  if task.n_bins ≤ task.bins.length then
    some ⟨task.read_attr, task.n_bins % 65536, key.ns, task.bins.take task.n_bins⟩
  else none

/-- The second pass of as_batch_index_execute (lines 398-431) over the offsets that are left.
`prev_ns` is the value of the pointer prev_ns and the string it points to, `none` for the
null pointer; `key->ns == prev_ns` is false for a null prev_ns. -/
def as_batch_index_entries (refs : as_refs) (task : as_batch_task) :
    List Nat → Option (Nat × String) → Option (List batch_index_entry)
  | [], _ => some []
  | offset :: offsets, prev_ns =>
    match task.keys[offset]? with
    | none => none
    | some key =>
      if (match prev_ns with
          | none => false
          | some (prev_ref, prev_string) =>
            refs.ns offset == prev_ref || prev_string == key.ns) then
        (as_batch_index_entries refs task offsets prev_ns).map
          (⟨offset, key.digest, 1, none⟩ :: ·)
      else
        match as_batch_index_header task key with
        | none => none
        | some header =>
          (as_batch_index_entries refs task offsets (some (refs.ns offset, key.ns))).map
            (⟨offset, key.digest, 0, some header⟩ :: ·)

/-- The batch-index field as_batch_index_execute writes for a task: `prev_ns = 0` before the
loop (line 398). -/
def as_batch_index_field (refs : as_refs) (task : as_batch_task) :
    Option (List batch_index_entry) :=
  as_batch_index_entries refs task task.offsets none

/-- One entry of the batch-index field as the receiver reads it with the repeats expanded. -/
structure batch_index_row where
  offset : Nat
  digest : List Nat
  header : batch_index_header
  deriving DecidableEq, Repr

/-- Modelled from the spec: the decoding of the batch-index field by the server (not part of
this repository). A repeat flag indicates that the namespace and bin selection of the previous
key are reused; a first entry with the repeat flag, or an entry without the flag and without
header, does not decode. -/
def batch_index_decode :
    List batch_index_entry → Option batch_index_header → Option (List batch_index_row)
  | [], _ => some []
  | e :: es, prev =>
    if e.repeat_flag = 0 then
      match e.header with
      | none => none
      | some h => (batch_index_decode es (some h)).map (⟨e.offset, e.digest, h⟩ :: ·)
    else
      match prev with
      | none => none
      | some h => (batch_index_decode es (some h)).map (⟨e.offset, e.digest, h⟩ :: ·)

/-- The rows a batch-index field must decode to for a task of aerospike_batch_read: for every
offset of the task, in order, the offset, the digest of its key and the header of its own
record. -/
def as_batch_index_records_rows (task : as_batch_task) : Option (List batch_index_row) :=
  match task.records with
  | none => none
  | some records =>
    task.offsets.mapM (fun offset =>
      match records[offset]? with
      | none => none
      | some record =>
        (as_batch_index_records_header record).map (⟨offset, record.key.digest, ·⟩))

/-- Two records that name their bins through one array: both hold the same pointers `key.ns`
(address 4096) and bin_names (address 8192), the first reads two names of the array, the second
one. -/
def shared_bins_records : List as_batch_read_record :=
  [⟨⟨"test", digest_of 0⟩, some ["a", "b"], 2, false, 0, as_record_init⟩,
    ⟨⟨"test", digest_of 1⟩, some ["a", "b"], 1, false, 0, as_record_init⟩]

/-- The pointers of shared_bins_records. -/
def shared_bins_refs : as_refs := ⟨fun _ => 4096, fun _ => 8192⟩

/-- The task of aerospike_batch_read for shared_bins_records, both routed to one node. -/
def shared_bins_task : as_batch_task :=
  { records_task with
    records := some shared_bins_records, offsets := [0, 1], n_keys := 2 }

/-! ## Cluster: nodes, snapshots and the tend thread

A shallow embedding of `src/main/aerospike/as_cluster.c` and of the inline functions of
`src/include/aerospike/as_node.h`.

* Nodes live in a heap, a list of `as_node`; the pointer to a node is its position in the list
  plus one, and 0 is the null pointer. `as_node_destroy` marks the node as destroyed; reading a
  node through the null pointer, through a pointer outside the heap or after its destruction
  has no defined behaviour.
* A snapshot `as_nodes` is carried by value: the published one in the cluster, the old ones in
  the items of the garbage collector list.
* What the network answers (address lookup, info requests, node refresh) is a parameter, the
  environment of the tend thread. Shared memory (`shm_info`) is not part of the embedding.
-/

/-- The number of values of a `uint32_t`. -/
def UINT32_SIZE : Nat := 4294967296

/-- Struct `as_node` (as_node.h), as far as the cluster reads it. `destroyed` is not a field
of the C struct: it records that as_node_destroy has run. -/
structure as_node where
  ref_count : Nat
  name : String
  friends : Nat
  failures : Nat
  active : Bool
  has_batch_index : Nat
  has_replicas_all : Nat
  has_double : Nat
  has_geo : Nat
  destroyed : Bool
  deriving DecidableEq, Repr

/-- Struct `as_node_info` (as_node.h). -/
structure as_node_info where
  name : String
  has_batch_index : Nat
  has_replicas_all : Nat
  has_double : Nat
  has_geo : Nat
  deriving DecidableEq, Repr

/-- Struct `as_seed`: host name and port. -/
structure as_seed where
  name : String
  port : Nat
  deriving DecidableEq, Repr

/-- Struct `as_friend` (as_node.h): address name, address and port. -/
structure as_friend where
  name : String
  addr : Nat
  port : Nat
  deriving DecidableEq, Repr

/-- Struct `as_nodes`, a snapshot: reference count and the array of node pointers; `size` is
the length of the array. -/
structure as_nodes where
  ref_count : Nat
  array : List Nat
  deriving DecidableEq, Repr

/-- Struct `as_gc_item`: the data and the release function, which is release_nodes for a
snapshot and release_node for a node. -/
inductive as_gc_item where
  /-- Item with release_fn = release_nodes. -/
  | release_nodes (nodes : as_nodes)
  /-- Item with release_fn = release_node. -/
  | release_node (node : Nat)
  deriving DecidableEq, Repr

/-- Struct `as_cluster`, as far as the tend thread and as_node_get_random use it, and the heap
of the nodes. -/
structure as_cluster where
  nodes : as_nodes
  gc : List as_gc_item
  seeds : List as_seed
  n_partitions : Nat
  node_index : Nat
  heap : List as_node
  deriving DecidableEq, Repr

/-- Read of a node through a pointer. -/
def as_node_at (heap : List as_node) (p : Nat) : Option as_node :=
  if p = 0 then none
  else
    match heap[p - 1]? with
    | none => none
    | some node => if node.destroyed then none else some node

/-- Write of a node through a pointer. -/
def as_node_store (heap : List as_node) (p : Nat) (node : as_node) : List as_node :=
  heap.set (p - 1) node

/-- Modelled from the spec: as_node_create of as_node.c (not under src). The node is reference
counted from its creation, with the one reference that release_node gives back when the node
is removed; it is active, with no failures and no friends, and takes its name and features
from the node info. The result is the heap with the node and the pointer to it. -/
def as_node_create (heap : List as_node) (node_info : as_node_info) : List as_node × Nat :=
  (heap ++ [⟨1, node_info.name, 0, 0, true, node_info.has_batch_index,
    node_info.has_replicas_all, node_info.has_double, node_info.has_geo, false⟩],
    heap.length + 1)

/-- Function as_node_deactivate (as_node.h). -/
def as_node_deactivate (heap : List as_node) (p : Nat) : Option (List as_node) :=
  (as_node_at heap p).map (fun node => as_node_store heap p { node with active := false })

/-- Function as_node_reserve (as_node.h): ck_pr_inc_32 of the reference count. -/
def as_node_reserve (heap : List as_node) (p : Nat) : Option (List as_node) :=
  (as_node_at heap p).map (fun node =>
    as_node_store heap p { node with ref_count := (node.ref_count + 1) % UINT32_SIZE })

/-- Function as_node_release (as_node.h): ck_pr_dec_32_zero of the reference count, and
as_node_destroy when the count has become zero. -/
def as_node_release (heap : List as_node) (p : Nat) : Option (List as_node) :=
  (as_node_at heap p).map (fun node =>
    let ref_count := (node.ref_count + UINT32_SIZE - 1) % UINT32_SIZE
    as_node_store heap p
      { node with ref_count := ref_count, destroyed := decide (ref_count = 0) })

/-- Function as_nodes_create: a snapshot with one reference and `capacity` null pointers. -/
def as_nodes_create (capacity : Nat) : as_nodes := ⟨1, List.replicate capacity 0⟩

/-- Modelled from the spec: as_nodes_reserve of as_cluster.h (not under src) increments the
reference count of the published snapshot and returns the snapshot. -/
def as_nodes_reserve (c : as_cluster) : as_cluster :=
  { c with nodes := { c.nodes with ref_count := (c.nodes.ref_count + 1) % UINT32_SIZE } }

/-- Modelled from the spec: as_nodes_release of as_cluster.h (not under src) decrements the
reference count of the snapshot; the last release frees the array only, not the nodes. Here
for the published snapshot, which the reference of the cluster keeps alive. -/
def as_nodes_release (c : as_cluster) : as_cluster :=
  { c with
    nodes := { c.nodes with ref_count := (c.nodes.ref_count + UINT32_SIZE - 1) % UINT32_SIZE } }

/-- What as_node_refresh did for one node: its status, the nodes of the cluster named in the
services list of the node, and the candidates appended to the friends vector. -/
structure as_refresh where
  status : as_status
  referenced : List Nat
  friends : List as_friend
  deriving DecidableEq, Repr

/-- What the network answers during one iteration of the tend thread. as_lookup gives the
addresses of a host, or the error status; as_lookup_node the node info found at an address, or
the error status; info_partitions the value of the info request "partitions" to a node, `none`
when the request or the parse of the response fails. -/
structure as_cluster_env where
  as_lookup : String → Nat → Except as_status (List Nat)
  as_lookup_node : Nat → Except as_status as_node_info
  as_node_refresh : Nat → as_refresh
  as_partition_tables_find_node : Nat → Bool
  info_partitions : Nat → Option Nat

/-- Function as_cluster_find_node_in_vector: the first node of the vector with the name, or
the null pointer. The vector holds nodes created during the call in progress. -/
def as_cluster_find_node_in_vector (heap : List as_node) (nodes : List Nat) (name : String) :
    Nat :=
  (nodes.find? (fun p =>
    match as_node_at heap p with
    | some node => node.name == name
    | none => false)).getD 0

/-- Function as_cluster_add_nodes_copy: the new snapshot holds the nodes of the old one, then
the nodes to add; the old snapshot goes to the garbage collector list. -/
def as_cluster_add_nodes_copy (c : as_cluster) (nodes_to_add : List Nat) : as_cluster :=
  let nodes_old := c.nodes
  let nodes_new : as_nodes :=
    { as_nodes_create (nodes_old.array.length + nodes_to_add.length) with
      array := nodes_old.array ++ nodes_to_add }
  { c with nodes := nodes_new, gc := c.gc ++ [.release_nodes nodes_old] }

/-- Function as_cluster_add_nodes, without shared memory. -/
def as_cluster_add_nodes (c : as_cluster) (nodes_to_add : List Nat) : as_cluster :=
  as_cluster_add_nodes_copy c nodes_to_add

/-- The inner loop of as_cluster_seed_nodes (lines 289-311) over the addresses of one seed:
the heap and the vector nodes_to_add. as_node_add_address changes the addresses of a node only,
which are not part of the embedding. -/
def as_cluster_seed_addresses (env : as_cluster_env) :
    List Nat → List as_node × List Nat → List as_node × List Nat
  | [], acc => acc
  | addr :: addresses, (heap, nodes_to_add) =>
    match env.as_lookup_node addr with
    | .ok node_info =>
      if as_cluster_find_node_in_vector heap nodes_to_add node_info.name ≠ 0 then
        as_cluster_seed_addresses env addresses (heap, nodes_to_add)
      else
        let created := as_node_create heap node_info
        as_cluster_seed_addresses env addresses (created.1, nodes_to_add ++ [created.2])
    | .error _ => as_cluster_seed_addresses env addresses (heap, nodes_to_add)

/-- The outer loop of as_cluster_seed_nodes (lines 276-312) over the seeds. -/
def as_cluster_seed_hosts (env : as_cluster_env) :
    List as_seed → List as_node × List Nat → List as_node × List Nat
  | [], acc => acc
  | seed :: seeds, acc =>
    match env.as_lookup seed.name seed.port with
    | .error _ => as_cluster_seed_hosts env seeds acc
    | .ok addresses =>
      as_cluster_seed_hosts env seeds (as_cluster_seed_addresses env addresses acc)

/-- Function as_cluster_seed_nodes: the status and the cluster it leaves. -/
def as_cluster_seed_nodes (env : as_cluster_env) (c : as_cluster) : as_status × as_cluster :=
  let seeded := as_cluster_seed_hosts env c.seeds (c.heap, [])
  if seeded.2.length > 0 then
    (AEROSPIKE_OK, as_cluster_add_nodes { c with heap := seeded.1 } seeded.2)
  else
    (AEROSPIKE_ERR_CLIENT, { c with heap := seeded.1 })

/-- The loop of as_cluster_find_node over the array of the snapshot (lines 193-199): the
first node with the name, or the null pointer. -/
def as_cluster_find_node_in_array (heap : List as_node) : List Nat → String → Option Nat
  | [], _ => some 0
  | p :: array, name =>
    match as_node_at heap p with
    | none => none
    | some node =>
      if node.name == name then some p else as_cluster_find_node_in_array heap array name

/-- Function as_cluster_find_node: first the local vector, then the snapshot. -/
def as_cluster_find_node (heap : List as_node) (nodes : as_nodes) (local_node_vector : List Nat)
    (name : String) : Option Nat :=
  if as_cluster_find_node_in_vector heap local_node_vector name ≠ 0 then
    some (as_cluster_find_node_in_vector heap local_node_vector name)
  else
    as_cluster_find_node_in_array heap nodes.array name

/-- Statement `node->friends++` for a node of the cluster; a pointer that is not a node of
the heap is left alone. -/
def as_node_add_friend (heap : List as_node) (p : Nat) : List as_node :=
  match as_node_at heap p with
  | none => heap
  | some node => as_node_store heap p { node with friends := (node.friends + 1) % UINT32_SIZE }

/-- The inner loop of as_cluster_find_nodes_to_add (lines 347-374) over the addresses of one
friend. -/
def as_cluster_friend_addresses (env : as_cluster_env) (nodes : as_nodes) :
    List Nat → List as_node × List Nat → Option (List as_node × List Nat)
  | [], acc => some acc
  | addr :: addresses, (heap, nodes_to_add) =>
    match env.as_lookup_node addr with
    | .ok node_info =>
      match as_cluster_find_node heap nodes nodes_to_add node_info.name with
      | none => none
      | some node =>
        if node ≠ 0 then
          as_cluster_friend_addresses env nodes addresses
            (as_node_add_friend heap node, nodes_to_add)
        else
          let created := as_node_create heap node_info
          as_cluster_friend_addresses env nodes addresses
            (created.1, nodes_to_add ++ [created.2])
    | .error _ => as_cluster_friend_addresses env nodes addresses (heap, nodes_to_add)

/-- The outer loop of as_cluster_find_nodes_to_add (lines 336-375) over the friends. -/
def as_cluster_friends (env : as_cluster_env) (nodes : as_nodes) :
    List as_friend → List as_node × List Nat → Option (List as_node × List Nat)
  | [], acc => some acc
  | friend_ :: friends, acc =>
    match env.as_lookup friend_.name friend_.port with
    | .error _ => as_cluster_friends env nodes friends acc
    | .ok addresses =>
      match as_cluster_friend_addresses env nodes addresses acc with
      | none => none
      | some acc => as_cluster_friends env nodes friends acc

/-- Function as_cluster_find_nodes_to_add: the cluster it leaves and the vector
nodes_to_add. -/
def as_cluster_find_nodes_to_add (env : as_cluster_env) (c : as_cluster)
    (friends : List as_friend) : Option (as_cluster × List Nat) :=
  (as_cluster_friends env c.nodes friends (c.heap, [])).map
    (fun found => ({ c with heap := found.1 }, found.2))

/-- The loop of as_cluster_find_nodes_to_remove over the nodes of the snapshot read at entry,
whose size is `size`. Seeding in a cluster of one node changes the cluster. -/
def as_cluster_find_nodes_to_remove_loop (env : as_cluster_env) (size refresh_count : Nat) :
    List Nat → as_cluster → List Nat → Option (as_cluster × List Nat)
  | [], c, nodes_to_remove => some (c, nodes_to_remove)
  | p :: array, c, nodes_to_remove =>
    match as_node_at c.heap p with
    | none => none
    | some node =>
      if ¬ node.active then
        as_cluster_find_nodes_to_remove_loop env size refresh_count array c
          (nodes_to_remove ++ [p])
      else if size = 1 then
        if node.failures ≥ 5 then
          let seeded := as_cluster_seed_nodes env c
          if seeded.1 = AEROSPIKE_OK then
            as_cluster_find_nodes_to_remove_loop env size refresh_count array seeded.2
              (nodes_to_remove ++ [p])
          else
            as_cluster_find_nodes_to_remove_loop env size refresh_count array seeded.2
              nodes_to_remove
        else
          as_cluster_find_nodes_to_remove_loop env size refresh_count array c nodes_to_remove
      else if size = 2 then
        if refresh_count = 1 ∧ node.friends = 0 ∧ node.failures > 0 then
          as_cluster_find_nodes_to_remove_loop env size refresh_count array c
            (nodes_to_remove ++ [p])
        else
          as_cluster_find_nodes_to_remove_loop env size refresh_count array c nodes_to_remove
      else
        if refresh_count ≥ 2 ∧ node.friends = 0 then
          if node.failures = 0 then
            if ¬ env.as_partition_tables_find_node p then
              as_cluster_find_nodes_to_remove_loop env size refresh_count array c
                (nodes_to_remove ++ [p])
            else
              as_cluster_find_nodes_to_remove_loop env size refresh_count array c
                nodes_to_remove
          else
            as_cluster_find_nodes_to_remove_loop env size refresh_count array c
              (nodes_to_remove ++ [p])
        else
          as_cluster_find_nodes_to_remove_loop env size refresh_count array c nodes_to_remove

/-- Function as_cluster_find_nodes_to_remove: the cluster it leaves and the vector
nodes_to_remove. -/
def as_cluster_find_nodes_to_remove (env : as_cluster_env) (c : as_cluster)
    (refresh_count : Nat) : Option (as_cluster × List Nat) :=
  as_cluster_find_nodes_to_remove_loop env c.nodes.array.length refresh_count c.nodes.array c []

/-- Function as_cluster_find_node_by_reference: pointer equality only. -/
def as_cluster_find_node_by_reference (nodes_to_remove : List Nat) (filter : Nat) : Bool :=
  nodes_to_remove.any (fun node => node == filter)

/-- The loop of as_cluster_remove_nodes_copy (lines 481-501) over the nodes of the old
snapshot that are left: the array of the new snapshot, `count` and the garbage collector
list. -/
def as_cluster_remove_nodes_loop (nodes_to_remove : List Nat) :
    List Nat → List Nat → Nat → List as_gc_item → List Nat × Nat × List as_gc_item
  | [], array, count, gc => (array, count, gc)
  | node :: nodes_old, array, count, gc =>
    if as_cluster_find_node_by_reference nodes_to_remove node then
      as_cluster_remove_nodes_loop nodes_to_remove nodes_old array count
        (gc ++ [.release_node node])
    else if count < array.length then
      as_cluster_remove_nodes_loop nodes_to_remove nodes_old (array.set count node)
        (count + 1) gc
    else
      as_cluster_remove_nodes_loop nodes_to_remove nodes_old array count gc

/-- Function as_cluster_remove_nodes_copy. The size of the new snapshot is the difference of
two sizes, which are uint32_t values: it wraps when the second is the larger. -/
def as_cluster_remove_nodes_copy (c : as_cluster) (nodes_to_remove : List Nat) : as_cluster :=
  let nodes_old := c.nodes
  let nodes_new := as_nodes_create
    (if nodes_to_remove.length ≤ nodes_old.array.length then
      nodes_old.array.length - nodes_to_remove.length
    else nodes_old.array.length + UINT32_SIZE - nodes_to_remove.length)
  let copied := as_cluster_remove_nodes_loop nodes_to_remove nodes_old.array nodes_new.array
    0 c.gc
  { c with
    nodes := { nodes_new with array := copied.1 }
    gc := copied.2.2 ++ [.release_nodes nodes_old] }

/-- The loop of as_cluster_remove_nodes that sets the nodes to inactive (lines 526-529). -/
def as_cluster_deactivate_nodes : List Nat → List as_node → Option (List as_node)
  | [], heap => some heap
  | p :: nodes_to_remove, heap =>
    match as_node_deactivate heap p with
    | none => none
    | some heap => as_cluster_deactivate_nodes nodes_to_remove heap

/-- Function as_cluster_remove_nodes, without shared memory. -/
def as_cluster_remove_nodes (c : as_cluster) (nodes_to_remove : List Nat) :
    Option as_cluster :=
  (as_cluster_deactivate_nodes nodes_to_remove c.heap).map
    (fun heap => as_cluster_remove_nodes_copy { c with heap := heap } nodes_to_remove)

/-- The loop of as_cluster_set_partition_size (lines 546-570) over the nodes that are left. -/
def as_cluster_partition_size_loop (env : as_cluster_env) (heap : List as_node) :
    List Nat → Nat → Option Nat
  | [], n_partitions => some n_partitions
  | p :: array, n_partitions =>
    if n_partitions ≠ 0 then some n_partitions
    else
      match as_node_at heap p with
      | none => none
      | some _ =>
        match env.info_partitions p with
        | none => as_cluster_partition_size_loop env heap array n_partitions
        | some value => as_cluster_partition_size_loop env heap array value

/-- Function as_cluster_set_partition_size. The status declared inside the loop hides the
outer one, which stays AEROSPIKE_OK. -/
def as_cluster_set_partition_size (env : as_cluster_env) (c : as_cluster) :
    Option (as_status × as_cluster) :=
  (as_cluster_partition_size_loop env c.heap c.nodes.array c.n_partitions).map
    (fun n_partitions =>
      if n_partitions > 0 then (AEROSPIKE_OK, { c with n_partitions := n_partitions })
      else (AEROSPIKE_ERR_CLIENT, { c with n_partitions := n_partitions }))

/-- The loop of as_cluster_gc over the items that are left; release_nodes drops a reference of
a snapshot that no reader holds, which frees its array. -/
def as_cluster_gc_items : List as_gc_item → List as_node → Option (List as_node)
  | [], heap => some heap
  | .release_nodes _ :: items, heap => as_cluster_gc_items items heap
  | .release_node p :: items, heap =>
    match as_node_release heap p with
    | none => none
    | some heap => as_cluster_gc_items items heap

/-- Function as_cluster_gc on the garbage collector list of the cluster. -/
def as_cluster_gc (c : as_cluster) : Option as_cluster :=
  (as_cluster_gc_items c.gc c.heap).map (fun heap => { c with gc := [], heap := heap })

/-- The loop of as_cluster_tend that clears the friends of the nodes (lines 634-637). -/
def as_cluster_clear_friends : List Nat → List as_node → Option (List as_node)
  | [], heap => some heap
  | p :: array, heap =>
    match as_node_at heap p with
    | none => none
    | some node => as_cluster_clear_friends array (as_node_store heap p { node with friends := 0 })

/-- What the refresh loop of as_cluster_tend leaves: the heap, refresh_count and the friends
vector. -/
structure as_refreshed where
  heap : List as_node
  refresh_count : Nat
  friends : List as_friend
  deriving DecidableEq, Repr

/-- The refresh loop of as_cluster_tend (lines 645-658) over the nodes that are left.
Modelled from the spec: as_node_refresh of as_node.c (not under src) increments friends on
every node of the cluster that the services list of the node names and appends the other hosts
to the friends vector. -/
def as_cluster_refresh_loop (env : as_cluster_env) :
    List Nat → as_refreshed → Option as_refreshed
  | [], state => some state
  | p :: array, state =>
    match as_node_at state.heap p with
    | none => none
    | some node =>
      if node.active then
        let refresh := env.as_node_refresh p
        let heap := refresh.referenced.foldl as_node_add_friend state.heap
        match as_node_at heap p with
        | none => none
        | some node =>
          if refresh.status = AEROSPIKE_OK then
            as_cluster_refresh_loop env array
              ⟨as_node_store heap p { node with failures := 0 },
                (state.refresh_count + 1) % UINT32_SIZE, state.friends ++ refresh.friends⟩
          else
            as_cluster_refresh_loop env array
              ⟨as_node_store heap p { node with failures := (node.failures + 1) % UINT32_SIZE },
                state.refresh_count, state.friends ++ refresh.friends⟩
      else
        as_cluster_refresh_loop env array state

/-- Lines 632-658 of as_cluster_tend: clear the friends of the nodes of the snapshot and
refresh the active ones. -/
def as_cluster_refresh (env : as_cluster_env) (c : as_cluster) : Option as_refreshed :=
  match as_cluster_clear_friends c.nodes.array c.heap with
  | none => none
  | some heap => as_cluster_refresh_loop env c.nodes.array ⟨heap, 0, []⟩

/-- Lines 632-683 of as_cluster_tend: refresh the nodes, find the nodes to add and to remove,
remove and add. -/
def as_cluster_tend_nodes (env : as_cluster_env) (c : as_cluster) : Option as_cluster :=
  match as_cluster_refresh env c with
  | none => none
  | some refreshed =>
    match as_cluster_find_nodes_to_add env { c with heap := refreshed.heap }
        refreshed.friends with
    | none => none
    | some (c, nodes_to_add) =>
      match as_cluster_find_nodes_to_remove env c refreshed.refresh_count with
      | none => none
      | some (c, nodes_to_remove) =>
        match (if nodes_to_remove.length > 0 then as_cluster_remove_nodes c nodes_to_remove
            else some c) with
        | none => none
        | some c =>
          some (if nodes_to_add.length > 0 then as_cluster_add_nodes c nodes_to_add else c)

/-- Function as_cluster_tend: the status and the cluster it leaves. -/
def as_cluster_tend (env : as_cluster_env) (c : as_cluster) : Option (as_status × as_cluster) :=
  match as_cluster_gc c with
  | none => none
  | some c =>
    let seeded :=
      if c.nodes.array.length = 0 then as_cluster_seed_nodes env c else (AEROSPIKE_OK, c)
    if seeded.1 ≠ AEROSPIKE_OK then some seeded
    else
      match (if seeded.2.n_partitions = 0 then as_cluster_set_partition_size env seeded.2
          else some (AEROSPIKE_OK, seeded.2)) with
      | none => none
      | some sized =>
        if sized.1 ≠ AEROSPIKE_OK then some sized
        else (as_cluster_tend_nodes env sized.2).map (fun c => (AEROSPIKE_OK, c))

/-- The loop of as_node_get_random (lines 867-878) with `tries` passes left, on the snapshot
reserved at entry: the node returned (0 for the null pointer) and the cluster. -/
def as_node_get_random_loop (size : Nat) : Nat → as_cluster → Option (Nat × as_cluster)
  | 0, c => some (0, as_nodes_release c)
  | tries + 1, c =>
    let index := c.node_index
    let c := { c with node_index := (c.node_index + 1) % UINT32_SIZE }
    match c.nodes.array[index % size]? with
    | none => none
    | some p =>
      match as_node_at c.heap p with
      | none => none
      | some node =>
        if node.active then
          (as_node_reserve c.heap p).map (fun heap => (p, as_nodes_release { c with heap := heap }))
        else
          as_node_get_random_loop size tries c

/-- Function as_node_get_random. -/
def as_node_get_random (c : as_cluster) : Option (Nat × as_cluster) :=
  let c := as_nodes_reserve c
  as_node_get_random_loop c.nodes.array.length c.nodes.array.length c

/-! ## Legacy client: the response of a batch request

A shallow embedding of `batch_decompress` and of the read loop of `do_batch_monte` in
`cl_c/src/cl_batch.c`.

* A buffer is the list of its bytes. The messages that the bytes of a buffer frame, each with
  the number of bytes it takes, are given by the environment: the layout of `cl_msg`, of its
  fields and of its operations is declared in proto.h, which is not under src.
* What zlib and malloc do is a parameter. `malloc` enters through the null pointer that a
  failed allocation returns, `free` through the number of times the read buffer of a
  compressed body is freed: freeing it twice has no defined behaviour. A buffer that is never
  freed is not part of the embedding.
-/

/-- Modelled from the spec: `CL_PROTO_VERSION` of proto.h (not under src), version 2. -/
def CL_PROTO_VERSION : Nat := 2

/-- Modelled from the spec: `CL_PROTO_TYPE_CL_MSG` of proto.h (not under src), type 3. -/
def CL_PROTO_TYPE_CL_MSG : Nat := 3

/-- Modelled from the spec: `CL_PROTO_TYPE_CL_MSG_COMPRESSED` of proto.h (not under src),
type 4. -/
def CL_PROTO_TYPE_CL_MSG_COMPRESSED : Nat := 4

/-- Modelled from the spec: `sizeof(cl_msg)`, the 22 bytes of the cluster message header. -/
def CL_MSG_SIZE : Nat := 22

/-- Modelled from the spec: bit `NOBINDATA` of info1, `CL_MSG_INFO1_NOBINDATA` of proto.h (not
under src). -/
def CL_MSG_INFO1_NOBINDATA : Nat := 4

/-- Modelled from the spec: bit `LAST` of info3, `CL_MSG_INFO3_LAST` of proto.h (not under
src). -/
def CL_MSG_INFO3_LAST : Nat := 1

/-- Macro `STACK_BUF_SZ`. -/
def STACK_BUF_SZ : Nat := 1024 * 16

/-- Macro `STACK_BINS`. -/
def STACK_BINS : Nat := 100

/-- Macro `HACK_MAX_RESULT_CODE`. -/
def HACK_MAX_RESULT_CODE : Nat := 100

/-- Return code `Z_OK` of zlib. -/
def Z_OK : Int := 0

/-- Return code `Z_STREAM_END` of zlib. -/
def Z_STREAM_END : Int := 1

/-- One message of a buffer as do_batch_monte reads it: the header in host byte order, the
digest, namespace and set found in its fields, its n_ops bins, and the number of bytes from
the start of the message to the start of the next. -/
structure cl_message where
  header_sz : Nat
  info1 : Nat
  info3 : Nat
  result_code : Nat
  generation : Nat
  record_ttl : Nat
  keyd : Option (List Nat)
  ns_ret : String
  set_ret : Option String
  bins : List as_bin
  size : Nat
  deriving DecidableEq, Repr

/-- What the platform, zlib and the allocator do. `host_big_endian` is the byte order of the
host; `sizeof_cl_bin` is `sizeof(cl_bin)`, a struct of citrusleaf.h, which is not under src;
`inflateInit` is the return code of inflateInit; `malloc n` tells whether an allocation
of n bytes succeeds; `inflate next_in avail_out` is the return code of inflate(Z_FINISH) on
the input bytes and the bytes it produces, of which at most avail_out are written; `cl_msgs`
gives the messages that the bytes of a buffer frame. -/
structure cl_env where
  host_big_endian : Bool
  sizeof_cl_bin : Nat
  inflateInit : Int
  malloc : Nat → Bool
  inflate : List Nat → Nat → Int × List Nat
  cl_msgs : List Nat → List cl_message

/-- The value of `*(uint64_t *)p` for the 8 bytes at p, in the byte order of the host. -/
def load_uint64 (host_big_endian : Bool) (bytes : List Nat) : Nat :=
  if host_big_endian then
    (bytes.take 8).foldl (fun acc b => acc * 256 + b % 256) 0
  else
    (bytes.take 8).foldr (fun b acc => acc * 256 + b % 256) 0

/-- A call that batch_decompress makes. -/
inductive zlib_call where
  /-- Call inflateInit(&strm). -/
  | inflateInit
  /-- Call malloc(size). -/
  | malloc (size : Nat)
  /-- Call inflate(&strm, Z_FINISH) with the bytes at strm.next_in, strm.avail_in and
  strm.avail_out. -/
  | inflate (next_in : List Nat) (avail_in avail_out : Nat)
  /-- Call free(b). -/
  | free
  /-- Call inflateEnd(&strm). -/
  | inflateEnd
  deriving DecidableEq, Repr

/-- What batch_decompress leaves: the return value, the buffer `*out_buf` and the size
`*out_sz` when it stored them, and the calls it made, oldest first. -/
structure decompress_out where
  rv : Int
  out : Option (List Nat × Nat)
  calls : List zlib_call
  deriving DecidableEq, Repr

/-- Function batch_decompress. The fields avail_in and avail_out of z_stream are 32-bit
unsigned; reading the first 8 bytes of a buffer of less than 8 bytes has no defined value. -/
def batch_decompress (env : cl_env) (in_buf : List Nat) (in_sz : Nat) : Option decompress_out :=
  if env.inflateInit ≠ Z_OK then
    some ⟨-1, none, [.inflateInit]⟩
  else if in_sz < 8 ∨ in_buf.length < in_sz then
    none
  else
    let b_sz_alloc := load_uint64 env.host_big_endian in_buf
    if ¬ env.malloc b_sz_alloc then
      some ⟨-1, none, [.inflateInit, .malloc b_sz_alloc, .inflateEnd]⟩
    else
      let avail_in := (in_sz - 8) % UINT32_SIZE
      let next_in := (in_buf.drop 8).take avail_in
      let avail_out := b_sz_alloc % UINT32_SIZE
      let inflated := env.inflate next_in avail_out
      let b := inflated.2.take avail_out
      if inflated.1 ≠ Z_STREAM_END then
        some ⟨-1, none, [.inflateInit, .malloc b_sz_alloc, .inflate next_in avail_in avail_out,
          .free, .inflateEnd]⟩
      else
        some ⟨0, some (b, b_sz_alloc - (avail_out - b.length)),
          [.inflateInit, .malloc b_sz_alloc, .inflate next_in avail_in avail_out,
            .inflateEnd]⟩

/-- One pass of the read loop of do_batch_monte as the socket serves it: the return value of
the read of the 8 header bytes, version and type of the header after cl_proto_swap, the
return value of the read of the body, and the proto.sz bytes of the body. -/
structure cl_proto_frame where
  header_rv : Int
  version : Nat
  type : Nat
  body_rv : Int
  body : List Nat
  deriving DecidableEq, Repr

/-- What do_batch_monte does with the response, oldest first. -/
inductive cl_event where
  /-- One pass of the loop over the messages of a buffer (line 507), for the message. -/
  | message (m : cl_message)
  /-- The call of the callback with a result code of HACK_MAX_RESULT_CODE or more (line
  523). -/
  | callback_result_code (result_code : Nat)
  /-- The call of the callback with the record of a message (line 604). -/
  | callback (ns_ret : String) (keyd : Option (List Nat)) (set_ret : Option String)
      (generation record_ttl : Nat) (bins : List as_bin)
  deriving DecidableEq, Repr

/-- The variables of do_batch_monte that the loops change: rv, done, and the events so far. -/
structure cl_state where
  rv : Int
  done : Bool
  trace : List cl_event
  deriving DecidableEq, Repr

/-- What the loop over the messages of a buffer leaves: the value the function returns when
it returns from inside the loop, and the variables. -/
structure cl_messages_out where
  returned : Option Int
  st : cl_state
  deriving DecidableEq, Repr

/-- The loop of do_batch_monte over the messages of a buffer (lines 507-624). `pos` is an
unsigned int. Reading a message beyond the bytes of the buffer has no defined behaviour. -/
def do_batch_monte_messages (env : cl_env) (cb : Bool) (rd_buf_sz : Nat) :
    List cl_message → Nat → cl_state → Option cl_messages_out
  | [], pos, st => if pos < rd_buf_sz then none else some ⟨none, st⟩
  | m :: msgs, pos, st =>
    if pos < rd_buf_sz then
      let st : cl_state := { st with trace := st.trace ++ [.message m] }
      let st : cl_state :=
        if m.result_code ≥ HACK_MAX_RESULT_CODE ∧ cb then
          { rv := 0, done := true, trace := st.trace ++ [.callback_result_code m.result_code] }
        else st
      if m.header_sz ≠ CL_MSG_SIZE then
        some ⟨some (-1), st⟩
      else if m.bins.length > STACK_BINS ∧ ¬ env.malloc (env.sizeof_cl_bin * m.bins.length) then
        some ⟨some (-1), st⟩
      else
        let st : cl_state :=
          if m.info3 &&& CL_MSG_INFO3_LAST ≠ 0 then { st with done := true } else st
        let st : cl_state :=
          if cb ∧ (m.bins.length ≠ 0 ∨ m.info1 &&& CL_MSG_INFO1_NOBINDATA ≠ 0) then
            { st with
              rv := 0
              trace := st.trace ++
                [.callback m.ns_ret m.keyd m.set_ret m.generation m.record_ttl m.bins] }
          else st
        do_batch_monte_messages env cb rd_buf_sz msgs ((pos + m.size) % UINT32_SIZE) st
    else
      some ⟨none, st⟩

/-- What do_batch_monte returns and the events of the call. -/
structure cl_out where
  rv : Int
  trace : List cl_event
  deriving DecidableEq, Repr

/-- Lines 486-491 of do_batch_monte: the number of calls free(rd_buf) on the buffer of a
compressed body once batch_decompress has returned rv. `heap` tells that rd_buf came from
malloc, which it did for a body beyond the stack buffer; for a body of no byte rd_buf is null
or the stack buffer, and free of a null pointer does nothing. Line 488 frees the buffer when rv
is not 0, line 491 frees it whatever rv is. -/
def rd_buf_frees (heap : Bool) (rv : Int) : Nat :=
  (if rv ≠ 0 ∧ heap then 1 else 0) + (if heap then 1 else 0)

/-- The read loop of do_batch_monte (lines 446-631) and the return of the function, over the
frames the socket serves. Freeing the buffer of a body twice has no defined behaviour.
Modelled from the spec: cf_socket_read_forever of cf_socket.c (not under src) returns an error
code once the peer has sent all its frames and closed the connection. -/
def do_batch_monte_frames (env : cl_env) (cb : Bool) :
    List cl_proto_frame → List cl_event → Option cl_out
  | [], trace => some ⟨-1, trace⟩
  | f :: frames, trace =>
    if f.header_rv ≠ 0 then
      some ⟨-1, trace⟩
    else if f.version ≠ CL_PROTO_VERSION then
      some ⟨-1, trace⟩
    else if f.type ≠ CL_PROTO_TYPE_CL_MSG ∧ f.type ≠ CL_PROTO_TYPE_CL_MSG_COMPRESSED then
      some ⟨-1, trace⟩
    else if f.body.length > 0 ∧ f.body.length > STACK_BUF_SZ ∧ ¬ env.malloc f.body.length then
      some ⟨-1, trace⟩
    else if f.body.length > 0 ∧ f.body_rv ≠ 0 then
      some ⟨-1, trace⟩
    else
      match (if f.type = CL_PROTO_TYPE_CL_MSG_COMPRESSED then
          (batch_decompress env f.body f.body.length).bind
            (fun d =>
              if rd_buf_frees (decide (f.body.length > STACK_BUF_SZ)) d.rv > 1 then none
              else some (d.rv, d.out.getD ([], 0)))
          else some (0, (f.body, f.body.length))) with
      | none => none
      | some (rv, rd_buf, rd_buf_sz) =>
        match do_batch_monte_messages env cb rd_buf_sz (env.cl_msgs rd_buf) 0
            ⟨rv, false, trace⟩ with
        | none => none
        | some out =>
          match out.returned with
          | some rv => some ⟨rv, out.st.trace⟩
          | none =>
            if out.st.done then some ⟨out.st.rv, out.st.trace⟩
            else do_batch_monte_frames env cb frames out.st.trace

/-- Struct `as_proto` after as_proto_swap_from_be: version and type; the size `sz` is that of
the body of the frame. -/
structure as_proto where
  version : Nat
  type : Nat
  deriving DecidableEq, Repr

/-- One pass of the read loop of as_batch_parse with the header that the socket served:
`proto` is the header read at line 203, `frame` the statuses of the two reads and the messages
of the proto.sz bytes of body. -/
structure as_proto_frame where
  proto : as_proto
  frame : as_frame
  deriving DecidableEq, Repr

/-- Function as_batch_parse over frames with their header. Of the header the function reads
proto.sz only (line 209): neither proto.version nor proto.type occurs in it. -/
def as_batch_parse_protos (err : as_error) (frames : List as_proto_frame)
    (task : as_batch_task) : Option parse_out :=
  as_batch_parse err (frames.map (·.frame)) task

/-- A node with the name and the active flag, one reference, no friends and no failures. -/
def demo_node (name : String) (active : Bool) : as_node :=
  ⟨1, name, 0, 0, active, 0, 0, 0, 0, false⟩

/-- A cluster of three nodes of which only the last is active, with the round-robin counter at
the largest value of a uint32_t. -/
def wrap_cluster : as_cluster :=
  { nodes := ⟨1, [1, 2, 3]⟩
    gc := []
    seeds := []
    n_partitions := 4096
    node_index := 4294967295
    heap := [demo_node "A" false, demo_node "B" false, demo_node "C" true] }

/-- The cluster wrap_cluster with a snapshot that holds the pointer to its first node twice. -/
def twice_cluster : as_cluster := { wrap_cluster with nodes := ⟨1, [1, 1]⟩ }

/-- The cluster as as_cluster_create leaves it before as_cluster_init (lines 959-993): zeroed
memory, the seeds of the configuration, an empty snapshot with one reference and an empty
garbage collector list. -/
def as_cluster_empty (seeds : List as_seed) : as_cluster :=
  { nodes := as_nodes_create 0
    gc := []
    seeds := seeds
    n_partitions := 0
    node_index := 0
    heap := [] }

/-- The nodes waiting in a garbage collector list for release_node. -/
def gc_nodes : List as_gc_item → List Nat
  | [] => []
  | .release_node p :: items => p :: gc_nodes items
  | .release_nodes _ :: items => gc_nodes items

/-- The snapshots waiting in a garbage collector list for release_nodes. -/
def gc_snapshots : List as_gc_item → List as_nodes
  | [] => []
  | .release_node _ :: items => gc_snapshots items
  | .release_nodes nodes :: items => nodes :: gc_snapshots items

/-- The snapshots of a cluster that are not yet freed: the published one and those waiting in
the garbage collector list. -/
def live_snapshots (c : as_cluster) : List as_nodes := c.nodes :: gc_snapshots c.gc

/-- The number of snapshots not yet freed whose array contains the node. -/
def snapshot_count (c : as_cluster) (p : Nat) : Nat :=
  ((live_snapshots c).filter (fun nodes => nodes.array.contains p)).length

/-- The nodes that as_node_create makes for a list of node infos, one after the other: the
heap and the pointers to the new nodes. -/
def as_node_create_all : List as_node_info → List as_node × List Nat → List as_node × List Nat
  | [], acc => acc
  | node_info :: infos, (heap, nodes) =>
    as_node_create_all infos ((as_node_create heap node_info).1,
      nodes ++ [(as_node_create heap node_info).2])

/-- The states of a cluster that the operations of the tend thread reach from the cluster
that as_cluster_create makes: seeding, adding newly created nodes with
as_cluster_add_nodes_copy, removing distinct nodes of the published snapshot with
as_cluster_remove_nodes_copy, and as_cluster_gc. -/
inductive tend_reachable : as_cluster → Prop where
  /-- The cluster that as_cluster_create makes. -/
  | create (seeds : List as_seed) : tend_reachable (as_cluster_empty seeds)
  /-- Seeding with as_cluster_seed_nodes. -/
  | seed (env : as_cluster_env) (c : as_cluster) :
      tend_reachable c → tend_reachable (as_cluster_seed_nodes env c).2
  /-- Creation of nodes and as_cluster_add_nodes_copy. -/
  | add (infos : List as_node_info) (c : as_cluster) :
      tend_reachable c →
      tend_reachable (as_cluster_add_nodes_copy
        { c with heap := (as_node_create_all infos (c.heap, [])).1 }
        (as_node_create_all infos (c.heap, [])).2)
  /-- Removal with as_cluster_remove_nodes_copy of distinct nodes of the published snapshot. -/
  | remove (nodes_to_remove : List Nat) (c : as_cluster) :
      tend_reachable c → nodes_to_remove.Nodup →
      (∀ p ∈ nodes_to_remove, p ∈ c.nodes.array) →
      tend_reachable (as_cluster_remove_nodes_copy c nodes_to_remove)
  /-- Garbage collection with as_cluster_gc. -/
  | gc (c c' : as_cluster) :
      tend_reachable c → as_cluster_gc c = some c' → tend_reachable c'
  /-- One iteration of the tend thread, as_cluster_tend. -/
  | tend (env : as_cluster_env) (c c' : as_cluster) (status : as_status) :
      tend_reachable c → as_cluster_tend env c = some (status, c') → tend_reachable c'

/-- A node that can be read through the pointer and holds exactly one reference. -/
def node_live (heap : List as_node) (p : Nat) : Prop :=
  ∃ node, as_node_at heap p = some node ∧ node.ref_count = 1

/-- Every node that is live in the first heap is live in the second. -/
def live_mono (heap heap' : List as_node) : Prop :=
  ∀ p, node_live heap p → node_live heap' p

/-- The invariant of the tend thread on the reference counts: the nodes of the published
snapshot are distinct and live, the nodes that wait for release_node are distinct, live and not
in the published snapshot, and every node of a snapshot that waits for release_nodes is in the
published snapshot or waits for release_node. -/
structure cluster_inv (c : as_cluster) : Prop where
  nodup : c.nodes.array.Nodup
  live : ∀ p ∈ c.nodes.array, node_live c.heap p
  gc_nodup : (gc_nodes c.gc).Nodup
  gc_out : ∀ p ∈ gc_nodes c.gc, p ∉ c.nodes.array
  gc_live : ∀ p ∈ gc_nodes c.gc, node_live c.heap p
  gc_snap : ∀ s ∈ gc_snapshots c.gc, ∀ p ∈ s.array,
    p ∈ c.nodes.array ∨ p ∈ gc_nodes c.gc

/-- Nodes that have been created and are in no snapshot yet: distinct, live, not in the
published snapshot and not waiting for release_node. -/
structure detached (c : as_cluster) (nodes : List Nat) : Prop where
  nodup : nodes.Nodup
  live : ∀ p ∈ nodes, node_live c.heap p
  out : ∀ p ∈ nodes, p ∉ c.nodes.array
  gc_out : ∀ p ∈ nodes, p ∉ gc_nodes c.gc

/-- Nodes created on top of a heap of `base` nodes: distinct, live, with pointers beyond
`base`. -/
structure fresh_nodes (base : Nat) (heap : List as_node) (nodes : List Nat) : Prop where
  le : base ≤ heap.length
  nodup : nodes.Nodup
  live : ∀ p ∈ nodes, node_live heap p
  beyond : ∀ p ∈ nodes, base < p

/-- A node carries no failure: it can be read and its failures counter is zero. -/
def no_failures (heap : List as_node) (p : Nat) : Prop :=
  ∃ node, as_node_at heap p = some node ∧ node.failures = 0

/-- Every node that can be read in the first heap can be read in the second, with the same
failures counter and the same active flag. -/
def keeps_nodes (heap heap' : List as_node) : Prop :=
  ∀ p node, as_node_at heap p = some node →
    ∃ node', as_node_at heap' p = some node' ∧ node'.failures = node.failures ∧
      node'.active = node.active

/-- The test of as_cluster_find_nodes_to_remove for one node of a snapshot of `size` nodes
other than one (lines 387-433). -/
def node_removable (env : as_cluster_env) (size refresh_count : Nat) (p : Nat)
    (node : as_node) : Prop :=
  node.active = false ∨
    (size = 2 ∧ refresh_count = 1 ∧ node.friends = 0 ∧ node.failures > 0) ∨
    (size ≠ 2 ∧ refresh_count ≥ 2 ∧ node.friends = 0 ∧
      (node.failures ≠ 0 ∨ env.as_partition_tables_find_node p = false))

/-- An environment in which the host "seed" has the addresses 1 and 2, where the nodes "A"
and "B" answer; every refresh succeeds and no partition is mapped to a node. -/
def demo_cluster_env : as_cluster_env :=
  { as_lookup := fun name _ => if name = "seed" then .ok [1, 2] else .error AEROSPIKE_ERR_CLIENT
    as_lookup_node := fun addr =>
      if addr = 1 then .ok ⟨"A", 1, 1, 1, 1⟩
      else if addr = 2 then .ok ⟨"B", 1, 1, 1, 1⟩
      else .error AEROSPIKE_ERR_CLIENT
    as_node_refresh := fun _ => ⟨AEROSPIKE_OK, [], []⟩
    as_partition_tables_find_node := fun _ => false
    info_partitions := fun _ => some 4096 }

/-- The cluster that as_cluster_create makes for the seed "seed", after seeding in
demo_cluster_env. -/
def seeded_cluster : as_cluster :=
  (as_cluster_seed_nodes demo_cluster_env (as_cluster_empty [⟨"seed", 3000⟩])).2

/-- The cluster seeded_cluster after the node "C" has been created and added. -/
def grown_cluster : as_cluster :=
  as_cluster_add_nodes_copy
    { seeded_cluster with
      heap := (as_node_create_all [⟨"C", 1, 1, 1, 1⟩] (seeded_cluster.heap, [])).1 }
    (as_node_create_all [⟨"C", 1, 1, 1, 1⟩] (seeded_cluster.heap, [])).2

/-- The environment demo_cluster_env in which the refresh of every node but node 1 times
out. -/
def half_refresh_env : as_cluster_env :=
  { demo_cluster_env with
    as_node_refresh := fun p =>
      if p = 1 then ⟨AEROSPIKE_OK, [], []⟩ else ⟨AEROSPIKE_ERR_TIMEOUT, [], []⟩ }

/-- A cluster of one node, which is inactive. -/
def inactive_cluster : as_cluster :=
  { nodes := ⟨1, [1]⟩
    gc := []
    seeds := []
    n_partitions := 4096
    node_index := 0
    heap := [demo_node "A" false] }

/-- What the refresh of the nodes of seeded_cluster leaves in half_refresh_env: node "A"
refreshed, node "B" with one failure. -/
def half_refreshed : as_refreshed :=
  ⟨[⟨1, "A", 0, 0, true, 1, 1, 1, 1, false⟩, ⟨1, "B", 0, 1, true, 1, 1, 1, 1, false⟩], 1,
    []⟩

/-- The unsigned integer that 8 bytes give when they are read as big-endian. -/
def big_endian_uint64 (bytes : List Nat) : Nat :=
  (bytes.take 8).foldl (fun acc b => acc * 256 + b % 256) 0

/-- A record message of 30 bytes with one bin, with the info3 byte. -/
def cl_record (info3 : Nat) : cl_message :=
  ⟨22, 1, info3, 0, 1, 0, some (digest_of 0), "test", none, [⟨"a", [1]⟩], 30⟩

/-- A little-endian host on which every allocation succeeds. The inflater accepts the stream
[120, 156] only, which it inflates to the 30 bytes that frame one record message, the last
of the response. -/
def demo_cl_env : cl_env :=
  { host_big_endian := false
    sizeof_cl_bin := 64
    inflateInit := 0
    malloc := fun _ => true
    inflate := fun next_in _ =>
      if next_in = [120, 156] then (1, List.replicate 30 7) else (-3, [])
    cl_msgs := fun bytes =>
      if bytes = List.replicate 30 7 then [cl_record 1] else [] }

/-- A compressed frame that declares an inflated size of 30 bytes on a little-endian host. -/
def compressed_frame (stream : List Nat) : cl_proto_frame :=
  ⟨0, 2, 4, 0, [30, 0, 0, 0, 0, 0, 0, 0] ++ stream⟩

/-- One frame under the header `proto`: a record message that reports "not found" for
offset 0, then the last message. -/
def headed_frames (proto : as_proto) : List as_proto_frame :=
  [⟨proto, ⟨0, 0, [record_message 0 2, bare_message 1 0]⟩⟩]

/-- The row a batch-index field must decode to for the record at an offset of the records
vector. -/
def as_batch_index_records_row (records : List as_batch_read_record) (offset : Nat) :
    Option batch_index_row :=
  match records[offset]? with
  | none => none
  | some record => (as_batch_index_records_header record).map (⟨offset, record.key.digest, ·⟩)

/-- The row a batch-index field must decode to for the key at an offset of the keys array. -/
def as_batch_index_row (task : as_batch_task) (offset : Nat) : Option batch_index_row :=
  match task.keys[offset]? with
  | none => none
  | some key => (as_batch_index_header task key).map (⟨offset, key.digest, ·⟩)

/-- The rows a batch-index field must decode to for a task of aerospike_batch_get: for every
offset of the task, in order, the offset, the digest and the namespace of its key and the bin
selection of the task. -/
def as_batch_index_rows (task : as_batch_task) : Option (List batch_index_row) :=
  task.offsets.mapM (as_batch_index_row task)

/-! ## Creating the cluster -/

/-- One entry `as_config_host` of config->hosts: the address, `none` for the null pointer of
an entry that is not used, and the port. -/
structure as_config_host where
  addr : Option String
  port : Nat
  deriving DecidableEq, Repr

/-- Struct `as_config`, as far as as_cluster_create reads it. The fields tender_interval,
max_threads, conn_timeout_ms and thread_pool_size are uint32_t values. The IP map is left
out. -/
structure as_config where
  user : String
  password : String
  hosts : List as_config_host
  tender_interval : Nat
  max_threads : Nat
  conn_timeout_ms : Nat
  thread_pool_size : Nat
  use_shm : Bool
  fail_if_not_connected : Bool
  deriving DecidableEq, Repr

/-- The fields of struct `as_cluster` that as_cluster_create sets from the configuration, and
the flag `valid`. The snapshot, the garbage collector list and the nodes are the matter of
`as_cluster`. -/
structure as_cluster_settings where
  user : Option String
  password : Option String
  seeds : List as_seed
  tend_interval : Nat
  conn_queue_size : Nat
  conn_timeout_ms : Nat
  valid : Bool
  deriving DecidableEq, Repr

/-- Function seeds_size: the number of hosts before the first one whose address is null. -/
def seeds_size : List as_config_host → Nat
  | [] => 0
  | host :: hosts =>
    match host.addr with
    | none => 0
    | some _ => seeds_size hosts + 1

/-- Function seeds_create: one seed for each of the first `size` hosts. -/
def seeds_create : List as_config_host → Nat → List as_seed
  | host :: hosts, size + 1 => ⟨host.addr.getD "", host.port⟩ :: seeds_create hosts size
  | _, _ => []

/-- What as_cluster_create meets outside its own body: the return code of as_thread_pool_init,
the status of as_shm_create and the status of as_wait_till_stabilized. -/
structure as_create_env where
  as_thread_pool_init : Int
  as_shm_create : as_status
  as_wait_till_stabilized : as_status
  deriving DecidableEq, Repr

/-- Function as_cluster_init: the status it returns. Failing to reach the cluster is an error
only with fail_if_not_connected. -/
def as_cluster_init (env : as_create_env) (fail_if_not_connected : Bool) : as_status :=
  if env.as_wait_till_stabilized ≠ AEROSPIKE_OK then
    if fail_if_not_connected then env.as_wait_till_stabilized else AEROSPIKE_OK
  else AEROSPIKE_OK

/-- Function as_cluster_create: the status and `*cluster_out`, `none` for the null pointer
stored after as_cluster_destroy. The sum max_threads + 1 is a uint32_t. Of as_shm_create,
which is not under src, only the status is taken: what it stores in the cluster is left
out. -/
def as_cluster_create (env : as_create_env) (config : as_config) :
    as_status × Option as_cluster_settings :=
  let cluster : as_cluster_settings :=
    { user := if config.user ≠ "" then some config.user else none
      password := if config.password ≠ "" then some config.password else none
      tend_interval := if config.tender_interval < 1000 then 1000 else config.tender_interval
      conn_queue_size := (config.max_threads + 1) % UINT32_SIZE
      conn_timeout_ms := if config.conn_timeout_ms = 0 then 1000 else config.conn_timeout_ms
      seeds := seeds_create config.hosts (seeds_size config.hosts)
      valid := false }
  if env.as_thread_pool_init ≠ 0 then
    (AEROSPIKE_ERR_CLIENT, none)
  else if config.use_shm then
    if env.as_shm_create ≠ AEROSPIKE_OK then (env.as_shm_create, none)
    else (AEROSPIKE_OK, some cluster)
  else
    if as_cluster_init env config.fail_if_not_connected ≠ AEROSPIKE_OK then
      (as_cluster_init env config.fail_if_not_connected, none)
    else (AEROSPIKE_OK, some { cluster with valid := true })

/-! ## Initial capacity of the offsets vectors -/

/-- Lines 609-616 of as_batch_execute and 830-837 of aerospike_batch_read: the initial
capacity of the offsets vector of a batch node. The variable is a uint32_t, and n_nodes is
not 0 where the lines are reached (lines 596 and 821). -/
def offsets_capacity (n_keys n_nodes : Nat) : Nat :=
  let offsets_capacity := n_keys / n_nodes
  let offsets_capacity := (offsets_capacity + (offsets_capacity >>> 2)) % UINT32_SIZE
  if offsets_capacity < 10 then 10 else offsets_capacity

/-- The capacity in the words of the specification, ceil(1.25 * keys / nodes) clamped to at
least 10: the quotient 1.25 * keys / nodes is the fraction 5 * keys / (4 * nodes), rounded up
in whole numbers. -/
def offsets_capacity_spec (n_keys n_nodes : Nat) : Nat :=
  max 10 ((5 * n_keys + 4 * n_nodes - 1) / (4 * n_nodes))

/-! ## The fixture of the query tests -/

/-- The bins a, b, c, d and e of one record of the fixture of query_foreach.c. The C variables
are of type `int`; the values stay far below 2^31. -/
structure query_record where
  a : String
  b : Int
  c : Int
  d : Int
  e : Int
  deriving DecidableEq, Repr

/-- The bins of the record of index i in the loop "insert records" of test
query_foreach_create (lines 184-188); `/` and `%` of C truncate toward zero. -/
def query_foreach_record (n_recs i : Int) : query_record :=
  let a := "abc"
  let b := n_recs
  let c := i
  let d := Int.tmod i 10
  let e := b + Int.tdiv ((c + 1) * (d + 1)) 2
  ⟨a, b, c, d, e⟩

/-- Test query_foreach_create: the records it inserts, for i from 0 below n_recs = 100
(lines 115 and 182). -/
def query_foreach_create : List query_record :=
  (List.range 100).map (fun i => query_foreach_record 100 i)

/-- The value test query_foreach_3 compares the result of its query with (line 351). -/
def query_foreach_3_value : Int := 24275

/-- Modelled from the spec: the aggregation of test query_foreach_3, sum(e) over the records
with a == 'abc'; the query engine and the UDF are not under src. -/
def query_sum_e (records : List query_record) : Int :=
  ((records.filter (fun r => r.a == "abc")).map (fun r => r.e)).sum

/-! ## The log of as_cluster_remove_nodes_copy -/

/-- What as_cluster_remove_nodes_copy writes to the log at the levels error and warning. -/
inductive remove_log where
  /-- Text "Remove node error. Node count exceeded" with the count and the node (line 498). -/
  | count_exceeded (count : Nat) (node : Nat)
  /-- Text "Node remove mismatch" with the expected size and the count (line 505). -/
  | mismatch (expected : Nat) (count : Nat)
  deriving DecidableEq, Repr

/-- The loop of as_cluster_remove_nodes_copy (lines 481-501) once more, for the messages of
its branch "count exceeded"; `size` is nodes_new->size. -/
def as_cluster_remove_nodes_errors (nodes_to_remove : List Nat) (size : Nat) :
    List Nat → Nat → List remove_log
  | [], _ => []
  | node :: nodes_old, count =>
    if as_cluster_find_node_by_reference nodes_to_remove node then
      as_cluster_remove_nodes_errors nodes_to_remove size nodes_old count
    else if count < size then
      as_cluster_remove_nodes_errors nodes_to_remove size nodes_old (count + 1)
    else
      .count_exceeded count node ::
        as_cluster_remove_nodes_errors nodes_to_remove size nodes_old count

/-- The error and warning messages of one call of as_cluster_remove_nodes_copy: those of the
loop, then the one of the sanity check `count < nodes_new->size` (lines 504-506). -/
def as_cluster_remove_nodes_copy_log (c : as_cluster) (nodes_to_remove : List Nat) :
    List remove_log :=
  let nodes_old := c.nodes
  let nodes_new := as_nodes_create
    (if nodes_to_remove.length ≤ nodes_old.array.length then
      nodes_old.array.length - nodes_to_remove.length
    else nodes_old.array.length + UINT32_SIZE - nodes_to_remove.length)
  let copied := as_cluster_remove_nodes_loop nodes_to_remove nodes_old.array nodes_new.array
    0 c.gc
  as_cluster_remove_nodes_errors nodes_to_remove nodes_new.array.length nodes_old.array 0 ++
    (if copied.2.1 < nodes_new.array.length then
      [.mismatch nodes_new.array.length copied.2.1]
    else [])

/-! ## Bounds of the arrays of a task, and references in a trace -/

/-- The arrays a task refers to have the sizes its n_keys tells: the records vector when the
task uses it, else the keys array and, when results are collected, the results array; and
every entry of the offsets vector is an index below n_keys. -/
structure task_arrays (task : as_batch_task) : Prop where
  records : task.use_batch_records = true →
    ∃ records, task.records = some records ∧ records.length = task.n_keys
  keys : task.use_batch_records = false → task.keys.length = task.n_keys
  results : task.use_batch_records = false → task.callback_xdr = none →
    ∃ results, task.results = some results ∧ results.length = task.n_keys
  offsets : ∀ offset ∈ task.offsets, offset < task.n_keys

/-- The number of references to a node that as_node_get handed out, read off the events. -/
def node_gets (node : Nat) (trace : List batch_event) : Nat :=
  trace.countP (fun e =>
    match e with
    | .node_get _ (some n) => n == node
    | _ => false)

/-- The number of calls of as_node_release for a node, read off the events. -/
def node_releases (node : Nat) (trace : List batch_event) : Nat :=
  trace.count (.node_release node)

/-- The events of the dispatch: queueing a task, executing a command, popping a completion
record. -/
def batch_event.is_dispatch : batch_event → Bool
  | .queue_task _ _ => true
  | .command_execute _ _ => true
  | .queue_pop _ _ => true
  | _ => false

/-- The number of references to a node that the batch nodes hold: the batch nodes of that
node. -/
def batch_node_refs (batch_nodes : List as_batch_node) (node : Nat) : Nat :=
  (batch_nodes.map (·.node)).count node

/-! ## The features of a node -/

/-- One pair `as_name_value` of an info response: the name and the value, `none` for a null
pointer. A C string is the String of its characters before the terminator. -/
structure as_name_value where
  name : String
  value : Option String
  deriving DecidableEq, Repr

/-- The inner loop `while (*end)` of as_lookup_node (lines 126-132) from `end` on: the
characters it passes over, which are the string at `begin` once the ';' that stops the loop
has been overwritten with the terminator, and the characters from the new `end` on. -/
def as_lookup_node_scan : List Char → List Char × List Char
  | [] => ([], [])
  | c :: rest =>
    if c = ';' then ([], rest)
    else (c :: (as_lookup_node_scan rest).1, (as_lookup_node_scan rest).2)

/-- The four comparisons of the string at `begin` (lines 134-148). -/
def as_lookup_node_compare (element : List Char) (info : as_node_info) : as_node_info :=
  let info :=
    if element = "batch-index".toList then { info with has_batch_index := 1 } else info
  let info :=
    if element = "replicas-all".toList then { info with has_replicas_all := 1 } else info
  let info := if element = "float".toList then { info with has_double := 1 } else info
  if element = "geo".toList then { info with has_geo := 1 } else info

/-- The loop `while (*begin && ! (has_batch_index && has_replicas_all && has_double &&
has_geo))` of as_lookup_node (lines 122-151) on the characters from `begin` on, where `end`
is equal to `begin`. The first argument bounds the number of passes: `none` when it is used
up before the loop ends. -/
def as_lookup_node_loop : Nat → List Char → as_node_info → Option as_node_info
  | _, [], info => some info
  | 0, _ :: _, info =>
    if info.has_batch_index ≠ 0 ∧ info.has_replicas_all ≠ 0 ∧ info.has_double ≠ 0 ∧
        info.has_geo ≠ 0 then some info
    else none
  | fuel + 1, c :: rest, info =>
    if info.has_batch_index ≠ 0 ∧ info.has_replicas_all ≠ 0 ∧ info.has_double ≠ 0 ∧
        info.has_geo ≠ 0 then some info
    else
      as_lookup_node_loop fuel (as_lookup_node_scan (c :: rest)).2
        (as_lookup_node_compare (as_lookup_node_scan (c :: rest)).1 info)

/-- Function as_lookup_node after the info command "node\nfeatures\n": `status` is the status
of as_info_command_host and `values` the pairs as_info_parse_multi_response finds in the
response. The result is the returned status on failure and node_info on success; the loop
over the features is given one pass for each character. The name is stored whole: the cut at
AS_NODE_NAME_SIZE by as_strncpy is left out. -/
def as_lookup_node (status : as_status) (values : List as_name_value) :
    Option (Except as_status as_node_info) :=
  if status ≠ 0 then some (.error status)
  else
    match values with
    | [node_nv, features_nv] =>
      match node_nv.value with
      | none => some (.error AEROSPIKE_ERR_CLIENT)
      | some node_name =>
        if node_name = "" then some (.error AEROSPIKE_ERR_CLIENT)
        else
          match features_nv.value with
          | none => some (.error AEROSPIKE_ERR_CLIENT)
          | some features =>
            (as_lookup_node_loop features.length features.toList
              ⟨node_name, 0, 0, 0, 0⟩).map .ok
    | _ => some (.error AEROSPIKE_ERR_CLIENT)

/-- The value a flag must have in the words of the claim: 1 when the flag is set already or
the characters, split at ';', have an element equal to the name, and 0 otherwise. -/
def feature_flag (name : String) (features : List Char) (flag : Nat) : Nat :=
  if flag ≠ 0 ∨ name.toList ∈ features.splitOn ';' then 1 else 0

/-- In the words of the claim: 1 when the features string, split at ';', contains an element
equal to the name, and 0 otherwise. -/
def has_feature (features name : String) : Nat :=
  if name.toList ∈ features.toList.splitOn ';' then 1 else 0

/-! ## The bytes of a batch-index command -/

/-- Modelled from the spec: AS_HEADER_SIZE of as_command.h (not under src), the 8 bytes of
the frame header and the 22 bytes of the cluster message header. -/
def AS_HEADER_SIZE : Nat := 30

/-- Modelled from the spec: AS_FIELD_HEADER_SIZE of as_command.h (not under src), the size
word (u32) and the type byte of a field. -/
def AS_FIELD_HEADER_SIZE : Nat := 5

/-- Modelled from the spec: AS_OPERATION_HEADER_SIZE of as_command.h (not under src), the
bytes op_sz (u32), op, particle_type, version and name_sz of an operation. -/
def AS_OPERATION_HEADER_SIZE : Nat := 8

/-- Modelled from the spec: field type NAMESPACE = 0. -/
def AS_FIELD_NAMESPACE : Nat := 0

/-- Modelled from the spec: field type BATCH_INDEX = 0x11. -/
def AS_FIELD_BATCH_INDEX : Nat := 17

/-- Modelled from the spec: bit BATCH_INDEX = 8 of info1. -/
def AS_MSG_INFO1_BATCH_INDEX : Nat := 8

/-- Modelled from the spec: operation type of a read, AS_OPERATOR_READ of as_operations.h
(not under src). -/
def AS_OPERATOR_READ : Nat := 1

/-- The bytes of a C string before its terminator, one for each character; their number is
strlen. -/
def c_string (s : String) : List Nat := s.toList.map (fun c => c.toNat % 256)

/-- The 4 bytes of `cf_swap_to_be32(v)` in memory order: the uint32_t v, most significant
byte first. -/
def cf_swap_to_be32 (v : Nat) : List Nat :=
  [v / 16777216 % 256, v / 65536 % 256, v / 256 % 256, v % 256]

/-- The 2 bytes of `cf_swap_to_be16(v)` in memory order. -/
def cf_swap_to_be16 (v : Nat) : List Nat := [v / 256 % 256, v % 256]

/-- The uint32_t that 4 bytes hold, most significant byte first. -/
def cf_swap_from_be32 (bytes : List Nat) : Nat :=
  bytes.getD 0 0 * 16777216 + bytes.getD 1 0 * 65536 + bytes.getD 2 0 * 256 + bytes.getD 3 0

/-- The 20 bytes `memcpy(p, key->digest.value, AS_DIGEST_VALUE_SIZE)` copies. -/
def digest_bytes (digest : List Nat) : List Nat :=
  (List.range AS_DIGEST_VALUE_SIZE).map (fun i => digest.getD i 0)

/-- Modelled from the spec: as_command_string_field_size of as_command.h (not under src),
the field header and the characters of the string. -/
def as_command_string_field_size (value : String) : Nat :=
  value.length + AS_FIELD_HEADER_SIZE

/-- Modelled from the spec: as_command_string_operation_size of as_command.h (not under
src), the operation header and the characters of the bin name. -/
def as_command_string_operation_size (value : String) : Nat :=
  value.length + AS_OPERATION_HEADER_SIZE

/-- Modelled from the spec: as_command_write_header_read of as_command.c (not under src)
leaves room for the 8 bytes of the frame header and writes the 22 bytes of the message header:
header_sz = 22, info1, info2, info3, unused, result_code, generation, record_ttl,
transaction_ttl, n_fields, n_ops. -/
def as_command_write_header_read (read_attr timeout_ms n_fields n_bins : Nat) : List Nat :=
  List.replicate 8 0 ++ [22, read_attr % 256, 0, 0, 0, 0] ++ cf_swap_to_be32 0 ++
    cf_swap_to_be32 0 ++ cf_swap_to_be32 timeout_ms ++ cf_swap_to_be16 n_fields ++
    cf_swap_to_be16 n_bins

/-- Modelled from the spec: as_command_write_field_header of as_command.h (not under src)
writes the size word, which counts the type byte and the payload, and the type byte. -/
def as_command_write_field_header (id size : Nat) : List Nat :=
  cf_swap_to_be32 (size + 1) ++ [id]

/-- Modelled from the spec: as_command_write_field_string of as_command.h (not under src)
writes the field header and the characters of the string. -/
def as_command_write_field_string (id : Nat) (value : String) : List Nat :=
  as_command_write_field_header id value.length ++ c_string value

/-- Modelled from the spec: as_command_write_bin_name of as_command.h (not under src) writes
an operation without value: op_sz, which counts the 4 bytes after it and the name, op,
particle_type, version, name_sz and the characters of the name. -/
def as_command_write_bin_name (name : String) : List Nat :=
  cf_swap_to_be32 (name.length + 4) ++ [AS_OPERATOR_READ, 0, 0, name.length % 256] ++
    c_string name

/-- Modelled from the spec: as_command_write_end of as_command.h (not under src) fills the
frame header (version 2, type CL_MSG = 3, the size of the body in 6 bytes); the size it
returns is the number of bytes of the command. -/
def as_command_write_end (cmd : List Nat) : List Nat :=
  [2, 3, (cmd.length - 8) / 1099511627776 % 256, (cmd.length - 8) / 4294967296 % 256] ++
    cf_swap_to_be32 (cmd.length - 8) ++ cmd.drop 8

/-- The bytes both writers put in the command for one entry of the batch-index field (lines
288-326 and 402-428): the offset, the digest, the repeat byte and, after a repeat byte of 0,
the read attributes, two pad bytes, the count of bin names, the namespace field and the bin
names. -/
def batch_index_entry_bytes (entry : batch_index_entry) : List Nat :=
  cf_swap_to_be32 entry.offset ++ digest_bytes entry.digest ++ [entry.repeat_flag] ++
    match entry.header with
    | none => []
    | some header =>
      [header.read_attr, 0, 0] ++ cf_swap_to_be16 header.n_bin_names ++
        as_command_write_field_string AS_FIELD_NAMESPACE header.ns ++
        header.bin_names.flatMap as_command_write_bin_name

/-- The command both writers leave once the entries are written (lines 276-282 and 330-334,
390-396 and 432-436): the message header, the header of the batch-index field with the size
`p - field_size_ptr - 4` stored as a uint32_t, the number of offsets, the allow_inline byte
and the entries. -/
def as_batch_index_write (read_attr : Nat) (task : as_batch_task)
    (entries : List batch_index_entry) : List Nat :=
  let payload := cf_swap_to_be32 task.offsets.length ++ [if task.allow_inline then 1 else 0] ++
    entries.flatMap batch_index_entry_bytes
  as_command_write_end
    (as_command_write_header_read read_attr task.timeout_ms 1 0 ++
      cf_swap_to_be32 ((payload.length + 1) % UINT32_SIZE) ++ [AS_FIELD_BATCH_INDEX] ++ payload)

/-- The first pass of as_batch_index_records_execute (lines 248-273) over the offsets that
are left: the estimate `size`. Reading bin_names beyond the array has no defined behaviour. -/
def as_batch_index_records_size (refs : as_refs) (records : List as_batch_read_record) :
    List Nat → Option (Nat × as_batch_read_record) → Nat → Option Nat
  | [], _, size => some size
  | offset :: offsets, prev, size =>
    match records[offset]? with
    | none => none
    | some record =>
      let size := size + (AS_DIGEST_VALUE_SIZE + 4)
      if (match prev with
          | none => false
          | some (prev_offset, prev_record) =>
            refs.ns prev_offset == refs.ns offset &&
              refs.bin_names prev_offset == refs.bin_names offset &&
              prev_record.read_all_bins == record.read_all_bins) then
        as_batch_index_records_size refs records offsets prev (size + 1)
      else
        let size := size + (as_command_string_field_size record.key.ns + 6)
        match record.bin_names with
        | some names =>
          if record.n_bin_names ≤ names.length then
            as_batch_index_records_size refs records offsets (some (offset, record))
              (size + ((names.take record.n_bin_names).map
                as_command_string_operation_size).sum)
          else none
        | none => as_batch_index_records_size refs records offsets (some (offset, record)) size

/-- The estimate of as_batch_index_records_execute for a task (lines 244-273). -/
def as_batch_index_records_estimate (refs : as_refs) (task : as_batch_task) : Option Nat :=
  match task.records with
  | none => none
  | some records =>
    as_batch_index_records_size refs records task.offsets none
      (AS_HEADER_SIZE + AS_FIELD_HEADER_SIZE + 4 + 1)

/-- The command as_batch_index_records_execute writes for a task (lines 276-334). -/
def as_batch_index_records_command (refs : as_refs) (task : as_batch_task) :
    Option (List Nat) :=
  (as_batch_index_records_field refs task).map
    (as_batch_index_write (AS_MSG_INFO1_READ ||| AS_MSG_INFO1_BATCH_INDEX) task)

/-- The estimate of the size of a full row in as_batch_index_execute (lines 359-366). -/
def as_batch_index_row_size (task : as_batch_task) : Option Nat :=
  if task.n_bins ≤ task.bins.length then
    some (AS_HEADER_SIZE + AS_FIELD_HEADER_SIZE + 31 + as_command_string_field_size task.ns +
      ((task.bins.take task.n_bins).map as_command_string_operation_size).sum)
  else none

/-- The first pass of as_batch_index_execute (lines 373-387) over the offsets that are left:
the estimate `size`. -/
def as_batch_index_size (refs : as_refs) (task : as_batch_task) (row_size : Nat) :
    List Nat → Option (Nat × String) → Nat → Option Nat
  | [], _, size => some size
  | offset :: offsets, prev_ns, size =>
    match task.keys[offset]? with
    | none => none
    | some key =>
      if (match prev_ns with
          | none => false
          | some (prev_ref, prev_string) =>
            refs.ns offset == prev_ref || prev_string == key.ns) then
        as_batch_index_size refs task row_size offsets prev_ns (size + 25)
      else
        as_batch_index_size refs task row_size offsets (some (refs.ns offset, key.ns))
          (size + row_size)

/-- The estimate of as_batch_index_execute for a task (lines 359-387). -/
def as_batch_index_estimate (refs : as_refs) (task : as_batch_task) : Option Nat :=
  match as_batch_index_row_size task with
  | none => none
  | some row_size =>
    as_batch_index_size refs task row_size task.offsets none
      (AS_HEADER_SIZE + AS_FIELD_HEADER_SIZE + 5)

/-- The command as_batch_index_execute writes for a task (lines 390-436). -/
def as_batch_index_command (refs : as_refs) (task : as_batch_task) : Option (List Nat) :=
  (as_batch_index_field refs task).map
    (as_batch_index_write (task.read_attr ||| AS_MSG_INFO1_BATCH_INDEX) task)

/-- The size the header of the batch-index field of a command holds: the uint32_t in the 4
bytes after the message header. -/
def batch_index_field_size (cmd : List Nat) : Nat :=
  cf_swap_from_be32 ((cmd.drop AS_HEADER_SIZE).take 4)

/-- A task of as_batch_index_execute for n keys of namespace "test" with the digest digest_a,
with the offsets 0 to n - 1 and no bin names. -/
def same_namespace_task (n : Nat) : as_batch_task :=
  { results_task with
    offsets := List.range n
    keys := List.replicate n key_a
    results := some (List.replicate n ⟨0, AEROSPIKE_ERR_RECORD_NOT_FOUND, as_record_init⟩)
    n_keys := n }

/-! # Theorems -/

theorem as_batch_node_add_nil (node i : Nat) :
    (as_batch_node_add [] node i).1 = [⟨node, [i]⟩] := by
  simp [as_batch_node_add, as_batch_node_find]

theorem as_batch_node_add_cons (b : as_batch_node) (bs : List as_batch_node) (node i : Nat) :
    (as_batch_node_add (b :: bs) node i).1 =
      if b.node = node then { b with offsets := b.offsets ++ [i] } :: bs
      else b :: (as_batch_node_add bs node i).1 := by
  by_cases h : b.node = node
  · simp [as_batch_node_add, as_batch_node_find, h]
  · simp only [as_batch_node_add, as_batch_node_find, h, if_false]
    cases hf : as_batch_node_find bs node with
    | none => simp
    | some k =>
      simp only [Option.map_some', List.getElem?_cons_succ]
      cases hg : bs[k]? <;> simp [hg]

theorem as_batch_node_add_nodes (bs : List as_batch_node) (node i : Nat) :
    (as_batch_node_add bs node i).1.map (·.node) =
      if node ∈ bs.map (·.node) then bs.map (·.node) else bs.map (·.node) ++ [node] := by
  induction bs with
  | nil => simp [as_batch_node_add_nil]
  | cons b bs ih =>
    rw [as_batch_node_add_cons]
    by_cases h : b.node = node
    · simp [h]
    · have h' : ¬ node = b.node := fun e => h e.symm
      simp only [h, if_false, List.map_cons, ih, List.mem_cons, h', false_or]
      split <;> simp

theorem as_batch_node_add_offsets (bs : List as_batch_node) (node i : Nat) :
    ((as_batch_node_add bs node i).1.flatMap (·.offsets)).Perm
      (bs.flatMap (·.offsets) ++ [i]) := by
  induction bs with
  | nil => simp [as_batch_node_add_nil]
  | cons b bs ih =>
    rw [as_batch_node_add_cons]
    by_cases h : b.node = node
    · simp only [h, if_true, List.flatMap_cons, List.append_assoc]
      exact List.Perm.append_left _ List.perm_append_comm
    · simp only [h, if_false, List.flatMap_cons, List.append_assoc]
      exact List.Perm.append_left _ ih

theorem as_batch_node_add_mem (bs : List as_batch_node) (node i : Nat) (b' : as_batch_node)
    (hb : b' ∈ (as_batch_node_add bs node i).1) :
    b' ∈ bs ∨ (b'.node = node ∧ b'.offsets = [i]) ∨
      (b'.node = node ∧ ∃ b ∈ bs, b.node = node ∧ b'.offsets = b.offsets ++ [i]) := by
  induction bs with
  | nil =>
    simp [as_batch_node_add_nil] at hb
    subst hb; simp
  | cons b bs ih =>
    rw [as_batch_node_add_cons] at hb
    by_cases h : b.node = node
    · simp only [h, if_true, List.mem_cons] at hb
      rcases hb with hb | hb
      · subst hb
        right; right
        exact ⟨rfl, b, by simp, h, rfl⟩
      · left; simp [hb]
    · simp only [h, if_false, List.mem_cons] at hb
      rcases hb with hb | hb
      · left; simp [hb]
      · rcases ih hb with h1 | h1 | ⟨h1, b0, hb0, h2, h3⟩
        · left; simp [h1]
        · right; left; exact h1
        · right; right; exact ⟨h1, b0, by simp [hb0], h2, h3⟩

theorem offsets_partition_nil (route : Nat → Option Nat) : offsets_partition route 0 [] :=
  ⟨by simp, by simp, by simp, by simp⟩

theorem offsets_partition_add {route : Nat → Option Nat} {n : Nat}
    {bs : List as_batch_node} (h : offsets_partition route n bs) {node : Nat}
    (hr : route n = some node) :
    offsets_partition route (n + 1) (as_batch_node_add bs node n).1 := by
  have hlt : ∀ b ∈ bs, ∀ j ∈ b.offsets, j < n := by
    intro b hb j hj
    have : j ∈ bs.flatMap (·.offsets) := List.mem_flatMap.mpr ⟨b, hb, hj⟩
    simpa using (h.once.mem_iff.mp this)
  refine ⟨?_, ?_, ?_, ?_⟩
  · rw [List.range_succ]
    exact (as_batch_node_add_offsets bs node n).trans (h.once.append_right _)
  · intro b' hb' j hj
    rcases as_batch_node_add_mem bs node n b' hb' with h1 | ⟨h1, h2⟩ | ⟨h1, b, hb, h2, h3⟩
    · exact h.routed b' h1 j hj
    · rw [h2] at hj
      simp at hj
      rw [hj, h1]; exact hr
    · rw [h3] at hj
      rcases List.mem_append.mp hj with hj | hj
      · rw [h1, ← h2]; exact h.routed b hb j hj
      · simp at hj
        rw [hj, h1]; exact hr
  · rw [as_batch_node_add_nodes]
    split
    · exact h.distinct
    · rename_i hn
      exact List.Nodup.append h.distinct (by simp) (by simpa using hn)
  · intro b' hb'
    rcases as_batch_node_add_mem bs node n b' hb' with h1 | ⟨_, h2⟩ | ⟨_, b, hb, _, h3⟩
    · exact h.increasing b' h1
    · rw [h2]; simp
    · rw [h3, List.pairwise_append]
      refine ⟨h.increasing b hb, by simp, ?_⟩
      intro j hj k hk
      simp at hk
      rw [hk]; exact hlt b hb j hj

theorem as_batch_map_keys_ok (env : batch_env) (policy : as_policy_batch) (callback : Bool)
    (ns : String) (route : Nat → Option Nat) :
    ∀ (todo : List as_key) (i : Nat) (st : map_state),
      (∀ k (hk : k < todo.length),
        (env.as_key_set_digest todo[k]).1 = AEROSPIKE_OK ∧
        ∃ node, env.as_node_get (i + k)
            { todo[k] with digest := (env.as_key_set_digest todo[k]).2 } = some node ∧
          route (i + k) = some node ∧
          (as_batch_use_new env policy node = false → ns = todo[k].ns)) →
      offsets_partition route i st.batch_nodes →
      ∃ st', as_batch_map_keys env policy callback ns i todo st = .ok st' ∧
        offsets_partition route (i + todo.length) st'.batch_nodes ∧
        st'.keys = st.keys ++
          todo.map (fun key => { key with digest := (env.as_key_set_digest key).2 }) ∧
        st'.results.map List.length =
          st.results.map (fun rs => rs.length + if callback then todo.length else 0) := by
  intro todo
  induction todo with
  | nil =>
    intro i st _ hp
    refine ⟨st, rfl, by simpa using hp, by simp, ?_⟩
    cases st.results <;> simp
  | cons key todo ih =>
    intro i st h hp
    obtain ⟨hd, node, hn, hr, hns⟩ := h 0 (by simp)
    simp only [List.getElem_cons_zero, Nat.add_zero] at hd hn hr hns
    have hstep : (!as_batch_use_new env policy node && ns != key.ns) = false := by
      cases hu : as_batch_use_new env policy node
      · simp [hns hu]
      · simp
    have htail : ∀ k (hk : k < todo.length),
        (env.as_key_set_digest todo[k]).1 = AEROSPIKE_OK ∧
        ∃ node, env.as_node_get (i + 1 + k)
            { todo[k] with digest := (env.as_key_set_digest todo[k]).2 } = some node ∧
          route (i + 1 + k) = some node ∧
          (as_batch_use_new env policy node = false → ns = todo[k].ns) := by
      intro k hk
      have := h (k + 1) (by simpa using hk)
      simpa [Nat.add_assoc, Nat.add_comm 1 k] using this
    obtain ⟨st', h1, h2, h3, h4⟩ := ih (i + 1)
      { keys := st.keys ++ [{ key with digest := (env.as_key_set_digest key).2 }]
        results := if callback then
            st.results.map (· ++ [⟨i, AEROSPIKE_ERR_RECORD_NOT_FOUND, as_record_init⟩])
          else st.results
        batch_nodes := (as_batch_node_add st.batch_nodes node i).1
        trace := st.trace ++ [.key_set_digest i] ++
          [.node_get i (env.as_node_get i
            { key with digest := (env.as_key_set_digest key).2 })] ++
          (as_batch_node_add st.batch_nodes node i).2 }
      htail (offsets_partition_add hp hr)
    refine ⟨st', ?_, ?_, ?_, ?_⟩
    · rw [← h1]
      simp only [as_batch_map_keys, hd, ne_eq, not_true_eq_false, if_false, hn, hstep,
        Bool.false_eq_true]
    · simpa [Nat.add_assoc, Nat.add_comm 1] using h2
    · simpa using h3
    · rw [h4]
      cases st.results <;> cases callback <;> simp [Nat.add_assoc, Nat.add_comm 1]

theorem same_sizes_refl (t : as_batch_task) : same_sizes t t := ⟨rfl, rfl⟩

theorem same_sizes_trans {a b c : as_batch_task} (h1 : same_sizes a b) (h2 : same_sizes b c) :
    same_sizes a c := ⟨h2.1.trans h1.1, h2.2.trans h1.2⟩

theorem as_batch_message_offset_sizes {m : as_message} {task t : as_batch_task} {offset : Nat}
    (h : as_batch_message_offset m task = some (offset, t)) :
    t.results = task.results ∧ t.records = task.records := by
  unfold as_batch_message_offset at h
  split at h
  · simp at h; rw [← h.2]; exact ⟨rfl, rfl⟩
  · split at h
    · simp at h
    · simp at h; rw [← h.2]; exact ⟨rfl, rfl⟩

theorem as_batch_parse_message_sizes {err : as_error} {m : as_message} {task : as_batch_task}
    {step : parse_step} (h : as_batch_parse_message err m task = some step) :
    same_sizes task step.task := by
  unfold as_batch_parse_message at h
  split at h
  · simp at h; subst h; exact same_sizes_refl _
  split at h
  · simp at h; subst h; exact same_sizes_refl _
  split at h
  · simp at h
  rename_i offset t ho
  have hs := as_batch_message_offset_sizes ho
  have key : same_sizes t step.task → same_sizes task step.task := by
    intro hh
    exact ⟨hh.1.trans (by rw [hs.1]), hh.2.trans (by rw [hs.2])⟩
  apply key
  clear key hs ho
  simp only at h
  repeat' split at h
  all_goals (try simp at h)
  all_goals (try subst h)
  all_goals (try exact same_sizes_refl _)
  all_goals (simp_all [same_sizes, parse_step.task])

theorem as_batch_parse_records_sizes {err : as_error} :
    ∀ (buf : List as_message) (task : as_batch_task) (out : parse_out),
      as_batch_parse_records err buf task = some out → same_sizes task out.task := by
  intro buf
  induction buf with
  | nil =>
    intro task out h
    simp [as_batch_parse_records] at h
    subst h; exact same_sizes_refl _
  | cons m buf ih =>
    intro task out h
    simp only [as_batch_parse_records] at h
    split at h
    · simp at h
    · rename_i o hm
      simp at h; subst h
      exact as_batch_parse_message_sizes hm
    · rename_i t hm
      exact same_sizes_trans (as_batch_parse_message_sizes hm) (ih t out h)

theorem as_batch_parse_sizes :
    ∀ (frames : List as_frame) (err : as_error) (task : as_batch_task) (out : parse_out),
      as_batch_parse err frames task = some out → same_sizes task out.task := by
  intro frames
  induction frames with
  | nil =>
    intro err task out h
    simp [as_batch_parse] at h
    subst h; exact same_sizes_refl _
  | cons f frames ih =>
    intro err task out h
    simp only [as_batch_parse] at h
    split at h
    · simp at h; subst h; exact same_sizes_refl _
    split at h
    · split at h
      · simp at h; subst h; exact same_sizes_refl _
      split at h
      · simp at h
      rename_i o hp
      have hs := as_batch_parse_records_sizes _ _ _ hp
      split at h
      · split at h
        · simp at h; subst h; exact hs
        · simp at h; subst h; exact hs
      · exact same_sizes_trans hs (ih _ _ _ h)
    · exact ih _ _ _ h

theorem as_batch_command_execute_sizes {net : as_node_net} {task t : as_batch_task}
    {status : as_status} (h : as_batch_command_execute net task = some (status, t)) :
    same_sizes task t := by
  have hsend : as_batch_send net task = some (status, t) := by
    unfold as_batch_command_execute as_batch_index_records_execute as_batch_index_execute
      as_batch_direct_execute at h
    split at h
    · split at h <;> exact h
    · exact h
  unfold as_batch_send as_command_execute at hsend
  split at hsend
  · simp at hsend
  rename_i out ho
  have hs : same_sizes task out.task := by
    split at ho
    · simp at ho; subst ho; exact same_sizes_refl _
    · exact as_batch_parse_sizes _ _ _ _ ho
  split at hsend
  · split at hsend <;>
    · simp at hsend; rw [← hsend.2]; exact hs
  · simp at hsend; rw [← hsend.2]; exact hs

theorem as_batch_workers_sizes (env : batch_env) (use_new : Nat → Bool) :
    ∀ (bs : List as_batch_node) (task : as_batch_task) (w : workers_out),
      as_batch_workers env use_new bs task = some w → same_sizes task w.task := by
  intro bs
  induction bs with
  | nil =>
    intro task w h
    simp [as_batch_workers] at h
    subst h; exact same_sizes_refl _
  | cons b bs ih =>
    intro task w h
    simp only [as_batch_workers] at h
    split at h
    · simp at h
    rename_i result task_node hc
    have h1 := as_batch_command_execute_sizes hc
    split at h
    · simp at h
    rename_i rest hr
    have h2 := ih _ _ hr
    simp at h; subst h
    exact same_sizes_trans (b := { task with
            err := task_node.err
            error_mutex := task_node.error_mutex
            records := task_node.records
            results := task_node.results
            xdr_calls := task_node.xdr_calls }) h1 h2

theorem as_batch_sequential_sizes (env : batch_env) (use_new : Nat → Bool)
    (reset_index : Bool) :
    ∀ (bs : List as_batch_node) (status : as_status) (task : as_batch_task)
      (s : sequential_out),
      as_batch_sequential env use_new reset_index bs status task = some s →
        same_sizes task s.task := by
  intro bs
  induction bs with
  | nil =>
    intro status task s h
    simp [as_batch_sequential] at h
    subst h; exact same_sizes_refl _
  | cons b bs ih =>
    intro status task s h
    simp only [as_batch_sequential] at h
    split at h
    · split at h
      · simp at h
      rename_i st t hc
      have h1 := as_batch_command_execute_sizes hc
      split at h
      · simp at h
      rename_i rest hr
      have h2 := ih _ _ _ hr
      simp at h; subst h
      exact same_sizes_trans h1 h2
    · simp at h; subst h; exact same_sizes_refl _

theorem as_batch_queue_tasks_sizes (env : batch_env) (status : as_status)
    (task : as_batch_task) :
    ∀ (bs : List as_batch_node) (i : Nat),
      same_sizes task (as_batch_queue_tasks env status task i bs).task := by
  intro bs
  induction bs with
  | nil => intro i; simp [as_batch_queue_tasks]; exact same_sizes_refl _
  | cons b bs ih =>
    intro i
    simp only [as_batch_queue_tasks]
    split
    · split <;> exact same_sizes_refl _
    · exact ih (i + 1)

theorem as_batch_dispatch_sizes {env : batch_env} {policy : as_policy_batch}
    {use_new : Nat → Bool} {reset_index : Bool} {bs : List as_batch_node}
    {task : as_batch_task} {s : sequential_out}
    (h : as_batch_dispatch env policy use_new reset_index bs task = some s) :
    same_sizes task s.task := by
  unfold as_batch_dispatch at h
  split at h
  · simp only at h
    split at h
    · simp at h
    rename_i w hw
    have h1 := as_batch_workers_sizes _ _ _ _ _ hw
    simp at h; subst h
    exact same_sizes_trans (as_batch_queue_tasks_sizes env _ task bs 0) h1
  · exact as_batch_sequential_sizes _ _ _ _ _ _ _ h

theorem as_batch_map_records_ok (env : batch_env) (policy : as_policy_batch)
    (route : Nat → Option Nat) :
    ∀ (todo : List as_batch_read_record) (i : Nat) (st : map_records_state),
      (∀ k (hk : k < todo.length),
        (env.as_key_set_digest todo[k].key).1 = AEROSPIKE_OK ∧
        ∃ node, env.as_node_get (i + k)
            { todo[k].key with digest := (env.as_key_set_digest todo[k].key).2 } = some node ∧
          route (i + k) = some node ∧ as_batch_use_new env policy node = true) →
      offsets_partition route i st.batch_nodes →
      ∃ st', as_batch_map_records env policy i todo st = .ok st' ∧
        offsets_partition route (i + todo.length) st'.batch_nodes ∧
        st'.records.length = st.records.length + todo.length := by
  intro todo
  induction todo with
  | nil =>
    intro i st _ hp
    exact ⟨st, rfl, by simpa using hp, by simp⟩
  | cons record todo ih =>
    intro i st h hp
    obtain ⟨hd, node, hn, hr, hu⟩ := h 0 (by simp)
    simp only [List.getElem_cons_zero, Nat.add_zero] at hd hn hr
    have htail : ∀ k (hk : k < todo.length),
        (env.as_key_set_digest todo[k].key).1 = AEROSPIKE_OK ∧
        ∃ node, env.as_node_get (i + 1 + k)
            { todo[k].key with digest := (env.as_key_set_digest todo[k].key).2 } = some node ∧
          route (i + 1 + k) = some node ∧ as_batch_use_new env policy node = true := by
      intro k hk
      have := h (k + 1) (by simpa using hk)
      simpa [Nat.add_assoc, Nat.add_comm 1 k] using this
    obtain ⟨st', h1, h2, h3⟩ := ih (i + 1)
      { records := st.records ++ [{ record with
          result := AEROSPIKE_ERR_RECORD_NOT_FOUND
          record := as_record_init
          key := { record.key with digest := (env.as_key_set_digest record.key).2 } }]
        batch_nodes := (as_batch_node_add st.batch_nodes node i).1
        trace := st.trace ++ [.key_set_digest i] ++
          [.node_get i (env.as_node_get i
            { record.key with digest := (env.as_key_set_digest record.key).2 })] ++
          (as_batch_node_add st.batch_nodes node i).2 }
      htail (offsets_partition_add hp hr)
    refine ⟨st', ?_, ?_, ?_⟩
    · rw [← h1]
      simp only [as_batch_map_records, hd, ne_eq, not_true_eq_false, if_false, hn, hu,
        Bool.not_true, Bool.false_eq_true]
    · simpa [Nat.add_assoc, Nat.add_comm 1] using h2
    · rw [h3]; simp [Nat.add_assoc, Nat.add_comm 1]

theorem as_batch_message_offset_frame {m : as_message} {task t : as_batch_task} {offset : Nat}
    (h : as_batch_message_offset m task = some (offset, t)) :
    t = task ∨ t = { task with index := task.index + 1 } := by
  unfold as_batch_message_offset at h
  split at h
  · simp at h; exact Or.inl h.2.symm
  · split at h
    · simp at h
    · simp at h; exact Or.inr h.2.symm

theorem as_batch_message_offset_view {m : as_message} {task t : as_batch_task} {offset : Nat}
    (h : as_batch_message_offset m task = some (offset, t)) :
    task_key t = task_key task ∧ task_result t = task_result task ∧
      task_record t = task_record task ∧
      t.use_batch_records = task.use_batch_records ∧ t.callback_xdr = task.callback_xdr ∧
      t.deserialize = task.deserialize ∧ t.xdr_calls = task.xdr_calls := by
  rcases as_batch_message_offset_frame h with h | h <;> subst h <;>
    refine ⟨?_, ?_, ?_, rfl, rfl, rfl, rfl⟩ <;> funext o <;>
    simp [task_key, task_result, task_record]

theorem result_code_cases {m : as_message}
    (hcode : (m.hdr.result_code : Int) = AEROSPIKE_OK ∨
      (m.hdr.result_code : Int) = AEROSPIKE_ERR_RECORD_NOT_FOUND) :
    m.hdr.result_code = 0 ∨ m.hdr.result_code = 2 := by
  rcases hcode with h | h
  · left; simpa [AEROSPIKE_OK] using h
  · right
    have : (m.hdr.result_code : Int) = ((2 : Nat) : Int) := by
      simpa [AEROSPIKE_ERR_RECORD_NOT_FOUND] using h
    exact Int.ofNat_inj.mp this

theorem as_batch_parse_message_match_aux (err : as_error) (m : as_message)
    (task t : as_batch_task) (offset : Nat) (key : as_key) (r0 : as_status)
    (hcode : m.hdr.result_code = 0 ∨ m.hdr.result_code = 2)
    (hlast : m.hdr.info3 &&& AS_MSG_INFO3_LAST = 0)
    (hoff : as_batch_message_offset m task = some (offset, t))
    (hkey : task_key t offset = some key)
    (hdig : digest_matches (as_batch_parse_fields m.fields none) key = true)
    (hxdr : t.use_batch_records = true ∨ t.callback_xdr = none)
    (hslot : task_result t offset = some r0) :
    ∃ t', as_batch_parse_message err m task = some (.next t') ∧
      task_result t' offset = some (m.hdr.result_code : Int) ∧
      task_record t' offset =
        (if (m.hdr.result_code : Int) = AEROSPIKE_OK then
          some (as_batch_parse_record m t.deserialize)
        else task_record t offset) ∧
      (∀ o, o ≠ offset → task_result t' o = task_result t o ∧
        task_record t' o = task_record t o) ∧
      t'.xdr_calls = t.xdr_calls := by
  have hdn : ¬ (as_batch_parse_fields m.fields none = none) := by
    intro h; rw [h] at hdig; simp [digest_matches] at hdig
  cases hb : t.use_batch_records with
  | true =>
    simp only [task_key, task_result, task_record, hb, if_true] at hkey hslot ⊢
    cases hrs : t.records with
    | none => simp [hrs] at hkey
    | some records =>
      simp only [hrs, Option.bind_some] at hkey hslot ⊢
      cases hr : records[offset]? with
      | none => simp [hr] at hkey
      | some record =>
        simp [hr] at hkey hslot
        have hlt : offset < records.length := (List.getElem?_eq_some.mp hr).1
        rcases hcode with hc | hc
        · refine ⟨{ t with records := some (records.set offset
            { record with result := (m.hdr.result_code : Int)
                          record := as_batch_parse_record m t.deserialize }) }, ?_, ?_, ?_, ?_, ?_⟩
          · simp [as_batch_parse_message, hc, hlast, hoff, hb, hrs, hr, hkey, hdig, hdn,
              AEROSPIKE_OK]
          · simp [hb, hlt]
          · simp [hb, hlt, hc, AEROSPIKE_OK]
          · intro o ho
            simp [hb, List.getElem?_set_ne (Ne.symm ho)]
          · rfl
        · refine ⟨{ t with records := some (records.set offset
            { record with result := (m.hdr.result_code : Int) }) }, ?_, ?_, ?_, ?_, ?_⟩
          · simp [as_batch_parse_message, hc, hlast, hoff, hb, hrs, hr, hkey, hdig, hdn,
              AEROSPIKE_OK, AEROSPIKE_ERR_RECORD_NOT_FOUND]
          · simp [hb, hlt]
          · simp [hb, hlt, hc, hr, AEROSPIKE_OK]
          · intro o ho
            simp [hb, List.getElem?_set_ne (Ne.symm ho)]
          · rfl
  | false =>
    have hxdr' : t.callback_xdr = none := by
      rcases hxdr with h | h
      · rw [hb] at h; cases h
      · exact h
    simp only [task_key, task_result, task_record, hb, Bool.false_eq_true, if_false]
      at hkey hslot ⊢
    cases hrs : t.results with
    | none => simp [hrs] at hslot
    | some results =>
      simp only [hrs, Option.bind_some] at hslot ⊢
      cases hr : results[offset]? with
      | none => simp [hr] at hslot
      | some result =>
        have hlt : offset < results.length := (List.getElem?_eq_some.mp hr).1
        rcases hcode with hc | hc
        · refine ⟨{ t with results := some (results.set offset
            { result with result := (m.hdr.result_code : Int)
                          record := as_batch_parse_record m t.deserialize }) }, ?_, ?_, ?_, ?_, ?_⟩
          · simp [as_batch_parse_message, hc, hlast, hoff, hb, hrs, hr, hkey, hdig, hdn,
              hxdr',
              AEROSPIKE_OK]
          · simp [hb, hlt]
          · simp [hb, hlt, hc, AEROSPIKE_OK]
          · intro o ho
            simp [hb, List.getElem?_set_ne (Ne.symm ho)]
          · rfl
        · refine ⟨{ t with results := some (results.set offset
            { result with result := (m.hdr.result_code : Int) }) }, ?_, ?_, ?_, ?_, ?_⟩
          · simp [as_batch_parse_message, hc, hlast, hoff, hb, hrs, hr, hkey, hdig, hdn,
              hxdr',
              AEROSPIKE_OK, AEROSPIKE_ERR_RECORD_NOT_FOUND]
          · simp [hb, hlt]
          · simp [hb, hlt, hc, hr, AEROSPIKE_OK]
          · intro o ho
            simp [hb, List.getElem?_set_ne (Ne.symm ho)]
          · rfl

/-- A message that passes the result code test and is not the sentinel, whose digest matches
the key at its offset, on a task that collects results: the step ends at the end of the loop
body, having written the result code at the offset and, when the code is OK, the parsed
record; every other offset is untouched and the XDR callback is not called. -/
theorem as_batch_parse_message_match (err : as_error) (m : as_message)
    (task t : as_batch_task) (offset : Nat) (key : as_key) (r0 : as_status)
    (hcode : (m.hdr.result_code : Int) = AEROSPIKE_OK ∨
      (m.hdr.result_code : Int) = AEROSPIKE_ERR_RECORD_NOT_FOUND)
    (hlast : m.hdr.info3 &&& AS_MSG_INFO3_LAST = 0)
    (hoff : as_batch_message_offset m task = some (offset, t))
    (hkey : task_key task offset = some key)
    (hdig : digest_matches (as_batch_parse_fields m.fields none) key = true)
    (hxdr : task.use_batch_records = true ∨ task.callback_xdr = none)
    (hslot : task_result task offset = some r0) :
    ∃ t', as_batch_parse_message err m task = some (.next t') ∧
      task_result t' offset = some (m.hdr.result_code : Int) ∧
      task_record t' offset =
        (if (m.hdr.result_code : Int) = AEROSPIKE_OK then
          some (as_batch_parse_record m task.deserialize)
        else task_record task offset) ∧
      (∀ o, o ≠ offset → task_result t' o = task_result task o ∧
        task_record t' o = task_record task o) ∧
      t'.xdr_calls = task.xdr_calls := by
  obtain ⟨hv1, hv2, hv3, hv4, hv5, hv6, hv7⟩ := as_batch_message_offset_view hoff
  have h := as_batch_parse_message_match_aux err m task t offset key r0
    (result_code_cases hcode) hlast hoff (by rw [hv1]; exact hkey) hdig
    (by rw [hv4, hv5]; exact hxdr) (by rw [hv2]; exact hslot)
  rw [hv2, hv3, hv6, hv7] at h
  exact h

theorem as_batch_parse_fields_none :
    ∀ (fields : List as_field) (digest : Option (List Nat)),
      (∀ f ∈ fields, f.type ≠ AS_FIELD_DIGEST) →
        as_batch_parse_fields fields digest = digest := by
  intro fields
  induction fields with
  | nil => intro digest _; rfl
  | cons f fields ih =>
    intro digest h
    have hf : f.type ≠ AS_FIELD_DIGEST := h f (by simp)
    simp only [as_batch_parse_fields, hf, if_false]
    exact ih digest (fun g hg => h g (by simp [hg]))

/-- A message that passes the result code test and is not the sentinel, whose digest does not
match the key at its offset (or that has no digest field): the step returns the unexpected
key error with the task as the offset computation left it. -/
theorem as_batch_parse_message_mismatch (err : as_error) (m : as_message)
    (task t : as_batch_task) (offset : Nat) (key : as_key)
    (hcode : (m.hdr.result_code : Int) = AEROSPIKE_OK ∨
      (m.hdr.result_code : Int) = AEROSPIKE_ERR_RECORD_NOT_FOUND)
    (hlast : m.hdr.info3 &&& AS_MSG_INFO3_LAST = 0)
    (hoff : as_batch_message_offset m task = some (offset, t))
    (hkey : task_key task offset = some key)
    (hdig : digest_matches (as_batch_parse_fields m.fields none) key = false) :
    as_batch_parse_message err m task =
      some (.returned ⟨AEROSPIKE_ERR_CLIENT,
        as_error_set_message AEROSPIKE_ERR_CLIENT (.unexpected_batch_key offset), t⟩) := by
  obtain ⟨hv1, _⟩ := as_batch_message_offset_view hoff
  rw [← hv1] at hkey
  have hc := result_code_cases hcode
  cases hb : t.use_batch_records with
  | true =>
    simp only [task_key, hb, if_true] at hkey
    cases hrs : t.records with
    | none => simp [hrs] at hkey
    | some records =>
      cases hr : records[offset]? with
      | none => simp [hrs, hr] at hkey
      | some record =>
        simp [hrs, hr] at hkey
        by_cases hdn : as_batch_parse_fields m.fields none = none
        · rcases hc with hc | hc <;>
            simp [as_batch_parse_message, hc, hlast, hoff, hb, hrs, hdn,
              AEROSPIKE_ERR_RECORD_NOT_FOUND]
        · rcases hc with hc | hc <;>
            simp [as_batch_parse_message, hc, hlast, hoff, hb, hrs, hr, hkey, hdig, hdn,
              AEROSPIKE_ERR_RECORD_NOT_FOUND]
  | false =>
    simp only [task_key, hb, Bool.false_eq_true, if_false] at hkey
    by_cases hdn : as_batch_parse_fields m.fields none = none
    · rcases hc with hc | hc <;>
        simp [as_batch_parse_message, hc, hlast, hoff, hb, hdn,
          AEROSPIKE_ERR_RECORD_NOT_FOUND]
    · rcases hc with hc | hc <;>
        simp [as_batch_parse_message, hc, hlast, hoff, hb, hkey, hdig, hdn,
          AEROSPIKE_ERR_RECORD_NOT_FOUND]

/-- A message that passes the result code test and is not the sentinel and has no digest
field: the step returns the unexpected key error without reading the key at the offset (the
records vector, when the task uses it, is not null). -/
theorem as_batch_parse_message_no_digest (err : as_error) (m : as_message)
    (task t : as_batch_task) (offset : Nat)
    (hcode : (m.hdr.result_code : Int) = AEROSPIKE_OK ∨
      (m.hdr.result_code : Int) = AEROSPIKE_ERR_RECORD_NOT_FOUND)
    (hlast : m.hdr.info3 &&& AS_MSG_INFO3_LAST = 0)
    (hoff : as_batch_message_offset m task = some (offset, t))
    (hrecords : task.use_batch_records = true → task.records ≠ none)
    (hdn : as_batch_parse_fields m.fields none = none) :
    as_batch_parse_message err m task =
      some (.returned ⟨AEROSPIKE_ERR_CLIENT,
        as_error_set_message AEROSPIKE_ERR_CLIENT (.unexpected_batch_key offset), t⟩) := by
  have hc := result_code_cases hcode
  have hu : t.use_batch_records = task.use_batch_records ∧ t.records = task.records := by
    rcases as_batch_message_offset_frame hoff with h | h <;> subst h <;> exact ⟨rfl, rfl⟩
  cases hb : t.use_batch_records with
  | true =>
    cases hrs : t.records with
    | none => exact absurd (hu.2 ▸ hrs) (hrecords (hu.1 ▸ hb))
    | some records =>
      rcases hc with hc | hc <;>
        simp [as_batch_parse_message, hc, hlast, hoff, hb, hrs, hdn,
          AEROSPIKE_ERR_RECORD_NOT_FOUND]
  | false =>
    rcases hc with hc | hc <;>
      simp [as_batch_parse_message, hc, hlast, hoff, hb, hdn, AEROSPIKE_ERR_RECORD_NOT_FOUND]

/-- A message that passes the result code test and is not the sentinel, whose digest matches
the key at its offset, on a task with an XDR callback: no per-offset result is written; the
callback is called when the code is OK and only then. -/
theorem as_batch_parse_message_xdr (err : as_error) (m : as_message)
    (task t : as_batch_task) (offset : Nat) (key : as_key)
    (callback_xdr : as_key → as_record → Bool)
    (hcode : (m.hdr.result_code : Int) = AEROSPIKE_OK ∨
      (m.hdr.result_code : Int) = AEROSPIKE_ERR_RECORD_NOT_FOUND)
    (hlast : m.hdr.info3 &&& AS_MSG_INFO3_LAST = 0)
    (hoff : as_batch_message_offset m task = some (offset, t))
    (hkey : task_key task offset = some key)
    (hdig : digest_matches (as_batch_parse_fields m.fields none) key = true)
    (hrec : task.use_batch_records = false)
    (hxdr : task.callback_xdr = some callback_xdr) :
    ∃ step, as_batch_parse_message err m task = some step ∧
      task_result step.task = task_result task ∧
      ((m.hdr.result_code : Int) = AEROSPIKE_ERR_RECORD_NOT_FOUND →
        step = .next t ∧ t.xdr_calls = task.xdr_calls) := by
  obtain ⟨hv1, hv2, _, hv4, hv5, _, hv7⟩ := as_batch_message_offset_view hoff
  rw [← hv1] at hkey
  rw [← hv4] at hrec
  rw [← hv5] at hxdr
  rw [← hv2, ← hv7]
  simp only [task_key, hrec, Bool.false_eq_true, if_false] at hkey
  have hdn : ¬ (as_batch_parse_fields m.fields none = none) := by
    intro h; rw [h] at hdig; simp [digest_matches] at hdig
  rcases result_code_cases hcode with hc | hc
  · cases hrv : callback_xdr key (as_batch_parse_record m t.deserialize) with
    | true =>
      refine ⟨.next { t with xdr_calls := t.xdr_calls ++
        [(key, as_batch_parse_record m t.deserialize)] }, ?_, ?_, ?_⟩
      · simp [as_batch_parse_message, hc, hlast, hoff, hrec, hkey, hdig, hdn, hxdr,
          hrv,
          AEROSPIKE_OK]
      · funext o; simp [task_result, parse_step.task]
      · intro h; rw [hc] at h; simp [AEROSPIKE_ERR_RECORD_NOT_FOUND] at h
    | false =>
      refine ⟨.returned ⟨AEROSPIKE_ERR_CLIENT_ABORT, err, { t with xdr_calls := t.xdr_calls ++
        [(key, as_batch_parse_record m t.deserialize)] }⟩, ?_, ?_, ?_⟩
      · simp [as_batch_parse_message, hc, hlast, hoff, hrec, hkey, hdig, hdn, hxdr,
          hrv,
          AEROSPIKE_OK]
      · funext o; simp [task_result, parse_step.task]
      · intro h; rw [hc] at h; simp [AEROSPIKE_ERR_RECORD_NOT_FOUND] at h
  · refine ⟨.next t, ?_, rfl, fun _ => ⟨rfl, rfl⟩⟩
    simp [as_batch_parse_message, hc, hlast, hoff, hrec, hkey, hdig, hdn, hxdr,
      AEROSPIKE_OK, AEROSPIKE_ERR_RECORD_NOT_FOUND]

theorem as_batch_parse_message_error_code (err : as_error) (m : as_message)
    (task : as_batch_task)
    (h0 : m.hdr.result_code ≠ 0)
    (h2 : (m.hdr.result_code : Int) ≠ AEROSPIKE_ERR_RECORD_NOT_FOUND) :
    as_batch_parse_message err m task =
      some (.returned ⟨m.hdr.result_code,
        as_error_set_message m.hdr.result_code (.error_string m.hdr.result_code), task⟩) := by
  simp [as_batch_parse_message, h0, h2]

theorem as_batch_parse_message_last (err : as_error) (m : as_message)
    (task : as_batch_task)
    (hcode : (m.hdr.result_code : Int) = AEROSPIKE_OK ∨
      (m.hdr.result_code : Int) = AEROSPIKE_ERR_RECORD_NOT_FOUND)
    (hlast : m.hdr.info3 &&& AS_MSG_INFO3_LAST ≠ 0) :
    as_batch_parse_message err m task =
      some (.returned ⟨AEROSPIKE_NO_MORE_RECORDS, err, task⟩) := by
  rcases result_code_cases hcode with hc | hc <;>
    simp [as_batch_parse_message, hc, hlast, AEROSPIKE_ERR_RECORD_NOT_FOUND]

theorem as_batch_parse_message_returned_status {err : as_error} {m : as_message}
    {task : as_batch_task} {out : parse_out}
    (h : as_batch_parse_message err m task = some (.returned out)) :
    out.status ≠ AEROSPIKE_OK := by
  unfold as_batch_parse_message at h
  split at h
  · rename_i hc
    simp at h; subst h
    simp only [AEROSPIKE_OK]
    intro h0
    exact hc.1 (by exact_mod_cast h0)
  split at h
  · simp at h; subst h; simp [AEROSPIKE_NO_MORE_RECORDS, AEROSPIKE_OK]
  repeat' split at h
  all_goals (try simp at h)
  all_goals (try split at h)
  all_goals (try simp at h)
  all_goals (try split at h)
  all_goals (try simp at h)
  all_goals (try split at h)
  all_goals (try simp at h)
  all_goals (try (obtain ⟨_, h⟩ := h))
  all_goals (try subst h)
  all_goals (try simp [AEROSPIKE_ERR_CLIENT, AEROSPIKE_ERR_CLIENT_ABORT, AEROSPIKE_OK])

theorem as_batch_parse_records_ok_append {err : as_error} :
    ∀ (pre : List as_message) (task : as_batch_task) (out : parse_out),
      as_batch_parse_records err pre task = some out → out.status = AEROSPIKE_OK →
        out.err = err ∧
        ∀ rest, as_batch_parse_records err (pre ++ rest) task =
          as_batch_parse_records err rest out.task := by
  intro pre
  induction pre with
  | nil =>
    intro task out h _
    simp [as_batch_parse_records] at h
    subst h
    exact ⟨rfl, fun _ => rfl⟩
  | cons m pre ih =>
    intro task out h hok
    simp only [as_batch_parse_records] at h
    split at h
    · simp at h
    · rename_i o hm
      simp at h; subst h
      exact absurd hok (as_batch_parse_message_returned_status hm)
    · rename_i t hm
      obtain ⟨h1, h2⟩ := ih t out h hok
      refine ⟨h1, fun rest => ?_⟩
      simp only [List.cons_append, as_batch_parse_records, hm]
      exact h2 rest

theorem as_batch_parse_records_cons_next {err : as_error} {m : as_message}
    {task t' : as_batch_task} (h : as_batch_parse_message err m task = some (.next t'))
    (buf : List as_message) :
    as_batch_parse_records err (m :: buf) task = as_batch_parse_records err buf t' := by
  simp [as_batch_parse_records, h]

theorem as_batch_parse_records_cons_returned {err : as_error} {m : as_message}
    {task : as_batch_task} {out : parse_out}
    (h : as_batch_parse_message err m task = some (.returned out))
    (buf : List as_message) :
    as_batch_parse_records err (m :: buf) task = some out := by
  simp [as_batch_parse_records, h]

/-- C2 (amended). In as_batch_parse_records, for a message whose result code is NOT_FOUND:
(1) if it is not the LAST sentinel, its digest matches the key at its offset and the task
collects per-offset results (records vector, or results array with no XDR callback), the
result at that offset becomes NOT_FOUND, the record at that offset is left as it was (no bins
are parsed), the other offsets are untouched and parsing continues with the next message;
(2) with an XDR callback instead, nothing is recorded, the callback is not called and parsing
continues with the next message; (3) if it has the LAST bit set, the parse ends with
NO_MORE_RECORDS and nothing is written. (4) A message with any other non-zero result code
makes as_batch_parse_records return exactly that code with the task, hence every per-offset
result, unmodified. -/
theorem C2_not_found_and_error_codes (err : as_error) (m : as_message)
    (task t : as_batch_task) (offset : Nat) (key : as_key) :
    (∀ r0, (m.hdr.result_code : Int) = AEROSPIKE_ERR_RECORD_NOT_FOUND →
      m.hdr.info3 &&& AS_MSG_INFO3_LAST = 0 →
      as_batch_message_offset m task = some (offset, t) →
      task_key task offset = some key →
      digest_matches (as_batch_parse_fields m.fields none) key = true →
      (task.use_batch_records = true ∨ task.callback_xdr = none) →
      task_result task offset = some r0 →
      ∃ t', as_batch_parse_message err m task = some (.next t') ∧
        task_result t' offset = some AEROSPIKE_ERR_RECORD_NOT_FOUND ∧
        task_record t' offset = task_record task offset ∧
        (∀ o, o ≠ offset → task_result t' o = task_result task o) ∧
        ∀ buf, as_batch_parse_records err (m :: buf) task =
          as_batch_parse_records err buf t') ∧
    (∀ callback_xdr, (m.hdr.result_code : Int) = AEROSPIKE_ERR_RECORD_NOT_FOUND →
      m.hdr.info3 &&& AS_MSG_INFO3_LAST = 0 →
      as_batch_message_offset m task = some (offset, t) →
      task_key task offset = some key →
      digest_matches (as_batch_parse_fields m.fields none) key = true →
      task.use_batch_records = false →
      task.callback_xdr = some callback_xdr →
      task_result t = task_result task ∧ t.xdr_calls = task.xdr_calls ∧
        ∀ buf, as_batch_parse_records err (m :: buf) task =
          as_batch_parse_records err buf t) ∧
    ((m.hdr.result_code : Int) = AEROSPIKE_ERR_RECORD_NOT_FOUND →
      m.hdr.info3 &&& AS_MSG_INFO3_LAST ≠ 0 →
      ∀ buf, as_batch_parse_records err (m :: buf) task =
        some ⟨AEROSPIKE_NO_MORE_RECORDS, err, task⟩) ∧
    (m.hdr.result_code ≠ 0 →
      (m.hdr.result_code : Int) ≠ AEROSPIKE_ERR_RECORD_NOT_FOUND →
      ∀ buf, as_batch_parse_records err (m :: buf) task =
        some ⟨m.hdr.result_code,
          as_error_set_message m.hdr.result_code (.error_string m.hdr.result_code), task⟩) := by
  refine ⟨?_, ?_, ?_, ?_⟩
  · intro r0 hcode hlast hoff hkey hdig hxdr hslot
    obtain ⟨t', h1, h2, h3, h4, _⟩ := as_batch_parse_message_match err m task t offset key r0
      (Or.inr hcode) hlast hoff hkey hdig hxdr hslot
    have hne : ¬ ((m.hdr.result_code : Int) = AEROSPIKE_OK) := by
      rw [hcode]; decide
    refine ⟨t', h1, by rw [h2, hcode], by rw [h3, if_neg hne], fun o ho => (h4 o ho).1, ?_⟩
    exact as_batch_parse_records_cons_next h1
  · intro callback_xdr hcode hlast hoff hkey hdig hrec hxdr
    obtain ⟨step, h1, h2, h3⟩ := as_batch_parse_message_xdr err m task t offset key
      callback_xdr (Or.inr hcode) hlast hoff hkey hdig hrec hxdr
    obtain ⟨h4, h5⟩ := h3 hcode
    subst h4
    exact ⟨h2, h5, as_batch_parse_records_cons_next h1⟩
  · intro hcode hlast buf
    exact as_batch_parse_records_cons_returned
      (as_batch_parse_message_last err m task (Or.inr hcode) hlast) buf
  · intro h0 h2 buf
    exact as_batch_parse_records_cons_returned
      (as_batch_parse_message_error_code err m task h0 h2) buf

/-- Witness of C2: the four parts at concrete messages for the key key_a at offset 0. -/
theorem C2_not_found_and_error_codes_witness :
    (∃ t', as_batch_parse_message as_error_reset (record_message 0 2) results_task =
        some (.next t') ∧
      task_result t' 0 = some AEROSPIKE_ERR_RECORD_NOT_FOUND) ∧
    (∀ buf, as_batch_parse_records as_error_reset (record_message 0 2 :: buf) xdr_task =
      as_batch_parse_records as_error_reset buf xdr_task) ∧
    (∀ buf, as_batch_parse_records as_error_reset (record_message 1 2 :: buf) results_task =
      some ⟨AEROSPIKE_NO_MORE_RECORDS, as_error_reset, results_task⟩) ∧
    (∀ buf, as_batch_parse_records as_error_reset (record_message 0 5 :: buf) results_task =
      some ⟨5, as_error_set_message 5 (.error_string 5), results_task⟩) := by
  refine ⟨?_, ?_, ?_, ?_⟩
  · obtain ⟨t', h1, h2, _⟩ :=
      (C2_not_found_and_error_codes as_error_reset (record_message 0 2) results_task
        results_task 0 key_a).1 AEROSPIKE_OK (by decide) (by decide) rfl (by decide)
        (by decide) (Or.inr rfl) (by decide)
    exact ⟨t', h1, h2⟩
  · exact ((C2_not_found_and_error_codes as_error_reset (record_message 0 2) xdr_task
      xdr_task 0 key_a).2.1 (fun _ _ => true) (by decide) (by decide) rfl (by decide)
      (by decide) rfl rfl).2.2
  · exact (C2_not_found_and_error_codes as_error_reset (record_message 1 2) results_task
      results_task 0 key_a).2.2.1 (by decide) (by decide)
  · exact (C2_not_found_and_error_codes as_error_reset (record_message 0 5) results_task
      results_task 0 key_a).2.2.2 (by decide) (by decide)

/-- Counterexample to C2 as stated. A message with result code NOT_FOUND whose digest matches
the key at its offset 0 (a) with the LAST bit set: the parse ends with NO_MORE_RECORDS, the
result at offset 0 stays OK and the next message is not parsed; (b) on a task with an XDR
callback: the parse goes on to the end of the buffer, no per-offset result exists and the
callback is not called. -/
theorem C2_counterexample :
    ((record_message 1 2).hdr.result_code : Int) = AEROSPIKE_ERR_RECORD_NOT_FOUND ∧
    digest_matches (as_batch_parse_fields (record_message 1 2).fields none) key_a = true ∧
    task_key results_task 0 = some key_a ∧
    (as_batch_parse_records as_error_reset [record_message 1 2, record_message 0 2]
        results_task).map (fun out => (out.status, task_result out.task 0)) =
      some (AEROSPIKE_NO_MORE_RECORDS, some AEROSPIKE_OK) ∧
    task_key xdr_task 0 = some key_a ∧
    (as_batch_parse_records as_error_reset [record_message 0 2] xdr_task).map
        (fun out => (out.status, task_result out.task 0, out.task.xdr_calls.length)) =
      some (AEROSPIKE_OK, none, 0) := by
  decide

/-- C3 (amended). For every message of as_batch_parse_records that is not the sentinel and
whose result code is OK or NOT_FOUND (any other code returns before the digest is looked at):
(1) if it carries no digest field the function returns the unexpected key error
(AEROSPIKE_ERR_CLIENT) and every per-offset result is as before; (2) so it does if its digest
differs from the digest of the key at its offset; (3) if the digest matches and the task
collects per-offset results (records vector, or results array with no XDR callback), the
result code is written at exactly that offset and no other offset changes; (4) if the digest
matches and the task has an XDR callback, no per-offset result is written at all. -/
theorem C3_digest_check (err : as_error) (m : as_message) (task t : as_batch_task)
    (offset : Nat)
    (hcode : (m.hdr.result_code : Int) = AEROSPIKE_OK ∨
      (m.hdr.result_code : Int) = AEROSPIKE_ERR_RECORD_NOT_FOUND)
    (hlast : m.hdr.info3 &&& AS_MSG_INFO3_LAST = 0)
    (hoff : as_batch_message_offset m task = some (offset, t)) :
    ((∀ f ∈ m.fields, f.type ≠ AS_FIELD_DIGEST) →
      (task.use_batch_records = true → task.records ≠ none) →
      (∀ buf, as_batch_parse_records err (m :: buf) task =
        some ⟨AEROSPIKE_ERR_CLIENT,
          as_error_set_message AEROSPIKE_ERR_CLIENT (.unexpected_batch_key offset), t⟩) ∧
        task_result t = task_result task) ∧
    (∀ key, task_key task offset = some key →
      digest_matches (as_batch_parse_fields m.fields none) key = false →
      (∀ buf, as_batch_parse_records err (m :: buf) task =
        some ⟨AEROSPIKE_ERR_CLIENT,
          as_error_set_message AEROSPIKE_ERR_CLIENT (.unexpected_batch_key offset), t⟩) ∧
        task_result t = task_result task) ∧
    (∀ key, task_key task offset = some key →
      digest_matches (as_batch_parse_fields m.fields none) key = true →
      (task.use_batch_records = true ∨ task.callback_xdr = none) →
      ∀ r0, task_result task offset = some r0 →
      ∃ t', as_batch_parse_message err m task = some (.next t') ∧
        task_result t' offset = some (m.hdr.result_code : Int) ∧
        ∀ o, o ≠ offset → task_result t' o = task_result task o) ∧
    (∀ key, task_key task offset = some key →
      digest_matches (as_batch_parse_fields m.fields none) key = true →
      task.use_batch_records = false →
      ∀ callback_xdr, task.callback_xdr = some callback_xdr →
      ∃ step, as_batch_parse_message err m task = some step ∧
        task_result step.task = task_result task) := by
  refine ⟨?_, ?_, ?_, ?_⟩
  · intro hnone hrecords
    exact ⟨as_batch_parse_records_cons_returned
        (as_batch_parse_message_no_digest err m task t offset hcode hlast hoff hrecords
          (as_batch_parse_fields_none m.fields none hnone)),
      (as_batch_message_offset_view hoff).2.1⟩
  · intro key hkey hdig
    exact ⟨as_batch_parse_records_cons_returned
        (as_batch_parse_message_mismatch err m task t offset key hcode hlast hoff hkey hdig),
      (as_batch_message_offset_view hoff).2.1⟩
  · intro key hkey hdig hxdr r0 hslot
    obtain ⟨t', h1, h2, _, h4, _⟩ := as_batch_parse_message_match err m task t offset key r0
      hcode hlast hoff hkey hdig hxdr hslot
    exact ⟨t', h1, h2, fun o ho => (h4 o ho).1⟩
  · intro key hkey hdig hrec callback_xdr hxdr
    obtain ⟨step, h1, h2, _⟩ := as_batch_parse_message_xdr err m task t offset key
      callback_xdr hcode hlast hoff hkey hdig hrec hxdr
    exact ⟨step, h1, h2⟩

/-- Witness of C3: a message without a digest field, a message with another digest, a message
with the digest of key_a on the records vector, and one on a task with an XDR callback. -/
theorem C3_digest_check_witness :
    (∀ buf, as_batch_parse_records as_error_reset (bare_message 0 0 :: buf) results_task =
      some ⟨AEROSPIKE_ERR_CLIENT,
        as_error_set_message AEROSPIKE_ERR_CLIENT (.unexpected_batch_key 0), results_task⟩) ∧
    (∀ buf, as_batch_parse_records as_error_reset (index_record 0 (digest_of 7) :: buf)
        results_task =
      some ⟨AEROSPIKE_ERR_CLIENT,
        as_error_set_message AEROSPIKE_ERR_CLIENT (.unexpected_batch_key 0), results_task⟩) ∧
    (∃ t', as_batch_parse_message as_error_reset (record_message 0 2) records_task =
        some (.next t') ∧
      task_result t' 0 = some AEROSPIKE_ERR_RECORD_NOT_FOUND) ∧
    (∃ step, as_batch_parse_message as_error_reset (record_message 0 0) xdr_task = some step ∧
      task_result step.task = task_result xdr_task) := by
  refine ⟨?_, ?_, ?_, ?_⟩
  · exact ((C3_digest_check as_error_reset (bare_message 0 0) results_task results_task 0
      (Or.inl rfl) (by decide) rfl).1 (by decide) (by decide)).1
  · exact ((C3_digest_check as_error_reset (index_record 0 (digest_of 7)) results_task
      results_task 0 (Or.inl rfl) (by decide) rfl).2.1 key_a (by decide) (by decide)).1
  · obtain ⟨t', h1, h2, _⟩ :=
      (C3_digest_check as_error_reset (record_message 0 2) records_task records_task 0
        (Or.inr rfl) (by decide) rfl).2.2.1 key_a (by decide) (by decide) (Or.inl rfl)
        AEROSPIKE_OK (by decide)
    exact ⟨t', h1, h2⟩
  · exact (C3_digest_check as_error_reset (record_message 0 0) xdr_task xdr_task 0
      (Or.inl rfl) (by decide) rfl).2.2.2 key_a (by decide) (by decide) rfl
      (fun _ _ => true) rfl

/-- Counterexample to C3 as stated. (a) A message that is not the sentinel, with result
code 1 and no digest field: as_batch_parse_records returns the server code 1, not the
unexpected key error. (b) A message that is not the sentinel, with result code OK and the
digest of the key at its offset 0, on a task with an XDR callback: the parse succeeds, the
callback is called once and no result code is written at offset 0. -/
theorem C3_counterexample :
    (bare_message 0 1).hdr.info3 &&& AS_MSG_INFO3_LAST = 0 ∧
    (∀ f ∈ (bare_message 0 1).fields, f.type ≠ AS_FIELD_DIGEST) ∧
    (as_batch_parse_records as_error_reset [bare_message 0 1] results_task).map
        (fun out => (out.status, out.err)) =
      some (AEROSPIKE_ERR_SERVER,
        as_error_set_message AEROSPIKE_ERR_SERVER (.error_string AEROSPIKE_ERR_SERVER)) ∧
    AEROSPIKE_ERR_SERVER ≠ AEROSPIKE_ERR_CLIENT ∧
    (record_message 0 0).hdr.info3 &&& AS_MSG_INFO3_LAST = 0 ∧
    digest_matches (as_batch_parse_fields (record_message 0 0).fields none) key_a = true ∧
    task_key xdr_task 0 = some key_a ∧
    (as_batch_parse_records as_error_reset [record_message 0 0] xdr_task).map
        (fun out => (out.status, task_result out.task 0, out.task.xdr_calls.length)) =
      some (AEROSPIKE_OK, none, 1) := by
  decide

/-- C4 (amended). Let as_batch_parse_records have processed the messages `pre` of a buffer
without returning, leaving the task t', and let the next message m have the LAST bit of info3
set (it is the first such message). If the result code of m is OK or NOT_FOUND, the function
stops with NO_MORE_RECORDS, which as_batch_parse maps to OK without reading a further frame;
if m has another result code, the function stops with that code and so does as_batch_parse.
Either way m is a sentinel: the task is t', so no per-offset result is written and no
callback is called for m, and neither the messages after m nor the frames after this one
are examined. -/
theorem C4_last_sentinel (err : as_error) (pre post : List as_message) (m : as_message)
    (task t' : as_batch_task) (frames : List as_frame)
    (hpre : as_batch_parse_records err pre task = some ⟨AEROSPIKE_OK, err, t'⟩)
    (hlast : m.hdr.info3 &&& AS_MSG_INFO3_LAST ≠ 0) :
    (((m.hdr.result_code : Int) = AEROSPIKE_OK ∨
        (m.hdr.result_code : Int) = AEROSPIKE_ERR_RECORD_NOT_FOUND) →
      as_batch_parse_records err (pre ++ m :: post) task =
        some ⟨AEROSPIKE_NO_MORE_RECORDS, err, t'⟩ ∧
      as_batch_parse err (⟨0, 0, pre ++ m :: post⟩ :: frames) task =
        some ⟨AEROSPIKE_OK, err, t'⟩) ∧
    ((m.hdr.result_code ≠ 0 ∧
        (m.hdr.result_code : Int) ≠ AEROSPIKE_ERR_RECORD_NOT_FOUND) →
      as_batch_parse_records err (pre ++ m :: post) task =
        some ⟨m.hdr.result_code,
          as_error_set_message m.hdr.result_code (.error_string m.hdr.result_code), t'⟩ ∧
      as_batch_parse err (⟨0, 0, pre ++ m :: post⟩ :: frames) task =
        some ⟨m.hdr.result_code,
          as_error_set_message m.hdr.result_code (.error_string m.hdr.result_code), t'⟩) := by
  have happ := (as_batch_parse_records_ok_append pre task _ hpre rfl).2 (m :: post)
  simp only at happ
  constructor
  · intro hcode
    have h1 : as_batch_parse_records err (pre ++ m :: post) task =
        some ⟨AEROSPIKE_NO_MORE_RECORDS, err, t'⟩ := by
      rw [happ]
      exact as_batch_parse_records_cons_returned
        (as_batch_parse_message_last err m t' hcode hlast) post
    refine ⟨h1, ?_⟩
    simp [as_batch_parse, h1, AEROSPIKE_NO_MORE_RECORDS, AEROSPIKE_OK]
  · intro hcode
    have h1 : as_batch_parse_records err (pre ++ m :: post) task =
        some ⟨m.hdr.result_code,
          as_error_set_message m.hdr.result_code (.error_string m.hdr.result_code), t'⟩ := by
      rw [happ]
      exact as_batch_parse_records_cons_returned
        (as_batch_parse_message_error_code err m t' hcode.1 hcode.2) post
    refine ⟨h1, ?_⟩
    have h0 : ¬ ((m.hdr.result_code : Int) = 0) := by
      intro h; exact hcode.1 (by exact_mod_cast h)
    have h3 : ¬ ((m.hdr.result_code : Int) = -3) := by omega
    simp [as_batch_parse, h1, AEROSPIKE_NO_MORE_RECORDS, AEROSPIKE_OK, h0, h3]

/-- Witness of C4: after an OK message for offset 0, a sentinel with result code OK, then a
sentinel with result code 1, each followed by a message and a frame that are not read. -/
theorem C4_last_sentinel_witness :
    as_batch_parse as_error_reset
        [⟨0, 0, [record_message 0 0, bare_message 1 0, record_message 0 2]⟩,
          ⟨AEROSPIKE_ERR_TIMEOUT, 0, []⟩] results_task =
      some ⟨AEROSPIKE_OK, as_error_reset,
        { results_task with results := some [⟨0, AEROSPIKE_OK, ⟨1, 0, []⟩⟩] }⟩ ∧
    as_batch_parse as_error_reset
        [⟨0, 0, [record_message 0 0, bare_message 1 1, record_message 0 2]⟩,
          ⟨AEROSPIKE_ERR_TIMEOUT, 0, []⟩] results_task =
      some ⟨1, as_error_set_message 1 (.error_string 1),
        { results_task with results := some [⟨0, AEROSPIKE_OK, ⟨1, 0, []⟩⟩] }⟩ :=
  ⟨((C4_last_sentinel as_error_reset [record_message 0 0] [record_message 0 2]
      (bare_message 1 0) results_task
      { results_task with results := some [⟨0, AEROSPIKE_OK, ⟨1, 0, []⟩⟩] }
      [⟨AEROSPIKE_ERR_TIMEOUT, 0, []⟩] rfl (by decide)).1 (Or.inl rfl)).2,
   ((C4_last_sentinel as_error_reset [record_message 0 0] [record_message 0 2]
      (bare_message 1 1) results_task
      { results_task with results := some [⟨0, AEROSPIKE_OK, ⟨1, 0, []⟩⟩] }
      [⟨AEROSPIKE_ERR_TIMEOUT, 0, []⟩] rfl (by decide)).2 ⟨by decide, by decide⟩).2⟩

/-- Counterexample to C4 as stated: the first (and only) message of the buffer has the LAST
bit set and result code 1; as_batch_parse_records stops with status 1, not with
NO_MORE_RECORDS, and as_batch_parse returns 1, not OK. -/
theorem C4_counterexample :
    (bare_message 1 1).hdr.info3 &&& AS_MSG_INFO3_LAST ≠ 0 ∧
    (as_batch_parse_records as_error_reset [bare_message 1 1] results_task).map (·.status) =
      some AEROSPIKE_ERR_SERVER ∧
    AEROSPIKE_ERR_SERVER ≠ AEROSPIKE_NO_MORE_RECORDS ∧
    (as_batch_parse as_error_reset [⟨0, 0, [bare_message 1 1]⟩] results_task).map (·.status) =
      some AEROSPIKE_ERR_SERVER ∧
    AEROSPIKE_ERR_SERVER ≠ AEROSPIKE_OK := by
  decide

theorem as_batch_parse_message_next_index {err : as_error} {m : as_message}
    {task t' : as_batch_task} (h : as_batch_parse_message err m task = some (.next t')) :
    m.hdr.info3 &&& AS_MSG_INFO3_LAST = 0 ∧ t'.offsets = task.offsets ∧
      t'.use_new_batch = task.use_new_batch ∧
      (task.use_new_batch = false →
        t'.index = task.index + 1 ∧ t'.index ≤ task.offsets.length) := by
  unfold as_batch_parse_message at h
  split at h
  · simp at h
  split at h
  · simp at h
  rename_i hl
  have hl' : m.hdr.info3 &&& AS_MSG_INFO3_LAST = 0 := by
    by_contra hc; exact hl hc
  split at h
  · simp at h
  rename_i offset t ho
  have ht : t.offsets = task.offsets ∧ t.use_new_batch = task.use_new_batch ∧
      (task.use_new_batch = false →
        t.index = task.index + 1 ∧ t.index ≤ task.offsets.length) := by
    unfold as_batch_message_offset at ho
    split at ho
    · rename_i hu
      simp at ho
      rw [← ho.2]
      exact ⟨rfl, rfl, fun hf => by rw [hu] at hf; cases hf⟩
    · split at ho
      · simp at ho
      · rename_i off hget
        simp at ho
        rw [← ho.2]
        have hlt : task.index < task.offsets.length := (List.getElem?_eq_some.mp hget).1
        exact ⟨rfl, rfl, fun _ => ⟨rfl, hlt⟩⟩
  have key : ∀ t'' : as_batch_task, t''.offsets = t.offsets →
      t''.use_new_batch = t.use_new_batch → t''.index = t.index →
      (m.hdr.info3 &&& AS_MSG_INFO3_LAST = 0 ∧ t''.offsets = task.offsets ∧
        t''.use_new_batch = task.use_new_batch ∧
        (task.use_new_batch = false →
          t''.index = task.index + 1 ∧ t''.index ≤ task.offsets.length)) := by
    intro t'' h1 h2 h3
    exact ⟨hl', h1.trans ht.1, h2.trans ht.2.1, fun hf => by rw [h3]; exact ht.2.2 hf⟩
  clear ho ht hl hl'
  simp only at h
  repeat' split at h
  all_goals (try simp at h)
  all_goals (try (obtain ⟨_, h⟩ := h))
  all_goals (exact key _ rfl rfl rfl)

theorem as_batch_parse_message_sentinel {err : as_error} {m : as_message}
    {task : as_batch_task} {out : parse_out}
    (h : as_batch_parse_message err m task = some (.returned out))
    (hs : out.status = AEROSPIKE_NO_MORE_RECORDS) :
    m.hdr.info3 &&& AS_MSG_INFO3_LAST ≠ 0 ∧ out.task = task := by
  unfold as_batch_parse_message at h
  split at h
  · simp at h; subst h
    simp only [AEROSPIKE_NO_MORE_RECORDS] at hs
    have h0 : (0 : Int) ≤ (m.hdr.result_code : Int) := Int.ofNat_nonneg _
    have h3 : (m.hdr.result_code : Int) = -3 := hs
    omega
  split at h
  · rename_i hl
    simp at h; subst h
    exact ⟨hl, rfl⟩
  repeat' split at h
  all_goals (try simp at h)
  all_goals (try split at h)
  all_goals (try simp at h)
  all_goals (try split at h)
  all_goals (try simp at h)
  all_goals (try split at h)
  all_goals (try simp at h)
  all_goals (try (obtain ⟨_, h⟩ := h))
  all_goals (try subst h)
  all_goals (simp [AEROSPIKE_ERR_CLIENT, AEROSPIKE_ERR_CLIENT_ABORT,
    AEROSPIKE_NO_MORE_RECORDS] at hs)

/-- One buffer: when as_batch_parse_records returns OK every message of the buffer is a
record message and was parsed; when it returns NO_MORE_RECORDS the messages before the first
sentinel were. On the direct protocol task.index has advanced by their number and is within
the offsets vector. -/
theorem as_batch_parse_records_count {err : as_error} :
    ∀ (buf : List as_message) (task : as_batch_task) (out : parse_out),
      as_batch_parse_records err buf task = some out →
      (out.status = AEROSPIKE_OK ∨ out.status = AEROSPIKE_NO_MORE_RECORDS) →
      out.task.offsets = task.offsets ∧ out.task.use_new_batch = task.use_new_batch ∧
      (out.status = AEROSPIKE_OK →
        ∀ rest, (buf ++ rest).takeWhile
            (fun m => decide (m.hdr.info3 &&& AS_MSG_INFO3_LAST = 0)) =
          buf ++ rest.takeWhile (fun m => decide (m.hdr.info3 &&& AS_MSG_INFO3_LAST = 0))) ∧
      (out.status = AEROSPIKE_NO_MORE_RECORDS →
        ∀ rest, (buf ++ rest).takeWhile
            (fun m => decide (m.hdr.info3 &&& AS_MSG_INFO3_LAST = 0)) =
          buf.takeWhile (fun m => decide (m.hdr.info3 &&& AS_MSG_INFO3_LAST = 0))) ∧
      (task.use_new_batch = false → task.index ≤ task.offsets.length →
        out.task.index = task.index +
          (buf.takeWhile (fun m => decide (m.hdr.info3 &&& AS_MSG_INFO3_LAST = 0))).length ∧
        out.task.index ≤ task.offsets.length) := by
  intro buf
  induction buf with
  | nil =>
    intro task out h _
    simp [as_batch_parse_records] at h
    subst h
    simp [AEROSPIKE_OK, AEROSPIKE_NO_MORE_RECORDS]
  | cons m buf ih =>
    intro task out h hs
    simp only [as_batch_parse_records] at h
    split at h
    · simp at h
    · rename_i o hm
      simp at h; subst h
      have hs' : o.status = AEROSPIKE_NO_MORE_RECORDS := by
        rcases hs with hs | hs
        · exact absurd hs (as_batch_parse_message_returned_status hm)
        · exact hs
      obtain ⟨hl, ht⟩ := as_batch_parse_message_sentinel hm hs'
      rw [ht]
      refine ⟨rfl, rfl, ?_, ?_, ?_⟩
      · intro hok; rw [hs'] at hok; simp [AEROSPIKE_OK, AEROSPIKE_NO_MORE_RECORDS] at hok
      · intro _ rest
        simp [List.takeWhile_cons, hl]
      · intro _ hle
        simp [List.takeWhile_cons, hl, hle]
    · rename_i t hm
      obtain ⟨hl, h1, h2, h3⟩ := as_batch_parse_message_next_index hm
      obtain ⟨i1, i2, i3, i4, i5⟩ := ih t out h hs
      refine ⟨i1.trans h1, i2.trans h2, ?_, ?_, ?_⟩
      · intro hok rest
        simp [List.takeWhile_cons, hl, i3 hok rest]
      · intro hno rest
        simp [List.takeWhile_cons, hl, i4 hno rest]
      · intro hf hle
        obtain ⟨h4, h5⟩ := h3 hf
        have := i5 (by rw [h2]; exact hf) (by rw [h1]; exact h5)
        simp only [List.takeWhile_cons, hl, decide_True, if_true, List.length_cons]
        rw [h1] at this
        omega

/-- The frames: when as_batch_parse returns OK it has reached the sentinel, and on the direct
protocol task.index has advanced by the number of messages before the sentinel and is within
the offsets vector. -/
theorem as_batch_parse_count :
    ∀ (frames : List as_frame) (err : as_error) (task : as_batch_task) (out : parse_out),
      as_batch_parse err frames task = some out → out.status = AEROSPIKE_OK →
      task.use_new_batch = false → task.index ≤ task.offsets.length →
      out.task.index = task.index + (stream_records frames).length ∧
        out.task.index ≤ task.offsets.length := by
  intro frames
  induction frames with
  | nil =>
    intro err task out h hok
    simp [as_batch_parse] at h
    subst h
    simp [as_socket_read_deadline_eof, AEROSPIKE_ERR_TIMEOUT, AEROSPIKE_OK] at hok
  | cons f frames ih =>
    intro err task out h hok hf hle
    simp only [as_batch_parse] at h
    split at h
    · rename_i hh
      simp at h; subst h
      exact absurd hok hh
    split at h
    · split at h
      · rename_i hb
        simp at h; subst h
        exact absurd hok hb
      split at h
      · simp at h
      rename_i o hp
      split at h
      · rename_i hne
        split at h
        · rename_i hno
          simp at h; subst h
          obtain ⟨_, _, _, i4, i5⟩ := as_batch_parse_records_count _ _ _ hp (Or.inr hno)
          have := i5 hf hle
          simp only [stream_records, List.flatMap_cons, i4 hno]
          exact this
        · simp at h; subst h
          exact absurd hok hne
      · rename_i hok'
        have hok'' : o.status = AEROSPIKE_OK := by
          by_contra hc; exact hok' hc
        obtain ⟨i1, i2, i3, _, i5⟩ := as_batch_parse_records_count _ _ _ hp (Or.inl hok'')
        obtain ⟨j1, j2⟩ := i5 hf hle
        have := ih o.err o.task out h hok (by rw [i2]; exact hf) (by rw [i1]; exact j2)
        simp only [stream_records, List.flatMap_cons, i3 hok'', List.length_append]
        rw [i1] at this
        simp only [stream_records] at this
        have hall : f.body.takeWhile
            (fun m => decide (m.hdr.info3 &&& AS_MSG_INFO3_LAST = 0)) = f.body := by
          have := i3 hok'' []
          simpa using this
        rw [hall] at j1
        omega
    · rename_i hlen
      have hnil : f.body = [] := by
        cases hb : f.body with
        | nil => rfl
        | cons a l => rw [hb] at hlen; simp at hlen
      have := ih err task out h hok hf hle
      simpa [stream_records, List.flatMap_cons, hnil] using this

/-- C10 (amended). as_batch_parse does not compare the number of messages with the number of
offsets of the task. For every response stream it accepts (returns OK, which it does only
after the LAST sentinel) on the direct protocol, where every message takes its offset from
the offsets vector at task.index, starting at 0, the number of non-sentinel messages it parsed
is the final task.index and is at most the number of offsets in the task. -/
theorem C10_message_count (err : as_error) (frames : List as_frame) (task : as_batch_task)
    (out : parse_out)
    (haccept : as_batch_parse err frames task = some out)
    (hok : out.status = AEROSPIKE_OK)
    (hdirect : task.use_new_batch = false)
    (hindex : task.index = 0) :
    (stream_records frames).length = out.task.index ∧
      (stream_records frames).length ≤ task.offsets.length := by
  have h := as_batch_parse_count frames err task out haccept hok hdirect (by omega)
  omega

/-- Witness of C10: the direct task for one offset is served an OK message, then the
sentinel. -/
theorem C10_message_count_witness :
    (stream_records [⟨0, 0, [record_message 0 0, bare_message 1 0]⟩]).length = 1 ∧
      (stream_records [⟨0, 0, [record_message 0 0, bare_message 1 0]⟩]).length ≤
        direct_task.offsets.length :=
  C10_message_count as_error_reset [⟨0, 0, [record_message 0 0, bare_message 1 0]⟩]
    direct_task
    ⟨AEROSPIKE_OK, as_error_reset,
      { direct_task with index := 1, results := some [⟨0, AEROSPIKE_OK, ⟨1, 0, []⟩⟩] }⟩
    rfl rfl rfl rfl

/-- Counterexample to C10 as stated. (a) The direct task has one offset and is served a
frame with only the sentinel: as_batch_parse returns OK having parsed no message. (b) The
index task has one offset and is served two messages for offset 0, then the sentinel:
as_batch_parse returns OK having parsed two messages. -/
theorem C10_counterexample :
    (as_batch_parse as_error_reset [⟨0, 0, [bare_message 1 0]⟩] direct_task).map (·.status) =
      some AEROSPIKE_OK ∧
    (stream_records [⟨0, 0, [bare_message 1 0]⟩]).length = 0 ∧
    direct_task.offsets.length = 1 ∧
    (as_batch_parse as_error_reset
        [⟨0, 0, [record_message 0 0, record_message 0 2, bare_message 1 0]⟩]
        results_task).map (·.status) = some AEROSPIKE_OK ∧
    (stream_records
      [⟨0, 0, [record_message 0 0, record_message 0 2, bare_message 1 0]⟩]).length = 2 ∧
    results_task.offsets.length = 1 := by
  decide

/-- C8. For a batch with zero keys, as_batch_execute, reached through aerospike_batch_get,
aerospike_batch_get_bins and aerospike_batch_exists with a callback, returns AEROSPIKE_OK and
the only thing it does is to call the callback once with results = null and n = 0: the
snapshot is not reserved, no key is routed and no node task is executed. -/
theorem C8_empty_batch (env : batch_env) (policy : as_policy_batch) (read_attr n_bins : Nat)
    (bins : List String) (callback_xdr : Option (as_key → as_record → Bool)) :
    as_batch_execute env policy [] read_attr bins n_bins true callback_xdr =
        some ⟨AEROSPIKE_OK, as_error_reset, [.callback none 0]⟩ ∧
      aerospike_batch_get env policy [] true =
        some ⟨AEROSPIKE_OK, as_error_reset, [.callback none 0]⟩ ∧
      aerospike_batch_get_bins env policy [] bins n_bins true =
        some ⟨AEROSPIKE_OK, as_error_reset, [.callback none 0]⟩ ∧
      aerospike_batch_exists env policy [] true =
        some ⟨AEROSPIKE_OK, as_error_reset, [.callback none 0]⟩ := by
  simp [as_batch_execute, aerospike_batch_get, aerospike_batch_get_bins, aerospike_batch_exists]

/-- C9. For every non-empty batch, if the reserved nodes snapshot has size 0 then
as_batch_execute and aerospike_batch_read return the non-OK error AEROSPIKE_ERR_SERVER with
the message that the cluster is empty, and all they do is to reserve the snapshot and to
release it: no key is routed, no node task is executed and the callback is not called. -/
theorem C9_cluster_empty (env : batch_env) (policy : as_policy_batch) (keys : List as_key)
    (read_attr n_bins : Nat) (bins : List String) (callback : Bool)
    (callback_xdr : Option (as_key → as_record → Bool))
    (records : List as_batch_read_record)
    (hkeys : keys ≠ []) (hrecords : records ≠ []) (hsize : env.nodes_size = 0) :
    as_batch_execute env policy keys read_attr bins n_bins callback callback_xdr =
        some ⟨AEROSPIKE_ERR_SERVER,
          as_error_set_message AEROSPIKE_ERR_SERVER .cluster_empty,
          [.nodes_reserve, .nodes_release]⟩ ∧
      aerospike_batch_read env policy records =
        some (⟨AEROSPIKE_ERR_SERVER,
          as_error_set_message AEROSPIKE_ERR_SERVER .cluster_empty,
          [.nodes_reserve, .nodes_release]⟩, records) ∧
      AEROSPIKE_ERR_SERVER ≠ AEROSPIKE_OK := by
  have h1 : ¬ keys.length ≤ 0 := by
    cases keys with
    | nil => exact absurd rfl hkeys
    | cons _ _ => simp
  have h2 : ¬ records.length ≤ 0 := by
    cases records with
    | nil => exact absurd rfl hrecords
    | cons _ _ => simp
  refine ⟨?_, ?_, by decide⟩
  · simp only [as_batch_execute, h1, if_false, hsize, if_true]
  · simp only [aerospike_batch_read, h2, if_false, hsize, if_true]

/-- Witness of C9: the keys of demo_keys, and one record, on a snapshot of size 0. -/
theorem C9_cluster_empty_witness :
    as_batch_execute { two_nodes_env 0 with nodes_size := 0 } sequential_policy demo_keys
        3 [] 0 true none =
      some ⟨AEROSPIKE_ERR_SERVER, as_error_set_message AEROSPIKE_ERR_SERVER .cluster_empty,
        [.nodes_reserve, .nodes_release]⟩ :=
  (C9_cluster_empty { two_nodes_env 0 with nodes_size := 0 } sequential_policy demo_keys
    3 0 [] true none [⟨⟨"a", digest_of 0⟩, none, 0, true, 0, as_record_init⟩]
    (by decide) (by decide) rfl).1

theorem as_batch_release_nodes_is_mapping (bs : List as_batch_node) :
    ∀ e ∈ as_batch_release_nodes bs, e.is_mapping = true := by
  intro e he
  simp only [as_batch_release_nodes, List.mem_map] at he
  obtain ⟨b, _, rfl⟩ := he
  rfl

theorem as_batch_node_add_is_mapping (bs : List as_batch_node) (node i : Nat) :
    ∀ e ∈ (as_batch_node_add bs node i).2, e.is_mapping = true := by
  intro e he
  cases hf : as_batch_node_find bs node with
  | none => simp [as_batch_node_add, hf] at he
  | some k =>
    simp [as_batch_node_add, hf] at he
    subst he; rfl

/-- Every event of the key loop of as_batch_execute, whether the loop ends or returns early,
is an event of the key loop: no task is queued or executed and the callback is not called. -/
theorem as_batch_map_keys_is_mapping (env : batch_env) (policy : as_policy_batch)
    (callback : Bool) (ns : String) :
    ∀ (todo : List as_key) (i : Nat) (st : map_state),
      (∀ e ∈ st.trace, e.is_mapping = true) →
      ∀ e ∈ map_trace (as_batch_map_keys env policy callback ns i todo st),
        e.is_mapping = true := by
  intro todo
  induction todo with
  | nil => intro i st h; simpa [as_batch_map_keys, map_trace] using h
  | cons key todo ih =>
    intro i st h
    have hrel := as_batch_release_nodes_is_mapping st.batch_nodes
    simp only [as_batch_map_keys]
    split
    · intro e he
      simp only [map_trace, List.mem_append, List.mem_singleton] at he
      rcases he with ((he | he) | he) | he
      · exact h e he
      · subst he; rfl
      · exact hrel e he
      · subst he; rfl
    · split
      · intro e he
        simp only [map_trace, List.mem_append, List.mem_singleton] at he
        rcases he with (((he | he) | he) | he) | he
        · exact h e he
        · subst he; rfl
        · subst he; rfl
        · exact hrel e he
        · subst he; rfl
      · rename_i node hn
        split
        · intro e he
          simp only [map_trace, List.mem_append, List.mem_singleton] at he
          rcases he with (((he | he) | he) | he) | he
          · exact h e he
          · subst he; rfl
          · subst he; rfl
          · exact hrel e he
          · subst he; rfl
        · apply ih
          intro e he
          simp only [List.mem_append, List.mem_singleton] at he
          rcases he with ((he | he) | he) | he
          · exact h e he
          · subst he; rfl
          · subst he; rfl
          · exact as_batch_node_add_is_mapping _ _ _ e he

theorem as_batch_map_keys_append (env : batch_env) (policy : as_policy_batch)
    (callback : Bool) (ns : String) :
    ∀ (pre rest : List as_key) (i : Nat) (st : map_state),
      as_batch_map_keys env policy callback ns i (pre ++ rest) st =
        match as_batch_map_keys env policy callback ns i pre st with
        | .error e => .error e
        | .ok st' => as_batch_map_keys env policy callback ns (i + pre.length) rest st' := by
  intro pre
  induction pre with
  | nil => intro rest i st; simp [as_batch_map_keys]
  | cons key pre ih =>
    intro rest i st
    simp only [List.cons_append, as_batch_map_keys]
    split
    · rfl
    · split
      · rfl
      · split
        · rfl
        · exact (ih rest (i + 1) _).trans (by simp [Nat.add_assoc, Nat.add_comm 1])

/-- C5 (amended). Let the snapshot be non-empty and let the key at index j be routed to a node
that uses the direct (legacy) protocol and have a namespace different from the namespace of
the first key of the batch, the keys before j having passed the key loop (digest and routing
succeed, and those routed to a direct node are in the namespace of the first key), and digest
and routing succeed for the key at j. Then as_batch_execute fails with AEROSPIKE_ERR_PARAM,
"Batch keys must all be in the same namespace.", having done nothing but the key loop: no
task is queued, no per-node command is executed and the callback is not called. -/
theorem C5_namespace_mismatch (env : batch_env) (policy : as_policy_batch)
    (keys : List as_key) (read_attr n_bins : Nat) (bins : List String) (callback : Bool)
    (callback_xdr : Option (as_key → as_record → Bool)) (j : Nat) (key : as_key) (node : Nat)
    (hnodes : env.nodes_size ≠ 0)
    (hj : keys[j]? = some key)
    (hbefore : ∀ i, i < j → ∃ k n, keys[i]? = some k ∧
      (env.as_key_set_digest k).1 = AEROSPIKE_OK ∧ batch_route env keys i = some n ∧
      (as_batch_use_new env policy n = false → k.ns = as_batch_first_ns keys))
    (hdigest : (env.as_key_set_digest key).1 = AEROSPIKE_OK)
    (hroute : batch_route env keys j = some node)
    (hdirect : as_batch_use_new env policy node = false)
    (hns : key.ns ≠ as_batch_first_ns keys) :
    ∃ out, as_batch_execute env policy keys read_attr bins n_bins callback callback_xdr =
        some out ∧
      out.status = AEROSPIKE_ERR_PARAM ∧
      out.err = as_error_set_message AEROSPIKE_ERR_PARAM .same_namespace ∧
      (∀ e ∈ out.trace, e.is_mapping = true) ∧
      (∀ n offsets, batch_event.command_execute n offsets ∉ out.trace) ∧
      (∀ results n, batch_event.callback results n ∉ out.trace) := by
  have hjlt : j < keys.length := (List.getElem?_eq_some.mp hj).1
  have hkj : keys[j] = key := (List.getElem?_eq_some.mp hj).2
  have hsplit : keys = keys.take j ++ key :: keys.drop (j + 1) := by
    rw [← hkj, ← List.drop_eq_getElem_cons hjlt, List.take_append_drop]
  have hlen : ¬ keys.length ≤ 0 := by omega
  have hprelen : (keys.take j).length = j := by
    rw [List.length_take]; omega
  set init : map_state := ⟨[], if callback then some [] else none, [], [.nodes_reserve]⟩
    with hinit
  obtain ⟨st', hpre, _⟩ := as_batch_map_keys_ok env policy callback (as_batch_first_ns keys)
    (batch_route env keys) (keys.take j) 0 init (by
      intro k hk
      have hkj' : k < j := by rw [hprelen] at hk; exact hk
      obtain ⟨k', n, h1, h2, h3, h4⟩ := hbefore k hkj'
      have hklt : k < keys.length := by omega
      have hk' : (keys.take j)[k] = k' := by
        rw [List.getElem_take]
        exact (List.getElem?_eq_some.mp h1).2
      rw [hk']
      refine ⟨h2, n, ?_, by simpa using h3, fun hu => (h4 hu).symm⟩
      simpa [batch_route, batch_key, h1] using h3)
    (offsets_partition_nil _)
  have hroute' : env.as_node_get j { key with digest := (env.as_key_set_digest key).2 } =
      some node := by
    simpa [batch_route, batch_key, hj] using hroute
  have hne : (as_batch_first_ns keys != key.ns) = true := by
    simp only [bne_iff_ne, ne_eq]
    exact fun h => hns h.symm
  have hloop : as_batch_map_keys env policy callback (as_batch_first_ns keys) 0 keys init =
      .error ⟨AEROSPIKE_ERR_PARAM, as_error_set_message AEROSPIKE_ERR_PARAM .same_namespace,
        st'.trace ++ [.key_set_digest j] ++ [.node_get j (some node)] ++
          as_batch_release_nodes st'.batch_nodes ++ [.nodes_release]⟩ := by
    have happ := as_batch_map_keys_append env policy callback (as_batch_first_ns keys)
      (keys.take j) (key :: keys.drop (j + 1)) 0 init
    rw [← hsplit] at happ
    rw [happ, hpre]
    simp only [hprelen, Nat.zero_add, as_batch_map_keys, hdigest, ne_eq, not_true_eq_false,
      if_false, hroute', hdirect, Bool.not_false, Bool.true_and, hne, if_true]
  have htrace := as_batch_map_keys_is_mapping env policy callback (as_batch_first_ns keys)
    keys 0 init (by
      intro e he
      simp only [hinit, List.mem_singleton] at he
      subst he; rfl)
  rw [hloop] at htrace
  simp only [map_trace] at htrace
  refine ⟨⟨AEROSPIKE_ERR_PARAM, as_error_set_message AEROSPIKE_ERR_PARAM .same_namespace,
    st'.trace ++ [.key_set_digest j] ++ [.node_get j (some node)] ++
      as_batch_release_nodes st'.batch_nodes ++ [.nodes_release]⟩, ?_, rfl, rfl, htrace, ?_, ?_⟩
  · simp only [as_batch_execute, hlen, if_false, hnodes]
    rw [← hinit, hloop]
  · intro n offsets hmem
    have := htrace _ hmem
    simp [batch_event.is_mapping] at this
  · intro results n hmem
    have := htrace _ hmem
    simp [batch_event.is_mapping] at this

/-- Witness of C5: the keys of demo_keys with the third key in namespace "b"; it is routed
to node 101, which uses the direct protocol. -/
theorem C5_namespace_mismatch_witness :
    ∃ out, as_batch_execute (two_nodes_env 0) sequential_policy
        [⟨"a", digest_of 0⟩, ⟨"a", digest_of 2⟩, ⟨"b", digest_of 1⟩] 3 [] 0 true none =
        some out ∧
      out.status = AEROSPIKE_ERR_PARAM ∧
      (∀ results n, batch_event.callback results n ∉ out.trace) := by
  obtain ⟨out, h1, h2, _, _, _, h6⟩ := C5_namespace_mismatch (two_nodes_env 0)
    sequential_policy [⟨"a", digest_of 0⟩, ⟨"a", digest_of 2⟩, ⟨"b", digest_of 1⟩] 3 0 []
    true none 2 ⟨"b", digest_of 1⟩ 101 (by decide) rfl
    (by
      intro i hi
      interval_cases i
      · exact ⟨⟨"a", digest_of 0⟩, 100, rfl, rfl, rfl, fun _ => rfl⟩
      · exact ⟨⟨"a", digest_of 2⟩, 100, rfl, rfl, rfl, fun _ => rfl⟩)
    rfl rfl rfl (by decide)
  exact ⟨out, h1, h2, h6⟩

/-- Counterexample to C5 as stated: the keys of demo_keys are in two namespaces, "a" and "b",
and the third key is routed to node 101, which uses the direct protocol; it is in the
namespace "a" of the first key, so the loop raises no error: as_batch_execute executes the
commands of both nodes, calls the callback and returns OK. -/
theorem C5_counterexample :
    demo_keys.map (·.ns) = ["a", "b", "a"] ∧
    batch_route (two_nodes_env 0) demo_keys 2 = some 101 ∧
    as_batch_use_new (two_nodes_env 0) sequential_policy 101 = false ∧
    as_batch_execute (two_nodes_env 0) sequential_policy demo_keys 3 [] 0 true none =
      some ⟨AEROSPIKE_OK, as_error_reset,
        [.nodes_reserve, .key_set_digest 0, .node_get 0 (some 100), .key_set_digest 1,
          .node_get 1 (some 100), .node_release 100, .key_set_digest 2,
          .node_get 2 (some 101), .nodes_release, .command_execute 100 [0, 1],
          .command_execute 101 [2], .node_release 100, .node_release 101,
          .callback (some [⟨0, AEROSPIKE_OK, ⟨1, 0, []⟩⟩, ⟨1, AEROSPIKE_OK, ⟨1, 0, []⟩⟩,
            ⟨2, AEROSPIKE_OK, ⟨1, 0, []⟩⟩]) 3]⟩ := by
  decide

theorem popped_append (a b : List batch_event) : popped (a ++ b) = popped a ++ popped b := by
  simp [popped, List.filterMap_append]

theorem popped_of_is_mapping (l : List batch_event) (h : ∀ e ∈ l, e.is_mapping = true) :
    popped l = [] := by
  induction l with
  | nil => rfl
  | cons e l ih =>
    have he := h e (by simp)
    have hl := ih (fun x hx => h x (by simp [hx]))
    cases e <;> simp_all [popped, batch_event.is_mapping]

theorem popped_pop_events (cs : List as_batch_complete_task) :
    popped (pop_events cs) = cs.map (·.result) := by
  induction cs with
  | nil => rfl
  | cons c cs ih =>
    simp only [pop_events, List.map_cons] at ih ⊢
    simp only [popped, List.filterMap_cons] at ih ⊢
    rw [ih]

theorem as_batch_map_records_is_mapping (env : batch_env) (policy : as_policy_batch) :
    ∀ (todo : List as_batch_read_record) (i : Nat) (st : map_records_state),
      (∀ e ∈ st.trace, e.is_mapping = true) →
      ∀ e ∈ map_records_trace (as_batch_map_records env policy i todo st),
        e.is_mapping = true := by
  intro todo
  induction todo with
  | nil => intro i st h; simpa [as_batch_map_records, map_records_trace] using h
  | cons record todo ih =>
    intro i st h
    have hrel := as_batch_release_nodes_is_mapping st.batch_nodes
    simp only [as_batch_map_records]
    split
    · intro e he
      simp only [map_records_trace, List.mem_append, List.mem_singleton] at he
      rcases he with ((he | he) | he) | he
      · exact h e he
      · subst he; rfl
      · exact hrel e he
      · subst he; rfl
    · split
      · intro e he
        simp only [map_records_trace, List.mem_append, List.mem_singleton] at he
        rcases he with (((he | he) | he) | he) | he
        · exact h e he
        · subst he; rfl
        · subst he; rfl
        · exact hrel e he
        · subst he; rfl
      · rename_i node hn
        split
        · intro e he
          simp only [map_records_trace, List.mem_append, List.mem_singleton] at he
          rcases he with (((he | he) | he) | he) | he
          · exact h e he
          · subst he; rfl
          · subst he; rfl
          · exact hrel e he
          · subst he; rfl
        · apply ih
          intro e he
          simp only [List.mem_append, List.mem_singleton] at he
          rcases he with ((he | he) | he) | he
          · exact h e he
          · subst he; rfl
          · subst he; rfl
          · exact as_batch_node_add_is_mapping _ _ _ e he

theorem as_batch_queue_tasks_all (env : batch_env) (status : as_status)
    (task : as_batch_task) :
    ∀ (bs : List as_batch_node) (i : Nat),
      (∀ k, k < bs.length → env.queue_task (i + k) = 0) →
      as_batch_queue_tasks env status task i bs =
        ⟨bs, status, task, bs.map (fun b => batch_event.queue_task b.node 0)⟩ := by
  intro bs
  induction bs with
  | nil => intro i _; rfl
  | cons b bs ih =>
    intro i h
    have h0 : env.queue_task i = 0 := by simpa using h 0 (by simp)
    have ht := ih (i + 1) (fun k hk => by
      have := h (k + 1) (by simpa using hk)
      simpa [Nat.add_assoc, Nat.add_comm 1 k] using this)
    simp [as_batch_queue_tasks, h0, ht]

theorem getElem_cons_eraseIdx_perm {α : Type} :
    ∀ (l : List α) (k : Nat) (d : α), k < l.length →
      (l.getD k d :: l.eraseIdx k).Perm l := by
  intro l
  induction l with
  | nil => intro k d h; simp at h
  | cons a l ih =>
    intro k d h
    cases k with
    | zero => simp
    | succ k =>
      simp only [List.getD_cons_succ, List.eraseIdx_cons_succ]
      have := ih k d (by simpa using h)
      exact (List.Perm.swap a (l.getD k d) (l.eraseIdx k)).trans (List.Perm.cons a this)

/-- The order in which the workers complete is a permutation of the queued tasks. -/
theorem completion_order_perm {α : Type} :
    ∀ (choices : List Nat) (pending : List α), (completion_order choices pending).Perm pending := by
  intro choices
  induction choices with
  | nil => intro pending; simp [completion_order]
  | cons c choices ih =>
    intro pending
    cases pending with
    | nil => simp [completion_order]
    | cons p ps =>
      simp only [completion_order]
      have hk : c % (ps.length + 1) < (p :: ps).length := by
        simp only [List.length_cons]
        exact Nat.mod_lt _ (Nat.succ_pos _)
      exact (List.Perm.cons _ (ih _)).trans (getElem_cons_eraseIdx_perm (p :: ps) _ p hk)

theorem as_batch_workers_completes (env : batch_env) (use_new : Nat → Bool) :
    ∀ (bs : List as_batch_node) (task : as_batch_task) (w : workers_out),
      as_batch_workers env use_new bs task = some w →
      w.completes.map (·.node) = bs.map (·.node) ∧ popped w.trace = [] := by
  intro bs
  induction bs with
  | nil =>
    intro task w h
    simp [as_batch_workers] at h
    subst h; exact ⟨rfl, rfl⟩
  | cons b bs ih =>
    intro task w h
    simp only [as_batch_workers] at h
    split at h
    · simp at h
    split at h
    · simp at h
    rename_i rest hr
    obtain ⟨h1, h2⟩ := ih _ _ hr
    simp at h; subst h
    refine ⟨by simp [h1], ?_⟩
    simp only [popped, List.filterMap_cons] at h2 ⊢
    exact h2

theorem as_batch_wait_eq :
    ∀ (cs : List as_batch_complete_task) (status : as_status),
      as_batch_wait cs status =
        if status ≠ AEROSPIKE_OK then status else first_not_ok (cs.map (·.result)) := by
  intro cs
  induction cs with
  | nil =>
    intro status
    by_cases hs : status = AEROSPIKE_OK <;> simp [as_batch_wait, first_not_ok, hs]
  | cons c cs ih =>
    intro status
    simp only [as_batch_wait, ih, List.map_cons, first_not_ok]
    by_cases hs : status = AEROSPIKE_OK
    · by_cases hc : c.result = AEROSPIKE_OK <;> simp [hs, hc]
    · simp [hs]

/-- The concurrent branch of the dispatch when every task is queued: one completion record
is popped per batch node and the status is the first result popped that is not OK. -/
theorem as_batch_dispatch_concurrent {env : batch_env} {policy : as_policy_batch}
    {use_new : Nat → Bool} {reset_index : Bool} {bs : List as_batch_node}
    {task : as_batch_task} {s : sequential_out}
    (hconc : policy.concurrent = true) (hmany : bs.length > 1)
    (hqueue : ∀ i, i < bs.length → env.queue_task i = 0)
    (h : as_batch_dispatch env policy use_new reset_index bs task = some s) :
    (popped s.trace).length = bs.length ∧ s.status = first_not_ok (popped s.trace) := by
  unfold as_batch_dispatch at h
  simp only [hconc, hmany, decide_True, Bool.and_self, if_true] at h
  rw [as_batch_queue_tasks_all env AEROSPIKE_OK task bs 0
    (fun k hk => by simpa using hqueue k hk)] at h
  simp only at h
  split at h
  · simp at h
  rename_i w hw
  obtain ⟨h1, h2⟩ := as_batch_workers_completes _ _ _ _ _ hw
  simp at h; subst h
  have hq : popped (bs.map (fun b => batch_event.queue_task b.node 0)) = [] := by
    clear hw hmany hqueue
    induction bs with
    | nil => rfl
    | cons b bs ih => simp [popped]
  have hlen : w.completes.length = bs.length := by
    have := congrArg List.length h1
    simp only [List.length_map] at this
    rw [this]
    exact (completion_order_perm env.completion bs).length_eq
  simp only [popped_append, hq, h2, popped_pop_events, List.nil_append, List.length_map]
  refine ⟨hlen, ?_⟩
  rw [as_batch_wait_eq]
  simp

/-- C6. In as_batch_execute and in aerospike_batch_read, when policy.concurrent is set, the
key loop has built more than one batch node and every per-node task is queued successfully
(as_thread_pool_queue_task returns 0), exactly n_batch_nodes completion records are popped
and the returned status is the result of the first popped record whose result is not OK, or
OK if every record is OK. -/
theorem C6_concurrent_fold (env : batch_env) (policy : as_policy_batch)
    (hconc : policy.concurrent = true) (hnodes : env.nodes_size ≠ 0) :
    (∀ (keys : List as_key) (read_attr n_bins : Nat) (bins : List String) (callback : Bool)
        (callback_xdr : Option (as_key → as_record → Bool)) (st : map_state)
        (out : batch_out),
      as_batch_map_keys env policy callback (as_batch_first_ns keys) 0 keys
          ⟨[], if callback then some [] else none, [], [.nodes_reserve]⟩ = .ok st →
      st.batch_nodes.length > 1 →
      (∀ i, i < st.batch_nodes.length → env.queue_task i = 0) →
      as_batch_execute env policy keys read_attr bins n_bins callback callback_xdr =
        some out →
      (popped out.trace).length = st.batch_nodes.length ∧
        out.status = first_not_ok (popped out.trace)) ∧
    (∀ (records left : List as_batch_read_record) (st : map_records_state)
        (out : batch_out),
      as_batch_map_records env policy 0 records ⟨[], [], [.nodes_reserve]⟩ = .ok st →
      st.batch_nodes.length > 1 →
      (∀ i, i < st.batch_nodes.length → env.queue_task i = 0) →
      aerospike_batch_read env policy records = some (out, left) →
      (popped out.trace).length = st.batch_nodes.length ∧
        out.status = first_not_ok (popped out.trace)) := by
  constructor
  · intro keys read_attr n_bins bins callback callback_xdr st out hmap hmany hqueue hout
    have hlen : ¬ keys.length ≤ 0 := by
      cases keys with
      | nil =>
        simp [as_batch_map_keys] at hmap
        subst hmap
        simp at hmany
      | cons _ _ => simp
    have htrace := as_batch_map_keys_is_mapping env policy callback (as_batch_first_ns keys)
      keys 0 ⟨[], if callback then some [] else none, [], [.nodes_reserve]⟩ (by
        intro e he
        simp only [List.mem_singleton] at he
        subst he; rfl)
    rw [hmap] at htrace
    simp only [map_trace] at htrace
    unfold as_batch_execute at hout
    simp only [hlen, if_false, hnodes] at hout
    rw [hmap] at hout
    simp only at hout
    split at hout
    · simp at hout
    rename_i done hd
    obtain ⟨h1, h2⟩ := as_batch_dispatch_concurrent hconc hmany hqueue hd
    simp only [Option.some.injEq] at hout
    subst hout
    have ha : popped st.trace = [] := popped_of_is_mapping _ htrace
    have hb : popped (as_batch_release_nodes st.batch_nodes) = [] :=
      popped_of_is_mapping _ (as_batch_release_nodes_is_mapping _)
    have hc : popped (if callback = true then
        [batch_event.callback done.task.results keys.length] else []) = [] := by
      cases callback <;> rfl
    have hr : popped [batch_event.nodes_release] = [] := rfl
    simp only [popped_append, ha, hb, hc, hr, List.nil_append, List.append_nil]
    exact ⟨h1, h2⟩
  · intro records left st out hmap hmany hqueue hout
    have hlen : ¬ records.length ≤ 0 := by
      cases records with
      | nil =>
        simp [as_batch_map_records] at hmap
        subst hmap
        simp at hmany
      | cons _ _ => simp
    have htrace := as_batch_map_records_is_mapping env policy records 0
      ⟨[], [], [.nodes_reserve]⟩ (by
        intro e he
        simp only [List.mem_singleton] at he
        subst he; rfl)
    rw [hmap] at htrace
    simp only [map_records_trace] at htrace
    unfold aerospike_batch_read at hout
    simp only [hlen, if_false, hnodes] at hout
    rw [hmap] at hout
    simp only at hout
    split at hout
    · simp at hout
    rename_i done hd
    obtain ⟨h1, h2⟩ := as_batch_dispatch_concurrent hconc hmany hqueue hd
    simp only [Option.some.injEq, Prod.mk.injEq] at hout
    obtain ⟨hout, _⟩ := hout
    subst hout
    have ha : popped st.trace = [] := popped_of_is_mapping _ htrace
    have hb : popped (as_batch_release_nodes st.batch_nodes) = [] :=
      popped_of_is_mapping _ (as_batch_release_nodes_is_mapping _)
    have hr : popped [batch_event.nodes_release] = [] := rfl
    simp only [popped_append, ha, hb, hr, List.nil_append, List.append_nil]
    exact ⟨h1, h2⟩

/-- Witness of C6: with two_nodes_env the connection to node 101 times out, with
index_nodes_env too, and there the worker of node 101 completes first. -/
theorem C6_concurrent_fold_witness :
    (∃ out, as_batch_execute (two_nodes_env AEROSPIKE_ERR_TIMEOUT) concurrent_policy demo_keys
        3 [] 0 true none = some out ∧
      popped out.trace = [AEROSPIKE_OK, AEROSPIKE_ERR_TIMEOUT] ∧
      out.status = first_not_ok (popped out.trace)) ∧
    (∃ out left, aerospike_batch_read index_nodes_env concurrent_policy demo_records =
        some (out, left) ∧
      popped out.trace = [AEROSPIKE_ERR_TIMEOUT, AEROSPIKE_OK] ∧
      out.status = first_not_ok (popped out.trace)) := by
  constructor
  · cases hout : as_batch_execute (two_nodes_env AEROSPIKE_ERR_TIMEOUT) concurrent_policy
      demo_keys 3 [] 0 true none with
    | none => exact absurd hout (by decide)
    | some out =>
      have hp : (as_batch_execute (two_nodes_env AEROSPIKE_ERR_TIMEOUT) concurrent_policy
          demo_keys 3 [] 0 true none).map (fun o => popped o.trace) =
          some [AEROSPIKE_OK, AEROSPIKE_ERR_TIMEOUT] := by decide
      rw [hout] at hp
      simp only [Option.map_some', Option.some.injEq] at hp
      have hn : (as_batch_map_keys (two_nodes_env AEROSPIKE_ERR_TIMEOUT) concurrent_policy
          true (as_batch_first_ns demo_keys) 0 demo_keys
          ⟨[], if true then some [] else none, [], [.nodes_reserve]⟩).toOption.map
          (·.batch_nodes.length) = some 2 := by decide
      cases hmap : as_batch_map_keys (two_nodes_env AEROSPIKE_ERR_TIMEOUT) concurrent_policy
        true (as_batch_first_ns demo_keys) 0 demo_keys
        ⟨[], if true then some [] else none, [], [.nodes_reserve]⟩ with
      | error e => rw [hmap] at hn; simp [Except.toOption] at hn
      | ok st =>
        rw [hmap] at hn
        simp only [Except.toOption, Option.map_some', Option.some.injEq] at hn
        exact ⟨out, rfl, hp,
          ((C6_concurrent_fold (two_nodes_env AEROSPIKE_ERR_TIMEOUT) concurrent_policy rfl
            (by decide)).1 demo_keys 3 0 [] true none st out hmap (by omega)
            (fun _ _ => rfl) hout).2⟩
  · cases hout : aerospike_batch_read index_nodes_env concurrent_policy demo_records with
    | none => exact absurd hout (by decide)
    | some p =>
      obtain ⟨out, left⟩ := p
      have hp : (aerospike_batch_read index_nodes_env concurrent_policy demo_records).map
          (fun o => popped o.1.trace) = some [AEROSPIKE_ERR_TIMEOUT, AEROSPIKE_OK] := by
        decide
      rw [hout] at hp
      simp only [Option.map_some', Option.some.injEq] at hp
      have hn : (as_batch_map_records index_nodes_env concurrent_policy 0 demo_records
          ⟨[], [], [.nodes_reserve]⟩).toOption.map (·.batch_nodes.length) = some 2 := by
        decide
      cases hmap : as_batch_map_records index_nodes_env concurrent_policy 0 demo_records
        ⟨[], [], [.nodes_reserve]⟩ with
      | error e => rw [hmap] at hn; simp [Except.toOption] at hn
      | ok st =>
        rw [hmap] at hn
        simp only [Except.toOption, Option.map_some', Option.some.injEq] at hn
        exact ⟨out, left, rfl, hp,
          ((C6_concurrent_fold index_nodes_env concurrent_policy rfl (by decide)).2
            demo_records left st out hmap (by omega) (fun _ _ => rfl) hout).2⟩

theorem as_batch_queue_tasks_queued (env : batch_env) (status : as_status)
    (task : as_batch_task) :
    ∀ (bs : List as_batch_node) (i : Nat),
      (as_batch_queue_tasks env status task i bs).task.results = task.results ∧
        ∀ b ∈ (as_batch_queue_tasks env status task i bs).queued, b ∈ bs := by
  intro bs
  induction bs with
  | nil => intro i; simp [as_batch_queue_tasks]
  | cons b bs ih =>
    intro i
    simp only [as_batch_queue_tasks]
    split
    · split <;> simp
    · obtain ⟨h1, h2⟩ := ih (i + 1)
      refine ⟨h1, ?_⟩
      intro x hx
      simp only [List.mem_cons] at hx ⊢
      rcases hx with hx | hx
      · exact Or.inl hx
      · exact Or.inr (h2 x hx)

/-- The first entry that as_batch_index_records_execute writes has the repeat byte 0. -/
theorem as_batch_index_records_field_first (refs : as_refs) (task : as_batch_task)
    (e : batch_index_entry) (es : List batch_index_entry)
    (h : as_batch_index_records_field refs task = some (e :: es)) : e.repeat_flag = 0 := by
  unfold as_batch_index_records_field at h
  split at h
  · simp at h
  · rename_i records _
    cases hoff : task.offsets with
    | nil => rw [hoff] at h; simp [as_batch_index_records_entries] at h
    | cons offset offsets =>
      rw [hoff] at h
      unfold as_batch_index_records_entries at h
      split at h
      · simp at h
      · simp only [Bool.false_eq_true, if_false] at h
        split at h
        · simp at h
        · rename_i header _
          cases hrest : as_batch_index_records_entries refs records offsets
              (some (offset, _)) with
          | none => rw [hrest] at h; simp at h
          | some rest =>
            rw [hrest] at h
            simp only [Option.map_some', Option.some.injEq, List.cons.injEq] at h
            rw [← h.1]

/-- The first entry that as_batch_index_execute writes has the repeat byte 0. -/
theorem as_batch_index_field_first (refs : as_refs) (task : as_batch_task)
    (e : batch_index_entry) (es : List batch_index_entry)
    (h : as_batch_index_field refs task = some (e :: es)) : e.repeat_flag = 0 := by
  unfold as_batch_index_field at h
  cases hoff : task.offsets with
  | nil => rw [hoff] at h; simp [as_batch_index_entries] at h
  | cons offset offsets =>
    rw [hoff] at h
    unfold as_batch_index_entries at h
    split at h
    · simp at h
    · simp only [Bool.false_eq_true, if_false] at h
      split at h
      · simp at h
      · rename_i key _ _ header _
        cases hrest : as_batch_index_entries refs task offsets
            (some (refs.ns offset, key.ns)) with
        | none => rw [hrest] at h; simp at h
        | some rest =>
          rw [hrest] at h
          simp only [Option.map_some', Option.some.injEq, List.cons.injEq] at h
          rw [← h.1]

/-- C11 (code defect). Two records of one node hold the same pointers `key.ns` and bin_names
and the same read_all_bins, the first with n_bin_names = 2, the second with n_bin_names = 1.
as_batch_index_records_execute compares the pointers and the flag but not the count: it writes
the second entry with the repeat flag, so that decoding the field gives the second key the two
bin names of the first, whereas its own selection is one bin name. -/
theorem C11_repeat_ignores_n_bin_names :
    as_batch_index_records_field shared_bins_refs shared_bins_task =
      some [⟨0, digest_of 0, 0, some ⟨AS_MSG_INFO1_READ, 2, "test", ["a", "b"]⟩⟩,
        ⟨1, digest_of 1, 1, none⟩] ∧
    (as_batch_index_records_field shared_bins_refs shared_bins_task).bind
        (batch_index_decode · none) =
      some [⟨0, digest_of 0, ⟨AS_MSG_INFO1_READ, 2, "test", ["a", "b"]⟩⟩,
        ⟨1, digest_of 1, ⟨AS_MSG_INFO1_READ, 2, "test", ["a", "b"]⟩⟩] ∧
    as_batch_index_records_rows shared_bins_task =
      some [⟨0, digest_of 0, ⟨AS_MSG_INFO1_READ, 2, "test", ["a", "b"]⟩⟩,
        ⟨1, digest_of 1, ⟨AS_MSG_INFO1_READ, 1, "test", ["a"]⟩⟩] := by
  decide

/-- C16 (code defect). In a snapshot of three nodes of which only the third is active, with
the round-robin counter at 4294967295, as_node_get_random returns the null pointer: the
counter wraps to 0 during the loop and the three passes read the entries 0, 0 and 1 of the
array. With the counter at 0 the same call returns the third node. -/
theorem C16_counter_wraps :
    (wrap_cluster.nodes.array.any
        (fun p => (as_node_at wrap_cluster.heap p).any (·.active))) = true ∧
    (as_node_get_random wrap_cluster).map (·.1) = some 0 ∧
    (as_node_get_random { wrap_cluster with node_index := 0 }).map (·.1) = some 3 := by
  decide

theorem as_node_at_some {heap : List as_node} {p : Nat} {node : as_node}
    (h : as_node_at heap p = some node) :
    0 < p ∧ p ≤ heap.length ∧ heap[p - 1]? = some node ∧ node.destroyed = false := by
  unfold as_node_at at h
  split at h
  · simp at h
  · rename_i hp
    split at h
    · simp at h
    · rename_i n hn
      split at h
      · simp at h
      · rename_i hd
        simp at h
        subst h
        have hlt := (List.getElem?_eq_some_iff.mp hn).1
        exact ⟨by omega, by omega, hn, by simpa using hd⟩

theorem as_node_at_of_getElem {heap : List as_node} {p : Nat} {node : as_node}
    (hp : 0 < p) (h : heap[p - 1]? = some node) (hd : node.destroyed = false) :
    as_node_at heap p = some node := by
  unfold as_node_at
  simp [Nat.pos_iff_ne_zero.mp hp, h, hd]

theorem node_live_le {heap : List as_node} {p : Nat} (h : node_live heap p) :
    0 < p ∧ p ≤ heap.length := by
  obtain ⟨n, hn, _⟩ := h
  exact ⟨(as_node_at_some hn).1, (as_node_at_some hn).2.1⟩

theorem as_node_at_append {heap : List as_node} {p : Nat} {node : as_node}
    (extra : List as_node) (h : as_node_at heap p = some node) :
    as_node_at (heap ++ extra) p = some node := by
  obtain ⟨hp, hle, hget, hd⟩ := as_node_at_some h
  apply as_node_at_of_getElem hp _ hd
  rw [List.getElem?_append_left (by omega)]
  exact hget

theorem as_node_at_store_ne (heap : List as_node) (p q : Nat) (node : as_node)
    (hp : 0 < p) (hq : q ≠ p) :
    as_node_at (as_node_store heap p node) q = as_node_at heap q := by
  unfold as_node_at as_node_store
  by_cases hq0 : q = 0
  · simp [hq0]
  · simp only [hq0, if_false]
    rw [List.getElem?_set_ne (by omega)]

theorem as_node_at_store_same {heap : List as_node} {p : Nat} {old : as_node}
    (node : as_node) (h : as_node_at heap p = some old) (hd : node.destroyed = false) :
    as_node_at (as_node_store heap p node) p = some node := by
  obtain ⟨hp, hle, _, _⟩ := as_node_at_some h
  apply as_node_at_of_getElem hp _ hd
  unfold as_node_store
  rw [List.getElem?_set_eq_of_lt]
  omega

theorem live_mono_refl (heap : List as_node) : live_mono heap heap := fun _ h => h

theorem live_mono_trans {a b c : List as_node} (h1 : live_mono a b) (h2 : live_mono b c) :
    live_mono a c := fun p h => h2 p (h1 p h)

theorem live_mono_append (heap extra : List as_node) : live_mono heap (heap ++ extra) := by
  intro p ⟨n, hn, hr⟩
  exact ⟨n, as_node_at_append extra hn, hr⟩

/-- A write that keeps the reference count and does not destroy the node keeps every live
node live. -/
theorem live_mono_store {heap : List as_node} {p : Nat} {old : as_node} (node : as_node)
    (h : as_node_at heap p = some old) (hr : node.ref_count = old.ref_count)
    (hd : node.destroyed = false) :
    live_mono heap (as_node_store heap p node) := by
  intro q ⟨n, hn, hn1⟩
  by_cases hq : q = p
  · subst hq
    refine ⟨node, as_node_at_store_same node h hd, ?_⟩
    rw [hr]
    rw [h] at hn
    simp at hn
    rw [hn]; exact hn1
  · refine ⟨n, ?_, hn1⟩
    rw [as_node_at_store_ne heap p q node (as_node_at_some h).1 hq]
    exact hn

theorem live_mono_add_friend (heap : List as_node) (p : Nat) :
    live_mono heap (as_node_add_friend heap p) := by
  unfold as_node_add_friend
  split
  · exact live_mono_refl _
  · rename_i node hn
    exact live_mono_store _ hn rfl (as_node_at_some hn).2.2.2

theorem live_mono_add_friends (ps : List Nat) :
    ∀ heap : List as_node, live_mono heap (ps.foldl as_node_add_friend heap) := by
  induction ps with
  | nil => intro heap; exact live_mono_refl _
  | cons p ps ih =>
    intro heap
    simp only [List.foldl_cons]
    exact live_mono_trans (live_mono_add_friend heap p) (ih _)

theorem node_live_create (heap : List as_node) (node_info : as_node_info) :
    node_live (as_node_create heap node_info).1 (as_node_create heap node_info).2 := by
  unfold as_node_create
  exact ⟨⟨1, node_info.name, 0, 0, true, node_info.has_batch_index,
    node_info.has_replicas_all, node_info.has_double, node_info.has_geo, false⟩,
    as_node_at_of_getElem (by simp) (by simp) rfl, rfl⟩

theorem fresh_nodes_nil (heap : List as_node) : fresh_nodes heap.length heap [] :=
  ⟨le_refl _, List.nodup_nil, by simp, by simp⟩

theorem fresh_nodes_create {base : Nat} {heap : List as_node} {nodes : List Nat}
    (node_info : as_node_info) (h : fresh_nodes base heap nodes) :
    fresh_nodes base (as_node_create heap node_info).1
        (nodes ++ [(as_node_create heap node_info).2]) ∧
      live_mono heap (as_node_create heap node_info).1 := by
  have hmono : live_mono heap (as_node_create heap node_info).1 := by
    unfold as_node_create; exact live_mono_append _ _
  refine ⟨⟨?_, ?_, ?_, ?_⟩, hmono⟩
  · unfold as_node_create; simp; have := h.le; omega
  · rw [List.nodup_append]
    refine ⟨h.nodup, List.nodup_singleton _, ?_⟩
    intro a ha hb
    simp only [List.mem_singleton] at hb
    have := (node_live_le (h.live a ha)).2
    unfold as_node_create at hb
    simp at hb
    omega
  · intro p hp
    rcases List.mem_append.mp hp with hp | hp
    · exact hmono p (h.live p hp)
    · simp only [List.mem_singleton] at hp
      subst hp
      exact node_live_create heap node_info
  · intro p hp
    rcases List.mem_append.mp hp with hp | hp
    · exact h.beyond p hp
    · simp only [List.mem_singleton] at hp
      subst hp
      unfold as_node_create
      have := h.le
      simp
      omega

theorem fresh_nodes_mono {base : Nat} {heap heap' : List as_node} {nodes : List Nat}
    (h : fresh_nodes base heap nodes) (hm : live_mono heap heap')
    (hl : heap.length ≤ heap'.length) : fresh_nodes base heap' nodes :=
  ⟨le_trans h.le hl, h.nodup, fun p hp => hm p (h.live p hp), h.beyond⟩

theorem as_node_add_friend_length (heap : List as_node) (p : Nat) :
    (as_node_add_friend heap p).length = heap.length := by
  unfold as_node_add_friend
  split
  · rfl
  · simp [as_node_store]

theorem as_node_create_all_fresh (base : Nat) (infos : List as_node_info) :
    ∀ (heap : List as_node) (nodes : List Nat), fresh_nodes base heap nodes →
      fresh_nodes base (as_node_create_all infos (heap, nodes)).1
          (as_node_create_all infos (heap, nodes)).2 ∧
        live_mono heap (as_node_create_all infos (heap, nodes)).1 := by
  induction infos with
  | nil => intro heap nodes h; exact ⟨h, live_mono_refl _⟩
  | cons info infos ih =>
    intro heap nodes h
    unfold as_node_create_all
    obtain ⟨h1, m1⟩ := fresh_nodes_create info h
    obtain ⟨h2, m2⟩ := ih _ _ h1
    exact ⟨h2, live_mono_trans m1 m2⟩

theorem as_cluster_seed_addresses_fresh (env : as_cluster_env) (base : Nat)
    (addresses : List Nat) :
    ∀ (heap : List as_node) (nodes : List Nat), fresh_nodes base heap nodes →
      fresh_nodes base (as_cluster_seed_addresses env addresses (heap, nodes)).1
          (as_cluster_seed_addresses env addresses (heap, nodes)).2 ∧
        live_mono heap (as_cluster_seed_addresses env addresses (heap, nodes)).1 := by
  induction addresses with
  | nil => intro heap nodes h; exact ⟨h, live_mono_refl _⟩
  | cons addr addresses ih =>
    intro heap nodes h
    unfold as_cluster_seed_addresses
    split
    · split
      · exact ih _ _ h
      · obtain ⟨h1, m1⟩ := fresh_nodes_create (by assumption) h
        obtain ⟨h2, m2⟩ := ih _ _ h1
        exact ⟨h2, live_mono_trans m1 m2⟩
    · exact ih _ _ h

theorem as_cluster_seed_hosts_fresh (env : as_cluster_env) (base : Nat) (seeds : List as_seed) :
    ∀ (heap : List as_node) (nodes : List Nat), fresh_nodes base heap nodes →
      fresh_nodes base (as_cluster_seed_hosts env seeds (heap, nodes)).1
          (as_cluster_seed_hosts env seeds (heap, nodes)).2 ∧
        live_mono heap (as_cluster_seed_hosts env seeds (heap, nodes)).1 := by
  induction seeds with
  | nil => intro heap nodes h; exact ⟨h, live_mono_refl _⟩
  | cons seed seeds ih =>
    intro heap nodes h
    unfold as_cluster_seed_hosts
    split
    · exact ih _ _ h
    · rename_i addresses _
      obtain ⟨h1, m1⟩ := as_cluster_seed_addresses_fresh env base addresses heap nodes h
      obtain ⟨h2, m2⟩ := ih _ _ h1
      exact ⟨h2, live_mono_trans m1 m2⟩

theorem as_cluster_friend_addresses_fresh (env : as_cluster_env) (nodes_ : as_nodes)
    (base : Nat) (addresses : List Nat) :
    ∀ (heap : List as_node) (nodes : List Nat) (out : List as_node × List Nat),
      as_cluster_friend_addresses env nodes_ addresses (heap, nodes) = some out →
      fresh_nodes base heap nodes → fresh_nodes base out.1 out.2 ∧ live_mono heap out.1 := by
  induction addresses with
  | nil =>
    intro heap nodes out ho h
    simp [as_cluster_friend_addresses] at ho
    subst ho
    exact ⟨h, live_mono_refl _⟩
  | cons addr addresses ih =>
    intro heap nodes out ho h
    unfold as_cluster_friend_addresses at ho
    split at ho
    · split at ho
      · simp at ho
      · split at ho
        · rename_i node _ _
          have m1 := live_mono_add_friend heap node
          have h1 := fresh_nodes_mono h m1 (le_of_eq (as_node_add_friend_length heap node).symm)
          obtain ⟨h2, m2⟩ := ih _ _ out ho h1
          exact ⟨h2, live_mono_trans m1 m2⟩
        · obtain ⟨h1, m1⟩ := fresh_nodes_create (by assumption) h
          obtain ⟨h2, m2⟩ := ih _ _ out ho h1
          exact ⟨h2, live_mono_trans m1 m2⟩
    · exact ih _ _ out ho h

theorem as_cluster_friends_fresh (env : as_cluster_env) (nodes_ : as_nodes)
    (base : Nat) (friends : List as_friend) :
    ∀ (heap : List as_node) (nodes : List Nat) (out : List as_node × List Nat),
      as_cluster_friends env nodes_ friends (heap, nodes) = some out →
      fresh_nodes base heap nodes → fresh_nodes base out.1 out.2 ∧ live_mono heap out.1 := by
  induction friends with
  | nil =>
    intro heap nodes out ho h
    simp [as_cluster_friends] at ho
    subst ho
    exact ⟨h, live_mono_refl _⟩
  | cons fr friends ih =>
    intro heap nodes out ho h
    unfold as_cluster_friends at ho
    split at ho
    · exact ih _ _ out ho h
    · rename_i addresses _
      split at ho
      · simp at ho
      · rename_i acc hacc
        obtain ⟨h1, m1⟩ := as_cluster_friend_addresses_fresh env nodes_ base addresses heap
          nodes acc hacc h
        obtain ⟨h2, m2⟩ := ih acc.1 acc.2 out ho h1
        exact ⟨h2, live_mono_trans m1 m2⟩

theorem gc_nodes_append (a b : List as_gc_item) : gc_nodes (a ++ b) = gc_nodes a ++ gc_nodes b := by
  induction a with
  | nil => rfl
  | cons x a ih => cases x <;> simp [gc_nodes, ih]

theorem gc_snapshots_append (a b : List as_gc_item) :
    gc_snapshots (a ++ b) = gc_snapshots a ++ gc_snapshots b := by
  induction a with
  | nil => rfl
  | cons x a ih => cases x <;> simp [gc_snapshots, ih]

theorem gc_nodes_map_release_node (ps : List Nat) :
    gc_nodes (ps.map as_gc_item.release_node) = ps := by
  induction ps with
  | nil => rfl
  | cons p ps ih => simp [gc_nodes, ih]

theorem gc_snapshots_map_release_node (ps : List Nat) :
    gc_snapshots (ps.map as_gc_item.release_node) = [] := by
  induction ps with
  | nil => rfl
  | cons p ps ih => simp [gc_snapshots, ih]

theorem cluster_inv_heap {c : as_cluster} (heap : List as_node) (h : cluster_inv c)
    (hm : live_mono c.heap heap) : cluster_inv { c with heap := heap } :=
  ⟨h.nodup, fun p hp => hm p (h.live p hp), h.gc_nodup, h.gc_out,
    fun p hp => hm p (h.gc_live p hp), h.gc_snap⟩

theorem detached_heap {c : as_cluster} {nodes : List Nat} (heap : List as_node)
    (h : detached c nodes) (hm : live_mono c.heap heap) :
    detached { c with heap := heap } nodes :=
  ⟨h.nodup, fun p hp => hm p (h.live p hp), h.out, h.gc_out⟩

theorem detached_nil (c : as_cluster) : detached c [] :=
  ⟨List.nodup_nil, by simp, by simp, by simp⟩

theorem detached_of_fresh {c : as_cluster} {heap : List as_node} {nodes : List Nat}
    (h : cluster_inv c) (hf : fresh_nodes c.heap.length heap nodes) :
    detached { c with heap := heap } nodes := by
  refine ⟨hf.nodup, hf.live, ?_, ?_⟩
  · intro p hp hin
    have h1 := (node_live_le (h.live p hin)).2
    have h2 := hf.beyond p hp
    omega
  · intro p hp hin
    have h1 := (node_live_le (h.gc_live p hin)).2
    have h2 := hf.beyond p hp
    omega

theorem cluster_inv_add {c : as_cluster} {nodes_to_add : List Nat} (h : cluster_inv c)
    (hd : detached c nodes_to_add) : cluster_inv (as_cluster_add_nodes_copy c nodes_to_add) := by
  unfold as_cluster_add_nodes_copy
  refine ⟨?_, ?_, ?_, ?_, ?_, ?_⟩
  · simp only
    rw [List.nodup_append]
    exact ⟨h.nodup, hd.nodup, fun a ha hb => hd.out a hb ha⟩
  · intro p hp
    simp only at hp
    rcases List.mem_append.mp hp with hp | hp
    · exact h.live p hp
    · exact hd.live p hp
  · simp only [gc_nodes_append, gc_nodes, List.append_nil]
    exact h.gc_nodup
  · intro p hp
    simp only [gc_nodes_append, gc_nodes, List.append_nil] at hp
    simp only
    intro hin
    rcases List.mem_append.mp hin with hin | hin
    · exact h.gc_out p hp hin
    · exact hd.gc_out p hin hp
  · intro p hp
    simp only [gc_nodes_append, gc_nodes, List.append_nil] at hp
    exact h.gc_live p hp
  · intro s hs p hp
    simp only [gc_snapshots_append, gc_snapshots, List.mem_append, List.mem_singleton] at hs
    simp only [gc_nodes_append, gc_nodes, List.append_nil, List.mem_append]
    rcases hs with hs | hs
    · rcases h.gc_snap s hs p hp with h1 | h1
      · exact Or.inl (Or.inl h1)
      · exact Or.inr h1
    · subst hs
      exact Or.inl (Or.inl hp)

theorem detached_add {c : as_cluster} {nodes nodes_to_add : List Nat} (h : detached c nodes)
    (hdis : ∀ p ∈ nodes, p ∉ nodes_to_add) :
    detached (as_cluster_add_nodes_copy c nodes_to_add) nodes := by
  unfold as_cluster_add_nodes_copy
  refine ⟨h.nodup, h.live, ?_, ?_⟩
  · intro p hp hin
    simp only at hin
    rcases List.mem_append.mp hin with hin | hin
    · exact h.out p hp hin
    · exact hdis p hp hin
  · intro p hp
    simp only [gc_nodes_append, gc_nodes, List.append_nil]
    exact h.gc_out p hp

/-- Seeding keeps the invariant, keeps detached nodes detached, keeps live nodes live and
keeps the nodes of the published snapshot in it. -/
theorem as_cluster_seed_nodes_inv (env : as_cluster_env) {c : as_cluster} {nodes : List Nat}
    (h : cluster_inv c) (hd : detached c nodes) :
    cluster_inv (as_cluster_seed_nodes env c).2 ∧
      detached (as_cluster_seed_nodes env c).2 nodes ∧
      live_mono c.heap (as_cluster_seed_nodes env c).2.heap ∧
      (∀ p ∈ c.nodes.array, p ∈ (as_cluster_seed_nodes env c).2.nodes.array) := by
  obtain ⟨hf, hm⟩ := as_cluster_seed_hosts_fresh env c.heap.length c.seeds c.heap []
    (fresh_nodes_nil _)
  unfold as_cluster_seed_nodes
  simp only
  split
  · unfold as_cluster_add_nodes
    refine ⟨cluster_inv_add (cluster_inv_heap _ h hm) (detached_of_fresh h hf),
      detached_add (detached_heap _ hd hm) ?_, hm, ?_⟩
    · intro p hp hin
      have h1 := (node_live_le (hd.live p hp)).2
      have h2 := hf.beyond p hin
      omega
    · intro p hp
      unfold as_cluster_add_nodes_copy
      simp only
      exact List.mem_append_left _ hp
  · exact ⟨cluster_inv_heap _ h hm, detached_heap _ hd hm, hm, fun p hp => hp⟩

theorem as_cluster_find_node_by_reference_iff (r : List Nat) (q : Nat) :
    as_cluster_find_node_by_reference r q = true ↔ q ∈ r := by
  unfold as_cluster_find_node_by_reference
  simp [List.any_eq_true]

/-- The loop of as_cluster_remove_nodes_copy, when the array of the new snapshot has room from
`count` on for the nodes that are kept: it writes them there in their order, counts them, and
appends the nodes to remove to the garbage collector list in their order. -/
theorem as_cluster_remove_nodes_loop_spec (r : List Nat) :
    ∀ (old arr : List Nat) (count : Nat) (gc : List as_gc_item),
      count + (old.filter (fun q => !as_cluster_find_node_by_reference r q)).length ≤
        arr.length →
      (as_cluster_remove_nodes_loop r old arr count gc).1.length = arr.length ∧
      (as_cluster_remove_nodes_loop r old arr count gc).1.take
          (count + (old.filter (fun q => !as_cluster_find_node_by_reference r q)).length) =
        arr.take count ++ old.filter (fun q => !as_cluster_find_node_by_reference r q) ∧
      (as_cluster_remove_nodes_loop r old arr count gc).2.1 =
        count + (old.filter (fun q => !as_cluster_find_node_by_reference r q)).length ∧
      (as_cluster_remove_nodes_loop r old arr count gc).2.2 =
        gc ++ (old.filter (fun q => as_cluster_find_node_by_reference r q)).map
          as_gc_item.release_node := by
  intro old
  induction old with
  | nil =>
    intro arr count gc _
    simp [as_cluster_remove_nodes_loop]
  | cons node old ih =>
    intro arr count gc hroom
    unfold as_cluster_remove_nodes_loop
    by_cases hin : as_cluster_find_node_by_reference r node = true
    · simp only [hin, if_true]
      have hroom' : count +
          (old.filter (fun q => !as_cluster_find_node_by_reference r q)).length ≤
          arr.length := by
        simpa [List.filter_cons, hin] using hroom
      obtain ⟨h1, h2, h3, h4⟩ := ih arr count (gc ++ [.release_node node]) hroom'
      refine ⟨h1, ?_, ?_, ?_⟩
      · simpa [List.filter_cons, hin] using h2
      · simpa [List.filter_cons, hin] using h3
      · rw [h4]; simp [List.filter_cons, hin]
    · have hin' : as_cluster_find_node_by_reference r node = false := by
        simpa using hin
      have hlen : (List.filter (fun q => !as_cluster_find_node_by_reference r q)
          (node :: old)).length =
          (old.filter (fun q => !as_cluster_find_node_by_reference r q)).length + 1 := by
        simp [List.filter_cons, hin']
      have hlt : count < arr.length := by omega
      simp only [hin', Bool.false_eq_true, if_false, hlt, if_true]
      have hroom' : count + 1 +
          (old.filter (fun q => !as_cluster_find_node_by_reference r q)).length ≤
          (arr.set count node).length := by
        simp only [List.length_set]; omega
      obtain ⟨h1, h2, h3, h4⟩ := ih (arr.set count node) (count + 1) gc hroom'
      have htake : (arr.set count node).take (count + 1) = arr.take count ++ [node] := by
        rw [List.set_eq_take_append_cons_drop, if_pos hlt]
        rw [List.take_append_eq_append_take]
        simp [List.length_take, Nat.min_eq_left (le_of_lt hlt)]
      refine ⟨by simpa using h1, ?_, ?_, ?_⟩
      · rw [hlen]
        have : count + ((old.filter (fun q => !as_cluster_find_node_by_reference r q)).length
            + 1) = count + 1 +
            (old.filter (fun q => !as_cluster_find_node_by_reference r q)).length := by omega
        rw [this, h2, htake]
        simp [List.filter_cons, hin']
      · rw [h3, hlen]; omega
      · rw [h4]; simp [List.filter_cons, hin']

/-- The nodes of a duplicate-free array that are in a duplicate-free list of nodes of the
array are as many as the list. -/
theorem filter_mem_length {array r : List Nat} (ha : array.Nodup) (hr : r.Nodup)
    (hsub : ∀ p ∈ r, p ∈ array) :
    (array.filter (fun q => as_cluster_find_node_by_reference r q)).length = r.length := by
  apply List.Perm.length_eq
  rw [List.perm_ext_iff_of_nodup (ha.filter _) hr]
  intro a
  simp only [List.mem_filter, as_cluster_find_node_by_reference_iff]
  exact ⟨fun h => h.2, fun h => ⟨hsub a h, h⟩⟩

/-- Function as_cluster_remove_nodes_copy for distinct nodes of a duplicate-free published
snapshot: the new snapshot holds the nodes that are kept, in their order, and the garbage
collector list gets the removed nodes, in their order, then the old snapshot. -/
theorem as_cluster_remove_nodes_copy_spec {c : as_cluster} {r : List Nat}
    (ha : c.nodes.array.Nodup) (hr : r.Nodup) (hsub : ∀ p ∈ r, p ∈ c.nodes.array) :
    (as_cluster_remove_nodes_copy c r).nodes.array =
        c.nodes.array.filter (fun q => !as_cluster_find_node_by_reference r q) ∧
      (as_cluster_remove_nodes_copy c r).gc =
        c.gc ++ (c.nodes.array.filter (fun q => as_cluster_find_node_by_reference r q)).map
          as_gc_item.release_node ++ [.release_nodes c.nodes] ∧
      (as_cluster_remove_nodes_copy c r).heap = c.heap := by
  have hcount := filter_mem_length ha hr hsub
  have hsplit := List.length_eq_length_filter_add (l := c.nodes.array)
    (fun q => as_cluster_find_node_by_reference r q)
  have hle : r.length ≤ c.nodes.array.length := by omega
  have hroom : 0 + (c.nodes.array.filter
      (fun q => !as_cluster_find_node_by_reference r q)).length ≤
      (as_nodes_create (c.nodes.array.length - r.length)).array.length := by
    simp [as_nodes_create]; omega
  obtain ⟨h1, h2, _, h4⟩ := as_cluster_remove_nodes_loop_spec r c.nodes.array
    (as_nodes_create (c.nodes.array.length - r.length)).array 0 c.gc hroom
  unfold as_cluster_remove_nodes_copy
  simp only [hle, if_true]
  refine ⟨?_, by rw [h4], trivial⟩
  have hl : (as_cluster_remove_nodes_loop r c.nodes.array
      (as_nodes_create (c.nodes.array.length - r.length)).array 0 c.gc).1.length =
      0 + (c.nodes.array.filter (fun q => !as_cluster_find_node_by_reference r q)).length := by
    rw [h1]; simp [as_nodes_create]; omega
  rw [← hl, List.take_length] at h2
  simpa using h2

theorem cluster_inv_remove {c : as_cluster} {r : List Nat} (h : cluster_inv c)
    (hr : r.Nodup) (hsub : ∀ p ∈ r, p ∈ c.nodes.array) :
    cluster_inv (as_cluster_remove_nodes_copy c r) := by
  obtain ⟨h1, h2, h3⟩ := as_cluster_remove_nodes_copy_spec h.nodup hr hsub
  have hgn : gc_nodes (as_cluster_remove_nodes_copy c r).gc =
      gc_nodes c.gc ++ c.nodes.array.filter (fun q => as_cluster_find_node_by_reference r q) := by
    rw [h2]
    simp [gc_nodes_append, gc_nodes_map_release_node, gc_nodes]
  have hgs : gc_snapshots (as_cluster_remove_nodes_copy c r).gc =
      gc_snapshots c.gc ++ [c.nodes] := by
    rw [h2]
    simp [gc_snapshots_append, gc_snapshots_map_release_node, gc_snapshots]
  refine ⟨?_, ?_, ?_, ?_, ?_, ?_⟩
  · rw [h1]; exact h.nodup.filter _
  · intro p hp
    rw [h1] at hp
    rw [h3]
    exact h.live p (List.mem_filter.mp hp).1
  · rw [hgn, List.nodup_append]
    refine ⟨h.gc_nodup, h.nodup.filter _, ?_⟩
    intro a ha hb
    exact h.gc_out a ha (List.mem_filter.mp hb).1
  · intro p hp
    rw [hgn] at hp
    rw [h1]
    intro hin
    rcases List.mem_append.mp hp with hp | hp
    · exact h.gc_out p hp (List.mem_filter.mp hin).1
    · have := (List.mem_filter.mp hin).2
      have := (List.mem_filter.mp hp).2
      simp_all
  · intro p hp
    rw [hgn] at hp
    rw [h3]
    rcases List.mem_append.mp hp with hp | hp
    · exact h.gc_live p hp
    · exact h.live p (List.mem_filter.mp hp).1
  · intro s hs p hp
    rw [hgs] at hs
    rw [hgn, h1]
    have key : ∀ q, q ∈ c.nodes.array →
        q ∈ c.nodes.array.filter (fun q => !as_cluster_find_node_by_reference r q) ∨
          q ∈ gc_nodes c.gc ++
            c.nodes.array.filter (fun q => as_cluster_find_node_by_reference r q) := by
      intro q hq
      by_cases hqr : as_cluster_find_node_by_reference r q = true
      · exact Or.inr (List.mem_append_right _ (List.mem_filter.mpr ⟨hq, hqr⟩))
      · exact Or.inl (List.mem_filter.mpr ⟨hq, by simpa using hqr⟩)
    rcases List.mem_append.mp hs with hs | hs
    · rcases h.gc_snap s hs p hp with h5 | h5
      · exact key p h5
      · exact Or.inr (List.mem_append_left _ h5)
    · simp only [List.mem_singleton] at hs
      subst hs
      exact key p hp

theorem detached_remove {c : as_cluster} {r nodes : List Nat} (h : cluster_inv c)
    (hd : detached c nodes) (hr : r.Nodup) (hsub : ∀ p ∈ r, p ∈ c.nodes.array) :
    detached (as_cluster_remove_nodes_copy c r) nodes := by
  obtain ⟨h1, h2, h3⟩ := as_cluster_remove_nodes_copy_spec h.nodup hr hsub
  refine ⟨hd.nodup, ?_, ?_, ?_⟩
  · intro p hp; rw [h3]; exact hd.live p hp
  · intro p hp hin
    rw [h1] at hin
    exact hd.out p hp (List.mem_filter.mp hin).1
  · intro p hp hin
    rw [h2] at hin
    simp only [gc_nodes_append, gc_nodes_map_release_node, gc_nodes, List.append_nil,
      List.mem_append] at hin
    rcases hin with hin | hin
    · exact hd.gc_out p hp hin
    · exact hd.out p hp (List.mem_filter.mp hin).1

/-- The loop of as_cluster_gc keeps live every node that does not wait for release_node. -/
theorem as_cluster_gc_items_live :
    ∀ (items : List as_gc_item) (heap heap' : List as_node),
      as_cluster_gc_items items heap = some heap' →
      ∀ q, q ∉ gc_nodes items → node_live heap q → node_live heap' q := by
  intro items
  induction items with
  | nil =>
    intro heap heap' h q _ hq
    simp [as_cluster_gc_items] at h
    subst h
    exact hq
  | cons item items ih =>
    intro heap heap' h q hq hlive
    cases item with
    | release_nodes s =>
      simp only [as_cluster_gc_items] at h
      exact ih heap heap' h q (by simpa [gc_nodes] using hq) hlive
    | release_node p =>
      simp only [as_cluster_gc_items] at h
      simp only [gc_nodes, List.mem_cons, not_or] at hq
      split at h
      · simp at h
      · rename_i heap1 h1
        refine ih heap1 heap' h q hq.2 ?_
        unfold as_node_release at h1
        cases hn : as_node_at heap p with
        | none => rw [hn] at h1; simp at h1
        | some node =>
          rw [hn] at h1
          simp only [Option.map_some', Option.some.injEq] at h1
          subst h1
          obtain ⟨n, hn1, hn2⟩ := hlive
          refine ⟨n, ?_, hn2⟩
          rw [as_node_at_store_ne heap p q _ (as_node_at_some hn).1 hq.1]
          exact hn1

theorem cluster_inv_gc {c c' : as_cluster} (h : cluster_inv c) (hgc : as_cluster_gc c = some c') :
    cluster_inv c' ∧ c'.nodes = c.nodes ∧ c'.gc = [] ∧
      ∀ q, q ∉ gc_nodes c.gc → node_live c.heap q → node_live c'.heap q := by
  unfold as_cluster_gc at hgc
  cases hh : as_cluster_gc_items c.gc c.heap with
  | none => rw [hh] at hgc; simp at hgc
  | some heap =>
    rw [hh] at hgc
    simp only [Option.map_some', Option.some.injEq] at hgc
    subst hgc
    have hl := as_cluster_gc_items_live c.gc c.heap heap hh
    refine ⟨⟨h.nodup, ?_, by simp [gc_nodes], by simp [gc_nodes], by simp [gc_nodes],
      by simp [gc_snapshots]⟩, rfl, rfl, hl⟩
    intro p hp
    exact hl p (fun hin => h.gc_out p hin hp) (h.live p hp)

theorem as_cluster_deactivate_nodes_live :
    ∀ (r : List Nat) (heap heap' : List as_node),
      as_cluster_deactivate_nodes r heap = some heap' → live_mono heap heap' := by
  intro r
  induction r with
  | nil =>
    intro heap heap' h
    simp [as_cluster_deactivate_nodes] at h
    subst h
    exact live_mono_refl _
  | cons p r ih =>
    intro heap heap' h
    unfold as_cluster_deactivate_nodes at h
    split at h
    · simp at h
    · rename_i heap1 h1
      refine live_mono_trans ?_ (ih heap1 heap' h)
      unfold as_node_deactivate at h1
      cases hn : as_node_at heap p with
      | none => rw [hn] at h1; simp at h1
      | some node =>
        rw [hn] at h1
        simp only [Option.map_some', Option.some.injEq] at h1
        subst h1
        exact live_mono_store _ hn rfl (as_node_at_some hn).2.2.2

theorem as_cluster_clear_friends_live :
    ∀ (array : List Nat) (heap heap' : List as_node),
      as_cluster_clear_friends array heap = some heap' → live_mono heap heap' := by
  intro array
  induction array with
  | nil =>
    intro heap heap' h
    simp [as_cluster_clear_friends] at h
    subst h
    exact live_mono_refl _
  | cons p array ih =>
    intro heap heap' h
    unfold as_cluster_clear_friends at h
    split at h
    · simp at h
    · rename_i node hn
      refine live_mono_trans ?_ (ih _ heap' h)
      exact live_mono_store _ hn rfl (as_node_at_some hn).2.2.2

theorem as_cluster_refresh_loop_live (env : as_cluster_env) :
    ∀ (array : List Nat) (st st' : as_refreshed),
      as_cluster_refresh_loop env array st = some st' → live_mono st.heap st'.heap := by
  intro array
  induction array with
  | nil =>
    intro st st' h
    simp [as_cluster_refresh_loop] at h
    subst h
    exact live_mono_refl _
  | cons p array ih =>
    intro st st' h
    unfold as_cluster_refresh_loop at h
    split at h
    · simp at h
    · split at h
      · simp only at h
        split at h
        · simp at h
        · rename_i node2 hn2
          have m1 := live_mono_add_friends (env.as_node_refresh p).referenced st.heap
          split at h
          · refine live_mono_trans m1 (live_mono_trans ?_ (ih _ st' h))
            exact live_mono_store _ hn2 rfl (as_node_at_some hn2).2.2.2
          · refine live_mono_trans m1 (live_mono_trans ?_ (ih _ st' h))
            exact live_mono_store _ hn2 rfl (as_node_at_some hn2).2.2.2
      · exact ih _ st' h

/-- The loop of as_cluster_find_nodes_to_remove keeps the invariant and the detached nodes; the
vector it returns is what it had, then nodes of the array in their order. -/
theorem as_cluster_find_nodes_to_remove_loop_inv (env : as_cluster_env) (size rc : Nat)
    (nodes : List Nat) :
    ∀ (array : List Nat) (c : as_cluster) (acc : List Nat) (c' : as_cluster) (r : List Nat),
      as_cluster_find_nodes_to_remove_loop env size rc array c acc = some (c', r) →
      cluster_inv c → detached c nodes →
      cluster_inv c' ∧ detached c' nodes ∧ live_mono c.heap c'.heap ∧
        (∀ p ∈ c.nodes.array, p ∈ c'.nodes.array) ∧
        ∃ sub, r = acc ++ sub ∧ sub.Sublist array := by
  intro array
  induction array with
  | nil =>
    intro c acc c' r h hinv hdet
    simp only [as_cluster_find_nodes_to_remove_loop, Option.some.injEq, Prod.mk.injEq] at h
    obtain ⟨h1, h2⟩ := h
    subst h1 h2
    exact ⟨hinv, hdet, live_mono_refl _, fun p hp => hp, [], by simp, List.Sublist.refl _⟩
  | cons p array ih =>
    intro c acc c' r h hinv hdet
    obtain ⟨s1, s2, s3, s4⟩ := as_cluster_seed_nodes_inv env hinv hdet
    unfold as_cluster_find_nodes_to_remove_loop at h
    repeat' split at h
    all_goals try dsimp only at h
    all_goals try split at h
    all_goals first
      | (exact absurd h (by simp))
      | (have hh := ih c acc c' r h hinv hdet
         obtain ⟨i1, i2, i3, i4, sub, hs, hsub⟩ := hh
         exact ⟨i1, i2, i3, i4, sub, hs, hsub.cons _⟩)
      | (have hh := ih c (acc ++ [p]) c' r h hinv hdet
         obtain ⟨i1, i2, i3, i4, sub, hs, hsub⟩ := hh
         exact ⟨i1, i2, i3, i4, p :: sub, by simp [hs], hsub.cons₂ _⟩)
      | (have hh := ih _ acc c' r h s1 s2
         obtain ⟨i1, i2, i3, i4, sub, hs, hsub⟩ := hh
         exact ⟨i1, i2, live_mono_trans s3 i3, fun q hq => i4 q (s4 q hq), sub, hs,
           hsub.cons _⟩)
      | (have hh := ih _ (acc ++ [p]) c' r h s1 s2
         obtain ⟨i1, i2, i3, i4, sub, hs, hsub⟩ := hh
         exact ⟨i1, i2, live_mono_trans s3 i3, fun q hq => i4 q (s4 q hq), p :: sub,
           by simp [hs], hsub.cons₂ _⟩)

theorem as_cluster_find_nodes_to_remove_inv (env : as_cluster_env) {rc : Nat}
    {c c' : as_cluster} {r nodes : List Nat}
    (h : as_cluster_find_nodes_to_remove env c rc = some (c', r))
    (hinv : cluster_inv c) (hdet : detached c nodes) :
    cluster_inv c' ∧ detached c' nodes ∧ live_mono c.heap c'.heap ∧ r.Nodup ∧
      ∀ p ∈ r, p ∈ c'.nodes.array := by
  obtain ⟨i1, i2, i3, i4, sub, hs, hsub⟩ := as_cluster_find_nodes_to_remove_loop_inv env _ rc
    nodes c.nodes.array c [] c' r h hinv hdet
  simp only [List.nil_append] at hs
  subst hs
  exact ⟨i1, i2, i3, hsub.nodup hinv.nodup, fun p hp => i4 p (hsub.subset hp)⟩

theorem as_cluster_find_nodes_to_add_inv (env : as_cluster_env) {c c' : as_cluster}
    {friends : List as_friend} {nodes : List Nat}
    (h : as_cluster_find_nodes_to_add env c friends = some (c', nodes))
    (hinv : cluster_inv c) :
    cluster_inv c' ∧ detached c' nodes := by
  unfold as_cluster_find_nodes_to_add at h
  cases hf : as_cluster_friends env c.nodes friends (c.heap, []) with
  | none => rw [hf] at h; simp at h
  | some found =>
    rw [hf] at h
    simp only [Option.map_some', Option.some.injEq, Prod.mk.injEq] at h
    obtain ⟨h1, h2⟩ := h
    subst h1 h2
    obtain ⟨f1, m1⟩ := as_cluster_friends_fresh env c.nodes c.heap.length friends c.heap []
      found hf (fresh_nodes_nil _)
    exact ⟨cluster_inv_heap _ hinv m1, detached_of_fresh hinv f1⟩

theorem as_cluster_tend_nodes_inv (env : as_cluster_env) {c c' : as_cluster}
    (h : as_cluster_tend_nodes env c = some c') (hinv : cluster_inv c) : cluster_inv c' := by
  unfold as_cluster_tend_nodes at h
  split at h
  · simp at h
  rename_i refreshed hr
  have m1 : live_mono c.heap refreshed.heap := by
    unfold as_cluster_refresh at hr
    split at hr
    · simp at hr
    · rename_i heap hc
      exact live_mono_trans (as_cluster_clear_friends_live _ _ _ hc)
        (as_cluster_refresh_loop_live env _ _ _ hr)
  have inv1 := cluster_inv_heap refreshed.heap hinv m1
  split at h
  · simp at h
  rename_i c1 nodes_to_add ha
  obtain ⟨inv2, det2⟩ := as_cluster_find_nodes_to_add_inv env ha inv1
  split at h
  · simp at h
  rename_i c2 nodes_to_remove hrem
  obtain ⟨inv3, det3, _, hnd, hsub⟩ := as_cluster_find_nodes_to_remove_inv env hrem inv2 det2
  split at h
  · simp at h
  rename_i c3 hc3
  simp only [Option.some.injEq] at h
  have key : cluster_inv c3 ∧ detached c3 nodes_to_add := by
    split at hc3
    · unfold as_cluster_remove_nodes at hc3
      cases hdn : as_cluster_deactivate_nodes nodes_to_remove c2.heap with
      | none => rw [hdn] at hc3; simp at hc3
      | some heap =>
        rw [hdn] at hc3
        simp only [Option.map_some', Option.some.injEq] at hc3
        subst hc3
        have m := as_cluster_deactivate_nodes_live _ _ _ hdn
        exact ⟨cluster_inv_remove (cluster_inv_heap heap inv3 m) hnd hsub,
          detached_remove (cluster_inv_heap heap inv3 m) (detached_heap heap det3 m) hnd hsub⟩
    · simp only [Option.some.injEq] at hc3
      subst hc3
      exact ⟨inv3, det3⟩
  subst h
  split
  · exact cluster_inv_add key.1 key.2
  · exact key.1

theorem as_cluster_set_partition_size_inv (env : as_cluster_env) {c c' : as_cluster}
    {status : as_status} (h : as_cluster_set_partition_size env c = some (status, c'))
    (hinv : cluster_inv c) : cluster_inv c' := by
  unfold as_cluster_set_partition_size at h
  cases hn : as_cluster_partition_size_loop env c.heap c.nodes.array c.n_partitions with
  | none => rw [hn] at h; simp at h
  | some n =>
    rw [hn] at h
    simp only [Option.map_some', Option.some.injEq] at h
    split at h
    all_goals
      simp only [Prod.mk.injEq] at h
      rw [← h.2]
      exact ⟨hinv.nodup, hinv.live, hinv.gc_nodup, hinv.gc_out, hinv.gc_live, hinv.gc_snap⟩

theorem as_cluster_tend_inv (env : as_cluster_env) {c c' : as_cluster} {status : as_status}
    (h : as_cluster_tend env c = some (status, c')) (hinv : cluster_inv c) : cluster_inv c' := by
  unfold as_cluster_tend at h
  cases hgc : as_cluster_gc c with
  | none => rw [hgc] at h; simp at h
  | some c1 =>
    rw [hgc] at h
    have inv1 := (cluster_inv_gc hinv hgc).1
    have inv2 : cluster_inv (if c1.nodes.array.length = 0 then as_cluster_seed_nodes env c1
        else (AEROSPIKE_OK, c1)).2 := by
      split
      · exact (as_cluster_seed_nodes_inv env inv1 (detached_nil c1)).1
      · exact inv1
    dsimp only at h
    generalize (if c1.nodes.array.length = 0 then as_cluster_seed_nodes env c1
        else (AEROSPIKE_OK, c1)) = seeded at h inv2
    by_cases hst : seeded.1 ≠ AEROSPIKE_OK
    · rw [if_pos hst] at h
      simp only [Option.some.injEq] at h
      rw [h] at inv2
      exact inv2
    · rw [if_neg hst] at h
      have inv3 : ∀ sized, (if seeded.2.n_partitions = 0 then
          as_cluster_set_partition_size env seeded.2
          else some (AEROSPIKE_OK, seeded.2)) = some sized → cluster_inv sized.2 := by
        intro sized hs
        split at hs
        · exact as_cluster_set_partition_size_inv env hs inv2
        · simp only [Option.some.injEq] at hs
          rw [← hs]
          exact inv2
      generalize (if seeded.2.n_partitions = 0 then as_cluster_set_partition_size env seeded.2
          else some (AEROSPIKE_OK, seeded.2)) = sized_opt at h inv3
      cases sized_opt with
      | none => simp at h
      | some sized =>
        have inv4 := inv3 sized rfl
        simp only at h
        by_cases hsz : sized.1 ≠ AEROSPIKE_OK
        · rw [if_pos hsz] at h
          simp only [Option.some.injEq] at h
          rw [h] at inv4
          exact inv4
        · rw [if_neg hsz] at h
          cases ht : as_cluster_tend_nodes env sized.2 with
          | none => rw [ht] at h; simp at h
          | some c2 =>
            rw [ht] at h
            simp only [Option.map_some', Option.some.injEq, Prod.mk.injEq] at h
            rw [← h.2]
            exact as_cluster_tend_nodes_inv env ht inv4

theorem cluster_inv_empty (seeds : List as_seed) : cluster_inv (as_cluster_empty seeds) := by
  unfold as_cluster_empty as_nodes_create
  exact ⟨by simp, by simp, by simp [gc_nodes], by simp [gc_nodes], by simp [gc_nodes],
    by simp [gc_snapshots]⟩

/-- Every state that the tend thread reaches satisfies the invariant on the reference
counts. -/
theorem tend_reachable_inv {c : as_cluster} (h : tend_reachable c) : cluster_inv c := by
  induction h with
  | create seeds => exact cluster_inv_empty seeds
  | seed env c _ ih => exact (as_cluster_seed_nodes_inv env ih (detached_nil c)).1
  | add infos c _ ih =>
    obtain ⟨hf, hm⟩ := as_node_create_all_fresh c.heap.length infos c.heap []
      (fresh_nodes_nil _)
    exact cluster_inv_add (cluster_inv_heap _ ih hm) (detached_of_fresh ih hf)
  | remove r c _ hr hsub ih => exact cluster_inv_remove ih hr hsub
  | gc c c' _ hgc ih => exact (cluster_inv_gc ih hgc).1
  | tend env c c' status _ ht ih => exact as_cluster_tend_inv env ht ih

theorem snapshot_count_pos {c : as_cluster} {p : Nat}
    (hp : ∃ s ∈ live_snapshots c, p ∈ s.array) : 1 ≤ snapshot_count c p := by
  obtain ⟨s, hs, hps⟩ := hp
  unfold snapshot_count
  apply List.length_pos_of_mem (a := s)
  rw [List.mem_filter]
  exact ⟨hs, by simpa using hps⟩

/-- C12 (amended). In every state reachable through the operations of the tend thread
(seeding, creating nodes and as_cluster_add_nodes_copy, as_cluster_remove_nodes_copy of distinct
nodes of the published snapshot, as_cluster_gc, whole iterations of as_cluster_tend), every node
contained in a snapshot that is not yet freed (the published one or one waiting in the gc
list) has not been destroyed and its reference count is exactly 1, the reference taken at its
creation; the count does not grow with the snapshots that contain the node, so it is at least
1 but never greater than the number of those snapshots. -/
theorem C12_node_reference_count (c : as_cluster) (p : Nat) (h : tend_reachable c)
    (hp : ∃ s ∈ live_snapshots c, p ∈ s.array) :
    ∃ node, as_node_at c.heap p = some node ∧ node.ref_count = 1 ∧
      node.ref_count ≤ snapshot_count c p := by
  have hinv := tend_reachable_inv h
  have hlive : node_live c.heap p := by
    obtain ⟨s, hs, hps⟩ := hp
    unfold live_snapshots at hs
    rcases List.mem_cons.mp hs with hs | hs
    · subst hs; exact hinv.live p hps
    · rcases hinv.gc_snap s hs p hps with h1 | h1
      · exact hinv.live p h1
      · exact hinv.gc_live p h1
  obtain ⟨node, hn, hr⟩ := hlive
  exact ⟨node, hn, hr, by rw [hr]; exact snapshot_count_pos hp⟩

/-- Witness of C12: the first node of the cluster seeded with the nodes "A" and "B". -/
theorem C12_node_reference_count_witness :
    (∃ s ∈ live_snapshots seeded_cluster, 1 ∈ s.array) ∧
      ∃ node, as_node_at seeded_cluster.heap 1 = some node ∧ node.ref_count = 1 ∧
        node.ref_count ≤ snapshot_count seeded_cluster 1 :=
  ⟨⟨seeded_cluster.nodes, by decide, by decide⟩,
    C12_node_reference_count seeded_cluster 1
      (tend_reachable.seed demo_cluster_env _ (tend_reachable.create _))
      ⟨seeded_cluster.nodes, by decide, by decide⟩⟩

/-- Counterexample to C12 as stated: after seeding, node 1 is in one snapshot that is not
freed and holds one reference; after one more node has been added it is in two such snapshots
and still holds one reference. -/
theorem C12_counterexample :
    tend_reachable seeded_cluster ∧
      (as_node_at seeded_cluster.heap 1).map (·.ref_count) = some 1 ∧
      snapshot_count seeded_cluster 1 = 1 ∧
      tend_reachable grown_cluster ∧
      (as_node_at grown_cluster.heap 1).map (·.ref_count) = some 1 ∧
      snapshot_count grown_cluster 1 = 2 :=
  ⟨tend_reachable.seed demo_cluster_env _ (tend_reachable.create _), by decide, by decide,
    tend_reachable.add _ _ (tend_reachable.seed demo_cluster_env _ (tend_reachable.create _)),
    by decide, by decide⟩

theorem keeps_nodes_refl (heap : List as_node) : keeps_nodes heap heap :=
  fun _ node h => ⟨node, h, rfl, rfl⟩

theorem keeps_nodes_trans {a b c : List as_node} (h1 : keeps_nodes a b) (h2 : keeps_nodes b c) :
    keeps_nodes a c := by
  intro p node h
  obtain ⟨n1, hn1, hf1, ha1⟩ := h1 p node h
  obtain ⟨n2, hn2, hf2, ha2⟩ := h2 p n1 hn1
  exact ⟨n2, hn2, hf2.trans hf1, ha2.trans ha1⟩

theorem keeps_nodes_append (heap extra : List as_node) : keeps_nodes heap (heap ++ extra) :=
  fun _ node h => ⟨node, as_node_at_append extra h, rfl, rfl⟩

theorem keeps_nodes_store {heap : List as_node} {p : Nat} {old : as_node} (node : as_node)
    (h : as_node_at heap p = some old) (hf : node.failures = old.failures)
    (ha : node.active = old.active) (hd : node.destroyed = false) :
    keeps_nodes heap (as_node_store heap p node) := by
  intro q n hn
  by_cases hq : q = p
  · subst hq
    rw [h] at hn
    simp only [Option.some.injEq] at hn
    subst hn
    exact ⟨node, as_node_at_store_same node h hd, hf, ha⟩
  · refine ⟨n, ?_, rfl, rfl⟩
    rw [as_node_at_store_ne heap p q node (as_node_at_some h).1 hq]
    exact hn

theorem keeps_nodes_add_friend (heap : List as_node) (p : Nat) :
    keeps_nodes heap (as_node_add_friend heap p) := by
  unfold as_node_add_friend
  split
  · exact keeps_nodes_refl _
  · rename_i node hn
    exact keeps_nodes_store _ hn rfl rfl (as_node_at_some hn).2.2.2

theorem keeps_nodes_create (heap : List as_node) (node_info : as_node_info) :
    keeps_nodes heap (as_node_create heap node_info).1 := by
  unfold as_node_create
  exact keeps_nodes_append _ _

theorem as_cluster_seed_addresses_keeps (env : as_cluster_env) (addresses : List Nat) :
    ∀ (heap : List as_node) (nodes : List Nat),
      keeps_nodes heap (as_cluster_seed_addresses env addresses (heap, nodes)).1 := by
  induction addresses with
  | nil => intro heap nodes; exact keeps_nodes_refl _
  | cons addr addresses ih =>
    intro heap nodes
    unfold as_cluster_seed_addresses
    split
    · split
      · exact ih _ _
      · exact keeps_nodes_trans (keeps_nodes_create heap _) (ih _ _)
    · exact ih _ _

theorem as_cluster_seed_hosts_keeps (env : as_cluster_env) (seeds : List as_seed) :
    ∀ (heap : List as_node) (nodes : List Nat),
      keeps_nodes heap (as_cluster_seed_hosts env seeds (heap, nodes)).1 := by
  induction seeds with
  | nil => intro heap nodes; exact keeps_nodes_refl _
  | cons seed seeds ih =>
    intro heap nodes
    unfold as_cluster_seed_hosts
    split
    · exact ih _ _
    · rename_i addresses _
      exact keeps_nodes_trans (as_cluster_seed_addresses_keeps env addresses heap nodes)
        (ih _ _)

theorem as_cluster_seed_nodes_keeps (env : as_cluster_env) (c : as_cluster) :
    keeps_nodes c.heap (as_cluster_seed_nodes env c).2.heap := by
  unfold as_cluster_seed_nodes
  simp only
  split
  · exact as_cluster_seed_hosts_keeps env c.seeds c.heap []
  · exact as_cluster_seed_hosts_keeps env c.seeds c.heap []

theorem as_cluster_friend_addresses_keeps (env : as_cluster_env) (nodes_ : as_nodes)
    (addresses : List Nat) :
    ∀ (heap : List as_node) (nodes : List Nat) (out : List as_node × List Nat),
      as_cluster_friend_addresses env nodes_ addresses (heap, nodes) = some out →
      keeps_nodes heap out.1 := by
  induction addresses with
  | nil =>
    intro heap nodes out ho
    simp [as_cluster_friend_addresses] at ho
    subst ho
    exact keeps_nodes_refl _
  | cons addr addresses ih =>
    intro heap nodes out ho
    unfold as_cluster_friend_addresses at ho
    split at ho
    · split at ho
      · simp at ho
      · split at ho
        · exact keeps_nodes_trans (keeps_nodes_add_friend heap _) (ih _ _ out ho)
        · exact keeps_nodes_trans (keeps_nodes_create heap _) (ih _ _ out ho)
    · exact ih _ _ out ho

theorem as_cluster_friends_keeps (env : as_cluster_env) (nodes_ : as_nodes)
    (friends : List as_friend) :
    ∀ (heap : List as_node) (nodes : List Nat) (out : List as_node × List Nat),
      as_cluster_friends env nodes_ friends (heap, nodes) = some out →
      keeps_nodes heap out.1 := by
  induction friends with
  | nil =>
    intro heap nodes out ho
    simp [as_cluster_friends] at ho
    subst ho
    exact keeps_nodes_refl _
  | cons fr friends ih =>
    intro heap nodes out ho
    unfold as_cluster_friends at ho
    split at ho
    · exact ih _ _ out ho
    · rename_i addresses _
      split at ho
      · simp at ho
      · rename_i acc hacc
        exact keeps_nodes_trans
          (as_cluster_friend_addresses_keeps env nodes_ addresses heap nodes acc hacc)
          (ih acc.1 acc.2 out ho)

theorem as_cluster_find_nodes_to_add_keeps (env : as_cluster_env) {c c' : as_cluster}
    {friends : List as_friend} {nodes : List Nat}
    (h : as_cluster_find_nodes_to_add env c friends = some (c', nodes)) :
    keeps_nodes c.heap c'.heap ∧ c'.nodes = c.nodes := by
  unfold as_cluster_find_nodes_to_add at h
  cases hf : as_cluster_friends env c.nodes friends (c.heap, []) with
  | none => rw [hf] at h; simp at h
  | some found =>
    rw [hf] at h
    simp only [Option.map_some', Option.some.injEq, Prod.mk.injEq] at h
    rw [← h.1]
    exact ⟨as_cluster_friends_keeps env c.nodes friends c.heap [] found hf, rfl⟩

/-- The loop of as_cluster_find_nodes_to_remove returns what the vector held and every
inactive node of the array. -/
theorem as_cluster_find_nodes_to_remove_loop_inactive (env : as_cluster_env) (size rc : Nat) :
    ∀ (array : List Nat) (c : as_cluster) (acc : List Nat) (c' : as_cluster) (r : List Nat),
      as_cluster_find_nodes_to_remove_loop env size rc array c acc = some (c', r) →
      (∀ q ∈ acc, q ∈ r) ∧
        ∀ q ∈ array,
          (∃ n, as_node_at c.heap q = some n ∧ n.active = false) → q ∈ r := by
  intro array
  induction array with
  | nil =>
    intro c acc c' r h
    simp only [as_cluster_find_nodes_to_remove_loop, Option.some.injEq, Prod.mk.injEq] at h
    rw [← h.2]
    exact ⟨fun q hq => hq, by simp⟩
  | cons p array ih =>
    intro c acc c' r h
    have hs := as_cluster_seed_nodes_keeps env c
    unfold as_cluster_find_nodes_to_remove_loop at h
    cases hn : as_node_at c.heap p with
    | none => rw [hn] at h; simp at h
    | some node =>
      rw [hn] at h
      simp only at h
      by_cases hact : node.active = true
      · simp only [hact, not_true_eq_false, if_false] at h
        have key : ∀ (cX : as_cluster) (accX : List Nat), keeps_nodes c.heap cX.heap →
            (∀ q ∈ acc, q ∈ accX) →
            as_cluster_find_nodes_to_remove_loop env size rc array cX accX = some (c', r) →
            (∀ q ∈ acc, q ∈ r) ∧
              ∀ q ∈ p :: array, (∃ n, as_node_at c.heap q = some n ∧ n.active = false) →
                q ∈ r := by
          intro cX accX hk hacc hX
          obtain ⟨i1, i2⟩ := ih cX accX c' r hX
          refine ⟨fun q hq => i1 q (hacc q hq), ?_⟩
          intro q hq ⟨n, hqn, hqa⟩
          rcases List.mem_cons.mp hq with hq | hq
          · subst hq
            rw [hn] at hqn
            simp only [Option.some.injEq] at hqn
            subst hqn
            rw [hact] at hqa
            exact absurd hqa (by simp)
          · obtain ⟨n', hn', _, ha'⟩ := hk q n hqn
            exact i2 q hq ⟨n', hn', by rw [ha', hqa]⟩
        repeat' split at h
        all_goals first
          | exact key c acc (keeps_nodes_refl _) (fun q hq => hq) h
          | exact key c (acc ++ [p]) (keeps_nodes_refl _)
              (fun q hq => List.mem_append_left _ hq) h
          | exact key _ acc hs (fun q hq => hq) h
          | exact key _ (acc ++ [p]) hs (fun q hq => List.mem_append_left _ hq) h
      · have hact' : node.active = false := by simpa using hact
        simp only [hact', Bool.false_eq_true, not_false_eq_true, if_true] at h
        obtain ⟨i1, i2⟩ := ih c (acc ++ [p]) c' r h
        refine ⟨fun q hq => i1 q (List.mem_append_left _ hq), ?_⟩
        intro q hq hq2
        rcases List.mem_cons.mp hq with hq | hq
        · subst hq
          exact i1 q (by simp)
        · exact i2 q hq hq2

/-- The loop of as_cluster_remove_nodes_copy writes to the array of the new snapshot only
nodes of the old one that are not to be removed. -/
theorem as_cluster_remove_nodes_loop_mem (r : List Nat) :
    ∀ (old arr : List Nat) (count : Nat) (gc : List as_gc_item),
      ∀ q ∈ (as_cluster_remove_nodes_loop r old arr count gc).1,
        q ∈ arr ∨ (q ∈ old ∧ as_cluster_find_node_by_reference r q = false) := by
  intro old
  induction old with
  | nil =>
    intro arr count gc q hq
    simp only [as_cluster_remove_nodes_loop] at hq
    exact Or.inl hq
  | cons node old ih =>
    intro arr count gc q hq
    unfold as_cluster_remove_nodes_loop at hq
    split at hq
    · rcases ih _ _ _ q hq with h1 | h1
      · exact Or.inl h1
      · exact Or.inr ⟨List.mem_cons_of_mem _ h1.1, h1.2⟩
    · rename_i hnode
      split at hq
      · rcases ih _ _ _ q hq with h1 | h1
        · rcases List.mem_or_eq_of_mem_set h1 with h2 | h2
          · exact Or.inl h2
          · subst h2
            exact Or.inr ⟨List.mem_cons_self _ _, by simpa using hnode⟩
        · exact Or.inr ⟨List.mem_cons_of_mem _ h1.1, h1.2⟩
      · rcases ih _ _ _ q hq with h1 | h1
        · exact Or.inl h1
        · exact Or.inr ⟨List.mem_cons_of_mem _ h1.1, h1.2⟩

theorem as_cluster_remove_nodes_copy_not_mem (c : as_cluster) (r : List Nat) (p : Nat)
    (hp : p ≠ 0) (hr : p ∈ r) : p ∉ (as_cluster_remove_nodes_copy c r).nodes.array := by
  intro hin
  unfold as_cluster_remove_nodes_copy at hin
  simp only at hin
  rcases as_cluster_remove_nodes_loop_mem r _ _ _ _ p hin with h1 | h1
  · unfold as_nodes_create at h1
    simp only [List.mem_replicate] at h1
    exact hp h1.2
  · have := (as_cluster_find_node_by_reference_iff r p).mpr hr
    rw [this] at h1
    exact absurd h1.2 (by simp)

/-- C13. Every node of the published snapshot whose active flag is false is put in the vector
nodes_to_remove by as_cluster_find_nodes_to_remove, whatever the size of the snapshot,
refresh_count, and the friends and failures of the nodes are, and the snapshot that
as_cluster_remove_nodes_copy then publishes does not contain it. -/
theorem C13_inactive_nodes_removed (env : as_cluster_env) (c c' : as_cluster)
    (refresh_count : Nat) (nodes_to_remove : List Nat) (p : Nat) (node : as_node)
    (hfind : as_cluster_find_nodes_to_remove env c refresh_count = some (c', nodes_to_remove))
    (hp : p ∈ c.nodes.array) (hnode : as_node_at c.heap p = some node)
    (hactive : node.active = false) :
    p ∈ nodes_to_remove ∧
      p ∉ (as_cluster_remove_nodes_copy c' nodes_to_remove).nodes.array := by
  have h1 := (as_cluster_find_nodes_to_remove_loop_inactive env _ refresh_count
    c.nodes.array c [] c' nodes_to_remove hfind).2 p hp ⟨node, hnode, hactive⟩
  exact ⟨h1, as_cluster_remove_nodes_copy_not_mem c' nodes_to_remove p
    (Nat.pos_iff_ne_zero.mp (as_node_at_some hnode).1) h1⟩

/-- The loop of as_cluster_find_nodes_to_remove for a snapshot of a size other than one:
the cluster is left as it is and the vector gets the nodes of the array that pass the test. -/
theorem as_cluster_find_nodes_to_remove_loop_spec (env : as_cluster_env) (size rc : Nat)
    (hsize : size ≠ 1) :
    ∀ (array : List Nat) (c : as_cluster) (acc : List Nat) (c' : as_cluster) (r : List Nat),
      as_cluster_find_nodes_to_remove_loop env size rc array c acc = some (c', r) →
      c' = c ∧ ∀ q, q ∈ r ↔ q ∈ acc ∨ (q ∈ array ∧
        ∃ n, as_node_at c.heap q = some n ∧ node_removable env size rc q n) := by
  intro array
  induction array with
  | nil =>
    intro c acc c' r h
    simp only [as_cluster_find_nodes_to_remove_loop, Option.some.injEq, Prod.mk.injEq] at h
    rw [← h.1, ← h.2]
    exact ⟨rfl, by simp⟩
  | cons p array ih =>
    intro c acc c' r h
    unfold as_cluster_find_nodes_to_remove_loop at h
    cases hn : as_node_at c.heap p with
    | none => rw [hn] at h; simp at h
    | some node =>
      rw [hn] at h
      simp only at h
      have key_add : node_removable env size rc p node →
          as_cluster_find_nodes_to_remove_loop env size rc array c (acc ++ [p]) =
            some (c', r) →
          c' = c ∧ ∀ q, q ∈ r ↔ q ∈ acc ∨ (q ∈ p :: array ∧
            ∃ n, as_node_at c.heap q = some n ∧ node_removable env size rc q n) := by
        intro hrem hX
        obtain ⟨i1, i2⟩ := ih c (acc ++ [p]) c' r hX
        refine ⟨i1, fun q => ?_⟩
        rw [i2 q]
        simp only [List.mem_append, List.mem_singleton, List.mem_cons, List.not_mem_nil,
          or_false]
        constructor
        · rintro ((h1 | h1) | h1)
          · exact Or.inl h1
          · subst h1; exact Or.inr ⟨Or.inl rfl, node, hn, hrem⟩
          · exact Or.inr ⟨Or.inr h1.1, h1.2⟩
        · rintro (h1 | ⟨h1 | h1, h2⟩)
          · exact Or.inl (Or.inl h1)
          · exact Or.inl (Or.inr h1)
          · exact Or.inr ⟨h1, h2⟩
      have key_skip : ¬ node_removable env size rc p node →
          as_cluster_find_nodes_to_remove_loop env size rc array c acc = some (c', r) →
          c' = c ∧ ∀ q, q ∈ r ↔ q ∈ acc ∨ (q ∈ p :: array ∧
            ∃ n, as_node_at c.heap q = some n ∧ node_removable env size rc q n) := by
        intro hrem hX
        obtain ⟨i1, i2⟩ := ih c acc c' r hX
        refine ⟨i1, fun q => ?_⟩
        rw [i2 q]
        simp only [List.mem_cons]
        constructor
        · rintro (h1 | h1)
          · exact Or.inl h1
          · exact Or.inr ⟨Or.inr h1.1, h1.2⟩
        · rintro (h1 | ⟨h1 | h1, n, h2, h3⟩)
          · exact Or.inl h1
          · subst h1
            rw [hn] at h2
            simp only [Option.some.injEq] at h2
            subst h2
            exact absurd h3 hrem
          · exact Or.inr ⟨h1, n, h2, h3⟩
      by_cases hact : node.active = true
      · simp only [hact, not_true_eq_false, if_false, hsize] at h
        by_cases h2 : size = 2
        · subst h2
          simp only [if_true] at h
          split at h
          · rename_i hc
            exact key_add (Or.inr (Or.inl ⟨rfl, hc.1, hc.2.1, hc.2.2⟩)) h
          · rename_i hc
            refine key_skip ?_ h
            rintro (h3 | h3 | h3)
            · rw [hact] at h3; exact absurd h3 (by simp)
            · exact hc ⟨h3.2.1, h3.2.2.1, h3.2.2.2⟩
            · exact h3.1 rfl
        · simp only [h2, if_false] at h
          split at h
          · rename_i hc
            split at h
            · rename_i hf
              split at h
              · rename_i hpt
                exact key_add (Or.inr (Or.inr ⟨h2, hc.1, hc.2,
                  Or.inr (by simpa using hpt)⟩)) h
              · rename_i hpt
                refine key_skip ?_ h
                rintro (h3 | h3 | h3)
                · rw [hact] at h3; exact absurd h3 (by simp)
                · exact h2 h3.1
                · rcases h3.2.2.2 with h4 | h4
                  · exact h4 hf
                  · rw [h4] at hpt; exact hpt (by simp)
            · rename_i hf
              exact key_add (Or.inr (Or.inr ⟨h2, hc.1, hc.2, Or.inl hf⟩)) h
          · rename_i hc
            refine key_skip ?_ h
            rintro (h3 | h3 | h3)
            · rw [hact] at h3; exact absurd h3 (by simp)
            · exact h2 h3.1
            · exact hc ⟨h3.2.1, h3.2.2.1⟩
      · have hact' : node.active = false := by simpa using hact
        simp only [hact', Bool.false_eq_true, not_false_eq_true, if_true] at h
        exact key_add (Or.inl hact') h

theorem as_cluster_find_nodes_to_remove_spec (env : as_cluster_env) {c c' : as_cluster}
    {rc : Nat} {r : List Nat} (hsize : c.nodes.array.length ≠ 1)
    (h : as_cluster_find_nodes_to_remove env c rc = some (c', r)) (p : Nat) :
    p ∈ r ↔ p ∈ c.nodes.array ∧
      ∃ n, as_node_at c.heap p = some n ∧ node_removable env c.nodes.array.length rc p n := by
  have := (as_cluster_find_nodes_to_remove_loop_spec env _ rc hsize c.nodes.array c [] c' r
    h).2 p
  simpa using this

/-- C15. In a snapshot of three or more nodes, as_cluster_find_nodes_to_remove puts an active
node in the vector nodes_to_remove if and only if refresh_count is at least 2, the node has
no friends, and either the node has failures or no partition is mapped to it; in particular
an active node with friends is never removed. -/
theorem C15_multi_node_removal (env : as_cluster_env) (c c' : as_cluster)
    (refresh_count : Nat) (nodes_to_remove : List Nat) (p : Nat) (node : as_node)
    (hsize : 3 ≤ c.nodes.array.length)
    (hfind : as_cluster_find_nodes_to_remove env c refresh_count = some (c', nodes_to_remove))
    (hp : p ∈ c.nodes.array) (hnode : as_node_at c.heap p = some node)
    (hactive : node.active = true) :
    (p ∈ nodes_to_remove ↔
      refresh_count ≥ 2 ∧ node.friends = 0 ∧
        (node.failures > 0 ∨ env.as_partition_tables_find_node p = false)) ∧
      (node.friends > 0 → p ∉ nodes_to_remove) := by
  have hspec := as_cluster_find_nodes_to_remove_spec env (by omega) hfind p
  have hiff : p ∈ nodes_to_remove ↔
      refresh_count ≥ 2 ∧ node.friends = 0 ∧
        (node.failures > 0 ∨ env.as_partition_tables_find_node p = false) := by
    rw [hspec]
    constructor
    · rintro ⟨_, n, hn, hrem⟩
      rw [hnode] at hn
      simp only [Option.some.injEq] at hn
      subst hn
      rcases hrem with h1 | h1 | h1
      · rw [hactive] at h1; exact absurd h1 (by simp)
      · omega
      · exact ⟨h1.2.1, h1.2.2.1, h1.2.2.2.imp (fun h => Nat.pos_of_ne_zero h) id⟩
    · rintro ⟨h1, h2, h3⟩
      exact ⟨hp, node, hnode, Or.inr (Or.inr ⟨by omega, h1, h2,
        h3.imp (fun h => Nat.pos_iff_ne_zero.mp h) id⟩)⟩
  exact ⟨hiff, fun hf hin => by have := (hiff.mp hin).2.1; omega⟩

theorem keeps_nodes_add_friends (ps : List Nat) :
    ∀ heap : List as_node, keeps_nodes heap (ps.foldl as_node_add_friend heap) := by
  induction ps with
  | nil => intro heap; exact keeps_nodes_refl _
  | cons p ps ih =>
    intro heap
    simp only [List.foldl_cons]
    exact keeps_nodes_trans (keeps_nodes_add_friend heap p) (ih _)

theorem no_failures_keeps {heap heap' : List as_node} {q : Nat} (hk : keeps_nodes heap heap')
    (h : no_failures heap q) : no_failures heap' q := by
  obtain ⟨n, hn, hf⟩ := h
  obtain ⟨n', hn', hf', _⟩ := hk q n hn
  exact ⟨n', hn', by rw [hf', hf]⟩

theorem no_failures_store {heap : List as_node} {p q : Nat} {old node : as_node}
    (h : as_node_at heap p = some old) (hf : node.failures = 0) (hd : node.destroyed = false)
    (hq : q = p ∨ no_failures heap q) :
    no_failures (as_node_store heap p node) q := by
  by_cases hqp : q = p
  · subst hqp
    exact ⟨node, as_node_at_store_same node h hd, hf⟩
  · rcases hq with hq | hq
    · exact absurd hq hqp
    · obtain ⟨n, hn, hnf⟩ := hq
      refine ⟨n, ?_, hnf⟩
      rw [as_node_at_store_ne heap p q node (as_node_at_some h).1 hqp]
      exact hn

/-- The refresh loop of as_cluster_tend counts at most one refresh for each node of the array,
and when it counts one for every node, every node of the array is left without failures. -/
theorem as_cluster_refresh_loop_count (env : as_cluster_env) :
    ∀ (array : List Nat) (st st' : as_refreshed),
      as_cluster_refresh_loop env array st = some st' →
      st'.refresh_count ≤ st.refresh_count + array.length ∧
        (st'.refresh_count = st.refresh_count + array.length →
          (∀ q ∈ array, no_failures st'.heap q) ∧
            ∀ q, no_failures st.heap q → no_failures st'.heap q) := by
  intro array
  induction array with
  | nil =>
    intro st st' h
    simp only [as_cluster_refresh_loop, Option.some.injEq] at h
    subst h
    exact ⟨by simp, fun _ => ⟨by simp, fun q hq => hq⟩⟩
  | cons p array ih =>
    intro st st' h
    unfold as_cluster_refresh_loop at h
    split at h
    · simp at h
    · split at h
      · simp only at h
        split at h
        · simp at h
        · rename_i node2 hn2
          have k1 := keeps_nodes_add_friends (env.as_node_refresh p).referenced st.heap
          split at h
          · obtain ⟨i1, i2⟩ := ih _ st' h
            simp only at i1 i2
            have hmod : (st.refresh_count + 1) % UINT32_SIZE ≤ st.refresh_count + 1 :=
              Nat.mod_le _ _
            refine ⟨by simp only [List.length_cons]; omega, ?_⟩
            intro heq
            simp only [List.length_cons] at heq
            obtain ⟨j1, j2⟩ := i2 (by omega)
            have hd := (as_node_at_some hn2).2.2.2
            refine ⟨?_, ?_⟩
            · intro q hq
              rcases List.mem_cons.mp hq with hq | hq
              · subst hq
                exact j2 q (no_failures_store hn2 rfl hd (Or.inl rfl))
              · exact j1 q hq
            · intro q hq
              exact j2 q (no_failures_store hn2 rfl hd (Or.inr (no_failures_keeps k1 hq)))
          · obtain ⟨i1, _⟩ := ih _ st' h
            simp only at i1
            refine ⟨by simp only [List.length_cons]; omega, ?_⟩
            intro heq
            simp only [List.length_cons] at heq
            omega
      · obtain ⟨i1, _⟩ := ih _ st' h
        refine ⟨by simp only [List.length_cons]; omega, ?_⟩
        intro heq
        simp only [List.length_cons] at heq
        omega

/-- C14. In an iteration of as_cluster_tend over a snapshot of exactly two nodes (refresh of
the nodes, as_cluster_find_nodes_to_add, as_cluster_find_nodes_to_remove), a node that is
active is put in the vector nodes_to_remove if and only if at least one refresh of a node
succeeded in this iteration (refresh_count is at least 1), the node has no friends and it has
failures. -/
theorem C14_two_node_removal (env : as_cluster_env) (c c1 c2 : as_cluster)
    (refreshed : as_refreshed) (nodes_to_add nodes_to_remove : List Nat) (p : Nat)
    (node : as_node)
    (hsize : c.nodes.array.length = 2)
    (hrefresh : as_cluster_refresh env c = some refreshed)
    (hadd : as_cluster_find_nodes_to_add env { c with heap := refreshed.heap }
      refreshed.friends = some (c1, nodes_to_add))
    (hfind : as_cluster_find_nodes_to_remove env c1 refreshed.refresh_count =
      some (c2, nodes_to_remove))
    (hp : p ∈ c.nodes.array) (hnode : as_node_at c1.heap p = some node)
    (hactive : node.active = true) :
    p ∈ nodes_to_remove ↔
      refreshed.refresh_count ≥ 1 ∧ node.friends = 0 ∧ node.failures > 0 := by
  obtain ⟨hk, hnodes⟩ := as_cluster_find_nodes_to_add_keeps env hadd
  simp only at hk hnodes
  have hsize1 : c1.nodes.array.length = 2 := by rw [hnodes]; exact hsize
  have hspec := as_cluster_find_nodes_to_remove_spec env (by omega) hfind p
  rw [hsize1, hnodes] at hspec
  have hcount : refreshed.refresh_count ≤ 2 ∧
      (refreshed.refresh_count = 2 → node.failures = 0) := by
    unfold as_cluster_refresh at hrefresh
    split at hrefresh
    · simp at hrefresh
    · rename_i heap0 _
      obtain ⟨i1, i2⟩ := as_cluster_refresh_loop_count env _ _ _ hrefresh
      simp only [hsize, Nat.zero_add] at i1 i2
      refine ⟨i1, fun h2 => ?_⟩
      obtain ⟨n', hn', hf'⟩ := no_failures_keeps hk ((i2 h2).1 p hp)
      rw [hnode] at hn'
      simp only [Option.some.injEq] at hn'
      rw [hn']; exact hf'
  rw [hspec]
  constructor
  · rintro ⟨_, n, hn, hrem⟩
    rw [hnode] at hn
    simp only [Option.some.injEq] at hn
    subst hn
    rcases hrem with h1 | h1 | h1
    · rw [hactive] at h1; exact absurd h1 (by simp)
    · exact ⟨by omega, h1.2.2.1, h1.2.2.2⟩
    · exact absurd rfl h1.1
  · rintro ⟨h1, h2, h3⟩
    refine ⟨hp, node, hnode, Or.inr (Or.inl ⟨rfl, ?_, h2, h3⟩)⟩
    have h4 := hcount.1
    have h5 := hcount.2
    by_contra hne
    have : refreshed.refresh_count = 2 := by omega
    have := h5 this
    omega

/-- Witness of C13: the inactive node of a cluster of one node, with no refresh counted. -/
theorem C13_inactive_nodes_removed_witness :
    as_cluster_find_nodes_to_remove demo_cluster_env inactive_cluster 0 =
        some (inactive_cluster, [1]) ∧
      (1 ∈ [1] ∧ 1 ∉ (as_cluster_remove_nodes_copy inactive_cluster [1]).nodes.array) :=
  ⟨by decide,
    C13_inactive_nodes_removed demo_cluster_env inactive_cluster inactive_cluster 0 [1] 1
      (demo_node "A" false) (by decide) (by decide) (by decide) rfl⟩

/-- Witness of C14: in seeded_cluster the refresh of node 1 succeeds and that of node 2 times
out; node 2 has no friends and one failure and is removed. -/
theorem C14_two_node_removal_witness :
    as_cluster_refresh half_refresh_env seeded_cluster = some half_refreshed ∧
      as_cluster_find_nodes_to_remove half_refresh_env
          { seeded_cluster with heap := half_refreshed.heap } half_refreshed.refresh_count =
        some ({ seeded_cluster with heap := half_refreshed.heap }, [2]) ∧
      (2 ∈ [2] ↔ half_refreshed.refresh_count ≥ 1 ∧
        (⟨1, "B", 0, 1, true, 1, 1, 1, 1, false⟩ : as_node).friends = 0 ∧
        (⟨1, "B", 0, 1, true, 1, 1, 1, 1, false⟩ : as_node).failures > 0) :=
  ⟨by decide, by decide,
    C14_two_node_removal half_refresh_env seeded_cluster
      { seeded_cluster with heap := half_refreshed.heap }
      { seeded_cluster with heap := half_refreshed.heap } half_refreshed [] [2] 2
      ⟨1, "B", 0, 1, true, 1, 1, 1, 1, false⟩ (by decide) (by decide) (by decide) (by decide)
      (by decide) (by decide) rfl⟩

/-- Witness of C15: in a cluster of three nodes with two refreshes counted, the active node 3
has no friends, no failures and no partition mapped to it, and is removed. -/
theorem C15_multi_node_removal_witness :
    as_cluster_find_nodes_to_remove demo_cluster_env wrap_cluster 2 =
        some (wrap_cluster, [1, 2, 3]) ∧
      ((3 ∈ [1, 2, 3] ↔ 2 ≥ 2 ∧ (demo_node "C" true).friends = 0 ∧
          ((demo_node "C" true).failures > 0 ∨
            demo_cluster_env.as_partition_tables_find_node 3 = false)) ∧
        ((demo_node "C" true).friends > 0 → 3 ∉ [1, 2, 3])) :=
  ⟨by decide,
    C15_multi_node_removal demo_cluster_env wrap_cluster wrap_cluster 2 [1, 2, 3] 3
      (demo_node "C" true) (by decide) (by decide) (by decide) (by decide) rfl⟩

/-- The loop of as_node_get_random returns the null pointer or a node of the snapshot that is
active. -/
theorem as_node_get_random_loop_active (size : Nat) :
    ∀ (tries : Nat) (c c' : as_cluster) (p : Nat),
      as_node_get_random_loop size tries c = some (p, c') → p ≠ 0 →
      p ∈ c.nodes.array ∧ ∃ node, as_node_at c.heap p = some node ∧ node.active = true := by
  intro tries
  induction tries with
  | zero =>
    intro c c' p h hp
    simp only [as_node_get_random_loop, Option.some.injEq, Prod.mk.injEq] at h
    exact absurd h.1.symm hp
  | succ tries ih =>
    intro c c' p h hp
    unfold as_node_get_random_loop at h
    simp only at h
    split at h
    · simp at h
    · rename_i q hq
      split at h
      · simp at h
      · rename_i node hnode
        split at h
        · rename_i hact
          cases hres : as_node_reserve c.heap q with
          | none => rw [hres] at h; simp at h
          | some heap =>
            rw [hres] at h
            simp only [Option.map_some', Option.some.injEq, Prod.mk.injEq] at h
            rw [← h.1]
            exact ⟨List.getElem?_mem hq, node, hnode, hact⟩
        · have := ih _ c' p h hp
          simpa using this

/-- Function as_node_get_random returns the null pointer or an active node of the snapshot, for
every value of the counter. -/
theorem as_node_get_random_active (c c' : as_cluster) (p : Nat)
    (h : as_node_get_random c = some (p, c')) (hp : p ≠ 0) :
    p ∈ c.nodes.array ∧ ∃ node, as_node_at c.heap p = some node ∧ node.active = true := by
  unfold as_node_get_random at h
  have := as_node_get_random_loop_active _ _ (as_nodes_reserve c) c' p h hp
  simpa [as_nodes_reserve] using this

theorem load_uint64_big (bytes : List Nat) : load_uint64 true bytes = big_endian_uint64 bytes :=
  rfl

theorem load_uint64_little (b0 b1 b2 b3 b4 b5 b6 b7 : Nat) (rest : List Nat) :
    load_uint64 false (b0 :: b1 :: b2 :: b3 :: b4 :: b5 :: b6 :: b7 :: rest) =
      b0 % 256 + 256 * (b1 % 256 + 256 * (b2 % 256 + 256 * (b3 % 256 + 256 * (b4 % 256 +
        256 * (b5 % 256 + 256 * (b6 % 256 + 256 * (b7 % 256))))))) := by
  simp only [load_uint64, Bool.false_eq_true, if_false, List.take, List.foldr]
  omega

/-- C17 (amended). When inflateInit and the allocation succeed, batch_decompress reads the
first 8 bytes of the compressed body as an unsigned 64-bit integer in the byte order of the
host, without a byte swap (the big-endian value on a big-endian host, the little-endian value
on a little-endian one); it passes exactly that value to malloc as the size of the output
buffer and, reduced modulo 2^32 because avail_out is a 32-bit field, to the inflater as the
room in the output buffer; and it feeds the inflater the bytes of the body from offset 8 on,
in_sz - 8 of them (a count reduced modulo 2^32 because avail_in is a 32-bit field). -/
theorem C17_inflated_size (env : cl_env) (in_buf : List Nat) (in_sz : Nat)
    (hinit : env.inflateInit = Z_OK) (hsz : 8 ≤ in_sz) (hlen : in_sz ≤ in_buf.length)
    (hmalloc : env.malloc (load_uint64 env.host_big_endian in_buf) = true) :
    (env.host_big_endian = true →
      load_uint64 env.host_big_endian in_buf = big_endian_uint64 in_buf) ∧
    (env.host_big_endian = false →
      load_uint64 env.host_big_endian in_buf = big_endian_uint64 (in_buf.take 8).reverse) ∧
    ∃ d, batch_decompress env in_buf in_sz = some d ∧
      zlib_call.malloc (load_uint64 env.host_big_endian in_buf) ∈ d.calls ∧
      zlib_call.inflate ((in_buf.drop 8).take ((in_sz - 8) % UINT32_SIZE))
        ((in_sz - 8) % UINT32_SIZE)
        (load_uint64 env.host_big_endian in_buf % UINT32_SIZE) ∈ d.calls ∧
      ∀ size, zlib_call.malloc size ∈ d.calls →
        size = load_uint64 env.host_big_endian in_buf := by
  refine ⟨fun h => by rw [h]; rfl, fun h => ?_, ?_⟩
  · rw [h]
    simp only [load_uint64, Bool.false_eq_true, if_false, big_endian_uint64]
    have hl : ((in_buf.take 8).reverse).take 8 = (in_buf.take 8).reverse :=
      List.take_of_length_le (by simp)
    rw [hl, List.foldl_reverse]
  · unfold batch_decompress
    have h1 : ¬ (in_sz < 8 ∨ in_buf.length < in_sz) := by omega
    simp only [hinit, ne_eq, not_true_eq_false, if_false, h1, hmalloc]
    split
    · exact ⟨_, rfl, by simp, by simp, by simp⟩
    · exact ⟨_, rfl, by simp, by simp, by simp⟩

/-- Witness of C17: a body that declares 30 bytes on a little-endian host. -/
theorem C17_inflated_size_witness :
    demo_cl_env.inflateInit = Z_OK ∧ 8 ≤ 10 ∧
      10 ≤ (compressed_frame [120, 156]).body.length ∧
      ((demo_cl_env.host_big_endian = true →
        load_uint64 demo_cl_env.host_big_endian (compressed_frame [120, 156]).body =
          big_endian_uint64 (compressed_frame [120, 156]).body) ∧
      (demo_cl_env.host_big_endian = false →
        load_uint64 demo_cl_env.host_big_endian (compressed_frame [120, 156]).body =
          big_endian_uint64 ((compressed_frame [120, 156]).body.take 8).reverse) ∧
      ∃ d, batch_decompress demo_cl_env (compressed_frame [120, 156]).body 10 = some d ∧
        zlib_call.malloc
          (load_uint64 demo_cl_env.host_big_endian (compressed_frame [120, 156]).body) ∈
            d.calls ∧
        zlib_call.inflate (((compressed_frame [120, 156]).body.drop 8).take
            ((10 - 8) % UINT32_SIZE)) ((10 - 8) % UINT32_SIZE)
          (load_uint64 demo_cl_env.host_big_endian (compressed_frame [120, 156]).body %
            UINT32_SIZE) ∈ d.calls ∧
        ∀ size, zlib_call.malloc size ∈ d.calls →
          size = load_uint64 demo_cl_env.host_big_endian (compressed_frame [120, 156]).body) :=
  ⟨by decide, by decide, by decide,
    C17_inflated_size demo_cl_env (compressed_frame [120, 156]).body 10 (by decide) (by decide)
      (by decide) (by decide)⟩

/-- Counterexample to C17 as stated. On a little-endian host the body that starts with the
bytes 0 0 0 0 0 0 0 1, big-endian for 1, makes batch_decompress allocate 2^56 bytes; on a
big-endian host the body that declares 2^32 bytes makes it allocate 2^32 bytes and give the
inflater no room at all. -/
theorem C17_counterexample :
    big_endian_uint64 [0, 0, 0, 0, 0, 0, 0, 1, 120, 156] = 1 ∧
      (batch_decompress demo_cl_env [0, 0, 0, 0, 0, 0, 0, 1, 120, 156] 10).map (·.calls) =
        some [.inflateInit, .malloc 72057594037927936, .inflate [120, 156] 2 0,
          .inflateEnd] ∧
      big_endian_uint64 [0, 0, 0, 1, 0, 0, 0, 0, 120, 156] = 4294967296 ∧
      (batch_decompress { demo_cl_env with host_big_endian := true }
          [0, 0, 0, 1, 0, 0, 0, 0, 120, 156] 10).map (·.calls) =
        some [.inflateInit, .malloc 4294967296, .inflate [120, 156] 2 0, .inflateEnd] := by
  decide

/-- C18 (code defect). A compressed frame whose stream the inflater rejects makes
batch_decompress return -1, and do_batch_monte goes on all the same: it reads the next frame,
parses its message, calls the callback for it and returns 0. Alone, the frame ends in the
error of the read that follows it. -/
theorem C18_decompress_failure_continues :
    (batch_decompress demo_cl_env (compressed_frame [1, 2]).body 10).map (·.rv) = some (-1) ∧
      do_batch_monte_frames demo_cl_env true
          [compressed_frame [1, 2], ⟨0, 2, 3, 0, List.replicate 30 7⟩] [] =
        some ⟨0, [.message (cl_record 1),
          .callback "test" (some (digest_of 0)) none 1 0 [⟨"a", [1]⟩]]⟩ ∧
      do_batch_monte_frames demo_cl_env true [⟨0, 2, 3, 0, List.replicate 30 7⟩] [] =
        some ⟨0, [.message (cl_record 1),
          .callback "test" (some (digest_of 0)) none 1 0 [⟨"a", [1]⟩]]⟩ := by
  decide

theorem do_batch_monte_messages_zero (env : cl_env) (cb : Bool) (msgs : List cl_message)
    (st : cl_state) : do_batch_monte_messages env cb 0 msgs 0 st = some ⟨none, st⟩ := by
  cases msgs <;> simp [do_batch_monte_messages]

/-- C19 (amended). The reader of the legacy client, do_batch_monte, rejects a response frame
whose header version is not 2, or whose type is neither CL_MSG (3) nor CL_MSG_COMPRESSED (4):
it returns -1 and parses no message of the body of that frame. The reader of the current
client, as_batch_parse, does not look at the version or the type of the header: whatever they
are, it gives the result it gives for the same reads and bodies. -/
theorem C19_frame_header_check (env : cl_env) (cb : Bool) (f : cl_proto_frame)
    (frames : List cl_proto_frame) (trace : List cl_event)
    (err : as_error) (protos : List as_proto_frame) (task : as_batch_task) (proto : as_proto)
    (hbad : f.version ≠ CL_PROTO_VERSION ∨
      (f.type ≠ CL_PROTO_TYPE_CL_MSG ∧ f.type ≠ CL_PROTO_TYPE_CL_MSG_COMPRESSED)) :
    do_batch_monte_frames env cb (f :: frames) trace = some ⟨-1, trace⟩ ∧
      as_batch_parse_protos err
          (protos.map (fun p => (⟨proto, p.frame⟩ : as_proto_frame))) task =
        as_batch_parse_protos err protos task := by
  constructor
  · unfold do_batch_monte_frames
    by_cases h1 : f.header_rv ≠ 0
    · simp [h1]
    · rcases hbad with h2 | h2
      · simp [h1, h2]
      · by_cases h3 : f.version ≠ CL_PROTO_VERSION
        · simp [h1, h3]
        · simp [h1, h3, h2]
  · unfold as_batch_parse_protos
    simp [List.map_map, Function.comp_def]

/-- Witness of C19: a frame of version 3 for do_batch_monte, and for as_batch_parse a frame
whose header is turned into that of an info frame of version 3. -/
theorem C19_frame_header_check_witness :
    ((3 : Nat) ≠ CL_PROTO_VERSION ∨
        ((3 : Nat) ≠ CL_PROTO_TYPE_CL_MSG ∧ (3 : Nat) ≠ CL_PROTO_TYPE_CL_MSG_COMPRESSED)) ∧
      (do_batch_monte_frames demo_cl_env true [⟨0, 3, 3, 0, List.replicate 30 7⟩] [] =
          some ⟨-1, []⟩ ∧
        as_batch_parse_protos as_error_reset
            ((headed_frames ⟨2, 3⟩).map (fun p => (⟨⟨3, 1⟩, p.frame⟩ : as_proto_frame)))
            results_task =
          as_batch_parse_protos as_error_reset (headed_frames ⟨2, 3⟩) results_task) :=
  ⟨Or.inl (by decide),
    C19_frame_header_check demo_cl_env true ⟨0, 3, 3, 0, List.replicate 30 7⟩ [] []
      as_error_reset (headed_frames ⟨2, 3⟩) results_task ⟨3, 1⟩ (Or.inl (by decide))⟩

/-- Counterexample to C19 as stated: as_batch_parse accepts a frame of version 3 and type 1
(an info frame); it parses the messages of its body, writes the result of the record message
at offset 0 and returns AEROSPIKE_OK. -/
theorem C19_counterexample :
    task_result results_task 0 = some AEROSPIKE_OK ∧
      (as_batch_parse_protos as_error_reset (headed_frames ⟨3, 1⟩) results_task).map
        (fun out => (out.status, task_result out.task 0)) =
        some (AEROSPIKE_OK, some AEROSPIKE_ERR_RECORD_NOT_FOUND) := by
  decide

theorem rd_buf_frees_stack (rv : Int) : rd_buf_frees false rv = 0 := by
  simp [rd_buf_frees]

theorem rd_buf_frees_success (heap : Bool) : rd_buf_frees heap 0 ≤ 1 := by
  cases heap <;> simp [rd_buf_frees]

/-- A compressed frame whose decompression does not free the read buffer twice (a body in the
stack buffer, or a success of batch_decompress) and leaves no byte is passed over. -/
theorem do_batch_monte_frames_compressed_empty (env : cl_env) (cb : Bool)
    (f : cl_proto_frame) (frames : List cl_proto_frame) (trace : List cl_event)
    (d : decompress_out)
    (hheader : f.header_rv = 0) (hversion : f.version = CL_PROTO_VERSION)
    (htype : f.type = CL_PROTO_TYPE_CL_MSG_COMPRESSED) (hbody : f.body_rv = 0)
    (hbuf : f.body.length > STACK_BUF_SZ → env.malloc f.body.length = true)
    (hd : batch_decompress env f.body f.body.length = some d)
    (hfree : d.rv ≠ 0 → f.body.length ≤ STACK_BUF_SZ)
    (hsz : (d.out.getD ([], 0)).2 = 0) :
    do_batch_monte_frames env cb (f :: frames) trace =
      do_batch_monte_frames env cb frames trace := by
  conv_lhs => unfold do_batch_monte_frames
  have h2 : ¬ (f.body.length > 0 ∧ f.body.length > STACK_BUF_SZ ∧
      ¬ env.malloc f.body.length = true) := by
    rintro ⟨_, h3, h4⟩
    exact h4 (hbuf h3)
  have h3 : ¬ (CL_PROTO_TYPE_CL_MSG_COMPRESSED ≠ CL_PROTO_TYPE_CL_MSG ∧
      CL_PROTO_TYPE_CL_MSG_COMPRESSED ≠ CL_PROTO_TYPE_CL_MSG_COMPRESSED) := by
    rintro ⟨_, h4⟩; exact h4 rfl
  have h4 : ¬ rd_buf_frees (decide (f.body.length > STACK_BUF_SZ)) d.rv > 1 := by
    by_cases hrv : d.rv = 0
    · rw [hrv]
      have := rd_buf_frees_success (decide (f.body.length > STACK_BUF_SZ))
      omega
    · have hle := hfree hrv
      have hdec : decide (f.body.length > STACK_BUF_SZ) = false := by
        simp only [decide_eq_false_iff_not]; omega
      rw [hdec, rd_buf_frees_stack]
      omega
  simp only [hheader, hversion, htype, hbody, ne_eq, not_true_eq_false, if_false, h2, h3,
    and_false, if_true, hd, Option.some_bind, h4]
  have hsplit : d.out.getD ([], 0) = ((d.out.getD ([], 0)).1, 0) := Prod.ext rfl hsz
  rw [hsplit]
  simp only []
  rw [do_batch_monte_messages_zero]
  simp

theorem as_batch_index_records_rows_eq (task : as_batch_task)
    (records : List as_batch_read_record) (h : task.records = some records) :
    as_batch_index_records_rows task = task.offsets.mapM (as_batch_index_records_row records) := by
  unfold as_batch_index_records_rows
  rw [h]
  rfl

/-- The entries that as_batch_index_records_execute writes decode to the rows of the records,
when equal pointers hold equal contents and the records that pass the test of the repeat flag
have the same n_bin_names. -/
theorem as_batch_index_records_entries_decode (refs : as_refs)
    (records : List as_batch_read_record)
    (hns : ∀ i j a b, records[i]? = some a → records[j]? = some b →
      refs.ns i = refs.ns j → a.key.ns = b.key.ns)
    (hbins : ∀ i j a b, records[i]? = some a → records[j]? = some b →
      refs.bin_names i = refs.bin_names j → a.bin_names = b.bin_names)
    (hcount : ∀ i j a b, records[i]? = some a → records[j]? = some b →
      refs.ns i = refs.ns j → refs.bin_names i = refs.bin_names j →
      a.read_all_bins = b.read_all_bins → a.n_bin_names = b.n_bin_names) :
    ∀ (offsets : List Nat) (prev : Option (Nat × as_batch_read_record))
      (state : Option batch_index_header) (entries : List batch_index_entry),
      as_batch_index_records_entries refs records offsets prev = some entries →
      (∀ po pr, prev = some (po, pr) → records[po]? = some pr ∧
        ∃ h, state = some h ∧ as_batch_index_records_header pr = some h) →
      batch_index_decode entries state =
        offsets.mapM (as_batch_index_records_row records) := by
  intro offsets
  induction offsets with
  | nil =>
    intro prev state entries h _
    simp only [as_batch_index_records_entries, Option.some.injEq] at h
    subst h
    rfl
  | cons offset offsets ih =>
    intro prev state entries h hprev
    unfold as_batch_index_records_entries at h
    cases hr : records[offset]? with
    | none => rw [hr] at h; simp at h
    | some record =>
      rw [hr] at h
      simp only at h
      split at h
      · rename_i hcond
        cases prev with
        | none => simp at hcond
        | some pp =>
          obtain ⟨po, pr⟩ := pp
          simp only [Bool.and_eq_true, beq_iff_eq] at hcond
          obtain ⟨hp1, hh, hstate, hheader⟩ := hprev po pr rfl
          cases hrest : as_batch_index_records_entries refs records offsets (some (po, pr)) with
          | none => rw [hrest] at h; simp at h
          | some rest =>
            rw [hrest] at h
            simp only [Option.map_some', Option.some.injEq] at h
            subst h
            have e1 := hns po offset pr record hp1 hr hcond.1.1
            have e2 := hbins po offset pr record hp1 hr hcond.1.2
            have e3 := hcount po offset pr record hp1 hr hcond.1.1 hcond.1.2 hcond.2
            have hsame : as_batch_index_records_header record = some hh := by
              rw [← hheader]
              unfold as_batch_index_records_header
              rw [e1, e2, e3, hcond.2]
            have hrow : as_batch_index_records_row records offset =
                some ⟨offset, record.key.digest, hh⟩ := by
              unfold as_batch_index_records_row
              rw [hr]
              simp only [hsame, Option.map_some']
            have := ih (some (po, pr)) (some hh) rest hrest (by
              intro po' pr' hpp
              simp only [Option.some.injEq, Prod.mk.injEq] at hpp
              rw [← hpp.1, ← hpp.2]
              exact ⟨hp1, hh, rfl, hheader⟩)
            simp only [batch_index_decode, hstate, List.mapM_cons, hrow]
            rw [this]
            cases List.mapM (as_batch_index_records_row records) offsets <;> rfl
      · cases hhead : as_batch_index_records_header record with
        | none => rw [hhead] at h; simp at h
        | some header =>
          rw [hhead] at h
          simp only at h
          cases hrest : as_batch_index_records_entries refs records offsets
              (some (offset, record)) with
          | none => rw [hrest] at h; simp at h
          | some rest =>
            rw [hrest] at h
            simp only [Option.map_some', Option.some.injEq] at h
            subst h
            have hrow : as_batch_index_records_row records offset =
                some ⟨offset, record.key.digest, header⟩ := by
              unfold as_batch_index_records_row
              rw [hr]
              simp only [hhead, Option.map_some']
            have := ih (some (offset, record)) (some header) rest hrest (by
              intro po' pr' hpp
              simp only [Option.some.injEq, Prod.mk.injEq] at hpp
              rw [← hpp.1, ← hpp.2]
              exact ⟨hr, header, rfl, hhead⟩)
            simp only [batch_index_decode, List.mapM_cons, hrow, if_true]
            rw [this]
            cases List.mapM (as_batch_index_records_row records) offsets <;> rfl

/-- The field that as_batch_index_records_execute writes decodes to the rows of the records of
the task, when equal pointers hold equal contents and the records that pass the test of the
repeat flag have the same n_bin_names. -/
theorem as_batch_index_records_field_decode (refs : as_refs) (task : as_batch_task)
    (records : List as_batch_read_record) (entries : List batch_index_entry)
    (hrecords : task.records = some records)
    (hns : ∀ i j a b, records[i]? = some a → records[j]? = some b →
      refs.ns i = refs.ns j → a.key.ns = b.key.ns)
    (hbins : ∀ i j a b, records[i]? = some a → records[j]? = some b →
      refs.bin_names i = refs.bin_names j → a.bin_names = b.bin_names)
    (hcount : ∀ i j a b, records[i]? = some a → records[j]? = some b →
      refs.ns i = refs.ns j → refs.bin_names i = refs.bin_names j →
      a.read_all_bins = b.read_all_bins → a.n_bin_names = b.n_bin_names)
    (hfield : as_batch_index_records_field refs task = some entries) :
    batch_index_decode entries none = as_batch_index_records_rows task := by
  rw [as_batch_index_records_rows_eq task records hrecords]
  unfold as_batch_index_records_field at hfield
  rw [hrecords] at hfield
  exact as_batch_index_records_entries_decode refs records hns hbins hcount task.offsets none
    none entries hfield (by intro po pr h; simp at h)

/-- The entries that as_batch_index_execute writes decode to the rows of the keys, when equal
pointers hold equal namespaces. -/
theorem as_batch_index_entries_decode (refs : as_refs) (task : as_batch_task)
    (hns : ∀ i j a b, task.keys[i]? = some a → task.keys[j]? = some b →
      refs.ns i = refs.ns j → a.ns = b.ns) :
    ∀ (offsets : List Nat) (prev : Option (Nat × String))
      (state : Option batch_index_header) (entries : List batch_index_entry),
      as_batch_index_entries refs task offsets prev = some entries →
      (∀ pref pstr, prev = some (pref, pstr) → ∃ po pk h, task.keys[po]? = some pk ∧
        refs.ns po = pref ∧ pk.ns = pstr ∧ state = some h ∧
        as_batch_index_header task pk = some h) →
      batch_index_decode entries state = offsets.mapM (as_batch_index_row task) := by
  intro offsets
  induction offsets with
  | nil =>
    intro prev state entries h _
    simp only [as_batch_index_entries, Option.some.injEq] at h
    subst h
    rfl
  | cons offset offsets ih =>
    intro prev state entries h hprev
    unfold as_batch_index_entries at h
    cases hk : task.keys[offset]? with
    | none => rw [hk] at h; simp at h
    | some key =>
      rw [hk] at h
      simp only at h
      split at h
      · rename_i hcond
        cases prev with
        | none => simp at hcond
        | some pp =>
          obtain ⟨pref, pstr⟩ := pp
          simp only [Bool.or_eq_true, beq_iff_eq] at hcond
          obtain ⟨po, pk, hh, hp1, hp2, hp3, hstate, hheader⟩ := hprev pref pstr rfl
          have e1 : key.ns = pk.ns := by
            rcases hcond with hc | hc
            · exact hns offset po key pk hk hp1 (by rw [hc, hp2])
            · rw [← hc, hp3]
          cases hrest : as_batch_index_entries refs task offsets (some (pref, pstr)) with
          | none => rw [hrest] at h; simp at h
          | some rest =>
            rw [hrest] at h
            simp only [Option.map_some', Option.some.injEq] at h
            subst h
            have hsame : as_batch_index_header task key = some hh := by
              rw [← hheader]
              unfold as_batch_index_header
              rw [e1]
            have hrow : as_batch_index_row task offset = some ⟨offset, key.digest, hh⟩ := by
              unfold as_batch_index_row
              rw [hk]
              simp only [hsame, Option.map_some']
            have := ih (some (pref, pstr)) (some hh) rest hrest (by
              intro pref' pstr' hpp
              simp only [Option.some.injEq, Prod.mk.injEq] at hpp
              rw [← hpp.1, ← hpp.2]
              exact ⟨po, pk, hh, hp1, hp2, hp3, rfl, hheader⟩)
            simp only [batch_index_decode, hstate, List.mapM_cons, hrow]
            rw [this]
            cases List.mapM (as_batch_index_row task) offsets <;> rfl
      · cases hhead : as_batch_index_header task key with
        | none => rw [hhead] at h; simp at h
        | some header =>
          rw [hhead] at h
          simp only at h
          cases hrest : as_batch_index_entries refs task offsets
              (some (refs.ns offset, key.ns)) with
          | none => rw [hrest] at h; simp at h
          | some rest =>
            rw [hrest] at h
            simp only [Option.map_some', Option.some.injEq] at h
            subst h
            have hrow : as_batch_index_row task offset =
                some ⟨offset, key.digest, header⟩ := by
              unfold as_batch_index_row
              rw [hk]
              simp only [hhead, Option.map_some']
            have := ih (some (refs.ns offset, key.ns)) (some header) rest hrest (by
              intro pref' pstr' hpp
              simp only [Option.some.injEq, Prod.mk.injEq] at hpp
              rw [← hpp.1, ← hpp.2]
              exact ⟨offset, key, header, hk, rfl, rfl, rfl, hhead⟩)
            simp only [batch_index_decode, List.mapM_cons, hrow, if_true]
            rw [this]
            cases List.mapM (as_batch_index_row task) offsets <;> rfl

/-- The field that as_batch_index_execute writes decodes, for every entry, to the offset, the
digest and the namespace of its own key and to the bin selection of the task, when equal
pointers hold equal namespaces. -/
theorem as_batch_index_field_decode (refs : as_refs) (task : as_batch_task)
    (entries : List batch_index_entry)
    (hns : ∀ i j a b, task.keys[i]? = some a → task.keys[j]? = some b →
      refs.ns i = refs.ns j → a.ns = b.ns)
    (hfield : as_batch_index_field refs task = some entries) :
    batch_index_decode entries none = as_batch_index_rows task := by
  unfold as_batch_index_field at hfield
  exact as_batch_index_entries_decode refs task hns task.offsets none none entries hfield
    (by intro pref pstr h; simp at h)

/-- A run of `size` consecutive counter values reaches every position of an array of that
size. -/
theorem consecutive_index_covers (index size j : Nat) (hj : j < size) :
    ∃ k, k < size ∧ (index + k) % size = j := by
  have hpos : 0 < size := by omega
  have hr : index % size < size := Nat.mod_lt _ hpos
  by_cases hle : index % size ≤ j
  · refine ⟨j - index % size, by omega, ?_⟩
    rw [Nat.add_mod, Nat.mod_eq_of_lt (a := j - index % size) (by omega)]
    have : index % size + (j - index % size) = j := by omega
    rw [this, Nat.mod_eq_of_lt hj]
  · refine ⟨j + size - index % size, by omega, ?_⟩
    rw [Nat.add_mod, Nat.mod_eq_of_lt (a := j + size - index % size) (by omega)]
    have : index % size + (j + size - index % size) = j + size := by omega
    rw [this, Nat.add_mod_right, Nat.mod_eq_of_lt hj]

/-- The loop of as_node_get_random, while the counter does not wrap and the entries of the
array are nodes: it returns a node, or it returns the null pointer after it has found the
node inactive on each of its passes. -/
theorem as_node_get_random_loop_scan (size : Nat) :
    ∀ (tries : Nat) (c : as_cluster), tries ≤ size → c.node_index + tries ≤ UINT32_SIZE →
      c.nodes.array.length = size →
      (∀ p ∈ c.nodes.array, ∃ node, as_node_at c.heap p = some node) →
      ∃ p c', as_node_get_random_loop size tries c = some (p, c') ∧
        (p = 0 → ∀ k, k < tries → ∀ q, c.nodes.array[(c.node_index + k) % size]? = some q →
          ∃ node, as_node_at c.heap q = some node ∧ node.active = false) := by
  intro tries
  induction tries with
  | zero =>
    intro c _ _ _ _
    exact ⟨0, as_nodes_release c, rfl, fun _ k hk => absurd hk (by omega)⟩
  | succ tries ih =>
    intro c htries hwrap hsize hvalid
    have hpos : 0 < size := by omega
    unfold as_node_get_random_loop
    simp only
    · have hlt : c.node_index % size < c.nodes.array.length := by
        rw [hsize]; exact Nat.mod_lt _ hpos
      rw [List.getElem?_eq_getElem hlt]
      simp only
      obtain ⟨node, hnode⟩ := hvalid _ (List.getElem_mem hlt)
      rw [hnode]
      simp only
      by_cases hact : node.active = true
      · rw [if_pos hact]
        unfold as_node_reserve
        rw [hnode]
        simp only [Option.map_some']
        refine ⟨_, _, rfl, fun h0 => ?_⟩
        exact absurd h0 (Nat.pos_iff_ne_zero.mp (as_node_at_some hnode).1)
      · rw [if_neg hact]
        have hact' : node.active = false := by simpa using hact
        by_cases hend : c.node_index + 1 = UINT32_SIZE
        · have ht : tries = 0 := by omega
          subst ht
          refine ⟨0, _, rfl, fun _ k hk q hq => ?_⟩
          have hk0 : k = 0 := by omega
          subst hk0
          simp only [Nat.add_zero] at hq
          rw [List.getElem?_eq_getElem hlt] at hq
          simp only [Option.some.injEq] at hq
          rw [← hq]
          exact ⟨node, hnode, hact'⟩
        · have hmod : (c.node_index + 1) % UINT32_SIZE = c.node_index + 1 :=
            Nat.mod_eq_of_lt (by omega)
          obtain ⟨p, c', h1, h2⟩ := ih
            { c with node_index := (c.node_index + 1) % UINT32_SIZE } (by omega)
            (by simp only [hmod]; omega) hsize hvalid
          refine ⟨p, c', h1, fun h0 k hk q hq => ?_⟩
          rcases Nat.eq_zero_or_pos k with hk0 | hkpos
          · subst hk0
            simp only [Nat.add_zero] at hq
            rw [List.getElem?_eq_getElem hlt] at hq
            simp only [Option.some.injEq] at hq
            rw [← hq]
            exact ⟨node, hnode, hact'⟩
          · have := h2 h0 (k - 1) (by omega) q
            simp only [hmod] at this
            have hk1 : c.node_index + 1 + (k - 1) = c.node_index + k := by omega
            rw [hk1] at this
            exact this hq

/-- While the counter does not wrap during the call and the entries of the snapshot are nodes,
as_node_get_random returns a node whenever the snapshot has an active node. -/
theorem as_node_get_random_found (c : as_cluster)
    (hwrap : c.node_index + c.nodes.array.length ≤ UINT32_SIZE)
    (hvalid : ∀ p ∈ c.nodes.array, ∃ node, as_node_at c.heap p = some node)
    (hactive : ∃ p ∈ c.nodes.array, ∃ node, as_node_at c.heap p = some node ∧
      node.active = true) :
    ∃ p c', as_node_get_random c = some (p, c') ∧ p ≠ 0 := by
  unfold as_node_get_random
  obtain ⟨p, c', h1, h2⟩ := as_node_get_random_loop_scan c.nodes.array.length
    c.nodes.array.length (as_nodes_reserve c) (le_refl _) hwrap rfl hvalid
  refine ⟨p, c', h1, fun h0 => ?_⟩
  obtain ⟨q, hq, node, hnode, hact⟩ := hactive
  obtain ⟨j, hj, hget⟩ := List.getElem_of_mem hq
  obtain ⟨k, hk, hkj⟩ := consecutive_index_covers c.node_index c.nodes.array.length j hj
  have := h2 h0 k hk q (by
    simp only [as_nodes_reserve]
    rw [hkj, List.getElem?_eq_getElem hj, hget])
  obtain ⟨node', hnode', hact'⟩ := this
  simp only [as_nodes_reserve] at hnode'
  rw [hnode] at hnode'
  simp only [Option.some.injEq] at hnode'
  rw [← hnode', hact] at hact'
  exact absurd hact' (by simp)

theorem batch_decompress_failure {env : cl_env} {in_buf : List Nat} {in_sz : Nat}
    {d : decompress_out} (h : batch_decompress env in_buf in_sz = some d) (hrv : d.rv ≠ 0) :
    d.out = none := by
  unfold batch_decompress at h
  by_cases hinit : env.inflateInit ≠ Z_OK
  · rw [if_pos hinit] at h
    simp only [Option.some.injEq] at h
    rw [← h]
  · rw [if_neg hinit] at h
    by_cases hsz : in_sz < 8 ∨ in_buf.length < in_sz
    · rw [if_pos hsz] at h
      simp at h
    · rw [if_neg hsz] at h
      simp only at h
      by_cases hm : ¬ env.malloc (load_uint64 env.host_big_endian in_buf) = true
      · rw [if_pos hm] at h
        simp only [Option.some.injEq] at h
        rw [← h]
      · rw [if_neg hm] at h
        split at h
        · simp only [Option.some.injEq] at h
          rw [← h]
        · simp only [Option.some.injEq] at h
          rw [← h] at hrv
          exact absurd rfl hrv

/-- Every compressed frame read into the stack buffer on which batch_decompress returns
failure is passed over by do_batch_monte: no message of it is parsed, no callback is called,
and the call goes on with the frames that follow as if the frame had not been there. -/
theorem do_batch_monte_frames_decompress_failure (env : cl_env) (cb : Bool)
    (f : cl_proto_frame) (frames : List cl_proto_frame) (trace : List cl_event)
    (d : decompress_out)
    (hheader : f.header_rv = 0) (hversion : f.version = CL_PROTO_VERSION)
    (htype : f.type = CL_PROTO_TYPE_CL_MSG_COMPRESSED) (hbody : f.body_rv = 0)
    (hstack : f.body.length ≤ STACK_BUF_SZ)
    (hd : batch_decompress env f.body f.body.length = some d) (hrv : d.rv ≠ 0) :
    do_batch_monte_frames env cb (f :: frames) trace =
      do_batch_monte_frames env cb frames trace := by
  have hout := batch_decompress_failure hd hrv
  exact do_batch_monte_frames_compressed_empty env cb f frames trace d hheader hversion htype
    hbody (fun h => absurd hstack (by omega)) hd (fun _ => hstack) (by rw [hout]; rfl)

/-- The specification capacity is the ceiling of the fraction 1.25 * keys / nodes, clamped. -/
theorem offsets_capacity_spec_eq (n_keys n_nodes : Nat) (hn : 1 ≤ n_nodes) :
    offsets_capacity_spec n_keys n_nodes =
      max 10 (Nat.ceil ((5 / 4 : ℚ) * n_keys / n_nodes)) := by
  unfold offsets_capacity_spec
  congr 1
  have hn' : (0 : ℚ) < n_nodes := by positivity
  apply eq_of_forall_ge_iff
  intro k
  rw [Nat.ceil_le, Nat.div_le_iff_le_mul_add_pred (by omega)]
  have h : (5 / 4 : ℚ) * n_keys / n_nodes ≤ k ↔ 5 * n_keys ≤ 4 * n_nodes * k := by
    rw [div_le_iff₀ hn']
    constructor
    · intro h
      have : (5 * n_keys : ℚ) ≤ 4 * n_nodes * k := by linarith
      exact_mod_cast this
    · intro h
      have : (5 * n_keys : ℚ) ≤ 4 * n_nodes * k := by exact_mod_cast h
      linarith
  rw [h]
  omega

/-- C21. For every configuration and every outcome of the thread pool and of the first tend,
the cluster that as_cluster_create hands out has tend_interval = max(config.tender_interval,
1000) and conn_timeout_ms = 1000 when config.conn_timeout_ms is 0 and the configured value
otherwise, hence tend_interval >= 1000 and conn_timeout_ms > 0; a cluster is handed out
exactly when the status is OK, which is the case whenever the thread pool starts and the
shared memory set-up or the first tend does not fail. -/
theorem C21_tend_interval_and_timeout (env : as_create_env) (config : as_config) :
    (∀ cluster, (as_cluster_create env config).2 = some cluster →
      cluster.tend_interval = max config.tender_interval 1000 ∧
      cluster.conn_timeout_ms =
        (if config.conn_timeout_ms = 0 then 1000 else config.conn_timeout_ms) ∧
      1000 ≤ cluster.tend_interval ∧ 0 < cluster.conn_timeout_ms) ∧
    ((as_cluster_create env config).1 = AEROSPIKE_OK ↔
      (as_cluster_create env config).2.isSome = true) ∧
    (env.as_thread_pool_init = 0 → env.as_shm_create = AEROSPIKE_OK →
      env.as_wait_till_stabilized = AEROSPIKE_OK →
      (as_cluster_create env config).1 = AEROSPIKE_OK) := by
  have hmax : (if config.tender_interval < 1000 then 1000 else config.tender_interval) =
      max config.tender_interval 1000 := by
    split <;> omega
  have hpos : 0 < (if config.conn_timeout_ms = 0 then 1000 else config.conn_timeout_ms) := by
    split <;> omega
  refine ⟨?_, ?_, ?_⟩
  · intro cluster h
    unfold as_cluster_create at h
    dsimp only at h
    split at h
    · simp at h
    · split at h
      · split at h
        · simp at h
        · simp only [Option.some.injEq] at h
          subst h
          exact ⟨hmax, rfl, by show 1000 ≤ ite _ _ _; rw [hmax]; omega, hpos⟩
      · split at h
        · simp at h
        · simp only [Option.some.injEq] at h
          subst h
          exact ⟨hmax, rfl, by show 1000 ≤ ite _ _ _; rw [hmax]; omega, hpos⟩
  · unfold as_cluster_create
    dsimp only
    split
    · simp [AEROSPIKE_ERR_CLIENT, AEROSPIKE_OK]
    · split
      · split
        · rename_i h; simp [h]
        · simp
      · split
        · rename_i h; simp [h]
        · simp
  · intro h1 h2 h3
    unfold as_cluster_create as_cluster_init
    simp only [h1, h2, h3]
    cases config.use_shm <;> simp

/-- Witness of C21: a configuration with tender_interval 250 and conn_timeout_ms 0, the thread
pool and the first tend without failure. -/
theorem C21_tend_interval_and_timeout_witness :
    (as_cluster_create ⟨0, 0, 0⟩ ⟨"", "", [⟨some "127.0.0.1", 3000⟩], 250, 300, 0, 16, false,
        true⟩).2 =
      some ⟨none, none, [⟨"127.0.0.1", 3000⟩], 1000, 301, 1000, true⟩ ∧
    ((⟨none, none, [⟨"127.0.0.1", 3000⟩], 1000, 301, 1000, true⟩ :
        as_cluster_settings).tend_interval = max 250 1000 ∧
      (⟨none, none, [⟨"127.0.0.1", 3000⟩], 1000, 301, 1000, true⟩ :
        as_cluster_settings).conn_timeout_ms = (if 0 = 0 then 1000 else 0) ∧
      1000 ≤ (⟨none, none, [⟨"127.0.0.1", 3000⟩], 1000, 301, 1000, true⟩ :
        as_cluster_settings).tend_interval ∧
      0 < (⟨none, none, [⟨"127.0.0.1", 3000⟩], 1000, 301, 1000, true⟩ :
        as_cluster_settings).conn_timeout_ms) :=
  ⟨by decide,
    (C21_tend_interval_and_timeout ⟨0, 0, 0⟩
      ⟨"", "", [⟨some "127.0.0.1", 3000⟩], 250, 300, 0, 16, false, true⟩).1 _ (by decide)⟩

/-- C22 (amended). For every n_keys and every n_nodes >= 1 the initial capacity of the
offsets vectors that as_batch_execute and aerospike_batch_read compute is max(10, (q + q div
4) mod 2^32) with q = n_keys div n_nodes, in whole numbers; it never exceeds max(10, ceil(1.25
* n_keys / n_nodes)), and it is equal to it when n_keys is a multiple of 4 * n_nodes and the
sum does not wrap. -/
theorem C22_offsets_capacity (n_keys n_nodes : Nat) (hn : 1 ≤ n_nodes) :
    offsets_capacity n_keys n_nodes =
        max 10 ((n_keys / n_nodes + n_keys / n_nodes / 4) % UINT32_SIZE) ∧
      offsets_capacity n_keys n_nodes ≤ offsets_capacity_spec n_keys n_nodes ∧
      (4 * n_nodes ∣ n_keys → n_keys / n_nodes + n_keys / n_nodes / 4 < UINT32_SIZE →
        offsets_capacity n_keys n_nodes = offsets_capacity_spec n_keys n_nodes) := by
  have hshift : ∀ q : Nat, q >>> 2 = q / 4 := fun q => by
    rw [Nat.shiftRight_eq_div_pow]
  have h1 : offsets_capacity n_keys n_nodes =
      max 10 ((n_keys / n_nodes + n_keys / n_nodes / 4) % UINT32_SIZE) := by
    unfold offsets_capacity
    dsimp only
    rw [hshift]
    split
    · omega
    · omega
  have hq : n_keys / n_nodes * n_nodes ≤ n_keys := Nat.div_mul_le_self _ _
  have h4 : n_keys / n_nodes / 4 * 4 ≤ n_keys / n_nodes := Nat.div_mul_le_self _ _
  have hmod : (n_keys / n_nodes + n_keys / n_nodes / 4) % UINT32_SIZE ≤
      n_keys / n_nodes + n_keys / n_nodes / 4 := Nat.mod_le _ _
  have hle : n_keys / n_nodes + n_keys / n_nodes / 4 ≤
      (5 * n_keys + 4 * n_nodes - 1) / (4 * n_nodes) := by
    rw [Nat.le_div_iff_mul_le (by omega)]
    have : (n_keys / n_nodes + n_keys / n_nodes / 4) * (4 * n_nodes) ≤
        5 * (n_keys / n_nodes * n_nodes) := by
      have : (n_keys / n_nodes + n_keys / n_nodes / 4) * 4 ≤ 5 * (n_keys / n_nodes) := by
        omega
      calc (n_keys / n_nodes + n_keys / n_nodes / 4) * (4 * n_nodes)
          = (n_keys / n_nodes + n_keys / n_nodes / 4) * 4 * n_nodes := by ring
        _ ≤ 5 * (n_keys / n_nodes) * n_nodes := Nat.mul_le_mul_right _ this
        _ = 5 * (n_keys / n_nodes * n_nodes) := by ring
    omega
  refine ⟨h1, ?_, ?_⟩
  · rw [h1]
    unfold offsets_capacity_spec
    omega
  · rintro ⟨k, hk⟩ hsmall
    rw [h1, Nat.mod_eq_of_lt hsmall]
    unfold offsets_capacity_spec
    congr 1
    have hqk : n_keys / n_nodes = 4 * k := by
      rw [hk, show 4 * n_nodes * k = n_nodes * (4 * k) by ring]
      exact Nat.mul_div_cancel_left _ (by omega)
    rw [hqk]
    have : (5 * n_keys + 4 * n_nodes - 1) / (4 * n_nodes) = 5 * k := by
      rw [hk]
      have hm : 5 * (4 * n_nodes * k) + 4 * n_nodes - 1 = (4 * n_nodes - 1) + 4 * n_nodes * (5 * k) := by
        have : 5 * (4 * n_nodes * k) = 4 * n_nodes * (5 * k) := by ring
        omega
      rw [hm, Nat.add_mul_div_left _ _ (by omega), Nat.div_eq_of_lt (by omega)]
      omega
    omega

/-- Witness of C22: 100 keys on 3 nodes. -/
theorem C22_offsets_capacity_witness :
    offsets_capacity 100 3 = max 10 ((100 / 3 + 100 / 3 / 4) % UINT32_SIZE) ∧
      offsets_capacity 100 3 ≤ offsets_capacity_spec 100 3 :=
  ⟨(C22_offsets_capacity 100 3 (by decide)).1, (C22_offsets_capacity 100 3 (by decide)).2.1⟩

/-- Counterexample to C22 as stated: for 100 keys on 3 nodes the code computes 33 + 8 = 41,
while max(10, ceil(1.25 * 100 / 3)) = 42. -/
theorem C22_counterexample :
    offsets_capacity 100 3 = 41 ∧ offsets_capacity_spec 100 3 = 42 ∧
      offsets_capacity 100 3 ≠ offsets_capacity_spec 100 3 := by
  decide

set_option maxRecDepth 100000 in
/-- C24. The fixture of test query_foreach_create has 100 records with a = "abc", b = 100, c
running from 0 to 99, d = c mod 10 and e = b + (c + 1) * (d + 1) / 2; the sum of bin e over
all of them, which is the aggregation sum(e) over the records with a == "abc", is 24275, the
value test query_foreach_3 asserts. -/
theorem C24_fixture_sum :
    query_foreach_create.length = 100 ∧
      query_foreach_create.map (fun r => r.c) = (List.range 100).map (fun i => (i : Int)) ∧
      (∀ r ∈ query_foreach_create,
        r.a = "abc" ∧ r.b = 100 ∧ r.d = r.c % 10 ∧ r.e = r.b + (r.c + 1) * (r.d + 1) / 2) ∧
      (query_foreach_create.map (fun r => r.e)).sum = 24275 ∧
      query_sum_e query_foreach_create = query_foreach_3_value := by
  decide

/-- The loop of as_cluster_remove_nodes_copy logs no "count exceeded" when the new array has
room for the nodes that are kept. -/
theorem as_cluster_remove_nodes_errors_nil (r : List Nat) (size : Nat) :
    ∀ (old : List Nat) (count : Nat),
      count + (old.filter (fun q => !as_cluster_find_node_by_reference r q)).length ≤ size →
      as_cluster_remove_nodes_errors r size old count = [] := by
  intro old
  induction old with
  | nil => intro count _; rfl
  | cons node old ih =>
    intro count h
    unfold as_cluster_remove_nodes_errors
    by_cases hin : as_cluster_find_node_by_reference r node = true
    · rw [if_pos hin]
      apply ih
      simpa [List.filter_cons, hin] using h
    · have hin' : as_cluster_find_node_by_reference r node = false := by
        simpa using hin
      have hlen : (List.filter (fun q => !as_cluster_find_node_by_reference r q)
          (node :: old)).length =
          (old.filter (fun q => !as_cluster_find_node_by_reference r q)).length + 1 := by
        simp [List.filter_cons, hin']
      rw [hlen] at h
      rw [if_neg hin, if_pos (by omega)]
      apply ih
      omega

/-- C23 (amended). If the published snapshot holds each of its nodes once (as every snapshot the tend
thread builds does, see tend_reachable_inv) and nodes_to_remove consists of pairwise distinct
nodes that all occur in it, as_cluster_remove_nodes_copy publishes a snapshot of size old.size
- nodes_to_remove.size that holds exactly the nodes of the old snapshot that are not in
nodes_to_remove (compared by reference), in their original order; neither "Node count
exceeded" nor "Node remove mismatch" is logged; and the garbage collector list gets, after
what it held, the removed nodes (which are the nodes of nodes_to_remove) and then, last, the
old snapshot as it was. -/
theorem C23_remove_nodes_copy (c : as_cluster) (nodes_to_remove : List Nat)
    (hsnapshot : c.nodes.array.Nodup) (hdistinct : nodes_to_remove.Nodup)
    (hoccur : ∀ p ∈ nodes_to_remove, p ∈ c.nodes.array) :
    (as_cluster_remove_nodes_copy c nodes_to_remove).nodes.array.length =
        c.nodes.array.length - nodes_to_remove.length ∧
      (as_cluster_remove_nodes_copy c nodes_to_remove).nodes.array =
        c.nodes.array.filter (fun q => decide (q ∉ nodes_to_remove)) ∧
      as_cluster_remove_nodes_copy_log c nodes_to_remove = [] ∧
      (as_cluster_remove_nodes_copy c nodes_to_remove).gc =
        c.gc ++
          (c.nodes.array.filter (fun q => decide (q ∈ nodes_to_remove))).map
            as_gc_item.release_node ++
          [.release_nodes c.nodes] ∧
      (c.nodes.array.filter (fun q => decide (q ∈ nodes_to_remove))).Perm nodes_to_remove := by
  obtain ⟨h1, h2, _⟩ := as_cluster_remove_nodes_copy_spec hsnapshot hdistinct hoccur
  have hcount := filter_mem_length hsnapshot hdistinct hoccur
  have hsplit := List.length_eq_length_filter_add (l := c.nodes.array)
    (fun q => as_cluster_find_node_by_reference nodes_to_remove q)
  have hle : nodes_to_remove.length ≤ c.nodes.array.length := by omega
  have hf1 : (fun q => !as_cluster_find_node_by_reference nodes_to_remove q) =
      (fun q => decide (q ∉ nodes_to_remove)) := by
    funext q
    by_cases hq : q ∈ nodes_to_remove
    · simp [hq, (as_cluster_find_node_by_reference_iff nodes_to_remove q).mpr hq]
    · have : as_cluster_find_node_by_reference nodes_to_remove q = false := by
        cases hb : as_cluster_find_node_by_reference nodes_to_remove q with
        | false => rfl
        | true => exact absurd ((as_cluster_find_node_by_reference_iff _ _).mp hb) hq
      simp [hq, this]
  have hf2 : (fun q => as_cluster_find_node_by_reference nodes_to_remove q) =
      (fun q => decide (q ∈ nodes_to_remove)) := by
    funext q
    by_cases hq : q ∈ nodes_to_remove
    · simp [hq, (as_cluster_find_node_by_reference_iff nodes_to_remove q).mpr hq]
    · have : as_cluster_find_node_by_reference nodes_to_remove q = false := by
        cases hb : as_cluster_find_node_by_reference nodes_to_remove q with
        | false => rfl
        | true => exact absurd ((as_cluster_find_node_by_reference_iff _ _).mp hb) hq
      simp [hq, this]
  have hkeep : (c.nodes.array.filter
      (fun q => !as_cluster_find_node_by_reference nodes_to_remove q)).length =
      c.nodes.array.length - nodes_to_remove.length := by
    omega
  refine ⟨?_, ?_, ?_, ?_, ?_⟩
  · rw [h1, hkeep]
  · rw [h1, hf1]
  · have hroom : 0 + (c.nodes.array.filter
        (fun q => !as_cluster_find_node_by_reference nodes_to_remove q)).length ≤
        (as_nodes_create (c.nodes.array.length - nodes_to_remove.length)).array.length := by
      simp [as_nodes_create]; omega
    obtain ⟨_, _, h3, _⟩ := as_cluster_remove_nodes_loop_spec nodes_to_remove c.nodes.array
      (as_nodes_create (c.nodes.array.length - nodes_to_remove.length)).array 0 c.gc hroom
    unfold as_cluster_remove_nodes_copy_log
    simp only [hle, if_true]
    rw [as_cluster_remove_nodes_errors_nil _ _ _ _ hroom, h3, if_neg]
    · rfl
    · simp [as_nodes_create]; omega
  · rw [h2, hf2]
  · rw [← hf2]
    rw [List.perm_ext_iff_of_nodup (hsnapshot.filter _) hdistinct]
    intro a
    simp only [List.mem_filter, as_cluster_find_node_by_reference_iff]
    exact ⟨fun h => h.2, fun h => ⟨hoccur a h, h⟩⟩

/-- Witness of C23 (amended): the nodes 1 and 3 are removed from the snapshot [1, 2, 3]. -/
theorem C23_remove_nodes_copy_witness :
    (as_cluster_remove_nodes_copy wrap_cluster [3, 1]).nodes.array = [2] ∧
      as_cluster_remove_nodes_copy_log wrap_cluster [3, 1] = [] ∧
      (as_cluster_remove_nodes_copy wrap_cluster [3, 1]).gc =
        wrap_cluster.gc ++ [.release_node 1, .release_node 3,
          .release_nodes wrap_cluster.nodes] :=
  ⟨(C23_remove_nodes_copy wrap_cluster [3, 1] (by decide) (by decide) (by decide)).2.1,
    (C23_remove_nodes_copy wrap_cluster [3, 1] (by decide) (by decide) (by decide)).2.2.1,
    (C23_remove_nodes_copy wrap_cluster [3, 1] (by decide) (by decide) (by decide)).2.2.2.1⟩

/-- Counterexample to C23 as stated: the snapshot [1, 1] holds the node 1 twice and
nodes_to_remove is [1], a list of distinct nodes that all occur in the snapshot. The new
snapshot has size 2 - 1 = 1 although no node of the old one is kept: its one entry stays the
null pointer, "Node remove mismatch" is logged with the expected size 1 and the count 0, and
the node 1 is put on the garbage collector list twice. -/
theorem C23_counterexample :
    [1].Nodup ∧ (∀ p ∈ [1], p ∈ twice_cluster.nodes.array) ∧
      twice_cluster.nodes.array.filter (fun q => decide (q ∉ [1])) = [] ∧
      (as_cluster_remove_nodes_copy twice_cluster [1]).nodes.array = [0] ∧
      as_cluster_remove_nodes_copy_log twice_cluster [1] = [.mismatch 1 0] ∧
      (as_cluster_remove_nodes_copy twice_cluster [1]).gc =
        twice_cluster.gc ++
          [.release_node 1, .release_node 1, .release_nodes twice_cluster.nodes] := by
  decide

/-- One pass of the loop of as_batch_parse_records stays inside the arrays of the task when
the offset of the message does: the transaction_ttl on the index protocol, the entry at
task.index of the offsets vector on the direct protocol. -/
theorem as_batch_parse_message_in_range (err : as_error) (m : as_message)
    (task : as_batch_task) (ha : task_arrays task)
    (hwire : task.use_new_batch = true → m.hdr.transaction_ttl < task.n_keys)
    (hindex : task.use_new_batch = false → task.index < task.offsets.length) :
    ∃ step, as_batch_parse_message err m task = some step ∧ task_arrays step.task ∧
      step.task.n_keys = task.n_keys ∧ step.task.use_new_batch = task.use_new_batch ∧
      step.task.offsets = task.offsets ∧ step.task.index ≤ task.index + 1 := by
  unfold as_batch_parse_message
  split
  · exact ⟨_, rfl, ha, rfl, rfl, rfl, Nat.le_succ _⟩
  split
  · exact ⟨_, rfl, ha, rfl, rfl, rfl, Nat.le_succ _⟩
  have hoff : ∃ offset t, as_batch_message_offset m task = some (offset, t) ∧
      offset < task.n_keys ∧ task_arrays t ∧ t.n_keys = task.n_keys ∧
      t.use_new_batch = task.use_new_batch ∧ t.offsets = task.offsets ∧
      t.index ≤ task.index + 1 := by
    unfold as_batch_message_offset
    by_cases hu : task.use_new_batch = true
    · rw [if_pos hu]
      exact ⟨_, _, rfl, hwire hu, ha, rfl, rfl, rfl, Nat.le_succ _⟩
    · have hu' : task.use_new_batch = false := by simpa using hu
      rw [if_neg hu]
      have hlt := hindex hu'
      rw [List.getElem?_eq_getElem hlt]
      refine ⟨_, _, rfl, ha.offsets _ (List.getElem_mem hlt), ?_, rfl, rfl, rfl, le_refl _⟩
      exact ⟨ha.records, ha.keys, ha.results, ha.offsets⟩
  obtain ⟨offset, t, ho, hlt, hat, hn, hu, hof, hi⟩ := hoff
  rw [ho]
  dsimp only
  have key : ∀ step : parse_step, task_arrays step.task → step.task.n_keys = t.n_keys →
      step.task.use_new_batch = t.use_new_batch → step.task.offsets = t.offsets →
      step.task.index = t.index →
      ∃ step', some step = some step' ∧ task_arrays step'.task ∧
        step'.task.n_keys = task.n_keys ∧ step'.task.use_new_batch = task.use_new_batch ∧
        step'.task.offsets = task.offsets ∧ step'.task.index ≤ task.index + 1 :=
    fun step h1 h2 h3 h4 h5 =>
      ⟨step, rfl, h1, h2.trans hn, h3.trans hu, h4.trans hof, by rw [h5]; exact hi⟩
  by_cases hr : t.use_batch_records = true
  · rw [if_pos hr]
    obtain ⟨records, hrec, hlen⟩ := hat.records hr
    rw [hrec]
    dsimp only
    split
    · exact key _ hat rfl rfl rfl rfl
    · have hlt' : offset < records.length := by rw [hlen, hn]; exact hlt
      rw [List.getElem?_eq_getElem hlt']
      dsimp only
      split
      · refine key _ ?_ rfl rfl rfl rfl
        refine ⟨fun _ => ⟨_, rfl, ?_⟩, fun h => ?_, fun h => ?_, hat.offsets⟩
        · simp [parse_step.task, hlen]
        · simp [parse_step.task, hr] at h
        · simp [parse_step.task, hr] at h
      · exact key _ hat rfl rfl rfl rfl
  · have hr' : t.use_batch_records = false := by simpa using hr
    rw [if_neg hr]
    split
    · exact key _ hat rfl rfl rfl rfl
    · have hlt' : offset < t.keys.length := by rw [hat.keys hr', hn]; exact hlt
      rw [List.getElem?_eq_getElem hlt']
      dsimp only
      split
      · cases hx : t.callback_xdr with
        | some callback_xdr =>
          dsimp only
          split
          · split
            · refine key _ ?_ rfl rfl rfl rfl
              exact ⟨hat.records, hat.keys, fun _ h => by simp [parse_step.task] at h,
                hat.offsets⟩
            · refine key _ ?_ rfl rfl rfl rfl
              exact ⟨hat.records, hat.keys, fun _ h => by simp [parse_step.task] at h,
                hat.offsets⟩
          · exact key _ hat rfl rfl rfl rfl
        | none =>
          dsimp only
          obtain ⟨results, hres, hlen⟩ := hat.results hr' hx
          rw [hres]
          dsimp only
          have hlt'' : offset < results.length := by rw [hlen, hn]; exact hlt
          rw [List.getElem?_eq_getElem hlt'']
          dsimp only
          refine key _ ?_ rfl rfl rfl rfl
          refine ⟨fun h => ?_, hat.keys, fun _ _ => ⟨_, rfl, ?_⟩, hat.offsets⟩
          · simp [parse_step.task, hr'] at h
          · simp [parse_step.task, hlen]
      · exact key _ hat rfl rfl rfl rfl

/-- The loop of as_batch_parse_records stays inside the arrays of the task when the offsets
of the messages of the buffer do. -/
theorem as_batch_parse_records_in_range (err : as_error) :
    ∀ (buf : List as_message) (task : as_batch_task), task_arrays task →
      (task.use_new_batch = true → ∀ m ∈ buf, m.hdr.transaction_ttl < task.n_keys) →
      (task.use_new_batch = false → task.index + buf.length ≤ task.offsets.length) →
      ∃ out, as_batch_parse_records err buf task = some out ∧ task_arrays out.task ∧
        out.task.n_keys = task.n_keys ∧ out.task.use_new_batch = task.use_new_batch ∧
        out.task.offsets = task.offsets ∧ out.task.index ≤ task.index + buf.length := by
  intro buf
  induction buf with
  | nil =>
    intro task ha _ _
    exact ⟨_, rfl, ha, rfl, rfl, rfl, le_refl _⟩
  | cons m buf ih =>
    intro task ha hwire hindex
    obtain ⟨step, hs, h1, h2, h3, h4, h5⟩ := as_batch_parse_message_in_range err m task ha
      (fun hu => hwire hu m (List.mem_cons_self _ _))
      (fun hu => by have := hindex hu; simp only [List.length_cons] at this; omega)
    simp only [as_batch_parse_records, hs]
    cases step with
    | returned out =>
      refine ⟨out, rfl, h1, h2, h3, h4, ?_⟩
      have : out.task.index ≤ task.index + 1 := h5
      simp only [List.length_cons]; omega
    | next t =>
      have h1' : task_arrays t := h1
      have h2' : t.n_keys = task.n_keys := h2
      have h3' : t.use_new_batch = task.use_new_batch := h3
      have h4' : t.offsets = task.offsets := h4
      have h5' : t.index ≤ task.index + 1 := h5
      obtain ⟨out, ho, g1, g2, g3, g4, g5⟩ := ih t h1'
        (fun hu m' hm' => by
          rw [h2']
          exact hwire (h3' ▸ hu) m' (List.mem_cons_of_mem _ hm'))
        (fun hu => by
          have := hindex (h3' ▸ hu)
          simp only [List.length_cons] at this
          rw [h4']; omega)
      refine ⟨out, ho, g1, g2.trans h2', g3.trans h3', g4.trans h4', ?_⟩
      simp only [List.length_cons]; omega

/-- C26 (amended). as_batch_parse_records compares no offset with a bound. For a task whose
records vector, keys array and results array have n_keys entries and whose offsets vector
holds indexes below n_keys, its accesses stay in range provided that on the index protocol
every message of the buffer carries a transaction_ttl below n_keys, and that on the direct
protocol the buffer holds no more messages than the offsets vector has entries from task.index
on: then the function returns without an access out of range, the arrays keep their sizes and
task.index does not pass the size of the offsets vector. -/
theorem C26_offsets_in_range (err : as_error) (buf : List as_message) (task : as_batch_task)
    (harrays : task_arrays task)
    (hwire : task.use_new_batch = true → ∀ m ∈ buf, m.hdr.transaction_ttl < task.n_keys)
    (hdirect : task.use_new_batch = false → task.index + buf.length ≤ task.offsets.length) :
    ∃ out, as_batch_parse_records err buf task = some out ∧ task_arrays out.task ∧
      out.task.n_keys = task.n_keys ∧
      (task.use_new_batch = false → out.task.index ≤ task.offsets.length) := by
  obtain ⟨out, h, h1, h2, _, _, h5⟩ :=
    as_batch_parse_records_in_range err buf task harrays hwire hdirect
  exact ⟨out, h, h1, h2, fun hu => by have := hdirect hu; omega⟩

theorem task_arrays_results_task : task_arrays results_task :=
  ⟨fun h => by simp [results_task] at h, fun _ => rfl, fun _ _ => ⟨_, rfl, rfl⟩,
    fun o ho => by simp [results_task] at ho ⊢; omega⟩

theorem task_arrays_direct_task : task_arrays direct_task :=
  ⟨fun h => by simp [direct_task, results_task] at h, fun _ => rfl, fun _ _ => ⟨_, rfl, rfl⟩,
    fun o ho => by simp [direct_task, results_task] at ho ⊢; omega⟩

/-- Witness of C26: the task results_task and a buffer of one record message for offset 0
followed by the sentinel. -/
theorem C26_offsets_in_range_witness :
    ∃ out, as_batch_parse_records as_error_reset
        [record_message 0 0, bare_message AS_MSG_INFO3_LAST 0] results_task = some out ∧
      task_arrays out.task ∧ out.task.n_keys = results_task.n_keys ∧
      (results_task.use_new_batch = false → out.task.index ≤ results_task.offsets.length) :=
  C26_offsets_in_range as_error_reset [record_message 0 0, bare_message AS_MSG_INFO3_LAST 0]
    results_task task_arrays_results_task (by decide) (by decide)

/-- Counterexample to C26 as stated. On the index protocol a message that carries a digest
field and the transaction_ttl 1 makes the parser read the key at offset 1 of a keys array of
n_keys = 1 entry; on the direct protocol a second message makes it read the offsets vector,
of size 1, at task.index = 1. Both tasks have arrays of the sizes n_keys tells. -/
theorem C26_counterexample :
    results_task.n_keys = 1 ∧ results_task.keys.length = 1 ∧
      results_task.use_new_batch = true ∧
      (as_batch_parse_records as_error_reset
        [⟨⟨0, 0, 0, 0, 1, 0, 1⟩, [⟨AS_FIELD_DIGEST, digest_a⟩], []⟩] results_task).isNone =
        true ∧
      direct_task.use_new_batch = false ∧ direct_task.offsets.length = 1 ∧
      (as_batch_parse_records as_error_reset [record_message 0 0, record_message 0 0]
        direct_task).isNone = true := by
  decide

theorem as_batch_node_find_none (bs : List as_batch_node) (node : Nat) :
    as_batch_node_find bs node = none ↔ node ∉ bs.map (·.node) := by
  induction bs with
  | nil => simp [as_batch_node_find]
  | cons b bs ih =>
    unfold as_batch_node_find
    by_cases h : b.node = node
    · simp [h]
    · have h' : ¬ node = b.node := fun e => h e.symm
      simp [h, h', ih]

/-- Adding a node of the snapshot keeps the nodes of the batch nodes distinct and inside the
snapshot. -/
theorem as_batch_node_add_within (snapshot : List Nat) (bs : List as_batch_node)
    (node i : Nat) (hn : node ∈ snapshot) (hd : (bs.map (·.node)).Nodup)
    (hs : ∀ n ∈ bs.map (·.node), n ∈ snapshot) :
    ((as_batch_node_add bs node i).1.map (·.node)).Nodup ∧
      ∀ n ∈ (as_batch_node_add bs node i).1.map (·.node), n ∈ snapshot := by
  rw [as_batch_node_add_nodes]
  split
  · exact ⟨hd, hs⟩
  · rename_i hnot
    refine ⟨?_, ?_⟩
    · rw [List.nodup_append]
      refine ⟨hd, List.nodup_singleton _, ?_⟩
      intro a ha hb
      rw [List.mem_singleton] at hb
      subst hb
      exact hnot ha
    · intro n hn'
      rcases List.mem_append.mp hn' with h | h
      · exact hs n h
      · rw [List.mem_singleton] at h
        subst h; exact hn

/-- Distinct nodes of the snapshot are no more than the snapshot has entries. -/
theorem nodup_within_length {snapshot nodes : List Nat} (hd : nodes.Nodup)
    (hs : ∀ n ∈ nodes, n ∈ snapshot) : nodes.length ≤ snapshot.length :=
  (List.subperm_of_subset hd hs).length_le

/-- The key loop of as_batch_execute keeps the nodes of the batch nodes distinct and inside
the snapshot, when as_node_get returns nodes of the snapshot only. -/
theorem as_batch_map_keys_within (env : batch_env) (policy : as_policy_batch)
    (callback : Bool) (ns : String) (snapshot : List Nat)
    (hget : ∀ i key node, env.as_node_get i key = some node → node ∈ snapshot) :
    ∀ (todo : List as_key) (i : Nat) (st st' : map_state),
      (st.batch_nodes.map (·.node)).Nodup →
      (∀ n ∈ st.batch_nodes.map (·.node), n ∈ snapshot) →
      as_batch_map_keys env policy callback ns i todo st = .ok st' →
      (st'.batch_nodes.map (·.node)).Nodup ∧
        ∀ n ∈ st'.batch_nodes.map (·.node), n ∈ snapshot := by
  intro todo
  induction todo with
  | nil =>
    intro i st st' hd hs h
    simp only [as_batch_map_keys, Except.ok.injEq] at h
    subst h; exact ⟨hd, hs⟩
  | cons key todo ih =>
    intro i st st' hd hs h
    simp only [as_batch_map_keys] at h
    split at h
    · simp at h
    · split at h
      · simp at h
      · rename_i node hnode
        split at h
        · simp at h
        · have hw := as_batch_node_add_within snapshot st.batch_nodes node i
            (hget _ _ _ hnode) hd hs
          exact ih _ _ _ hw.1 hw.2 h

/-- The key loop of aerospike_batch_read keeps the nodes of the batch nodes distinct and
inside the snapshot, when as_node_get returns nodes of the snapshot only. -/
theorem as_batch_map_records_within (env : batch_env) (policy : as_policy_batch)
    (snapshot : List Nat)
    (hget : ∀ i key node, env.as_node_get i key = some node → node ∈ snapshot) :
    ∀ (todo : List as_batch_read_record) (i : Nat) (st st' : map_records_state),
      (st.batch_nodes.map (·.node)).Nodup →
      (∀ n ∈ st.batch_nodes.map (·.node), n ∈ snapshot) →
      as_batch_map_records env policy i todo st = .ok st' →
      (st'.batch_nodes.map (·.node)).Nodup ∧
        ∀ n ∈ st'.batch_nodes.map (·.node), n ∈ snapshot := by
  intro todo
  induction todo with
  | nil =>
    intro i st st' hd hs h
    simp only [as_batch_map_records, Except.ok.injEq] at h
    subst h; exact ⟨hd, hs⟩
  | cons record todo ih =>
    intro i st st' hd hs h
    simp only [as_batch_map_records] at h
    split at h
    · simp at h
    · split at h
      · simp at h
      · rename_i node hnode
        split at h
        · simp at h
        · have hw := as_batch_node_add_within snapshot st.batch_nodes node i
            (hget _ _ _ hnode) hd hs
          exact ih _ _ _ hw.1 hw.2 h

/-- C27. Let as_node_get return only nodes contained in the snapshot reserved at entry, of
n_nodes entries. After any number of keys the key loops of as_batch_execute and of
aerospike_batch_read hold at most n_nodes batch nodes, and whenever the next node that
as_node_get returns is not found among them, so that it is written to
batch_nodes[n_batch_nodes], n_batch_nodes is below n_nodes: the write is inside the array.
(The state after k keys of a batch is the state the loop ends with on the first k keys,
as_batch_map_keys_append.) -/
theorem C27_batch_nodes_within_snapshot (env : batch_env) (policy : as_policy_batch)
    (snapshot : List Nat) (hsize : snapshot.length = env.nodes_size)
    (hget : ∀ i key node, env.as_node_get i key = some node → node ∈ snapshot) :
    (∀ (callback : Bool) (ns : String) (keys : List as_key)
        (results : Option (List as_batch_read)) (st : map_state),
      as_batch_map_keys env policy callback ns 0 keys ⟨[], results, [], [.nodes_reserve]⟩ =
        .ok st →
      st.batch_nodes.length ≤ env.nodes_size ∧
        ∀ i key node, env.as_node_get i key = some node →
          as_batch_node_find st.batch_nodes node = none →
          st.batch_nodes.length < env.nodes_size) ∧
    (∀ (records : List as_batch_read_record) (st : map_records_state),
      as_batch_map_records env policy 0 records ⟨[], [], [.nodes_reserve]⟩ = .ok st →
      st.batch_nodes.length ≤ env.nodes_size ∧
        ∀ i key node, env.as_node_get i key = some node →
          as_batch_node_find st.batch_nodes node = none →
          st.batch_nodes.length < env.nodes_size) := by
  have room : ∀ bs : List as_batch_node, (bs.map (·.node)).Nodup →
      (∀ n ∈ bs.map (·.node), n ∈ snapshot) →
      bs.length ≤ env.nodes_size ∧
        ∀ i key node, env.as_node_get i key = some node →
          as_batch_node_find bs node = none → bs.length < env.nodes_size := by
    intro bs hd hs
    refine ⟨?_, ?_⟩
    · have := nodup_within_length hd hs
      simpa [hsize] using this
    · intro i key node hnode hfind
      have hnot := (as_batch_node_find_none bs node).mp hfind
      have hd' : (node :: bs.map (·.node)).Nodup := List.nodup_cons.mpr ⟨hnot, hd⟩
      have hs' : ∀ n ∈ node :: bs.map (·.node), n ∈ snapshot := by
        intro n hn
        rcases List.mem_cons.mp hn with h | h
        · subst h; exact hget _ _ _ hnode
        · exact hs n h
      have := nodup_within_length hd' hs'
      simp only [List.length_cons, List.length_map, hsize] at this
      omega
  refine ⟨?_, ?_⟩
  · intro callback ns keys results st h
    have hw := as_batch_map_keys_within env policy callback ns snapshot hget keys 0 _ st
      (by simp) (by simp) h
    exact room _ hw.1 hw.2
  · intro records st h
    have hw := as_batch_map_records_within env policy snapshot hget records 0 _ st
      (by simp) (by simp) h
    exact room _ hw.1 hw.2

/-- Witness of C27: the three keys of demo_keys on the snapshot [100, 101]. -/
theorem C27_batch_nodes_within_snapshot_witness :
    ∃ st, as_batch_map_keys (two_nodes_env 0) sequential_policy true "a" 0 demo_keys
        ⟨[], some [], [], [.nodes_reserve]⟩ = .ok st ∧
      st.batch_nodes.length ≤ (two_nodes_env 0).nodes_size := by
  have h := (C27_batch_nodes_within_snapshot (two_nodes_env 0) sequential_policy [100, 101]
    rfl (by
      intro i key node hnode
      simp only [two_nodes_env, Option.some.injEq] at hnode
      have : key.digest.headD 0 % 2 < 2 := Nat.mod_lt _ (by decide)
      simp only [List.mem_cons, List.mem_singleton, List.not_mem_nil, or_false]
      omega)).1 true "a" demo_keys (some [])
  have h5 : (as_batch_map_keys (two_nodes_env 0) sequential_policy true "a" 0 demo_keys
      ⟨[], some [], [], [.nodes_reserve]⟩).toOption.map (·.batch_nodes.length) = some 2 := by
    decide
  cases hm : as_batch_map_keys (two_nodes_env 0) sequential_policy true "a" 0 demo_keys
      ⟨[], some [], [], [.nodes_reserve]⟩ with
  | error e => rw [hm] at h5; simp [Except.toOption] at h5
  | ok st => exact ⟨st, rfl, (h st hm).1⟩

theorem node_gets_append (node : Nat) (a b : List batch_event) :
    node_gets node (a ++ b) = node_gets node a + node_gets node b := by
  simp [node_gets, List.countP_append]

theorem node_releases_append (node : Nat) (a b : List batch_event) :
    node_releases node (a ++ b) = node_releases node a + node_releases node b := by
  simp [node_releases, List.count_append]

/-- The events of the dispatch hand out no reference, release none, and neither reserve nor
release the snapshot. -/
theorem refs_of_is_dispatch (l : List batch_event) (h : ∀ e ∈ l, e.is_dispatch = true)
    (node : Nat) :
    node_gets node l = 0 ∧ node_releases node l = 0 ∧
      l.count .nodes_reserve = 0 ∧ l.count .nodes_release = 0 := by
  induction l with
  | nil => simp [node_gets, node_releases]
  | cons e l ih =>
    have he := h e (List.mem_cons_self _ _)
    obtain ⟨h1, h2, h3, h4⟩ := ih (fun e' he' => h e' (List.mem_cons_of_mem _ he'))
    simp only [node_gets, node_releases] at h1 h2 ⊢
    cases e <;> simp_all [batch_event.is_dispatch, List.countP_cons, List.count_cons]

theorem as_batch_queue_tasks_is_dispatch (env : batch_env) (status : as_status)
    (task : as_batch_task) :
    ∀ (bs : List as_batch_node) (i : Nat),
      ∀ e ∈ (as_batch_queue_tasks env status task i bs).trace, e.is_dispatch = true := by
  intro bs
  induction bs with
  | nil => intro i e he; simp [as_batch_queue_tasks] at he
  | cons b bs ih =>
    intro i e he
    simp only [as_batch_queue_tasks] at he
    split at he
    · split at he
      · simp only [List.mem_singleton] at he; subst he; rfl
      · simp only [List.mem_singleton] at he; subst he; rfl
    · simp only [List.mem_cons] at he
      rcases he with he | he
      · subst he; rfl
      · exact ih _ e he

theorem as_batch_workers_is_dispatch (env : batch_env) (use_new : Nat → Bool) :
    ∀ (bs : List as_batch_node) (task : as_batch_task) (out : workers_out),
      as_batch_workers env use_new bs task = some out →
      ∀ e ∈ out.trace, e.is_dispatch = true := by
  intro bs
  induction bs with
  | nil =>
    intro task out h e he
    simp only [as_batch_workers, Option.some.injEq] at h
    subst h; simp at he
  | cons b bs ih =>
    intro task out h e he
    simp only [as_batch_workers] at h
    split at h
    · simp at h
    · split at h
      · simp at h
      · rename_i rest hrest
        simp only [Option.some.injEq] at h
        subst h
        simp only [List.mem_cons] at he
        rcases he with he | he
        · subst he; rfl
        · exact ih _ _ hrest e he

theorem as_batch_sequential_is_dispatch (env : batch_env) (use_new : Nat → Bool)
    (reset_index : Bool) :
    ∀ (bs : List as_batch_node) (status : as_status) (task : as_batch_task)
      (out : sequential_out),
      as_batch_sequential env use_new reset_index bs status task = some out →
      ∀ e ∈ out.trace, e.is_dispatch = true := by
  intro bs
  induction bs with
  | nil =>
    intro status task out h e he
    simp only [as_batch_sequential, Option.some.injEq] at h
    subst h; simp at he
  | cons b bs ih =>
    intro status task out h e he
    simp only [as_batch_sequential] at h
    split at h
    · split at h
      · simp at h
      · split at h
        · simp at h
        · rename_i rest hrest
          simp only [Option.some.injEq] at h
          subst h
          simp only [List.mem_cons] at he
          rcases he with he | he
          · subst he; rfl
          · exact ih _ _ _ hrest e he
    · simp only [Option.some.injEq] at h
      subst h; simp at he

/-- Every event of the dispatch of the tasks is an event of the dispatch: no key is routed,
no node is released and the callback is not called. -/
theorem as_batch_dispatch_is_dispatch {env : batch_env} {policy : as_policy_batch}
    {use_new : Nat → Bool} {reset_index : Bool} {bs : List as_batch_node}
    {task : as_batch_task} {out : sequential_out}
    (h : as_batch_dispatch env policy use_new reset_index bs task = some out) :
    ∀ e ∈ out.trace, e.is_dispatch = true := by
  unfold as_batch_dispatch at h
  split at h
  · dsimp only at h
    split at h
    · simp at h
    · rename_i done hdone
      simp only [Option.some.injEq] at h
      subst h
      intro e he
      simp only [List.mem_append] at he
      rcases he with (he | he) | he
      · exact as_batch_queue_tasks_is_dispatch env _ _ _ _ e he
      · exact as_batch_workers_is_dispatch env use_new _ _ _ hdone e he
      · simp only [pop_events, List.mem_map] at he
        obtain ⟨c, _, rfl⟩ := he
        rfl
  · exact as_batch_sequential_is_dispatch env use_new reset_index _ _ _ _ h

theorem refs_release_nodes (bs : List as_batch_node) (node : Nat) :
    node_gets node (as_batch_release_nodes bs) = 0 ∧
      node_releases node (as_batch_release_nodes bs) = batch_node_refs bs node ∧
      (as_batch_release_nodes bs).count .nodes_reserve = 0 ∧
      (as_batch_release_nodes bs).count .nodes_release = 0 := by
  induction bs with
  | nil => simp [as_batch_release_nodes, node_gets, node_releases, batch_node_refs]
  | cons b bs ih =>
    obtain ⟨h1, h2, h3, h4⟩ := ih
    simp only [as_batch_release_nodes, node_gets, node_releases, batch_node_refs] at h1 h2 h3 h4 ⊢
    simp only [List.map_cons, List.countP_cons, List.count_cons, h1, h2, h3, h4]
    simp

theorem as_batch_node_add_events (bs : List as_batch_node) (node i : Nat) :
    (as_batch_node_add bs node i).2 =
      if node ∈ bs.map (·.node) then [.node_release node] else [] := by
  unfold as_batch_node_add
  cases hf : as_batch_node_find bs node with
  | none =>
    have := (as_batch_node_find_none bs node).mp hf
    simp [this]
  | some k =>
    have : node ∈ bs.map (·.node) := by
      by_contra hc
      have := (as_batch_node_find_none bs node).mpr hc
      rw [this] at hf; cases hf
    simp [this]

/-- Adding a node to the batch nodes keeps the reference that as_node_get handed out, either
in a new batch node or by releasing it at once. -/
theorem as_batch_node_add_refs (bs : List as_batch_node) (node i n : Nat) :
    node_gets n (as_batch_node_add bs node i).2 = 0 ∧
      (as_batch_node_add bs node i).2.count .nodes_reserve = 0 ∧
      (as_batch_node_add bs node i).2.count .nodes_release = 0 ∧
      node_releases n (as_batch_node_add bs node i).2 +
          batch_node_refs (as_batch_node_add bs node i).1 n =
        batch_node_refs bs n + (if n = node then 1 else 0) := by
  rw [as_batch_node_add_events]
  unfold batch_node_refs
  rw [as_batch_node_add_nodes]
  by_cases h : node ∈ bs.map (·.node)
  · simp only [h, if_true]
    refine ⟨by simp [node_gets], by simp, by simp, ?_⟩
    by_cases hn : n = node
    · subst hn; simp [node_releases]; omega
    · have hn' : ¬ node = n := fun e => hn e.symm
      simp [node_releases, hn, hn']
  · simp only [h, if_false]
    refine ⟨by simp [node_gets], by simp, by simp, ?_⟩
    by_cases hn : n = node
    · subst hn; simp [node_releases, List.count_append]
    · have hn' : ¬ node = n := fun e => hn e.symm
      simp [node_releases, List.count_append, hn, hn']

/-- The key loop of as_batch_execute and the references. When the loop ends, every reference
handed out has been released or is held by a batch node, and the snapshot is still reserved.
When it returns early the snapshot has been released once, and every reference has been
released once, but for the error "Batch keys must all be in the same namespace.": there the
reference to the node as_node_get returned last is not released. -/
theorem as_batch_map_keys_refs (env : batch_env) (policy : as_policy_batch)
    (callback : Bool) (ns : String) :
    ∀ (todo : List as_key) (i : Nat) (st : map_state),
      (∀ n, node_gets n st.trace = node_releases n st.trace + batch_node_refs st.batch_nodes n) →
      st.trace.count .nodes_reserve = 1 → st.trace.count .nodes_release = 0 →
      match as_batch_map_keys env policy callback ns i todo st with
      | .ok st' =>
        (∀ n, node_gets n st'.trace =
          node_releases n st'.trace + batch_node_refs st'.batch_nodes n) ∧
        st'.trace.count .nodes_reserve = 1 ∧ st'.trace.count .nodes_release = 0
      | .error e =>
        e.trace.count .nodes_reserve = 1 ∧ e.trace.count .nodes_release = 1 ∧
        ((∀ n, node_gets n e.trace = node_releases n e.trace) ∨
          (e.err = as_error_set_message AEROSPIKE_ERR_PARAM .same_namespace ∧
            ∃ node, ∀ n, node_gets n e.trace =
              node_releases n e.trace + (if n = node then 1 else 0))) := by
  intro todo
  induction todo with
  | nil =>
    intro i st h1 h2 h3
    simp only [as_batch_map_keys]
    exact ⟨h1, h2, h3⟩
  | cons key todo ih =>
    intro i st h1 h2 h3
    simp only [as_batch_map_keys]
    have hrel := refs_release_nodes st.batch_nodes
    by_cases hd : (env.as_key_set_digest key).1 ≠ AEROSPIKE_OK
    · rw [if_pos hd]
      dsimp only
      refine ⟨?_, ?_, Or.inl ?_⟩
      · simp [List.count_append, h2, (hrel 0).2.2.1]
      · simp [List.count_append, h3, (hrel 0).2.2.2]
      · intro n
        simp only [node_gets_append, node_releases_append, h1 n, (hrel n).1, (hrel n).2.1]
        simp [node_gets, node_releases]
    · rw [if_neg hd]
      rcases hnode : env.as_node_get i { ns := key.ns, digest := (env.as_key_set_digest key).2 }
        with _ | node
      · dsimp only
        refine ⟨?_, ?_, Or.inl ?_⟩
        · simp [List.count_append, h2, (hrel 0).2.2.1]
        · simp [List.count_append, h3, (hrel 0).2.2.2]
        · intro n
          simp only [node_gets_append, node_releases_append, h1 n, (hrel n).1, (hrel n).2.1]
          simp [node_gets, node_releases]
      · dsimp only
        by_cases hns : (!as_batch_use_new env policy node && ns != key.ns) = true
        · rw [if_pos hns]
          dsimp only
          refine ⟨?_, ?_, Or.inr ⟨rfl, node, ?_⟩⟩
          · simp [List.count_append, h2, (hrel 0).2.2.1]
          · simp [List.count_append, h3, (hrel 0).2.2.2]
          · intro n
            simp only [node_gets_append, node_releases_append, h1 n, (hrel n).1,
              (hrel n).2.1]
            by_cases hn : n = node
            · subst hn; simp [node_gets, node_releases]
            · have hn' : ¬ node = n := fun e => hn e.symm
              simp [node_gets, node_releases, hn, hn']
        · rw [if_neg hns]
          apply ih
          · intro n
            obtain ⟨a1, _, _, a4⟩ := as_batch_node_add_refs st.batch_nodes node i n
            simp only [node_gets_append, node_releases_append, h1 n, a1]
            have hg : node_gets n [batch_event.key_set_digest i] = 0 := by simp [node_gets]
            have hr : node_releases n [batch_event.key_set_digest i] = 0 := by
              simp [node_releases]
            have hg2 : node_gets n [batch_event.node_get i (some node)] =
                if n = node then 1 else 0 := by
              by_cases hn : n = node
              · subst hn; simp [node_gets]
              · have hn' : ¬ node = n := fun e => hn e.symm
                simp [node_gets, hn, hn']
            have hr2 : node_releases n [batch_event.node_get i (some node)] = 0 := by
              simp [node_releases]
            rw [hg, hr, hg2, hr2]
            omega
          · obtain ⟨_, a2, _, _⟩ := as_batch_node_add_refs st.batch_nodes node i 0
            simp [List.count_append, h2, a2]
          · obtain ⟨_, _, a3, _⟩ := as_batch_node_add_refs st.batch_nodes node i 0
            simp [List.count_append, h3, a3]

/-- The key loop of aerospike_batch_read and the references: as for as_batch_execute, the
error that leaves the reference to the last node unreleased being "aerospike_batch_read()
requires a server that supports new batch index protocol." -/
theorem as_batch_map_records_refs (env : batch_env) (policy : as_policy_batch) :
    ∀ (todo : List as_batch_read_record) (i : Nat) (st : map_records_state),
      (∀ n, node_gets n st.trace = node_releases n st.trace + batch_node_refs st.batch_nodes n) →
      st.trace.count .nodes_reserve = 1 → st.trace.count .nodes_release = 0 →
      match as_batch_map_records env policy i todo st with
      | .ok st' =>
        (∀ n, node_gets n st'.trace =
          node_releases n st'.trace + batch_node_refs st'.batch_nodes n) ∧
        st'.trace.count .nodes_reserve = 1 ∧ st'.trace.count .nodes_release = 0
      | .error e =>
        e.1.trace.count .nodes_reserve = 1 ∧ e.1.trace.count .nodes_release = 1 ∧
        ((∀ n, node_gets n e.1.trace = node_releases n e.1.trace) ∨
          (e.1.err = as_error_set_message AEROSPIKE_ERR_UNSUPPORTED_FEATURE
              .requires_batch_index ∧
            ∃ node, ∀ n, node_gets n e.1.trace =
              node_releases n e.1.trace + (if n = node then 1 else 0))) := by
  intro todo
  induction todo with
  | nil =>
    intro i st h1 h2 h3
    simp only [as_batch_map_records]
    exact ⟨h1, h2, h3⟩
  | cons record todo ih =>
    intro i st h1 h2 h3
    simp only [as_batch_map_records]
    have hrel := refs_release_nodes st.batch_nodes
    by_cases hd : (env.as_key_set_digest record.key).1 ≠ AEROSPIKE_OK
    · rw [if_pos hd]
      dsimp only
      refine ⟨?_, ?_, Or.inl ?_⟩
      · simp [List.count_append, h2, (hrel 0).2.2.1]
      · simp [List.count_append, h3, (hrel 0).2.2.2]
      · intro n
        simp only [node_gets_append, node_releases_append, h1 n, (hrel n).1, (hrel n).2.1]
        simp [node_gets, node_releases]
    · rw [if_neg hd]
      rcases hnode : env.as_node_get i
        { ns := record.key.ns, digest := (env.as_key_set_digest record.key).2 } with _ | node
      · dsimp only
        refine ⟨?_, ?_, Or.inl ?_⟩
        · simp [List.count_append, h2, (hrel 0).2.2.1]
        · simp [List.count_append, h3, (hrel 0).2.2.2]
        · intro n
          simp only [node_gets_append, node_releases_append, h1 n, (hrel n).1, (hrel n).2.1]
          simp [node_gets, node_releases]
      · dsimp only
        by_cases hns : (!as_batch_use_new env policy node) = true
        · rw [if_pos hns]
          dsimp only
          refine ⟨?_, ?_, Or.inr ⟨rfl, node, ?_⟩⟩
          · simp [List.count_append, h2, (hrel 0).2.2.1]
          · simp [List.count_append, h3, (hrel 0).2.2.2]
          · intro n
            simp only [node_gets_append, node_releases_append, h1 n, (hrel n).1,
              (hrel n).2.1]
            by_cases hn : n = node
            · subst hn; simp [node_gets, node_releases]
            · have hn' : ¬ node = n := fun e => hn e.symm
              simp [node_gets, node_releases, hn, hn']
        · rw [if_neg hns]
          apply ih
          · intro n
            obtain ⟨a1, _, _, a4⟩ := as_batch_node_add_refs st.batch_nodes node i n
            simp only [node_gets_append, node_releases_append, h1 n, a1]
            have hg : node_gets n [batch_event.key_set_digest i] = 0 := by simp [node_gets]
            have hr : node_releases n [batch_event.key_set_digest i] = 0 := by
              simp [node_releases]
            have hg2 : node_gets n [batch_event.node_get i (some node)] =
                if n = node then 1 else 0 := by
              by_cases hn : n = node
              · subst hn; simp [node_gets]
              · have hn' : ¬ node = n := fun e => hn e.symm
                simp [node_gets, hn, hn']
            have hr2 : node_releases n [batch_event.node_get i (some node)] = 0 := by
              simp [node_releases]
            rw [hg, hr, hg2, hr2]
            omega
          · obtain ⟨_, a2, _, _⟩ := as_batch_node_add_refs st.batch_nodes node i 0
            simp [List.count_append, h2, a2]
          · obtain ⟨_, _, a3, _⟩ := as_batch_node_add_refs st.batch_nodes node i 0
            simp [List.count_append, h3, a3]

/-- Every return path of as_batch_execute and the references. The snapshot is released as
often as it is reserved. Every reference that as_node_get handed out is released once on
every path but one: when the call fails with "Batch keys must all be in the same namespace."
the reference to the node of the key that raised the error is not released. -/
theorem as_batch_execute_refs (env : batch_env) (policy : as_policy_batch)
    (keys : List as_key) (read_attr n_bins : Nat) (bins : List String) (callback : Bool)
    (callback_xdr : Option (as_key → as_record → Bool)) (out : batch_out)
    (h : as_batch_execute env policy keys read_attr bins n_bins callback callback_xdr =
      some out) :
    out.trace.count .nodes_reserve = out.trace.count .nodes_release ∧
      ((∀ n, node_gets n out.trace = node_releases n out.trace) ∨
        (out.err = as_error_set_message AEROSPIKE_ERR_PARAM .same_namespace ∧
          ∃ node, ∀ n, node_gets n out.trace =
            node_releases n out.trace + (if n = node then 1 else 0))) := by
  unfold as_batch_execute at h
  split at h
  · split at h
    · simp only [Option.some.injEq] at h
      subst h
      exact ⟨by simp, Or.inl (fun n => by simp [node_gets, node_releases])⟩
    · simp at h
  · split at h
    · simp only [Option.some.injEq] at h
      subst h
      exact ⟨by simp, Or.inl (fun n => by simp [node_gets, node_releases])⟩
    · dsimp only at h
      have hloop := as_batch_map_keys_refs env policy callback (as_batch_first_ns keys) keys 0
        ⟨[], if callback then some [] else none, [], [.nodes_reserve]⟩
        (fun n => by simp [node_gets, node_releases, batch_node_refs]) (by simp) (by simp)
      split at h
      · rename_i e he
        rw [he] at hloop
        simp only [Option.some.injEq] at h
        subst h
        obtain ⟨g1, g2, g3⟩ := hloop
        exact ⟨by rw [g1, g2], g3⟩
      · rename_i st hst
        rw [hst] at hloop
        obtain ⟨g1, g2, g3⟩ := hloop
        split at h
        · simp at h
        · rename_i done hdone
          simp only [Option.some.injEq] at h
          subst h
          have hdis := refs_of_is_dispatch done.trace (as_batch_dispatch_is_dispatch hdone)
          have hrel := refs_release_nodes st.batch_nodes
          have hcb : ∀ n, node_gets n
              (if callback = true then
                [batch_event.callback done.task.results keys.length] else []) = 0 ∧
              node_releases n
              (if callback = true then
                [batch_event.callback done.task.results keys.length] else []) = 0 ∧
              List.count batch_event.nodes_reserve
              (if callback = true then
                [batch_event.callback done.task.results keys.length] else []) = 0 ∧
              List.count batch_event.nodes_release
              (if callback = true then
                [batch_event.callback done.task.results keys.length] else []) = 0 := by
            intro n
            cases callback <;> simp [node_gets, node_releases]
          refine ⟨?_, Or.inl ?_⟩
          · simp only [List.count_append, g2, g3, (hdis 0).2.2.1, (hdis 0).2.2.2,
              (hrel 0).2.2.1, (hrel 0).2.2.2, (hcb 0).2.2.1, (hcb 0).2.2.2]
            simp
          · intro n
            simp only [node_gets_append, node_releases_append, g1 n, (hdis n).1, (hdis n).2.1,
              (hrel n).1, (hrel n).2.1, (hcb n).1, (hcb n).2.1]
            simp [node_gets, node_releases]

/-- Every return path of aerospike_batch_read and the references: as for as_batch_execute,
the path that leaves a reference unreleased being the one of the error
AEROSPIKE_ERR_UNSUPPORTED_FEATURE. -/
theorem aerospike_batch_read_refs (env : batch_env) (policy : as_policy_batch)
    (records : List as_batch_read_record) (out : batch_out)
    (left : List as_batch_read_record)
    (h : aerospike_batch_read env policy records = some (out, left)) :
    out.trace.count .nodes_reserve = out.trace.count .nodes_release ∧
      ((∀ n, node_gets n out.trace = node_releases n out.trace) ∨
        (out.err = as_error_set_message AEROSPIKE_ERR_UNSUPPORTED_FEATURE
            .requires_batch_index ∧
          ∃ node, ∀ n, node_gets n out.trace =
            node_releases n out.trace + (if n = node then 1 else 0))) := by
  unfold aerospike_batch_read at h
  split at h
  · simp only [Option.some.injEq, Prod.mk.injEq] at h
    obtain ⟨h, _⟩ := h
    subst h
    exact ⟨by simp, Or.inl (fun n => by simp [node_gets, node_releases])⟩
  · split at h
    · simp only [Option.some.injEq, Prod.mk.injEq] at h
      obtain ⟨h, _⟩ := h
      subst h
      exact ⟨by simp, Or.inl (fun n => by simp [node_gets, node_releases])⟩
    · have hloop := as_batch_map_records_refs env policy records 0
        ⟨[], [], [.nodes_reserve]⟩
        (fun n => by simp [node_gets, node_releases, batch_node_refs]) (by simp) (by simp)
      split at h
      · rename_i e he
        rw [he] at hloop
        simp only [Option.some.injEq, Prod.mk.injEq] at h
        obtain ⟨h, _⟩ := h
        subst h
        obtain ⟨g1, g2, g3⟩ := hloop
        exact ⟨by rw [g1, g2], g3⟩
      · rename_i st hst
        rw [hst] at hloop
        obtain ⟨g1, g2, g3⟩ := hloop
        dsimp only at h
        split at h
        · simp at h
        · rename_i done hdone
          simp only [Option.some.injEq, Prod.mk.injEq] at h
          obtain ⟨h, _⟩ := h
          subst h
          have hdis := refs_of_is_dispatch done.trace (as_batch_dispatch_is_dispatch hdone)
          have hrel := refs_release_nodes st.batch_nodes
          refine ⟨?_, Or.inl ?_⟩
          · simp only [List.count_append, g2, g3, (hdis 0).2.2.1, (hdis 0).2.2.2,
              (hrel 0).2.2.1, (hrel 0).2.2.2]
            simp
          · intro n
            simp only [node_gets_append, node_releases_append, g1 n, (hdis n).1, (hdis n).2.1,
              (hrel n).1, (hrel n).2.1]
            simp [node_gets, node_releases]

/-- At the end of as_batch_execute (lines 755-765) the read callback is called only when it
is not null: with a null read callback and a batch that is not empty, no call of the callback
is among the events, whatever the outcome. -/
theorem as_batch_execute_callback_guarded (env : batch_env) (policy : as_policy_batch)
    (keys : List as_key) (read_attr n_bins : Nat) (bins : List String)
    (callback_xdr : Option (as_key → as_record → Bool)) (out : batch_out)
    (hkeys : keys ≠ [])
    (h : as_batch_execute env policy keys read_attr bins n_bins false callback_xdr =
      some out) :
    ∀ results n, batch_event.callback results n ∉ out.trace := by
  have hlen : ¬ keys.length ≤ 0 := by
    cases keys with
    | nil => exact absurd rfl hkeys
    | cons _ _ => simp
  intro results n hmem
  unfold as_batch_execute at h
  rw [if_neg hlen] at h
  split at h
  · simp only [Option.some.injEq] at h
    subst h
    simp at hmem
  · dsimp only at h
    have hmap := as_batch_map_keys_is_mapping env policy false (as_batch_first_ns keys) keys 0
      ⟨[], if false = true then some [] else none, [], [.nodes_reserve]⟩
      (by intro e he; simp only [List.mem_singleton] at he; subst he; rfl)
    split at h
    · rename_i e he
      rw [he] at hmap
      simp only [Option.some.injEq] at h
      subst h
      have := hmap _ hmem
      simp [batch_event.is_mapping] at this
    · rename_i st hst
      rw [hst] at hmap
      split at h
      · simp at h
      · rename_i done hdone
        simp only [Option.some.injEq] at h
        subst h
        simp only [Bool.false_eq_true, if_false, List.append_nil, List.mem_append,
          List.mem_singleton] at hmem
        rcases hmem with ((hmem | hmem) | hmem) | hmem
        · have := hmap _ hmem
          simp [batch_event.is_mapping] at this
        · cases hmem
        · have := as_batch_dispatch_is_dispatch hdone _ hmem
          simp [batch_event.is_dispatch] at this
        · have := as_batch_release_nodes_is_mapping st.batch_nodes _ hmem
          simp [batch_event.is_mapping] at this

/-- C29 (the code at the failing input). With an empty batch as_batch_execute calls
`callback(0, 0, udata)` at line 588 without testing the pointer. For aerospike_batch_get_xdr,
which passes a null read callback, the call goes through the null pointer, whatever the
cluster, the policy and the XDR callback are; the same empty batch with a read callback
returns OK after the one call of the callback. -/
theorem C29_empty_batch_null_callback (env : batch_env) (policy : as_policy_batch)
    (callback_xdr : Option (as_key → as_record → Bool)) :
    aerospike_batch_get_xdr env policy [] callback_xdr = none ∧
      aerospike_batch_get env policy [] true =
        some ⟨AEROSPIKE_OK, as_error_reset, [.callback none 0]⟩ := by
  simp [aerospike_batch_get_xdr, aerospike_batch_get, as_batch_execute]

/-- C25 (the code at the failing input). Three keys on the snapshot of two_nodes_env, the
third in another namespace than the first and routed to node 101, which uses the direct
protocol: as_batch_execute returns AEROSPIKE_ERR_PARAM after releasing the batch node of node
100 and the snapshot, and the reference to node 101 that as_node_get handed out for the third
key is not released. aerospike_batch_read returns AEROSPIKE_ERR_UNSUPPORTED_FEATURE for a
record routed to node 101 in the same way. -/
theorem C25_error_path_keeps_reference :
    as_batch_execute (two_nodes_env 0) sequential_policy
        [⟨"a", digest_of 0⟩, ⟨"a", digest_of 2⟩, ⟨"b", digest_of 1⟩] 3 [] 0 true none =
      some ⟨AEROSPIKE_ERR_PARAM, as_error_set_message AEROSPIKE_ERR_PARAM .same_namespace,
        [.nodes_reserve, .key_set_digest 0, .node_get 0 (some 100), .key_set_digest 1,
          .node_get 1 (some 100), .node_release 100, .key_set_digest 2,
          .node_get 2 (some 101), .node_release 100, .nodes_release]⟩ ∧
    node_gets 101
        [.nodes_reserve, .key_set_digest 0, .node_get 0 (some 100), .key_set_digest 1,
          .node_get 1 (some 100), .node_release 100, .key_set_digest 2,
          .node_get 2 (some 101), .node_release 100, .nodes_release] = 1 ∧
    node_releases 101
        [.nodes_reserve, .key_set_digest 0, .node_get 0 (some 100), .key_set_digest 1,
          .node_get 1 (some 100), .node_release 100, .key_set_digest 2,
          .node_get 2 (some 101), .node_release 100, .nodes_release] = 0 ∧
    (aerospike_batch_read (two_nodes_env 0) sequential_policy demo_records).map (·.1) =
      some ⟨AEROSPIKE_ERR_UNSUPPORTED_FEATURE,
        as_error_set_message AEROSPIKE_ERR_UNSUPPORTED_FEATURE .requires_batch_index,
        [.nodes_reserve, .key_set_digest 0, .node_get 0 (some 100), .key_set_digest 1,
          .node_get 1 (some 101), .node_release 100, .nodes_release]⟩ ∧
    node_gets 101
        [.nodes_reserve, .key_set_digest 0, .node_get 0 (some 100), .key_set_digest 1,
          .node_get 1 (some 101), .node_release 100, .nodes_release] = 1 ∧
    node_releases 101
        [.nodes_reserve, .key_set_digest 0, .node_get 0 (some 100), .key_set_digest 1,
          .node_get 1 (some 101), .node_release 100, .nodes_release] = 0 := by
  decide

theorem as_lookup_node_scan_length :
    ∀ l : List Char, (as_lookup_node_scan l).2.length ≤ l.length - 1 := by
  intro l
  induction l with
  | nil => simp [as_lookup_node_scan]
  | cons c rest ih =>
    unfold as_lookup_node_scan
    split
    · simp
    · simp only [List.length_cons, Nat.add_sub_cancel]
      omega

/-- The inner loop passes over the first element of the characters split at ';'; the elements
after it are, as far as elements that are not empty go, the elements of the characters the
loop leaves. -/
theorem as_lookup_node_scan_split :
    ∀ l : List Char, ∃ t, l.splitOn ';' = (as_lookup_node_scan l).1 :: t ∧
      ∀ name : List Char, name ≠ [] →
        (name ∈ t ↔ name ∈ (as_lookup_node_scan l).2.splitOn ';') := by
  intro l
  induction l with
  | nil =>
    refine ⟨[], by simp [as_lookup_node_scan, List.splitOn], ?_⟩
    intro name hname
    simp [as_lookup_node_scan, List.splitOn, hname]
  | cons c rest ih =>
    obtain ⟨t, h1, h2⟩ := ih
    simp only [List.splitOn] at h1 h2 ⊢
    rw [List.splitOnP_cons]
    unfold as_lookup_node_scan
    by_cases hc : c = ';'
    · subst hc
      refine ⟨List.splitOnP (fun x => x == ';') rest, by simp, ?_⟩
      intro name _
      simp
    · have hb : ((c == ';') = true) = False := by simpa using hc
      rw [if_neg hc]
      simp only [hb, if_false, h1, List.modifyHead_cons]
      exact ⟨t, rfl, h2⟩

theorem feature_flag_nil (name : String) (flag : Nat) (hname : name.toList ≠ [])
    (hflag : flag ≤ 1) : feature_flag name [] flag = flag := by
  unfold feature_flag
  have hd : ¬ name.data = [] := hname
  have : name.toList ∉ List.splitOn ';' ([] : List Char) := by
    simp [List.splitOn, hd]
  by_cases h : flag ≠ 0
  · rw [if_pos (Or.inl h)]; omega
  · rw [if_neg (by rintro (h' | h') <;> [exact h h'; exact this h'])]; omega

theorem feature_flag_set (name : String) (l : List Char) (flag : Nat) (hset : flag ≠ 0)
    (hflag : flag ≤ 1) : feature_flag name l flag = flag := by
  unfold feature_flag
  rw [if_pos (Or.inl hset)]; omega

/-- One pass of the loop keeps the value a flag must have. -/
theorem feature_flag_step (name : String) (l : List Char) (flag : Nat)
    (hname : name.toList ≠ []) :
    feature_flag name (as_lookup_node_scan l).2
        (if (as_lookup_node_scan l).1 = name.toList then 1 else flag) =
      feature_flag name l flag := by
  obtain ⟨t, h1, h2⟩ := as_lookup_node_scan_split l
  have hiff : ((if (as_lookup_node_scan l).1 = name.toList then 1 else flag) ≠ 0 ∨
      name.toList ∈ List.splitOn ';' (as_lookup_node_scan l).2) ↔
      (flag ≠ 0 ∨ name.toList ∈ List.splitOn ';' l) := by
    rw [h1, List.mem_cons, ← h2 _ hname]
    by_cases he : (as_lookup_node_scan l).1 = name.toList
    · rw [if_pos he]
      exact ⟨fun _ => Or.inr (Or.inl he.symm), fun _ => Or.inl (by decide)⟩
    · rw [if_neg he]
      exact ⟨fun h => h.elim Or.inl (fun a => Or.inr (Or.inr a)),
        fun h => h.elim Or.inl (fun h' => h'.elim (fun e' => absurd e'.symm he) Or.inr)⟩
  unfold feature_flag
  exact if_congr hiff rfl rfl

theorem as_lookup_node_compare_eq (element : List Char) (info : as_node_info) :
    as_lookup_node_compare element info =
      ⟨info.name,
        if element = "batch-index".toList then 1 else info.has_batch_index,
        if element = "replicas-all".toList then 1 else info.has_replicas_all,
        if element = "float".toList then 1 else info.has_double,
        if element = "geo".toList then 1 else info.has_geo⟩ := by
  unfold as_lookup_node_compare
  dsimp only
  split_ifs <;> rfl

/-- The loop of as_lookup_node ends within one pass for each character, and leaves each flag
with the value it must have. -/
theorem as_lookup_node_loop_spec :
    ∀ (fuel : Nat) (l : List Char) (info : as_node_info), l.length ≤ fuel →
      info.has_batch_index ≤ 1 → info.has_replicas_all ≤ 1 → info.has_double ≤ 1 →
      info.has_geo ≤ 1 →
      as_lookup_node_loop fuel l info =
        some ⟨info.name, feature_flag "batch-index" l info.has_batch_index,
          feature_flag "replicas-all" l info.has_replicas_all,
          feature_flag "float" l info.has_double, feature_flag "geo" l info.has_geo⟩ := by
  have n1 : ("batch-index" : String).toList ≠ [] := by decide
  have n2 : ("replicas-all" : String).toList ≠ [] := by decide
  have n3 : ("float" : String).toList ≠ [] := by decide
  have n4 : ("geo" : String).toList ≠ [] := by decide
  have hnil : ∀ (fuel : Nat) (info : as_node_info),
      info.has_batch_index ≤ 1 → info.has_replicas_all ≤ 1 → info.has_double ≤ 1 →
      info.has_geo ≤ 1 →
      as_lookup_node_loop fuel [] info =
        some ⟨info.name, feature_flag "batch-index" [] info.has_batch_index,
          feature_flag "replicas-all" [] info.has_replicas_all,
          feature_flag "float" [] info.has_double, feature_flag "geo" [] info.has_geo⟩ := by
    intro fuel info h1 h2 h3 h4
    rw [feature_flag_nil _ _ n1 h1, feature_flag_nil _ _ n2 h2, feature_flag_nil _ _ n3 h3,
      feature_flag_nil _ _ n4 h4]
    cases fuel <;> rfl
  intro fuel
  induction fuel with
  | zero =>
    intro l info hl h1 h2 h3 h4
    have : l = [] := List.length_eq_zero.mp (Nat.le_zero.mp hl)
    subst this
    exact hnil 0 info h1 h2 h3 h4
  | succ fuel ih =>
    intro l info hl h1 h2 h3 h4
    cases l with
    | nil => exact hnil _ info h1 h2 h3 h4
    | cons c rest =>
      unfold as_lookup_node_loop
      by_cases hall : info.has_batch_index ≠ 0 ∧ info.has_replicas_all ≠ 0 ∧
          info.has_double ≠ 0 ∧ info.has_geo ≠ 0
      · rw [if_pos hall]
        rw [feature_flag_set _ _ _ hall.1 h1, feature_flag_set _ _ _ hall.2.1 h2,
          feature_flag_set _ _ _ hall.2.2.1 h3, feature_flag_set _ _ _ hall.2.2.2 h4]
      · rw [if_neg hall, as_lookup_node_compare_eq]
        have hlen := as_lookup_node_scan_length (c :: rest)
        simp only [List.length_cons, Nat.add_sub_cancel] at hlen hl
        rw [ih _ _ (by omega) (by dsimp only; split <;> omega)
          (by dsimp only; split <;> omega) (by dsimp only; split <;> omega)
          (by dsimp only; split <;> omega)]
        dsimp only
        rw [feature_flag_step _ _ _ n1, feature_flag_step _ _ _ n2,
          feature_flag_step _ _ _ n3, feature_flag_step _ _ _ n4]

/-- C30. For every response that carries a node name and a features string, as_lookup_node
returns OK with has_batch_index, has_replicas_all, has_double and has_geo set to 1 exactly
when the features string, split at ';', contains an element equal to "batch-index",
"replicas-all", "float" and "geo" respectively, and to 0 otherwise; the scan of the string
ends within one pass for each of its characters. -/
theorem C30_features_flags (node_nv features_nv : as_name_value) (node_name features : String)
    (hnode : node_nv.value = some node_name) (hname : node_name ≠ "")
    (hfeatures : features_nv.value = some features) :
    as_lookup_node AEROSPIKE_OK [node_nv, features_nv] =
        some (.ok ⟨node_name, has_feature features "batch-index",
          has_feature features "replicas-all", has_feature features "float",
          has_feature features "geo"⟩) ∧
      as_lookup_node_loop features.length features.toList ⟨node_name, 0, 0, 0, 0⟩ =
        some ⟨node_name, has_feature features "batch-index",
          has_feature features "replicas-all", has_feature features "float",
          has_feature features "geo"⟩ := by
  have hloop := as_lookup_node_loop_spec features.length features.toList
    ⟨node_name, 0, 0, 0, 0⟩ (by simp) (by simp) (by simp) (by simp) (by simp)
  have hflag : ∀ name : String,
      feature_flag name features.toList 0 = has_feature features name := by
    intro name
    simp [feature_flag, has_feature]
  simp only [hflag] at hloop
  refine ⟨?_, hloop⟩
  unfold as_lookup_node
  simp only [AEROSPIKE_OK, ne_eq, not_true_eq_false, if_false, hnode, hname, hfeatures, hloop,
    Option.map_some']

/-- Witness of C30: the features "batch-index;float2;xgeo;geo-;replicas-all-x" set
has_batch_index only: "float2", "xgeo", "geo-" and "replicas-all-x" contain a name without
being equal to it. -/
theorem C30_features_flags_witness :
    as_lookup_node AEROSPIKE_OK
        [⟨"node", some "BB9020011AC4202"⟩,
          ⟨"features", some "batch-index;float2;xgeo;geo-;replicas-all-x"⟩] =
      some (.ok ⟨"BB9020011AC4202", 1, 0, 0, 0⟩) ∧
    (1 = has_feature "batch-index;float2;xgeo;geo-;replicas-all-x" "batch-index" ∧
      0 = has_feature "batch-index;float2;xgeo;geo-;replicas-all-x" "replicas-all" ∧
      0 = has_feature "batch-index;float2;xgeo;geo-;replicas-all-x" "float" ∧
      0 = has_feature "batch-index;float2;xgeo;geo-;replicas-all-x" "geo") := by
  have h := (C30_features_flags ⟨"node", some "BB9020011AC4202"⟩
    ⟨"features", some "batch-index;float2;xgeo;geo-;replicas-all-x"⟩ "BB9020011AC4202"
    "batch-index;float2;xgeo;geo-;replicas-all-x" rfl (by decide) rfl).1
  have h2 : as_lookup_node AEROSPIKE_OK
        [⟨"node", some "BB9020011AC4202"⟩,
          ⟨"features", some "batch-index;float2;xgeo;geo-;replicas-all-x"⟩] =
      some (.ok ⟨"BB9020011AC4202", 1, 0, 0, 0⟩) := by rfl
  refine ⟨h2, ?_⟩
  rw [h2] at h
  simp only [Option.some.injEq, Except.ok.injEq, as_node_info.mk.injEq, true_and] at h
  exact h

theorem cf_swap_to_be32_length (v : Nat) : (cf_swap_to_be32 v).length = 4 := rfl

theorem cf_swap_to_be16_length (v : Nat) : (cf_swap_to_be16 v).length = 2 := rfl

theorem cf_swap_from_to_be32 (v : Nat) :
    cf_swap_from_be32 (cf_swap_to_be32 v) = v % UINT32_SIZE := by
  have h : cf_swap_from_be32 (cf_swap_to_be32 v) =
      (v / 16777216 % 256) * 16777216 + (v / 65536 % 256) * 65536 + (v / 256 % 256) * 256 +
        v % 256 := rfl
  rw [h]
  unfold UINT32_SIZE
  omega

theorem digest_bytes_length (digest : List Nat) : (digest_bytes digest).length = 20 := by
  simp [digest_bytes, AS_DIGEST_VALUE_SIZE]

theorem c_string_length (s : String) : (c_string s).length = s.length := by
  unfold c_string
  rw [List.length_map]
  rfl

theorem as_command_write_field_string_length (id : Nat) (value : String) :
    (as_command_write_field_string id value).length = as_command_string_field_size value := by
  simp [as_command_write_field_string, as_command_write_field_header, cf_swap_to_be32_length,
    c_string_length, as_command_string_field_size, AS_FIELD_HEADER_SIZE]
  omega

theorem as_command_write_bin_name_length (name : String) :
    (as_command_write_bin_name name).length = as_command_string_operation_size name := by
  simp [as_command_write_bin_name, cf_swap_to_be32_length, c_string_length,
    as_command_string_operation_size, AS_OPERATION_HEADER_SIZE]
  omega

theorem as_command_write_bin_names_length (names : List String) :
    (names.flatMap as_command_write_bin_name).length =
      (names.map as_command_string_operation_size).sum := by
  induction names with
  | nil => rfl
  | cons name names ih =>
    simp [List.flatMap_cons, as_command_write_bin_name_length, ih]

/-- An entry with the repeat byte 1 takes 25 bytes; an entry with a header takes 30 bytes, the
namespace field and the bin names. -/
theorem batch_index_entry_bytes_length (entry : batch_index_entry) :
    (batch_index_entry_bytes entry).length =
      25 + match entry.header with
        | none => 0
        | some header =>
          5 + as_command_string_field_size header.ns +
            (header.bin_names.map as_command_string_operation_size).sum := by
  unfold batch_index_entry_bytes
  cases entry.header with
  | none =>
    simp only [List.length_append, List.length_cons, List.length_nil, cf_swap_to_be32_length,
      digest_bytes_length]
  | some header =>
    simp only [List.length_append, List.length_cons, List.length_nil, cf_swap_to_be32_length,
      cf_swap_to_be16_length, digest_bytes_length, as_command_write_field_string_length,
      as_command_write_bin_names_length]

/-- The command holds the 30 bytes of the headers, the 4 bytes of the size word, the type byte
of the field, the 5 bytes of the count and of allow_inline, and the entries. -/
theorem as_batch_index_write_length (read_attr : Nat) (task : as_batch_task)
    (entries : List batch_index_entry) :
    (as_batch_index_write read_attr task entries).length =
      40 + (entries.flatMap batch_index_entry_bytes).length := by
  simp only [as_batch_index_write, as_command_write_end, as_command_write_header_read,
    List.length_append, List.length_cons, List.length_nil, List.length_drop,
    List.length_replicate, cf_swap_to_be32_length, cf_swap_to_be16_length]
  omega

/-- The size word of the command holds, as a uint32_t, the number of bytes after it. -/
theorem as_batch_index_write_field_size (read_attr : Nat) (task : as_batch_task)
    (entries : List batch_index_entry) :
    batch_index_field_size (as_batch_index_write read_attr task entries) =
      ((as_batch_index_write read_attr task entries).length - (AS_HEADER_SIZE + 4)) %
        UINT32_SIZE := by
  rw [as_batch_index_write_length]
  have h : ∀ (a : Nat) (rest : List Nat),
      batch_index_field_size (as_command_write_end
        (as_command_write_header_read read_attr task.timeout_ms 1 0 ++
          cf_swap_to_be32 a ++ rest)) = a % UINT32_SIZE := by
    intro a rest
    rw [← cf_swap_from_to_be32]
    rfl
  unfold as_batch_index_write
  dsimp only
  rw [List.append_assoc _ [AS_FIELD_BATCH_INDEX], h]
  simp [cf_swap_to_be32_length, AS_HEADER_SIZE]
  congr 1
  omega

/-- The first pass of as_batch_index_records_execute counts exactly the bytes the second pass
writes for the entries, and fails where the second pass fails. -/
theorem as_batch_index_records_size_eq (refs : as_refs)
    (records : List as_batch_read_record) :
    ∀ (offsets : List Nat) (prev : Option (Nat × as_batch_read_record)) (size : Nat),
      as_batch_index_records_size refs records offsets prev size =
        (as_batch_index_records_entries refs records offsets prev).map
          (fun entries => size + (entries.flatMap batch_index_entry_bytes).length) := by
  intro offsets
  induction offsets with
  | nil =>
    intro prev size
    simp [as_batch_index_records_size, as_batch_index_records_entries]
  | cons offset offsets ih =>
    intro prev size
    unfold as_batch_index_records_size as_batch_index_records_entries
    cases hrec : records[offset]? with
    | none => rfl
    | some record =>
      rcases prev with _ | ⟨prev_offset, prev_record⟩
      · simp only [Bool.false_eq_true, if_false]
        unfold as_batch_index_records_header
        cases hnames : record.bin_names with
        | none =>
          dsimp only
          rw [ih, Option.map_map]
          congr 1
          funext entries
          simp only [Function.comp, List.flatMap_cons, List.length_append,
            batch_index_entry_bytes_length, AS_DIGEST_VALUE_SIZE, List.map_nil, List.sum_nil]
          omega
        | some names =>
          dsimp only
          by_cases hn : record.n_bin_names ≠ 0
          · rw [if_pos hn]
            by_cases hle : record.n_bin_names ≤ names.length
            · rw [if_pos hle, if_pos hle]
              dsimp only
              rw [ih, Option.map_map]
              congr 1
              funext entries
              simp only [Function.comp, List.flatMap_cons, List.length_append,
                batch_index_entry_bytes_length, AS_DIGEST_VALUE_SIZE]
              omega
            · rw [if_neg hle, if_neg hle]
              rfl
          · have hz : record.n_bin_names = 0 := by
              by_contra hc; exact hn hc
            rw [if_neg hn, if_pos (by omega)]
            dsimp only
            rw [ih, Option.map_map]
            congr 1
            funext entries
            simp only [Function.comp, List.flatMap_cons, List.length_append,
              batch_index_entry_bytes_length, AS_DIGEST_VALUE_SIZE, hz, List.take_zero,
              List.map_nil, List.sum_nil]
            omega
      · dsimp only
        by_cases hrep : (refs.ns prev_offset == refs.ns offset &&
            refs.bin_names prev_offset == refs.bin_names offset &&
            prev_record.read_all_bins == record.read_all_bins) = true
        · rw [if_pos hrep, if_pos hrep]
          rw [ih, Option.map_map]
          congr 1
          funext entries
          simp only [Function.comp, List.flatMap_cons, List.length_append,
            batch_index_entry_bytes_length, AS_DIGEST_VALUE_SIZE]
          omega
        · rw [if_neg hrep, if_neg hrep]
          unfold as_batch_index_records_header
          cases hnames : record.bin_names with
          | none =>
            dsimp only
            rw [ih, Option.map_map]
            congr 1
            funext entries
            simp only [Function.comp, List.flatMap_cons, List.length_append,
              batch_index_entry_bytes_length, AS_DIGEST_VALUE_SIZE, List.map_nil, List.sum_nil]
            omega
          | some names =>
            dsimp only
            by_cases hn : record.n_bin_names ≠ 0
            · rw [if_pos hn]
              by_cases hle : record.n_bin_names ≤ names.length
              · rw [if_pos hle, if_pos hle]
                dsimp only
                rw [ih, Option.map_map]
                congr 1
                funext entries
                simp only [Function.comp, List.flatMap_cons, List.length_append,
                  batch_index_entry_bytes_length, AS_DIGEST_VALUE_SIZE]
                omega
              · rw [if_neg hle, if_neg hle]
                rfl
            · have hz : record.n_bin_names = 0 := by
                by_contra hc; exact hn hc
              rw [if_neg hn, if_pos (by omega)]
              dsimp only
              rw [ih, Option.map_map]
              congr 1
              funext entries
              simp only [Function.comp, List.flatMap_cons, List.length_append,
                batch_index_entry_bytes_length, AS_DIGEST_VALUE_SIZE, hz, List.take_zero,
                List.map_nil, List.sum_nil]
              omega

/-- The estimate of as_batch_index_records_execute is the size of the command it writes. -/
theorem as_batch_index_records_estimate_eq (refs : as_refs) (task : as_batch_task) :
    as_batch_index_records_estimate refs task =
      (as_batch_index_records_command refs task).map List.length := by
  unfold as_batch_index_records_estimate as_batch_index_records_command
    as_batch_index_records_field
  cases task.records with
  | none => rfl
  | some records =>
    dsimp only
    rw [as_batch_index_records_size_eq, Option.map_map]
    congr 1
    funext entries
    simp only [Function.comp, as_batch_index_write_length, AS_HEADER_SIZE,
      AS_FIELD_HEADER_SIZE]

/-- The first pass of as_batch_index_execute counts at least the bytes the second pass writes
for the entries when the namespaces of the keys have at most 31 characters, and fails where
the second pass fails. -/
theorem as_batch_index_size_ge (refs : as_refs) (task : as_batch_task) (row_size : Nat)
    (hrow : as_batch_index_row_size task = some row_size)
    (hns : ∀ key ∈ task.keys, key.ns.length ≤ 31) :
    ∀ (offsets : List Nat) (prev_ns : Option (Nat × String)) (size : Nat),
      (as_batch_index_size refs task row_size offsets prev_ns size = none ∧
        as_batch_index_entries refs task offsets prev_ns = none) ∨
      ∃ estimate entries,
        as_batch_index_size refs task row_size offsets prev_ns size = some estimate ∧
        as_batch_index_entries refs task offsets prev_ns = some entries ∧
        size + (entries.flatMap batch_index_entry_bytes).length ≤ estimate := by
  have hbins : task.n_bins ≤ task.bins.length := by
    unfold as_batch_index_row_size at hrow
    by_contra hc
    rw [if_neg hc] at hrow
    cases hrow
  have hrow' : row_size = AS_HEADER_SIZE + AS_FIELD_HEADER_SIZE + 31 +
      as_command_string_field_size task.ns +
      ((task.bins.take task.n_bins).map as_command_string_operation_size).sum := by
    unfold as_batch_index_row_size at hrow
    rw [if_pos hbins] at hrow
    exact (Option.some.inj hrow).symm
  intro offsets
  induction offsets with
  | nil =>
    intro prev_ns size
    exact Or.inr ⟨size, [], rfl, rfl, by simp⟩
  | cons offset offsets ih =>
    intro prev_ns size
    unfold as_batch_index_size as_batch_index_entries
    cases hkey : task.keys[offset]? with
    | none => exact Or.inl ⟨rfl, rfl⟩
    | some key =>
      have hlen : key.ns.length ≤ 31 := hns key (List.getElem?_mem hkey)
      have hfull : (as_batch_index_size refs task row_size offsets
            (some (refs.ns offset, key.ns)) (size + row_size) = none ∧
          (match as_batch_index_header task key with
            | none => none
            | some header =>
              (as_batch_index_entries refs task offsets (some (refs.ns offset, key.ns))).map
                (⟨offset, key.digest, 0, some header⟩ :: ·)) = none) ∨
          ∃ estimate entries,
            as_batch_index_size refs task row_size offsets
              (some (refs.ns offset, key.ns)) (size + row_size) = some estimate ∧
            (match as_batch_index_header task key with
              | none => none
              | some header =>
                (as_batch_index_entries refs task offsets (some (refs.ns offset, key.ns))).map
                  (⟨offset, key.digest, 0, some header⟩ :: ·)) = some entries ∧
            size + (entries.flatMap batch_index_entry_bytes).length ≤ estimate := by
        unfold as_batch_index_header
        rw [if_pos hbins]
        dsimp only
        rcases ih (some (refs.ns offset, key.ns)) (size + row_size) with
          ⟨h1, h2⟩ | ⟨estimate, entries, h1, h2, h3⟩
        · exact Or.inl ⟨h1, by rw [h2]; rfl⟩
        · refine Or.inr ⟨estimate, _, h1, by rw [h2]; rfl, ?_⟩
          simp only [List.flatMap_cons, List.length_append, batch_index_entry_bytes_length,
            as_command_string_field_size, AS_FIELD_HEADER_SIZE]
          rw [hrow'] at h3
          simp only [as_command_string_field_size, AS_FIELD_HEADER_SIZE, AS_HEADER_SIZE] at h3
          omega
      rcases prev_ns with _ | ⟨prev_ref, prev_string⟩
      · simp only [Bool.false_eq_true, if_false]
        exact hfull
      · dsimp only
        by_cases hrep : (refs.ns offset == prev_ref || prev_string == key.ns) = true
        · rw [if_pos hrep, if_pos hrep]
          rcases ih (some (prev_ref, prev_string)) (size + 25) with
            ⟨h1, h2⟩ | ⟨estimate, entries, h1, h2, h3⟩
          · exact Or.inl ⟨h1, by rw [h2]; rfl⟩
          · refine Or.inr ⟨estimate, _, h1, by rw [h2]; rfl, ?_⟩
            simp only [List.flatMap_cons, List.length_append, batch_index_entry_bytes_length]
            omega
        · rw [if_neg hrep, if_neg hrep]
          exact hfull

/-- The first pass of as_batch_index_execute returns an estimate when the offsets of the task
are indexes of its keys array and the array of bin names has n_bins entries. -/
theorem as_batch_index_size_some (refs : as_refs) (task : as_batch_task) (row_size : Nat) :
    ∀ (offsets : List Nat) (prev_ns : Option (Nat × String)) (size : Nat),
      (∀ offset ∈ offsets, offset < task.keys.length) →
      (as_batch_index_size refs task row_size offsets prev_ns size).isSome = true := by
  intro offsets
  induction offsets with
  | nil => intro prev_ns size _; rfl
  | cons offset offsets ih =>
    intro prev_ns size h
    unfold as_batch_index_size
    rw [List.getElem?_eq_getElem (h offset (List.mem_cons_self _ _))]
    dsimp only
    split
    · exact ih _ _ (fun o ho => h o (List.mem_cons_of_mem _ ho))
    · exact ih _ _ (fun o ho => h o (List.mem_cons_of_mem _ ho))

/-- The first pass of as_batch_index_records_execute returns an estimate when the offsets of
the task are indexes of the records vector and no record has less bin names than its
n_bin_names tells. -/
theorem as_batch_index_records_size_some (refs : as_refs)
    (records : List as_batch_read_record) :
    ∀ (offsets : List Nat) (prev : Option (Nat × as_batch_read_record)) (size : Nat),
      (∀ offset ∈ offsets, ∃ record, records[offset]? = some record ∧
        ∀ names, record.bin_names = some names → record.n_bin_names ≤ names.length) →
      (as_batch_index_records_size refs records offsets prev size).isSome = true := by
  intro offsets
  induction offsets with
  | nil => intro prev size _; rfl
  | cons offset offsets ih =>
    intro prev size h
    obtain ⟨record, hrec, hnames⟩ := h offset (List.mem_cons_self _ _)
    have h' := fun o ho => h o (List.mem_cons_of_mem _ ho)
    unfold as_batch_index_records_size
    rw [hrec]
    dsimp only
    split
    · exact ih _ _ h'
    · cases hn : record.bin_names with
      | none => exact ih _ _ h'
      | some names =>
        dsimp only
        rw [if_pos (hnames names hn)]
        exact ih _ _ h'

/-- C28 (amended). For every task whose key namespaces have at most 31 characters, whenever
the first pass of as_batch_index_records_execute or of as_batch_index_execute returns an
estimate, the second pass writes a command of no more bytes than the estimate (of exactly as
many for as_batch_index_records_execute), and the size stored in the header of the
batch-index field is the number of bytes written after the 4-byte size word (type byte plus
payload) reduced modulo 2^32, the size word being a uint32_t: it is that number whenever that
number is below 2^32. The first pass returns an estimate when the offsets are indexes of the
keys array or records vector and the arrays of bin names are as long as their counts tell. -/
theorem C28_command_within_estimate (refs : as_refs) (task : as_batch_task)
    (hns : ∀ key ∈ task.keys, key.ns.length ≤ 31) :
    (∀ size, as_batch_index_records_estimate refs task = some size →
      ∃ cmd, as_batch_index_records_command refs task = some cmd ∧ cmd.length = size ∧
        batch_index_field_size cmd = (cmd.length - (AS_HEADER_SIZE + 4)) % UINT32_SIZE ∧
        (cmd.length - (AS_HEADER_SIZE + 4) < UINT32_SIZE →
          batch_index_field_size cmd = cmd.length - (AS_HEADER_SIZE + 4))) ∧
    (∀ size, as_batch_index_estimate refs task = some size →
      ∃ cmd, as_batch_index_command refs task = some cmd ∧ cmd.length ≤ size ∧
        batch_index_field_size cmd = (cmd.length - (AS_HEADER_SIZE + 4)) % UINT32_SIZE ∧
        (cmd.length - (AS_HEADER_SIZE + 4) < UINT32_SIZE →
          batch_index_field_size cmd = cmd.length - (AS_HEADER_SIZE + 4))) ∧
    ((∀ records, task.records = some records →
        ∀ offset ∈ task.offsets, ∃ record, records[offset]? = some record ∧
          ∀ names, record.bin_names = some names → record.n_bin_names ≤ names.length) →
      task.records ≠ none → (as_batch_index_records_estimate refs task).isSome = true) ∧
    ((∀ offset ∈ task.offsets, offset < task.keys.length) → task.n_bins ≤ task.bins.length →
      (as_batch_index_estimate refs task).isSome = true) := by
  refine ⟨?_, ?_, ?_, ?_⟩
  · intro size h
    rw [as_batch_index_records_estimate_eq] at h
    cases hc : as_batch_index_records_command refs task with
    | none => rw [hc] at h; cases h
    | some cmd =>
      rw [hc] at h
      have hlen : cmd.length = size := Option.some.inj h
      unfold as_batch_index_records_command at hc
      cases hf : as_batch_index_records_field refs task with
      | none => rw [hf] at hc; cases hc
      | some entries =>
        rw [hf] at hc
        have hcmd : as_batch_index_write (AS_MSG_INFO1_READ ||| AS_MSG_INFO1_BATCH_INDEX) task
            entries = cmd := Option.some.inj hc
        have hsz := as_batch_index_write_field_size
          (AS_MSG_INFO1_READ ||| AS_MSG_INFO1_BATCH_INDEX) task entries
        rw [hcmd] at hsz
        exact ⟨cmd, rfl, hlen, hsz, fun hlt => by rw [hsz, Nat.mod_eq_of_lt hlt]⟩
  · intro size h
    unfold as_batch_index_estimate at h
    cases hrow : as_batch_index_row_size task with
    | none => rw [hrow] at h; cases h
    | some row_size =>
      rw [hrow] at h
      dsimp only at h
      rcases as_batch_index_size_ge refs task row_size hrow hns task.offsets none
        (AS_HEADER_SIZE + AS_FIELD_HEADER_SIZE + 5) with ⟨h1, _⟩ | ⟨estimate, entries, h1, h2, h3⟩
      · rw [h1] at h; cases h
      · rw [h1] at h
        have he : estimate = size := Option.some.inj h
        have hsz := as_batch_index_write_field_size
          (task.read_attr ||| AS_MSG_INFO1_BATCH_INDEX) task entries
        refine ⟨_, by unfold as_batch_index_command as_batch_index_field; rw [h2]; rfl, ?_,
          hsz, fun hlt => by rw [hsz, Nat.mod_eq_of_lt hlt]⟩
        rw [as_batch_index_write_length]
        simp only [AS_HEADER_SIZE, AS_FIELD_HEADER_SIZE] at h3
        omega
  · intro h hrec
    unfold as_batch_index_records_estimate
    cases hr : task.records with
    | none => exact absurd hr hrec
    | some records =>
      exact as_batch_index_records_size_some refs records _ _ _ (h records hr)
  · intro h hbins
    unfold as_batch_index_estimate as_batch_index_row_size
    rw [if_pos hbins]
    exact as_batch_index_size_some refs task _ _ _ _ h

/-- Witness of C28: the task results_task, one key of namespace "test" on the index
protocol: the estimate is 115 bytes and the command has 79. -/
theorem C28_command_within_estimate_witness :
    as_batch_index_estimate shared_bins_refs results_task = some 115 ∧
      ∃ cmd, as_batch_index_command shared_bins_refs results_task = some cmd ∧
        cmd.length ≤ 115 ∧
        batch_index_field_size cmd = (cmd.length - (AS_HEADER_SIZE + 4)) % UINT32_SIZE := by
  have h : as_batch_index_estimate shared_bins_refs results_task = some 115 := by decide
  obtain ⟨cmd, h1, h2, h3, _⟩ := (C28_command_within_estimate shared_bins_refs results_task
    (by decide)).2.1 115 h
  exact ⟨h, cmd, h1, h2, h3⟩

/-- With a non-null prev_ns that holds "test", every offset of same_namespace_task gets an
entry with the repeat byte 1. -/
theorem same_namespace_task_repeats (refs : as_refs) (n prev_ref : Nat) :
    ∀ offsets : List Nat, (∀ offset ∈ offsets, offset < n) →
      as_batch_index_entries refs (same_namespace_task n) offsets (some (prev_ref, "test")) =
        some (offsets.map (fun offset => ⟨offset, digest_a, 1, none⟩)) := by
  intro offsets
  induction offsets with
  | nil => intro _; rfl
  | cons offset offsets ih =>
    intro h
    have hkey : (same_namespace_task n).keys[offset]? = some key_a := by
      show (List.replicate n key_a)[offset]? = some key_a
      rw [List.getElem?_replicate, if_pos (h offset (List.mem_cons_self _ _))]
    unfold as_batch_index_entries
    rw [hkey]
    dsimp only
    have hrep : (refs.ns offset == prev_ref || "test" == key_a.ns) = true := by
      have : ("test" == key_a.ns) = true := by decide
      rw [this, Bool.or_true]
    rw [if_pos hrep, ih (fun o ho => h o (List.mem_cons_of_mem _ ho))]
    rfl

/-- The command as_batch_index_execute writes for same_namespace_task with m + 1 keys has
79 + 25 * m bytes. -/
theorem same_namespace_task_command (refs : as_refs) (m : Nat) :
    ∃ cmd, as_batch_index_command refs (same_namespace_task (m + 1)) = some cmd ∧
      cmd.length = 79 + 25 * m ∧
      batch_index_field_size cmd = (45 + 25 * m) % UINT32_SIZE := by
  have hoff : (same_namespace_task (m + 1)).offsets =
      0 :: (List.range m).map Nat.succ := by
    show List.range (m + 1) = _
    exact List.range_succ_eq_map m
  have hkey : (same_namespace_task (m + 1)).keys[0]? = some key_a := by
    show (List.replicate (m + 1) key_a)[0]? = some key_a
    rw [List.getElem?_replicate, if_pos (Nat.succ_pos m)]
  have hrest := same_namespace_task_repeats refs (m + 1)
    (refs.ns 0) ((List.range m).map Nat.succ) (by
      intro o ho
      simp only [List.mem_map, List.mem_range] at ho
      obtain ⟨a, ha, rfl⟩ := ho
      omega)
  have hfield : as_batch_index_field refs (same_namespace_task (m + 1)) =
      some (⟨0, digest_a, 0, some ⟨AS_MSG_INFO1_READ ||| AS_MSG_INFO1_GET_ALL, 0, "test", []⟩⟩ ::
        ((List.range m).map Nat.succ).map (fun offset => ⟨offset, digest_a, 1, none⟩)) := by
    unfold as_batch_index_field
    rw [hoff]
    unfold as_batch_index_entries
    rw [hkey]
    dsimp only
    rw [if_neg (by decide)]
    have hhead : as_batch_index_header (same_namespace_task (m + 1)) key_a =
        some ⟨AS_MSG_INFO1_READ ||| AS_MSG_INFO1_GET_ALL, 0, "test", []⟩ := rfl
    rw [hhead]
    dsimp only
    have hns : key_a.ns = "test" := rfl
    rw [hns, hrest]
    rfl
  have hlen : ((⟨0, digest_a, 0,
      some ⟨AS_MSG_INFO1_READ ||| AS_MSG_INFO1_GET_ALL, 0, "test", []⟩⟩ ::
        ((List.range m).map Nat.succ).map
          (fun offset => (⟨offset, digest_a, 1, none⟩ : batch_index_entry))).flatMap
        batch_index_entry_bytes).length = 39 + 25 * m := by
    rw [List.flatMap_cons, List.length_append, batch_index_entry_bytes_length]
    have hrep : ∀ l : List Nat, ((l.map
        (fun offset => (⟨offset, digest_a, 1, none⟩ : batch_index_entry))).flatMap
        batch_index_entry_bytes).length = 25 * l.length := by
      intro l
      induction l with
      | nil => rfl
      | cons a l ih =>
        rw [List.map_cons, List.flatMap_cons, List.length_append,
          batch_index_entry_bytes_length, ih, List.length_cons]
        dsimp only
        omega
    rw [hrep, List.length_map, List.length_range]
    have : as_command_string_field_size "test" = 9 := by decide
    dsimp only
    rw [this]
    simp only [List.map_nil, List.sum_nil]
    omega
  refine ⟨_, by unfold as_batch_index_command; rw [hfield]; rfl, ?_, ?_⟩
  · rw [as_batch_index_write_length, hlen]
    omega
  · rw [as_batch_index_write_field_size, as_batch_index_write_length, hlen]
    congr 1
    simp only [AS_HEADER_SIZE]
    omega

/-- Counterexample to C28 as stated: for 171798692 keys of namespace "test" routed to one
node, as_batch_index_execute writes 4294967320 bytes after the size word of the batch-index
field, and the size stored in the field header, a uint32_t, is 24. -/
theorem C28_counterexample :
    (∀ key ∈ (same_namespace_task 171798692).keys, key.ns.length ≤ 31) ∧
      ∃ cmd, as_batch_index_command shared_bins_refs (same_namespace_task 171798692) =
          some cmd ∧
        cmd.length - (AS_HEADER_SIZE + 4) = 4294967320 ∧ batch_index_field_size cmd = 24 := by
  refine ⟨?_, ?_⟩
  · intro key hkey
    have : key = key_a := List.eq_of_mem_replicate hkey
    subst this
    decide
  · obtain ⟨cmd, h1, h2, h3⟩ := same_namespace_task_command shared_bins_refs 171798691
    refine ⟨cmd, h1, ?_, ?_⟩
    · rw [h2]
      norm_num [AS_HEADER_SIZE]
    · rw [h3]
      norm_num [UINT32_SIZE]

theorem as_batch_sequential_commands (env : batch_env) (use_new : Nat → Bool)
    (reset_index : Bool) :
    ∀ (bs : List as_batch_node) (status : as_status) (task : as_batch_task)
      (s : sequential_out),
      as_batch_sequential env use_new reset_index bs status task = some s →
        (∀ node offsets, batch_event.command_execute node offsets ∈ s.trace →
          (⟨node, offsets⟩ : as_batch_node) ∈ bs) ∧
        (s.status = AEROSPIKE_OK → status = AEROSPIKE_OK ∧
          s.trace = bs.map (fun b => batch_event.command_execute b.node b.offsets)) := by
  intro bs
  induction bs with
  | nil =>
    intro status task s h
    simp [as_batch_sequential] at h
    subst h
    exact ⟨by simp, fun h => ⟨h, rfl⟩⟩
  | cons b bs ih =>
    intro status task s h
    simp only [as_batch_sequential] at h
    split at h
    · rename_i hok
      split at h
      · simp at h
      rename_i st t hc
      split at h
      · simp at h
      rename_i rest hr
      obtain ⟨h1, h2⟩ := ih _ _ _ hr
      simp only [Option.some.injEq] at h
      subst h
      refine ⟨?_, ?_⟩
      · intro node offsets hmem
        simp only [List.mem_cons, batch_event.command_execute.injEq] at hmem
        rcases hmem with ⟨hn, ho⟩ | hmem
        · subst hn; subst ho
          exact List.mem_cons_self _ _
        · exact List.mem_cons_of_mem _ (h1 node offsets hmem)
      · intro hs
        obtain ⟨_, h3⟩ := h2 hs
        exact ⟨hok, by simp [h3]⟩
    · rename_i hnot
      simp only [Option.some.injEq] at h
      subst h
      exact ⟨by simp, fun hs => absurd hs hnot⟩

theorem as_batch_workers_trace (env : batch_env) (use_new : Nat → Bool) :
    ∀ (bs : List as_batch_node) (task : as_batch_task) (w : workers_out),
      as_batch_workers env use_new bs task = some w →
      w.trace = bs.map (fun b => batch_event.command_execute b.node b.offsets) := by
  intro bs
  induction bs with
  | nil =>
    intro task w h
    simp [as_batch_workers] at h
    subst h; rfl
  | cons b bs ih =>
    intro task w h
    simp only [as_batch_workers] at h
    split at h
    · simp at h
    split at h
    · simp at h
    rename_i rest hr
    have h2 := ih _ _ hr
    simp only [Option.some.injEq] at h
    subst h
    simp [h2]

theorem as_batch_wait_ok (cs : List as_batch_complete_task) (status : as_status)
    (h : as_batch_wait cs status = AEROSPIKE_OK) : status = AEROSPIKE_OK := by
  rw [as_batch_wait_eq] at h
  by_cases hs : status ≠ AEROSPIKE_OK
  · rw [if_pos hs] at h
    exact absurd h hs
  · exact not_not.mp hs

theorem as_batch_queue_tasks_ok (env : batch_env) (task : as_batch_task)
    (hmutex : task.error_mutex = 0) :
    ∀ (bs : List as_batch_node) (i : Nat),
      (as_batch_queue_tasks env AEROSPIKE_OK task i bs).status = AEROSPIKE_OK →
      (as_batch_queue_tasks env AEROSPIKE_OK task i bs).queued = bs := by
  intro bs
  induction bs with
  | nil => intro i _; simp [as_batch_queue_tasks]
  | cons b bs ih =>
    intro i h
    simp only [as_batch_queue_tasks] at h ⊢
    by_cases hq : env.queue_task i ≠ 0
    · rw [if_pos hq, if_pos hmutex] at h
      have hne : AEROSPIKE_ERR_CLIENT ≠ AEROSPIKE_OK := by decide
      exact absurd h hne
    · rw [if_neg hq] at h ⊢
      simp only at h ⊢
      rw [ih (i + 1) h]

theorem as_batch_queue_tasks_trace (env : batch_env) (status : as_status)
    (task : as_batch_task) :
    ∀ (bs : List as_batch_node) (i : Nat) (node : Nat) (offsets : List Nat),
      batch_event.command_execute node offsets ∉
        (as_batch_queue_tasks env status task i bs).trace := by
  intro bs
  induction bs with
  | nil => intro i node offsets; simp [as_batch_queue_tasks]
  | cons b bs ih =>
    intro i node offsets
    simp only [as_batch_queue_tasks]
    split
    · split <;> simp
    · simp only [List.mem_cons, not_or]
      exact ⟨by simp, ih (i + 1) node offsets⟩

/-- The commands the dispatch executes are those of batch nodes, each with the node and the
offsets list of its batch node; and a dispatch that ends with the status OK, the error mutex
being free at its start, has executed the command of every batch node. -/
theorem as_batch_dispatch_commands {env : batch_env} {policy : as_policy_batch}
    {use_new : Nat → Bool} {reset_index : Bool} {bs : List as_batch_node}
    {task : as_batch_task} {s : sequential_out}
    (h : as_batch_dispatch env policy use_new reset_index bs task = some s) :
    (∀ node offsets, batch_event.command_execute node offsets ∈ s.trace →
      (⟨node, offsets⟩ : as_batch_node) ∈ bs) ∧
    (task.error_mutex = 0 → s.status = AEROSPIKE_OK →
      ∀ b ∈ bs, batch_event.command_execute b.node b.offsets ∈ s.trace) := by
  unfold as_batch_dispatch at h
  split at h
  · simp only at h
    split at h
    · simp at h
    rename_i w hw
    have htrace := as_batch_workers_trace _ _ _ _ _ hw
    simp only [Option.some.injEq] at h
    subst h
    refine ⟨?_, ?_⟩
    · intro node offsets hmem
      simp only [List.mem_append] at hmem
      rcases hmem with (hmem | hmem) | hmem
      · exact absurd hmem (as_batch_queue_tasks_trace env _ task bs 0 node offsets)
      · rw [htrace] at hmem
        simp only [List.mem_map] at hmem
        obtain ⟨b, hb, hbe⟩ := hmem
        simp only [batch_event.command_execute.injEq] at hbe
        have hb2 := (completion_order_perm env.completion _).mem_iff.mp hb
        have hb3 := (as_batch_queue_tasks_queued env AEROSPIKE_OK task bs 0).2 b hb2
        have : (⟨node, offsets⟩ : as_batch_node) = b := by
          cases b; simp only [as_batch_node.mk.injEq]; exact ⟨hbe.1.symm, hbe.2.symm⟩
        rw [this]; exact hb3
      · simp [pop_events] at hmem
    · intro hmutex hs b hb
      simp only at hs
      have hq := as_batch_wait_ok _ _ hs
      have hall := as_batch_queue_tasks_ok env task hmutex bs 0 hq
      simp only [List.mem_append]
      refine Or.inl (Or.inr ?_)
      rw [htrace, List.mem_map]
      refine ⟨b, ?_, rfl⟩
      rw [(completion_order_perm env.completion _).mem_iff, hall]
      exact hb
  · obtain ⟨h1, h2⟩ := as_batch_sequential_commands _ _ _ _ _ _ _ h
    refine ⟨h1, fun _ hs b hb => ?_⟩
    rw [(h2 hs).2, List.mem_map]
    exact ⟨b, hb, rfl⟩

/-- C1 (amended). Let a batch of N > 0 keys run on a snapshot that holds a node.
For as_batch_execute: when digest computation and routing succeed for every key and no
namespace error is raised (every key routed to a direct-protocol node has the namespace of the
first key), the key loop ends without error and the offsets lists of the batch nodes it built
partition 0..N-1: every index is in exactly one list, exactly once, in the list of the batch
node whose node is the one as_node_get returned for that key; the nodes of the batch nodes are
pairwise distinct and every list is strictly increasing. The call is the dispatch of exactly
these batch nodes on a task of N keys: every command it executes carries the node and the
offsets list of one of them, a call that returns OK has executed the command of each of them,
and the results array handed to the callback has length N.
For aerospike_batch_read the same holds, with the records vector of length N in the place of
the results array, when moreover every node a key is routed to uses the index protocol; the
key loop returns AEROSPIKE_ERR_UNSUPPORTED_FEATURE otherwise. -/
theorem C1_offsets_partition (env : batch_env) (policy : as_policy_batch)
    (keys : List as_key) (read_attr n_bins : Nat) (bins : List String) (callback : Bool)
    (callback_xdr : Option (as_key → as_record → Bool))
    (records : List as_batch_read_record)
    (hnodes : env.nodes_size ≠ 0) :
    (keys ≠ [] →
      (∀ key ∈ keys, (env.as_key_set_digest key).1 = AEROSPIKE_OK) →
      (∀ i (hi : i < keys.length), ∃ node, batch_route env keys i = some node ∧
        (as_batch_use_new env policy node = false → keys[i].ns = as_batch_first_ns keys)) →
      ∃ st task,
        as_batch_map_keys env policy callback (as_batch_first_ns keys) 0 keys
          ⟨[], if callback then some [] else none, [], [.nodes_reserve]⟩ = .ok st ∧
        offsets_partition (batch_route env keys) keys.length st.batch_nodes ∧
        task.n_keys = keys.length ∧ task.keys = st.keys ∧ st.keys.length = keys.length ∧
        task.results = st.results ∧
        (callback = true →
          ∃ results, st.results = some results ∧ results.length = keys.length) ∧
        as_batch_execute env policy keys read_attr bins n_bins callback callback_xdr =
          (as_batch_dispatch env policy (as_batch_use_new env policy) true st.batch_nodes
            task).map (fun done => ⟨done.status, done.task.err,
              st.trace ++ [.nodes_release] ++ done.trace ++
                as_batch_release_nodes st.batch_nodes ++
                (if callback then [.callback done.task.results keys.length] else [])⟩) ∧
        ∀ out, as_batch_execute env policy keys read_attr bins n_bins callback callback_xdr =
            some out →
          (∀ node offsets, batch_event.command_execute node offsets ∈ out.trace →
            (⟨node, offsets⟩ : as_batch_node) ∈ st.batch_nodes) ∧
          (out.status = AEROSPIKE_OK →
            ∀ b ∈ st.batch_nodes,
              batch_event.command_execute b.node b.offsets ∈ out.trace) ∧
          (callback = true → ∃ results before,
            out.trace = before ++ [.callback (some results) keys.length] ∧
              results.length = keys.length)) ∧
    (records ≠ [] →
      (∀ r ∈ records, (env.as_key_set_digest r.key).1 = AEROSPIKE_OK) →
      (∀ i, i < records.length → ∃ node,
        batch_route env (records.map (·.key)) i = some node ∧
          as_batch_use_new env policy node = true) →
      ∃ st task,
        as_batch_map_records env policy 0 records ⟨[], [], [.nodes_reserve]⟩ = .ok st ∧
        offsets_partition (batch_route env (records.map (·.key))) records.length
          st.batch_nodes ∧
        task.n_keys = records.length ∧ task.records = some st.records ∧
        st.records.length = records.length ∧
        aerospike_batch_read env policy records =
          (as_batch_dispatch env policy (fun _ => true) false st.batch_nodes task).map
            (fun done => (⟨done.status, done.task.err,
              st.trace ++ [.nodes_release] ++ done.trace ++
                as_batch_release_nodes st.batch_nodes⟩, done.task.records.getD [])) ∧
        ∀ out left, aerospike_batch_read env policy records = some (out, left) →
          (∀ node offsets, batch_event.command_execute node offsets ∈ out.trace →
            (⟨node, offsets⟩ : as_batch_node) ∈ st.batch_nodes) ∧
          (out.status = AEROSPIKE_OK →
            ∀ b ∈ st.batch_nodes,
              batch_event.command_execute b.node b.offsets ∈ out.trace) ∧
          left.length = records.length) := by
  constructor
  · intro hkeys hdigest hroute
    have hloop := as_batch_map_keys_ok env policy callback (as_batch_first_ns keys)
      (batch_route env keys)
      keys 0 ⟨[], if callback then some [] else none, [], [.nodes_reserve]⟩ (by
        intro k hk
        refine ⟨hdigest _ (List.getElem_mem _), ?_⟩
        obtain ⟨node, hn, hns⟩ := hroute k hk
        refine ⟨node, ?_, by simpa using hn, fun hu => (hns hu).symm⟩
        simpa [batch_route, batch_key, List.getElem?_eq_getElem hk] using hn)
      (offsets_partition_nil _)
    obtain ⟨st, h1, h2, h3, h4⟩ := hloop
    have hmap := as_batch_map_keys_is_mapping env policy callback (as_batch_first_ns keys)
      keys 0 ⟨[], if callback then some [] else none, [], [.nodes_reserve]⟩
      (by intro e he; simp at he; subst he; rfl)
    rw [h1] at hmap
    simp only [map_trace] at hmap
    have hlen : ¬ keys.length ≤ 0 := by
      cases keys with
      | nil => exact absurd rfl hkeys
      | cons _ _ => simp
    simp only [List.length_nil, Nat.zero_add, List.nil_append] at h2 h3 h4
    have hres : callback = true →
        ∃ results, st.results = some results ∧ results.length = keys.length := by
      intro hcb
      subst hcb
      simp only [if_true, Option.map_some', List.length_nil, Nat.zero_add] at h4
      cases hr : st.results with
      | none => rw [hr] at h4; simp at h4
      | some results => rw [hr] at h4; exact ⟨results, rfl, by simpa using h4⟩
    have heq : as_batch_execute env policy keys read_attr bins n_bins callback callback_xdr =
        (as_batch_dispatch env policy (as_batch_use_new env policy) true st.batch_nodes
          { node := 0
            offsets := []
            err := as_error_reset
            error_mutex := 0
            records := none
            ns := as_batch_first_ns keys
            keys := st.keys
            results := st.results
            callback_xdr := callback_xdr
            xdr_calls := []
            bins := bins
            n_bins := n_bins
            index := 0
            n_keys := keys.length
            timeout_ms := policy.timeout
            retry := 0
            read_attr := read_attr
            use_batch_records := false
            use_new_batch := false
            allow_inline := policy.allow_inline
            deserialize := policy.deserialize }).map (fun done => ⟨done.status, done.task.err,
              st.trace ++ [.nodes_release] ++ done.trace ++
                as_batch_release_nodes st.batch_nodes ++
                (if callback then [.callback done.task.results keys.length] else [])⟩) := by
      unfold as_batch_execute
      simp only [hlen, if_false, hnodes]
      rw [h1]
      simp only
      split <;> rename_i hd <;> rw [hd] <;> rfl
    refine ⟨st, _, h1, h2, rfl, rfl, by rw [h3]; simp, rfl, hres, heq, ?_⟩
    intro out hout
    rw [heq] at hout
    simp only [Option.map_eq_some'] at hout
    obtain ⟨done, hd, hout⟩ := hout
    subst hout
    obtain ⟨hc1, hc2⟩ := as_batch_dispatch_commands hd
    have hs := (as_batch_dispatch_sizes hd).1
    simp only at hs
    refine ⟨?_, ?_, ?_⟩
    · intro node offsets hmem
      simp only [List.mem_append] at hmem
      rcases hmem with (((hmem | hmem) | hmem) | hmem) | hmem
      · have := hmap _ hmem
        simp [batch_event.is_mapping] at this
      · simp at hmem
      · exact hc1 node offsets hmem
      · simp [as_batch_release_nodes] at hmem
      · split at hmem <;> simp at hmem
    · intro hok b hb
      simp only [List.mem_append]
      exact Or.inl (Or.inl (Or.inr (hc2 rfl hok b hb)))
    · intro hcb
      obtain ⟨results, hr, hrl⟩ := hres hcb
      subst hcb
      rw [hr] at hs
      cases hres2 : done.task.results with
      | none => rw [hres2] at hs; simp at hs
      | some results2 =>
        refine ⟨results2, st.trace ++ [.nodes_release] ++ done.trace ++
          as_batch_release_nodes st.batch_nodes, by simp [hres2], ?_⟩
        rw [hres2] at hs
        simp only [Option.map_some', Option.some.injEq] at hs
        rw [hs, hrl]
  · intro hrecords hdigest_r hroute_r
    have hloop_r := as_batch_map_records_ok env policy (batch_route env (records.map (·.key)))
      records 0 ⟨[], [], [.nodes_reserve]⟩ (by
        intro k hk
        refine ⟨hdigest_r _ (List.getElem_mem _), ?_⟩
        obtain ⟨node, hn, hu⟩ := hroute_r k hk
        refine ⟨node, ?_, by simpa using hn, hu⟩
        simpa [batch_route, batch_key, List.getElem?_eq_getElem hk] using hn)
      (offsets_partition_nil _)
    obtain ⟨st, h1, h2, h3⟩ := hloop_r
    have hmap := as_batch_map_records_is_mapping env policy
      records 0 ⟨[], [], [.nodes_reserve]⟩
      (by intro e he; simp at he; subst he; rfl)
    rw [h1] at hmap
    simp only [map_records_trace] at hmap
    have hlen : ¬ records.length ≤ 0 := by
      cases records with
      | nil => exact absurd rfl hrecords
      | cons _ _ => simp
    simp only [List.length_nil, Nat.zero_add] at h2 h3
    have heq : aerospike_batch_read env policy records =
        (as_batch_dispatch env policy (fun _ => true) false st.batch_nodes
          { node := 0
            offsets := []
            err := as_error_reset
            error_mutex := 0
            records := some st.records
            ns := ""
            keys := []
            results := none
            callback_xdr := none
            xdr_calls := []
            bins := []
            n_bins := 0
            index := 0
            n_keys := records.length
            timeout_ms := policy.timeout
            retry := 0
            read_attr := 0
            use_batch_records := true
            use_new_batch := false
            allow_inline := policy.allow_inline
            deserialize := policy.deserialize }).map
          (fun done => (⟨done.status, done.task.err,
            st.trace ++ [.nodes_release] ++ done.trace ++
              as_batch_release_nodes st.batch_nodes⟩, done.task.records.getD [])) := by
      unfold aerospike_batch_read
      simp only [hlen, if_false, hnodes]
      rw [h1]
      simp only
      split <;> rename_i hd <;> rw [hd] <;> rfl
    refine ⟨st, _, h1, h2, rfl, rfl, h3, heq, ?_⟩
    intro out left hout
    rw [heq] at hout
    simp only [Option.map_eq_some'] at hout
    obtain ⟨done, hd, hout⟩ := hout
    simp only [Prod.mk.injEq] at hout
    obtain ⟨hout, hleft⟩ := hout
    subst hout
    obtain ⟨hc1, hc2⟩ := as_batch_dispatch_commands hd
    have hs := (as_batch_dispatch_sizes hd).2
    simp only [Option.map_some'] at hs
    refine ⟨?_, ?_, ?_⟩
    · intro node offsets hmem
      simp only [List.mem_append] at hmem
      rcases hmem with ((hmem | hmem) | hmem) | hmem
      · have := hmap _ hmem
        simp [batch_event.is_mapping] at this
      · simp at hmem
      · exact hc1 node offsets hmem
      · simp [as_batch_release_nodes] at hmem
    · intro hok b hb
      simp only [List.mem_append]
      exact Or.inl (Or.inr (hc2 rfl hok b hb))
    · rw [← hleft]
      cases hres : done.task.records with
      | none => rw [hres] at hs; simp at hs
      | some l =>
        rw [hres] at hs
        simp only [Option.map_some', Option.some.injEq] at hs
        simp [hs, h3]



/-- Witness of C1 (amended): the three keys of demo_keys, the first two routed to node 100,
the third to node 101 (direct protocol, namespace of the first key); two records routed to
node 100. Both calls return OK and execute one command per batch node, with its offsets. -/
theorem C1_offsets_partition_witness :
    offsets_partition (batch_route (two_nodes_env 0) demo_keys) 3
        [⟨100, [0, 1]⟩, ⟨101, [2]⟩] ∧
      (∃ out, as_batch_execute (two_nodes_env 0) sequential_policy demo_keys 3 [] 0 true none =
          some out ∧
        batch_event.command_execute 100 [0, 1] ∈ out.trace ∧
        batch_event.command_execute 101 [2] ∈ out.trace ∧
        ∃ results before, out.trace = before ++ [.callback (some results) 3] ∧
          results.length = 3) ∧
      offsets_partition
        (batch_route (two_nodes_env 0) [⟨"a", digest_of 0⟩, ⟨"b", digest_of 2⟩]) 2
        [⟨100, [0, 1]⟩] ∧
      (∃ out left, aerospike_batch_read (two_nodes_env 0) sequential_policy
          [⟨⟨"a", digest_of 0⟩, none, 0, true, 0, as_record_init⟩,
            ⟨⟨"b", digest_of 2⟩, none, 0, true, 0, as_record_init⟩] = some (out, left) ∧
        batch_event.command_execute 100 [0, 1] ∈ out.trace ∧ left.length = 2) := by
  have h := C1_offsets_partition (two_nodes_env 0) sequential_policy demo_keys 3 0 [] true none
    [⟨⟨"a", digest_of 0⟩, none, 0, true, 0, as_record_init⟩,
      ⟨⟨"b", digest_of 2⟩, none, 0, true, 0, as_record_init⟩] (by decide)
  obtain ⟨st, task, h1, h2, _, _, _, _, _, _, h3⟩ := h.1 (by decide) (by decide) (by
    intro i hi
    have hi3 : i < 3 := hi
    interval_cases i
    · exact ⟨100, rfl, fun _ => rfl⟩
    · exact ⟨100, rfl, fun h => absurd h (by decide)⟩
    · exact ⟨101, rfl, fun _ => rfl⟩)
  obtain ⟨st_r, task_r, h1r, h2r, _, _, _, _, h3r⟩ := h.2 (by decide) (by decide) (by
    intro i hi
    have hi2 : i < 2 := hi
    interval_cases i
    · exact ⟨100, rfl, rfl⟩
    · exact ⟨100, rfl, rfl⟩)
  have h4 : st.batch_nodes = [⟨100, [0, 1]⟩, ⟨101, [2]⟩] := by
    have h5 : (as_batch_map_keys (two_nodes_env 0) sequential_policy true
      (as_batch_first_ns demo_keys) 0 demo_keys
      ⟨[], if true = true then some [] else none, [], [.nodes_reserve]⟩).toOption.map
        (·.batch_nodes) = some [⟨100, [0, 1]⟩, ⟨101, [2]⟩] := by decide
    rw [h1] at h5
    simpa [Except.toOption] using h5
  have h4r : st_r.batch_nodes = [⟨100, [0, 1]⟩] := by
    have h5 : (as_batch_map_records (two_nodes_env 0) sequential_policy 0
      [⟨⟨"a", digest_of 0⟩, none, 0, true, 0, as_record_init⟩,
        ⟨⟨"b", digest_of 2⟩, none, 0, true, 0, as_record_init⟩]
      ⟨[], [], [.nodes_reserve]⟩).toOption.map (·.batch_nodes) = some [⟨100, [0, 1]⟩] := by
      decide
    rw [h1r] at h5
    simpa [Except.toOption] using h5
  have hs : (as_batch_execute (two_nodes_env 0) sequential_policy demo_keys 3 [] 0 true
      none).map (·.status) = some AEROSPIKE_OK := by decide
  have hsr : (aerospike_batch_read (two_nodes_env 0) sequential_policy
      [⟨⟨"a", digest_of 0⟩, none, 0, true, 0, as_record_init⟩,
        ⟨⟨"b", digest_of 2⟩, none, 0, true, 0, as_record_init⟩]).map (·.1.status) =
      some AEROSPIKE_OK := by decide
  rw [h4] at h2 h3
  rw [h4r] at h2r h3r
  refine ⟨h2, ?_, h2r, ?_⟩
  · cases hx : as_batch_execute (two_nodes_env 0) sequential_policy demo_keys 3 [] 0 true
        none with
    | none => rw [hx] at hs; simp at hs
    | some out =>
      rw [hx] at hs
      simp only [Option.map_some', Option.some.injEq] at hs
      obtain ⟨_, h6, h7⟩ := h3 out hx
      exact ⟨out, rfl, h6 hs ⟨100, [0, 1]⟩ (by simp), h6 hs ⟨101, [2]⟩ (by simp),
        h7 rfl⟩
  · cases hx : aerospike_batch_read (two_nodes_env 0) sequential_policy
        [⟨⟨"a", digest_of 0⟩, none, 0, true, 0, as_record_init⟩,
          ⟨⟨"b", digest_of 2⟩, none, 0, true, 0, as_record_init⟩] with
    | none => rw [hx] at hsr; simp at hsr
    | some r =>
      obtain ⟨out, left⟩ := r
      rw [hx] at hsr
      simp only [Option.map_some', Option.some.injEq] at hsr
      obtain ⟨_, h6, h7⟩ := h3r out left hx
      exact ⟨out, left, rfl, h6 hsr ⟨100, [0, 1]⟩ (by simp), h7⟩

/-- Counterexample to C1 as stated: a batch of one record whose digest is computed and whose
key is routed to node 101, a node without the index protocol; there is one namespace, so no
namespace error. aerospike_batch_read returns AEROSPIKE_ERR_UNSUPPORTED_FEATURE from the key
loop at index 0: no batch node has been built, and the offsets lists do not partition 0..0. -/
theorem C1_counterexample :
    (∀ r ∈ [(⟨⟨"a", digest_of 1⟩, none, 0, true, 0, as_record_init⟩ : as_batch_read_record)],
        ((two_nodes_env 0).as_key_set_digest r.key).1 = AEROSPIKE_OK) ∧
      batch_route (two_nodes_env 0) [⟨"a", digest_of 1⟩] 0 = some 101 ∧
      (aerospike_batch_read (two_nodes_env 0) sequential_policy
          [⟨⟨"a", digest_of 1⟩, none, 0, true, 0, as_record_init⟩]).map
        (fun r => (r.1.status, r.1.trace)) =
        some (AEROSPIKE_ERR_UNSUPPORTED_FEATURE,
          [.nodes_reserve, .key_set_digest 0, .node_get 0 (some 101), .nodes_release]) ∧
      ¬ offsets_partition (batch_route (two_nodes_env 0) [⟨"a", digest_of 1⟩]) 1 [] := by
  refine ⟨by decide, by decide, by decide, fun h => ?_⟩
  have := h.once
  simp at this

end Aerospike
